import Mathlib

/-!
Verification of the slide-copying engine in pptx_slide_copier/slide_copier.py.

The development shallowly embeds the OPC package model the copier operates on
(packages, parts, typed relationships, XML content trees) and translates each
function of the SlideCopier class into a Lean function over that model.  The
python-pptx library itself is an external collaborator of the copier; the
handful of library operations the copier consumes (part lookup by relationship
type, relationship creation, part-name allocation, slide creation, image-part
dedup) are modelled from the collaborator contracts in the specification.

Modelling conventions:
  * a Package stores its parts in a list; a part id is the position in that
    list (standing for native object identity, which the code uses as cache
    key); parts are only ever appended, so ids are stable;
  * binary payloads (theme blobs, image blobs) are opaque strings compared
    for byte equality;
  * relationship ids are strings; freshly allocated ids follow the library's
    first-unused-candidate scan, with the numeric suffix rendered in unary so
    that distinctness of generated ids is provable (only freshness and
    equality of ids are ever observed);
  * XML trees are elements with a tag, an attribute list, text and children;
    python deepcopy of an element is copying the value;
  * python exceptions are modelled as Except / Option results; mutations made
    before an exception persist, so every fallible operation returns the
    package state alongside the error.
-/

namespace SlideCopierModel

abbrev Blob := String
abbrev RId := String
abbrev PartId := Nat

/-- Relationship types.  The structural ones (master/layout/theme) mirror
RELATIONSHIP_TYPE.SLIDE_MASTER / SLIDE_LAYOUT / THEME; image mirrors
RT.IMAGE; slide mirrors RT.SLIDE; other covers the remaining kinds. -/
inductive RelType where
  | slideMaster
  | slideLayout
  | theme
  | image
  | slide
  | other (s : String)
deriving DecidableEq, Repr

/-- _STRUCTURAL_REL_TYPES = frozenset({RT.SLIDE_MASTER, RT.SLIDE_LAYOUT, RT.THEME}). -/
def RelType.isStructural : RelType → Bool
  | .slideMaster => true
  | .slideLayout => true
  | .theme => true
  | _ => false

/-- A typed, directed relationship owned by a part: either internal (to a
part of the same package) or external (to an opaque target reference). -/
structure Rel where
  reltype : RelType
  isExternal : Bool
  targetPart : PartId
  targetRef : String
deriving DecidableEq, Repr

/-- Part-name templates; next_partname mints a fresh numeric suffix within a
template family (for example /ppt/theme/theme%d.xml). -/
inductive NameTmpl where
  | masterT
  | layoutT
  | themeT
  | slideT
  | imageT
  | presT
  | genericT (s : String)
deriving DecidableEq, Repr

/-- A hierarchical part name: its template family plus the numeric suffix. -/
structure PartName where
  tmpl : NameTmpl
  idx : Nat
deriving DecidableEq, Repr

/-- An XML element: tag, attributes, text and child elements. -/
inductive Xml where
  | elem (tag : String) (attrs : List (String × String)) (text : String)
      (children : List Xml)

/-- Content of a part.  Masters carry their sldLayoutIdLst (a list of rIds,
or none when the element is absent) separately from the rest of their XML
body; layouts carry their name attribute separately from their body;
presentations carry their sldMasterIdLst, sldIdLst and slide dimensions;
themes, images and generic parts are blob-based. -/
inductive PartContent where
  | masterC (layoutIdLst : Option (List RId)) (body : Xml)
  | layoutC (name : String) (body : Xml)
  | slideC (spTree : List Xml)
  | themeC (blob : Blob)
  | imageC (blob : Blob)
  | presC (masterIdLst : List RId) (slideIdLst : List RId)
      (slideWidth : Nat) (slideHeight : Nat)
  | genericC (contentType : String) (blob : Blob)

/-- A part: name, content and its owned rId-to-relationship table
(an insertion-ordered association list, like a python dict). -/
structure Part where
  partname : PartName
  content : PartContent
  rels : List (RId × Rel)

/-- A package: the part store (a part id is a position in the list) and the
id of the presentation part. -/
structure Package where
  parts : List Part
  presId : PartId

/-- Placeholder returned when a part id is not present (unreachable under
the well-formedness assumptions carried by the theorems). -/
def dummyPart : Part := ⟨⟨.genericT "missing", 0⟩, .genericC "missing" "", []⟩

def Package.getPart (pkg : Package) (i : PartId) : Part :=
  pkg.parts.getD i dummyPart

def Package.setPart (pkg : Package) (i : PartId) (p : Part) : Package :=
  { pkg with parts := pkg.parts.set i p }

def Package.addPart (pkg : Package) (p : Part) : Package × PartId :=
  ({ pkg with parts := pkg.parts ++ [p] }, pkg.parts.length)

/-- Association-list lookup with python-dict semantics (the most recent
binding for a key wins; insertions below keep keys unique). -/
def lookupA {α : Type} (l : List (String × α)) (k : String) : Option α :=
  (l.find? (fun p => p.1 == k)).map (fun p => p.2)

/-- Python-dict assignment: overwrite the binding if the key is present,
append it otherwise. -/
def dictInsert {α : Type} (d : List (String × α)) (k : String) (v : α) :
    List (String × α) :=
  if (d.find? (fun p => p.1 == k)).isSome then
    d.map (fun p => if p.1 == k then (k, v) else p)
  else d ++ [(k, v)]

/-- The identity cache: native-object-identity key (source part id) to the
already-created target part id, scoped to one top-level operation. -/
abbrev Cache := List (PartId × PartId)

def cacheLookup (c : Cache) (k : PartId) : Option PartId :=
  (c.find? (fun p => p.1 == k)).map (fun p => p.2)

def cacheInsert (c : Cache) (k v : PartId) : Cache :=
  (k, v) :: c

/-- Rendering of a generated relationship id (numeric suffix in unary; see
the conventions above). -/
def natRId (n : Nat) : RId := "rId" ++ String.mk (List.replicate n '1')

/-- Candidate ids scanned by the library's next-rId allocation. -/
def rIdCandidates (n : Nat) : List RId :=
  (List.range (n + 1)).map (fun k => natRId (k + 1))

/-- Modelled from the spec: the library allocates the first candidate rId not
used by the owning part (python-pptx Relationships._next_rId). -/
def next_rId (rels : List (RId × Rel)) : RId :=
  ((rIdCandidates rels.length).find?
    (fun c => rels.all (fun p => p.1 != c))).getD "rId0"

/-- Modelled from the spec: relationship creation is get-or-add — an existing
internal relationship with the same type and target part is reused, otherwise
a fresh rId is allocated and the relationship appended. -/
def relate_to (pkg : Package) (owner target : PartId) (rt : RelType) :
    Package × RId :=
  match (pkg.getPart owner).rels.find?
      (fun q => !q.2.isExternal && q.2.reltype == rt && q.2.targetPart == target) with
  | some q => (pkg, q.1)
  | none =>
    (pkg.setPart owner
      { pkg.getPart owner with
        rels := (pkg.getPart owner).rels
          ++ [(next_rId (pkg.getPart owner).rels, ⟨rt, false, target, ""⟩)] },
     next_rId (pkg.getPart owner).rels)

/-- Modelled from the spec: external-relationship creation is get-or-add on
(type, target reference). -/
def relate_to_external (pkg : Package) (owner : PartId) (targetRef : String)
    (rt : RelType) : Package × RId :=
  match (pkg.getPart owner).rels.find?
      (fun q => q.2.isExternal && q.2.reltype == rt && q.2.targetRef == targetRef) with
  | some q => (pkg, q.1)
  | none =>
    (pkg.setPart owner
      { pkg.getPart owner with
        rels := (pkg.getPart owner).rels
          ++ [(next_rId (pkg.getPart owner).rels, ⟨rt, true, 0, targetRef⟩)] },
     next_rId (pkg.getPart owner).rels)

/-- Modelled from the spec: part_related_by resolves the part's relationship
of the given type (none models the KeyError raised when it is absent;
well-formedness keeps structural relationships unique and internal). -/
def part_related_by (pkg : Package) (pid : PartId) (rt : RelType) :
    Option PartId :=
  ((pkg.getPart pid).rels.find? (fun q => q.2.reltype == rt)).map
    (fun q => q.2.targetPart)

/-- Raw binary payload of a blob-based part (theme, image, generic); XML
serialization of tree-based parts is not observed by any claim. -/
def partBlobD (pkg : Package) (pid : PartId) : Blob :=
  match (pkg.getPart pid).content with
  | .themeC b => b
  | .imageC b => b
  | .genericC _ b => b
  | _ => ""

def presMasterIds (pkg : Package) : List RId :=
  match (pkg.getPart pkg.presId).content with
  | .presC ml _ _ _ => ml
  | _ => []

def presSlideIds (pkg : Package) : List RId :=
  match (pkg.getPart pkg.presId).content with
  | .presC _ sl _ _ => sl
  | _ => []

def slideWidth (pkg : Package) : Nat :=
  match (pkg.getPart pkg.presId).content with
  | .presC _ _ w _ => w
  | _ => 0

def slideHeight (pkg : Package) : Nat :=
  match (pkg.getPart pkg.presId).content with
  | .presC _ _ _ h => h
  | _ => 0

/-- Resolve an rId through a part's relationship table to the target part. -/
def resolveRel (pkg : Package) (pid : PartId) (rid : RId) : Option PartId :=
  ((pkg.getPart pid).rels.find? (fun q => q.1 == rid)).map
    (fun q => q.2.targetPart)

/-- Modelled from the spec: prs.slide_masters iterates the presentation's
sldMasterIdLst in order, resolving each entry through the presentation
part's relationships. -/
def slide_masters (pkg : Package) : List PartId :=
  (presMasterIds pkg).filterMap (resolveRel pkg pkg.presId)

/-- Modelled from the spec: prs.slides iterates sldIdLst in order. -/
def slidesOf (pkg : Package) : List PartId :=
  (presSlideIds pkg).filterMap (resolveRel pkg pkg.presId)

/-- Modelled from the spec: master.slide_layouts iterates the master's
sldLayoutIdLst in order, resolving entries through the master's
relationships (an absent list yields no layouts). -/
def slide_layouts_of (pkg : Package) (mid : PartId) : List PartId :=
  match (pkg.getPart mid).content with
  | .masterC lst _ => (lst.getD []).filterMap (resolveRel pkg mid)
  | _ => []

/-- Name attribute of a layout part. -/
def layoutNameOf (pkg : Package) (lid : PartId) : String :=
  match (pkg.getPart lid).content with
  | .layoutC n _ => n
  | _ => ""

/-- Modelled from the spec: next_partname scans existing names of the
template family and increments the highest used counter. -/
def next_partname (pkg : Package) (tmpl : NameTmpl) : PartName :=
  ⟨tmpl, 1 + (pkg.parts.filterMap
    (fun p => if p.partname.tmpl == tmpl then some p.partname.idx else none)).foldl
      max 0⟩

/-- _partname_to_template: drop the numeric suffix, keep the family
(for example /ppt/media/image3.png becomes /ppt/media/image%d.png). -/
def partname_to_template (pn : PartName) : NameTmpl := pn.tmpl

/-- Modelled from the spec: get_or_add_image_part is content-addressed — an
existing image part of the package with a byte-identical payload is reused,
otherwise a freshly named image part is created; the owning part's
relationship to it is get-or-add.  Returns (package, image part, rId). -/
def get_or_add_image_part (pkg : Package) (owner : PartId) (blob : Blob) :
    Package × PartId × RId :=
  match pkg.parts.findIdx?
      (fun p => match p.content with | .imageC b => b == blob | _ => false) with
  | some i =>
    let r := relate_to pkg owner i .image
    (r.1, i, r.2)
  | none =>
    let ap := pkg.addPart ⟨next_partname pkg .imageT, .imageC blob, []⟩
    let r := relate_to ap.1 owner ap.2 .image
    (r.1, ap.2, r.2)

/-! ## The SlideCopier functions, translated from slide_copier.py -/

/-- Errors raised by copy_slide: IndexError from indexing source slides, and
KeyError from a failed dict lookup or a missing required relationship. -/
inductive CopyErr where
  | indexErr
  | keyErr (s : String)
deriving DecidableEq, Repr

/-- Attribute names carrying local relationship references: r:embed, r:link
and r:id in the relationships namespace (_remap_rids walks exactly these). -/
def rAttrNames : List String := ["r:embed", "r:link", "r:id"]

/-- One attribute-list pass of _remap_rids: el.get(attr) is rewritten when
the value is truthy (non-empty) and a key of the mapping. -/
def remapAttrs (m : List (RId × RId)) (attrs : List (String × String)) :
    List (String × String) :=
  attrs.map (fun kv =>
    if kv.1 ∈ rAttrNames ∧ kv.2 ≠ "" ∧ (lookupA m kv.2).isSome then
      (kv.1, (lookupA m kv.2).getD kv.2)
    else kv)

/-- SlideCopier._remap_rids: walk the whole element tree (element.iter()
visits the element itself and every descendant) and remap the r:embed,
r:link, r:id attributes through the rId mapping. -/
def remap_rids (m : List (RId × RId)) : Xml → Xml
  | .elem t a tx ch =>
    .elem t (remapAttrs m a) tx (ch.attach.map (fun c => remap_rids m c.1))
decreasing_by
  have h := List.sizeOf_lt_of_mem c.2
  simp_wf
  omega

/-- Loop body of SlideCopier._copy_part_rels over the source part's
relationship table. -/
def copy_part_rels_go (src : Package) (tgtPid : PartId) :
    List (RId × Rel) → Package → List (RId × RId) → Package × List (RId × RId)
  | [], tgt, m => (tgt, m)
  | (rid, rel) :: rest, tgt, m =>
    if rel.reltype.isStructural then
      copy_part_rels_go src tgtPid rest tgt m
    else
      let step : Package × RId :=
        if rel.isExternal then
          relate_to_external tgt tgtPid rel.targetRef rel.reltype
        else if rel.reltype == .image then
          let r := get_or_add_image_part tgt tgtPid (partBlobD src rel.targetPart)
          (r.1, r.2.2)
        else
          let ap := tgt.addPart
            ⟨next_partname tgt (partname_to_template (src.getPart rel.targetPart).partname),
             (src.getPart rel.targetPart).content, []⟩
          relate_to ap.1 tgtPid ap.2 rel.reltype
      copy_part_rels_go src tgtPid rest step.1
        (if rid ≠ step.2 then m ++ [(rid, step.2)] else m)

/-- SlideCopier._copy_part_rels: copy every non-structural relationship of
the source part onto the target part — external ones re-created as external,
image ones through content-addressed image-part reuse, any other internal
one as a blob copy into a freshly named generic part — returning the
old-rId-to-new-rId mapping restricted to ids that changed. -/
def copy_part_rels (src : Package) (srcPid : PartId) (tgt : Package)
    (tgtPid : PartId) : Package × List (RId × RId) :=
  copy_part_rels_go src tgtPid (src.getPart srcPid).rels tgt []

/-- Replace a master part's XML body, keeping its sldLayoutIdLst (in the
code _remap_rids mutates the element held by the part in place). -/
def setMasterBody (pkg : Package) (mid : PartId) (b : Xml) : Package :=
  match (pkg.getPart mid).content with
  | .masterC lst _ =>
    pkg.setPart mid { pkg.getPart mid with content := .masterC lst b }
  | _ => pkg

/-- Replace a layout part's XML body, keeping its name. -/
def setLayoutBody (pkg : Package) (lid : PartId) (b : Xml) : Package :=
  match (pkg.getPart lid).content with
  | .layoutC n _ =>
    pkg.setPart lid { pkg.getPart lid with content := .layoutC n b }
  | _ => pkg

/-- Append an entry to the presentation's sldMasterIdLst
(get_or_add_sldMasterIdLst followed by _add_sldMasterId). -/
def appendMasterId (pkg : Package) (rid : RId) : Package :=
  match (pkg.getPart pkg.presId).content with
  | .presC ml sl w h =>
    pkg.setPart pkg.presId
      { pkg.getPart pkg.presId with content := .presC (ml ++ [rid]) sl w h }
  | _ => pkg

/-- Append an entry to the presentation's sldIdLst. -/
def appendSlideId (pkg : Package) (rid : RId) : Package :=
  match (pkg.getPart pkg.presId).content with
  | .presC ml sl w h =>
    pkg.setPart pkg.presId
      { pkg.getPart pkg.presId with content := .presC ml (sl ++ [rid]) w h }
  | _ => pkg

/-- Append an entry to a master's sldLayoutIdLst
(get_or_add_sldLayoutIdLst followed by _add_sldLayoutId). -/
def appendLayoutId (pkg : Package) (mid : PartId) (rid : RId) : Package :=
  match (pkg.getPart mid).content with
  | .masterC lst b =>
    pkg.setPart mid
      { pkg.getPart mid with content := .masterC (some ((lst.getD []) ++ [rid])) b }
  | _ => pkg

/-- SlideCopier._copy_theme_part: copy the theme part from the source master
to the target master.  A master without a theme relationship is a no-op
(the KeyError branch); a theme already copied in this run is reused through
the cache; otherwise the theme blob is copied into a freshly named theme
part and the target master related to it. -/
def copy_theme_part (src : Package) (srcMasterPid : PartId)
    (tgtMasterPid : PartId) (tgt : Package) (cache : Cache) : Package × Cache :=
  match part_related_by src srcMasterPid .theme with
  | none => (tgt, cache)
  | some srcThemePid =>
    match cacheLookup cache srcThemePid with
    | some t => ((relate_to tgt tgtMasterPid t .theme).1, cache)
    | none =>
      let ap := tgt.addPart
        ⟨next_partname tgt .themeT, .themeC (partBlobD src srcThemePid), []⟩
      ((relate_to ap.1 tgtMasterPid ap.2 .theme).1,
       cacheInsert cache srcThemePid ap.2)

/-- SlideCopier._copy_slide_master_part: deep-copy the master XML with its
sldLayoutIdLst removed (it is rebuilt as layouts are copied), create the new
master part, copy its theme, copy non-structural relationships and remap
rIds in the body, then register the master in the presentation's
sldMasterIdLst. -/
def copy_slide_master_part (src : Package) (srcMid : PartId) (tgt : Package)
    (cache : Cache) : Package × Cache × PartId :=
  let body := match (src.getPart srcMid).content with
    | .masterC _ b => b
    | _ => Xml.elem "" [] "" []
  let ap := tgt.addPart ⟨next_partname tgt .masterT, .masterC none body, []⟩
  let tc := copy_theme_part src srcMid ap.2 ap.1 cache
  let pr := copy_part_rels src srcMid tc.1 ap.2
  let tgt4 := if pr.2.isEmpty then pr.1
    else setMasterBody pr.1 ap.2 (remap_rids pr.2 body)
  let rr := relate_to tgt4 tgt4.presId ap.2 .slideMaster
  (appendMasterId rr.1 rr.2, tc.2, ap.2)

/-- SlideCopier._get_or_copy_slide_master: return the cached target master
for this source master, copying it on a cache miss. -/
def get_or_copy_slide_master (src : Package) (srcMid : PartId) (tgt : Package)
    (cache : Cache) : Package × Cache × PartId :=
  match cacheLookup cache srcMid with
  | some t => (tgt, cache, t)
  | none =>
    let r := copy_slide_master_part src srcMid tgt cache
    (r.1, cacheInsert r.2.1 srcMid r.2.2, r.2.2)

/-- SlideCopier._copy_slide_layout_part: ensure the parent master exists in
the target, deep-copy the layout XML into a freshly named layout part, copy
non-structural relationships and remap rIds, attach the layout-to-master and
master-to-layout relationships and append the sldLayoutIdLst entry.  The
error case models the KeyError when the layout has no master relationship. -/
def copy_slide_layout_part (src : Package) (srcLid : PartId) (tgt : Package)
    (cache : Cache) : Package × Cache × Except CopyErr PartId :=
  match part_related_by src srcLid .slideMaster with
  | none => (tgt, cache, .error (.keyErr "slide master relationship"))
  | some srcMid =>
    let gm := get_or_copy_slide_master src srcMid tgt cache
    let nb : String × Xml := match (src.getPart srcLid).content with
      | .layoutC n b => (n, b)
      | _ => ("", Xml.elem "" [] "" [])
    let ap := gm.1.addPart ⟨next_partname gm.1 .layoutT, .layoutC nb.1 nb.2, []⟩
    let pr := copy_part_rels src srcLid ap.1 ap.2
    let tgt4 := if pr.2.isEmpty then pr.1
      else setLayoutBody pr.1 ap.2 (remap_rids pr.2 nb.2)
    let tgt5 := (relate_to tgt4 ap.2 gm.2.2 .slideMaster).1
    let rr := relate_to tgt5 gm.2.2 ap.2 .slideLayout
    (appendLayoutId rr.1 gm.2.2 rr.2, gm.2.1, .ok ap.2)

/-- SlideCopier._get_or_copy_slide_layout: resolve the source slide's layout
(KeyError when the relationship is missing), return it from the cache or
copy it. -/
def get_or_copy_slide_layout (src : Package) (srcSlidePid : PartId)
    (tgt : Package) (cache : Cache) : Package × Cache × Except CopyErr PartId :=
  match part_related_by src srcSlidePid .slideLayout with
  | none => (tgt, cache, .error (.keyErr "slide layout relationship"))
  | some srcLid =>
    match cacheLookup cache srcLid with
    | some t => (tgt, cache, .ok t)
    | none =>
      match (copy_slide_layout_part src srcLid tgt cache).2.2 with
      | .error e => ((copy_slide_layout_part src srcLid tgt cache).1,
          (copy_slide_layout_part src srcLid tgt cache).2.1, .error e)
      | .ok lPid => ((copy_slide_layout_part src srcLid tgt cache).1,
          cacheInsert (copy_slide_layout_part src srcLid tgt cache).2.1 srcLid lPid,
          .ok lPid)

/-- Theme payload of a master: part_related_by(RT.THEME).blob, with none for
the KeyError when the master has no theme relationship. -/
def themeBlobOf (pkg : Package) (mid : PartId) : Option Blob :=
  (part_related_by pkg mid .theme).map (partBlobD pkg)

/-- SlideCopier._find_matching_master: the first target master whose theme
blob is byte-equal to the source master's theme blob; none when the source
master has no theme or no target master qualifies (target masters without a
theme are skipped). -/
def find_matching_master (src : Package) (srcMid : PartId) (tgt : Package) :
    Option PartId :=
  match themeBlobOf src srcMid with
  | none => none
  | some b => (slide_masters tgt).find? (fun m => themeBlobOf tgt m == some b)

/-- Building of the matched branch's existing dict:
left-to-right dict comprehension over the target master's layouts keyed by
layout name (a duplicate name keeps the later layout). -/
def buildNameDict (pkg : Package) :
    List PartId → List (String × PartId) → List (String × PartId)
  | [], d => d
  | l :: rest, d => buildNameDict pkg rest (dictInsert d (layoutNameOf pkg l) l)

/-- Matched branch of copy_layouts: for each source layout, reuse the
existing target layout of the same name, or copy just the missing one. -/
def matched_layout_loop (src : Package) (existing : List (String × PartId)) :
    List PartId → Package → Cache → List (String × PartId) →
    Package × Cache × List (String × PartId) × Option CopyErr
  | [], tgt, cache, lm => (tgt, cache, lm, none)
  | l :: rest, tgt, cache, lm =>
    let n := layoutNameOf src l
    match lookupA existing n with
    | some tl =>
      matched_layout_loop src existing rest tgt cache (dictInsert lm n tl)
    | none =>
      match (copy_slide_layout_part src l tgt cache).2.2 with
      | .error e => ((copy_slide_layout_part src l tgt cache).1,
          (copy_slide_layout_part src l tgt cache).2.1, lm, some e)
      | .ok tlp =>
        matched_layout_loop src existing rest (copy_slide_layout_part src l tgt cache).1
          (cacheInsert (copy_slide_layout_part src l tgt cache).2.1 l tlp)
          (dictInsert lm n tlp)

/-- Unmatched branch of copy_layouts: copy every layout of the master,
deduplicating through the cache. -/
def unmatched_layout_loop (src : Package) :
    List PartId → Package → Cache → List (String × PartId) →
    Package × Cache × List (String × PartId) × Option CopyErr
  | [], tgt, cache, lm => (tgt, cache, lm, none)
  | l :: rest, tgt, cache, lm =>
    match cacheLookup cache l with
    | some tlp =>
      unmatched_layout_loop src rest tgt cache
        (dictInsert lm (layoutNameOf src l) tlp)
    | none =>
      match (copy_slide_layout_part src l tgt cache).2.2 with
      | .error e => ((copy_slide_layout_part src l tgt cache).1,
          (copy_slide_layout_part src l tgt cache).2.1, lm, some e)
      | .ok tlp =>
        unmatched_layout_loop src rest (copy_slide_layout_part src l tgt cache).1
          (cacheInsert (copy_slide_layout_part src l tgt cache).2.1 l tlp)
          (dictInsert lm (layoutNameOf src l) tlp)

/-- Body of copy_layouts for one source master: theme-identical masters are
reused (existing layouts looked up by name, only missing ones copied), all
others fully copied. -/
def copy_layouts_master_step (src : Package) (m : PartId) (tgt : Package)
    (cache : Cache) (lm : List (String × PartId)) :
    Package × Cache × List (String × PartId) × Option CopyErr :=
  match find_matching_master src m tgt with
  | some tm =>
    let cache1 := cacheInsert cache m tm
    let existing := buildNameDict tgt (slide_layouts_of tgt tm) []
    matched_layout_loop src existing (slide_layouts_of src m) tgt cache1 lm
  | none =>
    let r := get_or_copy_slide_master src m tgt cache
    unmatched_layout_loop src (slide_layouts_of src m) r.1 r.2.1 lm

/-- Loop of copy_layouts over the source masters. -/
def copy_layouts_go (src : Package) :
    List PartId → Package → Cache → List (String × PartId) →
    Package × Cache × List (String × PartId) × Option CopyErr
  | [], tgt, cache, lm => (tgt, cache, lm, none)
  | m :: rest, tgt, cache, lm =>
    match (copy_layouts_master_step src m tgt cache lm).2.2.2 with
    | some e => ((copy_layouts_master_step src m tgt cache lm).1,
        (copy_layouts_master_step src m tgt cache lm).2.1,
        (copy_layouts_master_step src m tgt cache lm).2.2.1, some e)
    | none => copy_layouts_go src rest (copy_layouts_master_step src m tgt cache lm).1
        (copy_layouts_master_step src m tgt cache lm).2.1
        (copy_layouts_master_step src m tgt cache lm).2.2.1

/-- SlideCopier.copy_layouts: bulk-copy all source masters, layouts and
themes to the target (fresh cache per call) and return the map from source
layout name to target layout.  An uncaught error propagates with the target
mutations made so far. -/
def copy_layouts (src tgt : Package) :
    Package × Except CopyErr (List (String × PartId)) :=
  match (copy_layouts_go src (slide_masters src) tgt [] []).2.2.2 with
  | none => ((copy_layouts_go src (slide_masters src) tgt [] []).1,
      .ok (copy_layouts_go src (slide_masters src) tgt [] []).2.2.1)
  | some e => ((copy_layouts_go src (slide_masters src) tgt [] []).1, .error e)

/-- SlideCopier._copy_slide_size: copy the slide dimensions from source to
target (the property assignments of the collaborator are modelled as total;
the try/except around them concerns failures of the external library). -/
def copy_slide_size (src tgt : Package) : Package :=
  match (tgt.getPart tgt.presId).content with
  | .presC ml sl _ _ =>
    tgt.setPart tgt.presId
      { tgt.getPart tgt.presId with
        content := .presC ml sl (slideWidth src) (slideHeight src) }
  | _ => tgt

/-- Modelled from the spec (section 4.6 step 4 and the collaborator
contracts): slides.add_slide creates a new slide part bound to the given
layout and registers it in the presentation's sldIdLst.  The library's
cloning of layout placeholder shapes into the new slide happens outside the
copier's source and is not observed by any claim; the new slide starts with
an empty shape tree. -/
def add_slide (tgt : Package) (layoutPid : PartId) : Package × PartId :=
  let ap := tgt.addPart ⟨next_partname tgt .slideT, .slideC [], []⟩
  let tgt2 := (relate_to ap.1 ap.2 layoutPid .slideLayout).1
  let rr := relate_to tgt2 tgt2.presId ap.2 .slide
  (appendSlideId rr.1 rr.2, ap.2)

/-- Shape-copy loop of copy_slide: each source shape element is deep-copied
and inserted at the end of the destination spTree (before the trailing
p:extLst marker, which the model keeps outside the shape list).  Deep copy
of a value is total, so the per-shape except-and-skip is never taken. -/
def slideShapesOf (src : Package) (srcSlide : PartId) : List Xml :=
  match (src.getPart srcSlide).content with
  | .slideC sh => sh
  | _ => []

def copy_shapes (src : Package) (srcSlide : PartId) (tgt : Package)
    (dstSlide : PartId) : Package :=
  match (tgt.getPart dstSlide).content with
  | .slideC dsh =>
    tgt.setPart dstSlide
      { tgt.getPart dstSlide with
        content := .slideC (dsh ++ slideShapesOf src srcSlide) }
  | _ => tgt

/-- Relationship loop inside SlideCopier._copy_images.  Accessing
rel.target_part on an external relationship raises (ValueError); the
exception aborts the loop there and is swallowed by the caller, keeping the
mutations already made. -/
def copy_images_rels (src : Package) (dstPid : PartId) :
    List (RId × Rel) → Package → List (RId × RId) →
    Package × List (RId × RId) × Option CopyErr
  | [], tgt, m => (tgt, m, none)
  | (rid, rel) :: rest, tgt, m =>
    if rel.reltype == .image then
      if rel.isExternal then
        (tgt, m, some (.keyErr "target_part of external relationship"))
      else
        let r := get_or_add_image_part tgt dstPid (partBlobD src rel.targetPart)
        copy_images_rels src dstPid rest r.1 (m ++ [(rid, r.2.2)])
    else copy_images_rels src dstPid rest tgt m

/-- Rewrite r:embed on every a:blip element of a subtree (the blips found
under one pic by the code's findall). -/
def blipEmbedRemap (m : List (RId × RId)) : Xml → Xml
  | .elem t a tx ch =>
    let a' := if t == "a:blip" then
        a.map (fun kv =>
          if kv.1 == "r:embed" && kv.2 != "" && (lookupA m kv.2).isSome then
            (kv.1, (lookupA m kv.2).getD kv.2)
          else kv)
      else a
    .elem t a' tx (ch.attach.map (fun c => blipEmbedRemap m c.1))
decreasing_by
  have h := List.sizeOf_lt_of_mem c.2
  simp_wf
  omega

/-- Walk of dest_slide.element.findall(.//p:pic): every pic element of the
tree has the blips of its subtree remapped; the document-order iteration of
findall applies the rewrite once per enclosing pic, which this recursion
reproduces (the rewrite step is idempotent per application order). -/
def picBlipWalk (m : List (RId × RId)) : Xml → Xml
  | .elem t a tx ch =>
    let ch' := ch.attach.map (fun c => picBlipWalk m c.1)
    if t == "p:pic" then blipEmbedRemap m (.elem t a tx ch')
    else .elem t a tx ch'
decreasing_by
  have h := List.sizeOf_lt_of_mem c.2
  simp_wf
  omega

/-- Relationship-loop stage of _copy_images. -/
def ciRun (src : Package) (srcSlide : PartId) (tgt : Package)
    (dstSlide : PartId) : Package × List (RId × RId) × Option CopyErr :=
  copy_images_rels src dstSlide (src.getPart srcSlide).rels tgt []

/-- SlideCopier._copy_images: copy the source slide's image relationships
onto the destination slide (content-addressed) and remap r:embed inside the
destination's pic subtrees.  The whole body is wrapped in a blanket
try/except: any exception is swallowed and the mutations made so far are
kept (the remap phase is skipped when the loop aborted). -/
def copy_images (src : Package) (srcSlide : PartId) (tgt : Package)
    (dstSlide : PartId) : Package :=
  match (ciRun src srcSlide tgt dstSlide).2.2 with
  | some _ => (ciRun src srcSlide tgt dstSlide).1
  | none =>
    if (ciRun src srcSlide tgt dstSlide).2.1.isEmpty then
      (ciRun src srcSlide tgt dstSlide).1
    else match ((ciRun src srcSlide tgt dstSlide).1.getPart dstSlide).content with
      | .slideC sh =>
        (ciRun src srcSlide tgt dstSlide).1.setPart dstSlide
          { (ciRun src srcSlide tgt dstSlide).1.getPart dstSlide with
            content := .slideC (sh.map (picBlipWalk (ciRun src srcSlide tgt dstSlide).2.1)) }
      | _ => (ciRun src srcSlide tgt dstSlide).1

/-- Error outcome of the body of _copy_images (none when no exception is
raised inside the try block). -/
def copy_images_err (src : Package) (srcSlide : PartId) (tgt : Package)
    (dstSlide : PartId) : Option CopyErr :=
  (ciRun src srcSlide tgt dstSlide).2.2

/-- Layout-resolution step of copy_slide, acting on the already size-copied
target: look up the source slide's layout name in the supplied layout map
(KeyError on a miss), or copy the layout chain on demand with a cache scoped
to this call. -/
def resolve_layout (src : Package) (srcSlide : PartId) (tgt1 : Package)
    (lmap : Option (List (String × PartId))) : Package × Except CopyErr PartId :=
  match lmap with
  | some m =>
    match part_related_by src srcSlide .slideLayout with
    | none => (tgt1, .error (.keyErr "slide layout relationship"))
    | some srcLid =>
      match lookupA m (layoutNameOf src srcLid) with
      | none => (tgt1, .error (.keyErr (layoutNameOf src srcLid)))
      | some l => (tgt1, .ok l)
  | none =>
    match (get_or_copy_slide_layout src srcSlide tgt1 []).2.2 with
    | .error e => ((get_or_copy_slide_layout src srcSlide tgt1 []).1, .error e)
    | .ok l => ((get_or_copy_slide_layout src srcSlide tgt1 []).1, .ok l)

/-- SlideCopier.copy_slide: index the source slide (IndexError when out of
range), copy the slide size, resolve the target layout (by name through the
provided layout map, or on demand with a cache scoped to this call), create
the new slide, copy shapes and image relationships.  Errors carry the target
state as mutated so far. -/
def copy_slide (src : Package) (idx : Nat) (tgt : Package)
    (lmap : Option (List (String × PartId))) : Package × Except CopyErr PartId :=
  match (slidesOf src).get? idx with
  | none => (tgt, .error .indexErr)
  | some srcSlide =>
    match (resolve_layout src srcSlide (copy_slide_size src tgt) lmap).2 with
    | .error e =>
      ((resolve_layout src srcSlide (copy_slide_size src tgt) lmap).1, .error e)
    | .ok layoutPid =>
      (copy_images src srcSlide
        (copy_shapes src srcSlide
          (add_slide (resolve_layout src srcSlide (copy_slide_size src tgt) lmap).1
            layoutPid).1
          (add_slide (resolve_layout src srcSlide (copy_slide_size src tgt) lmap).1
            layoutPid).2)
        (add_slide (resolve_layout src srcSlide (copy_slide_size src tgt) lmap).1
          layoutPid).2,
       .ok (add_slide (resolve_layout src srcSlide (copy_slide_size src tgt) lmap).1
          layoutPid).2)

/-- Slide loop of copy_slides. -/
def copy_slides_go (src : Package) :
    List Nat → Package → List (String × PartId) → List PartId →
    Package × Except CopyErr (List PartId)
  | [], tgt, _, acc => (tgt, .ok acc)
  | i :: rest, tgt, lm, acc =>
    match (copy_slide src i tgt (some lm)).2 with
    | .error e => ((copy_slide src i tgt (some lm)).1, .error e)
    | .ok s => copy_slides_go src rest (copy_slide src i tgt (some lm)).1 lm (acc ++ [s])

/-- SlideCopier.copy_slides: default to all slide indices in order, compute
the bulk layout map once through copy_layouts, then copy each slide with
that map. -/
def copy_slides (src tgt : Package) (idxs : Option (List Nat)) :
    Package × Except CopyErr (List PartId) :=
  match (copy_layouts src tgt).2 with
  | .error e => ((copy_layouts src tgt).1, .error e)
  | .ok lm => copy_slides_go src (idxs.getD (List.range (slidesOf src).length))
      (copy_layouts src tgt).1 lm []

/-! ## Part counting -/

def Part.isTheme (p : Part) : Bool :=
  match p.content with | .themeC _ => true | _ => false

def Part.isMaster (p : Part) : Bool :=
  match p.content with | .masterC _ _ => true | _ => false

def Part.isLayout (p : Part) : Bool :=
  match p.content with | .layoutC _ _ => true | _ => false

def Part.isSlide (p : Part) : Bool :=
  match p.content with | .slideC _ => true | _ => false

def Part.isImage (p : Part) : Bool :=
  match p.content with | .imageC _ => true | _ => false

/-- Number of theme parts of the package. -/
def themeCount (pkg : Package) : Nat :=
  (pkg.parts.filter (fun p => p.isTheme)).length

/-- Number of slide-master parts of the package. -/
def masterCount (pkg : Package) : Nat :=
  (pkg.parts.filter (fun p => p.isMaster)).length

/-- Number of slide-layout parts of the package. -/
def layoutCount (pkg : Package) : Nat :=
  (pkg.parts.filter (fun p => p.isLayout)).length

/-! ## Basic lemmas about the package store -/

theorem length_setPart (pkg : Package) (i : PartId) (p : Part) :
    (pkg.setPart i p).parts.length = pkg.parts.length := by
  simp [Package.setPart]

theorem presId_setPart (pkg : Package) (i : PartId) (p : Part) :
    (pkg.setPart i p).presId = pkg.presId := rfl

theorem length_addPart (pkg : Package) (p : Part) :
    (pkg.addPart p).1.parts.length = pkg.parts.length + 1 := by
  simp [Package.addPart]

theorem presId_addPart (pkg : Package) (p : Part) :
    (pkg.addPart p).1.presId = pkg.presId := rfl

theorem addPart_snd (pkg : Package) (p : Part) :
    (pkg.addPart p).2 = pkg.parts.length := rfl

theorem getPart_lt (pkg : Package) (i : PartId) (h : i < pkg.parts.length) :
    pkg.parts[i]? = some (pkg.getPart i) := by
  simp [Package.getPart, List.getD, List.getElem?_eq_getElem h]

theorem getPart_setPart_self (pkg : Package) (i : PartId) (p : Part)
    (h : i < pkg.parts.length) : (pkg.setPart i p).getPart i = p := by
  simp [Package.setPart, Package.getPart, List.getD,
    List.getElem?_set_eq_of_lt p h]

theorem getPart_setPart_ne (pkg : Package) (i j : PartId) (p : Part)
    (h : i ≠ j) : (pkg.setPart i p).getPart j = pkg.getPart j := by
  simp [Package.setPart, Package.getPart, List.getD, List.getElem?_set_ne h]

theorem getPart_addPart_lt (pkg : Package) (p : Part) (i : PartId)
    (h : i < pkg.parts.length) : (pkg.addPart p).1.getPart i = pkg.getPart i := by
  simp [Package.addPart, Package.getPart, List.getD]
  rw [List.getElem?_append_left h]

theorem getPart_addPart_self (pkg : Package) (p : Part) :
    (pkg.addPart p).1.getPart pkg.parts.length = p := by
  simp [Package.addPart, Package.getPart, List.getD]

/-! ## Counting lemmas -/

/-- Number of parts satisfying a content-based predicate. -/
def countB (f : Part → Bool) (pkg : Package) : Nat :=
  (pkg.parts.filter f).length

theorem themeCount_eq_countB (pkg : Package) :
    themeCount pkg = countB Part.isTheme pkg := rfl

theorem masterCount_eq_countB (pkg : Package) :
    masterCount pkg = countB Part.isMaster pkg := rfl

theorem layoutCount_eq_countB (pkg : Package) :
    layoutCount pkg = countB Part.isLayout pkg := rfl

theorem filter_set_length (f : Part → Bool) (l : List Part) (i : Nat) (p : Part)
    (h : ∀ q, l[i]? = some q → f p = f q) :
    ((l.set i p).filter f).length = (l.filter f).length := by
  induction l generalizing i with
  | nil => simp
  | cons a t ih =>
    cases i with
    | zero =>
      have hfa := h a (by simp)
      simp only [List.set]
      rw [List.filter_cons, List.filter_cons, hfa]
      cases f a <;> simp
    | succ n =>
      simp only [List.set]
      rw [List.filter_cons, List.filter_cons]
      have := ih n (fun q hq => h q (by simpa using hq))
      cases f a <;> simp [this]

theorem countB_setPart (f : Part → Bool) (pkg : Package) (i : PartId) (p : Part)
    (h : i < pkg.parts.length) (hk : f p = f (pkg.getPart i)) :
    countB f (pkg.setPart i p) = countB f pkg := by
  unfold countB Package.setPart
  exact filter_set_length f pkg.parts i p
    (fun q hq => by rw [getPart_lt pkg i h] at hq; cases hq; exact hk)

theorem countB_addPart (f : Part → Bool) (pkg : Package) (p : Part) :
    countB f (pkg.addPart p).1 = countB f pkg + (if f p then 1 else 0) := by
  unfold countB Package.addPart
  simp [List.filter_append]
  cases hf : f p <;> simp [hf]

/-! ## Lookup and freshness lemmas -/

theorem find?_append_some {α : Type} (p : α → Bool) (l₁ l₂ : List α) (x : α)
    (h : List.find? p l₁ = some x) : List.find? p (l₁ ++ l₂) = some x := by
  rw [List.find?_append, h]
  rfl

theorem find?_append_none {α : Type} (p : α → Bool) (l₁ l₂ : List α)
    (h : List.find? p l₁ = none) : List.find? p (l₁ ++ l₂) = List.find? p l₂ := by
  rw [List.find?_append, h]
  rfl

theorem natRId_inj : Function.Injective natRId := by
  intro a b h
  unfold natRId at h
  have h2 : ("rId" ++ String.mk (List.replicate a '1')).data
      = ("rId" ++ String.mk (List.replicate b '1')).data := by rw [h]
  simpa [String.data_append] using h2

theorem rIdCandidates_nodup (n : Nat) : (rIdCandidates n).Nodup := by
  unfold rIdCandidates
  refine List.Nodup.map ?_ (List.nodup_range _)
  intro a b h
  exact Nat.succ_injective (natRId_inj h)

theorem rIdCandidates_length (n : Nat) : (rIdCandidates n).length = n + 1 := by
  simp [rIdCandidates]

/-- The allocated rId is never one of the part's existing keys. -/
theorem next_rId_fresh (rels : List (RId × Rel)) :
    ∀ q ∈ rels, q.1 ≠ next_rId rels := by
  unfold next_rId
  cases hf : (rIdCandidates rels.length).find?
      (fun c => rels.all (fun p => p.1 != c)) with
  | some c =>
    intro q hq
    have hc := List.find?_some hf
    rw [List.all_eq_true] at hc
    have := hc q hq
    simpa [bne_iff_ne] using this
  | none =>
    exfalso
    rw [List.find?_eq_none] at hf
    have hsub : rIdCandidates rels.length ⊆ rels.map (fun q => q.1) := by
      intro c hc
      have := hf c hc
      simp only [List.all_eq_true, not_forall] at this
      obtain ⟨q, hq, hne⟩ := this
      simp only [bne_iff_ne, ne_eq, Decidable.not_not] at hne
      exact hne ▸ List.mem_map_of_mem (fun q => q.1) hq
    have h1 : (rIdCandidates rels.length).toFinset.card
        = (rIdCandidates rels.length).length :=
      List.toFinset_card_of_nodup (rIdCandidates_nodup _)
    have h2 : (rIdCandidates rels.length).toFinset
        ⊆ (rels.map (fun q => q.1)).toFinset := by
      intro x hx
      simp only [List.mem_toFinset] at hx ⊢
      exact hsub hx
    have h3 := Finset.card_le_card h2
    have h4 : (rels.map (fun q => q.1)).toFinset.card
        ≤ (rels.map (fun q => q.1)).length := List.toFinset_card_le _
    rw [h1, rIdCandidates_length] at h3
    simp only [List.length_map] at h4
    omega

/-! ## Concrete example packages used by witnesses and counterexamples -/

/-- A minimal XML body. -/
def exBody : Xml := .elem "p:cSld" [] "" []

/-- Source presentation: one master with theme blob T1, one layout named
Title, one slide with one shape; slide size 100 by 70. -/
def exSrc : Package := ⟨[
  ⟨⟨.presT, 1⟩, .presC ["rIdM"] ["rIdS"] 100 70,
     [("rIdM", ⟨.slideMaster, false, 1, ""⟩), ("rIdS", ⟨.slide, false, 4, ""⟩)]⟩,
  ⟨⟨.masterT, 1⟩, .masterC (some ["rIdL"]) exBody,
     [("rIdT", ⟨.theme, false, 2, ""⟩), ("rIdL", ⟨.slideLayout, false, 3, ""⟩)]⟩,
  ⟨⟨.themeT, 1⟩, .themeC "T1", []⟩,
  ⟨⟨.layoutT, 1⟩, .layoutC "Title" exBody, [("rIdm", ⟨.slideMaster, false, 1, ""⟩)]⟩,
  ⟨⟨.slideT, 1⟩, .slideC [.elem "p:sp" [] "Test slide content" []],
     [("rIdl", ⟨.slideLayout, false, 3, ""⟩)]⟩
  ], 0⟩

/-- Target presentation whose master has the same theme blob T1 and a layout
of the same name Title; slide size 50 by 50, no slides. -/
def exTgtSame : Package := ⟨[
  ⟨⟨.presT, 1⟩, .presC ["rIdM"] [] 50 50, [("rIdM", ⟨.slideMaster, false, 1, ""⟩)]⟩,
  ⟨⟨.masterT, 1⟩, .masterC (some ["rIdL"]) exBody,
     [("rIdT", ⟨.theme, false, 2, ""⟩), ("rIdL", ⟨.slideLayout, false, 3, ""⟩)]⟩,
  ⟨⟨.themeT, 1⟩, .themeC "T1", []⟩,
  ⟨⟨.layoutT, 1⟩, .layoutC "Title" exBody, [("rIdm", ⟨.slideMaster, false, 1, ""⟩)]⟩
  ], 0⟩

/-- Target presentation whose master has a different theme blob T2. -/
def exTgtDiff : Package := ⟨[
  ⟨⟨.presT, 1⟩, .presC ["rIdM"] [] 50 50, [("rIdM", ⟨.slideMaster, false, 1, ""⟩)]⟩,
  ⟨⟨.masterT, 1⟩, .masterC (some ["rIdL"]) exBody,
     [("rIdT", ⟨.theme, false, 2, ""⟩), ("rIdL", ⟨.slideLayout, false, 3, ""⟩)]⟩,
  ⟨⟨.themeT, 1⟩, .themeC "T2", []⟩,
  ⟨⟨.layoutT, 1⟩, .layoutC "Title" exBody, [("rIdm", ⟨.slideMaster, false, 1, ""⟩)]⟩
  ], 0⟩

/-- Source presentation whose single master has no theme relationship. -/
def exSrcNoTheme : Package := ⟨[
  ⟨⟨.presT, 1⟩, .presC ["rIdM"] [] 100 70, [("rIdM", ⟨.slideMaster, false, 1, ""⟩)]⟩,
  ⟨⟨.masterT, 1⟩, .masterC (some ["rIdL"]) exBody,
     [("rIdL", ⟨.slideLayout, false, 2, ""⟩)]⟩,
  ⟨⟨.layoutT, 1⟩, .layoutC "Title" exBody, [("rIdm", ⟨.slideMaster, false, 1, ""⟩)]⟩
  ], 0⟩

/-- Source presentation whose slide carries an external image relationship
(rel.target_part raises on it inside _copy_images). -/
def exSrcExtImg : Package := ⟨[
  ⟨⟨.presT, 1⟩, .presC ["rIdM"] ["rIdS"] 100 70,
     [("rIdM", ⟨.slideMaster, false, 1, ""⟩), ("rIdS", ⟨.slide, false, 4, ""⟩)]⟩,
  ⟨⟨.masterT, 1⟩, .masterC (some ["rIdL"]) exBody,
     [("rIdT", ⟨.theme, false, 2, ""⟩), ("rIdL", ⟨.slideLayout, false, 3, ""⟩)]⟩,
  ⟨⟨.themeT, 1⟩, .themeC "T1", []⟩,
  ⟨⟨.layoutT, 1⟩, .layoutC "Title" exBody, [("rIdm", ⟨.slideMaster, false, 1, ""⟩)]⟩,
  ⟨⟨.slideT, 1⟩, .slideC [],
     [("rIdl", ⟨.slideLayout, false, 3, ""⟩),
      ("rIdx", ⟨.image, true, 0, "http://example.test/img.png"⟩)]⟩
  ], 0⟩

/-! ## Claim C2 -/

theorem copy_slide_size_parts_length (src tgt : Package) :
    (copy_slide_size src tgt).parts.length = tgt.parts.length := by
  unfold copy_slide_size
  cases h : (tgt.getPart tgt.presId).content <;> simp [length_setPart]

theorem copy_slide_size_presId (src tgt : Package) :
    (copy_slide_size src tgt).presId = tgt.presId := by
  unfold copy_slide_size
  cases h : (tgt.getPart tgt.presId).content <;> simp [presId_setPart]

theorem copy_slide_size_getPart_ne (src tgt : Package) (j : PartId)
    (h : tgt.presId ≠ j) : (copy_slide_size src tgt).getPart j = tgt.getPart j := by
  unfold copy_slide_size
  cases hc : (tgt.getPart tgt.presId).content <;>
    simp [getPart_setPart_ne _ _ _ _ h]

theorem copy_slide_size_pres_part (src tgt : Package)
    (hp : tgt.presId < tgt.parts.length) :
    ((copy_slide_size src tgt).getPart tgt.presId).rels
      = (tgt.getPart tgt.presId).rels ∧
    ((copy_slide_size src tgt).getPart tgt.presId).partname
      = (tgt.getPart tgt.presId).partname ∧
    (match ((copy_slide_size src tgt).getPart tgt.presId).content,
        (tgt.getPart tgt.presId).content with
      | .presC ml' sl' _ _, .presC ml sl _ _ => ml' = ml ∧ sl' = sl
      | c', c => c' = c) := by
  unfold copy_slide_size
  cases hc : (tgt.getPart tgt.presId).content <;>
    simp [getPart_setPart_self _ _ _ hp, hc]

theorem copy_slide_size_slidesOf (src tgt : Package) :
    slidesOf (copy_slide_size src tgt) = slidesOf tgt := by
  by_cases hp : tgt.presId < tgt.parts.length
  · have h := copy_slide_size_pres_part src tgt hp
    have hpid := copy_slide_size_presId src tgt
    unfold slidesOf presSlideIds resolveRel
    rw [hpid]
    cases hc : (tgt.getPart tgt.presId).content <;>
      revert h <;> unfold copy_slide_size <;> rw [hc] <;>
      simp [getPart_setPart_self _ _ _ hp, hc]
  · unfold copy_slide_size Package.getPart
    have : tgt.parts[tgt.presId]? = none := by
      simp [List.getElem?_eq_none (Nat.le_of_not_lt hp)]
    simp [List.getD, this, dummyPart]

theorem copy_slide_size_masters (src tgt : Package) :
    slide_masters (copy_slide_size src tgt) = slide_masters tgt := by
  by_cases hp : tgt.presId < tgt.parts.length
  · have hpid := copy_slide_size_presId src tgt
    unfold slide_masters presMasterIds resolveRel
    rw [hpid]
    cases hc : (tgt.getPart tgt.presId).content <;>
      unfold copy_slide_size <;> rw [hc] <;>
      simp [getPart_setPart_self _ _ _ hp, hc]
  · unfold copy_slide_size Package.getPart
    have : tgt.parts[tgt.presId]? = none := by
      simp [List.getElem?_eq_none (Nat.le_of_not_lt hp)]
    simp [List.getD, this, dummyPart]

/-- C2, counterexample to the claim as stated: a copy_slide call that raises
the layout-map lookup error has nevertheless already overwritten the target's
slide dimensions (the size copy runs before the map lookup), so the target is
not left without mutation. -/
theorem c2_counterexample :
    (copy_slide exSrc 0 exTgtSame (some [])).2 = .error (.keyErr "Title") ∧
    slideWidth (copy_slide exSrc 0 exTgtSame (some [])).1 = 100 ∧
    slideHeight (copy_slide exSrc 0 exTgtSame (some [])).1 = 70 ∧
    slideWidth exTgtSame = 50 ∧ slideHeight exTgtSame = 50 := by
  refine ⟨rfl, rfl, rfl, rfl, rfl⟩

/-- C2 (corrected): an out-of-range index raises with the target exactly
unchanged; a layout_map lookup miss raises having mutated exactly the slide
dimensions — the target state at the error is precisely the size-copied
target, with no new slide and no new parts. -/
theorem c2_error_paths :
    (∀ src idx tgt lmap, (slidesOf src).get? idx = none →
      copy_slide src idx tgt lmap = (tgt, .error .indexErr)) ∧
    (∀ src idx tgt m s lid, (slidesOf src).get? idx = some s →
      part_related_by src s .slideLayout = some lid →
      lookupA m (layoutNameOf src lid) = none →
      copy_slide src idx tgt (some m) =
        (copy_slide_size src tgt, .error (.keyErr (layoutNameOf src lid))) ∧
      (copy_slide_size src tgt).parts.length = tgt.parts.length ∧
      slidesOf (copy_slide_size src tgt) = slidesOf tgt) := by
  constructor
  · intro src idx tgt lmap h
    unfold copy_slide
    rw [h]
  · intro src idx tgt m s lid h1 h2 h3
    refine ⟨?_, copy_slide_size_parts_length src tgt, copy_slide_size_slidesOf src tgt⟩
    unfold copy_slide resolve_layout
    rw [h1]
    simp only [h2, h3]

/-- C2 witness: the corrected statement applied at the concrete packages. -/
theorem c2_error_paths_witness :
    copy_slide exSrc 99 exTgtSame none = (exTgtSame, .error .indexErr) ∧
    copy_slide exSrc 0 exTgtSame (some []) =
      (copy_slide_size exSrc exTgtSame, .error (.keyErr "Title")) := by
  constructor
  · exact c2_error_paths.1 exSrc 99 exTgtSame none (by decide)
  · exact (c2_error_paths.2 exSrc 0 exTgtSame [] 4 3 (by decide) (by decide)
      (by decide)).1

/-! ## Dimension-preservation frame (for C9) -/

/-- Slide dimensions carried by a part content (zero for non-presentation
content, matching slideWidth and slideHeight). -/
def contentDims : PartContent → Nat × Nat
  | .presC _ _ w h => (w, h)
  | _ => (0, 0)

theorem slideWidth_eq_dims (pkg : Package) :
    slideWidth pkg = (contentDims (pkg.getPart pkg.presId).content).1 := by
  unfold slideWidth contentDims
  cases (pkg.getPart pkg.presId).content <;> rfl

theorem slideHeight_eq_dims (pkg : Package) :
    slideHeight pkg = (contentDims (pkg.getPart pkg.presId).content).2 := by
  unfold slideHeight contentDims
  cases (pkg.getPart pkg.presId).content <;> rfl

/-- Basic frame between package states: presentation id stable, part store
only grows, slide dimensions unchanged. -/
structure BFrame (p q : Package) : Prop where
  pres : q.presId = p.presId
  len : p.parts.length ≤ q.parts.length
  width : slideWidth q = slideWidth p
  height : slideHeight q = slideHeight p

theorem BFrame.frame_refl (p : Package) : BFrame p p := ⟨rfl, Nat.le_refl _, rfl, rfl⟩

theorem BFrame.frame_trans {p q r : Package} (h1 : BFrame p q) (h2 : BFrame q r) :
    BFrame p r :=
  ⟨h1.pres ▸ h2.pres, Nat.le_trans h1.len h2.len,
   h1.width ▸ h2.width, h1.height ▸ h2.height⟩

theorem BFrame.pres_lt {p q : Package} (h : BFrame p q)
    (hp : p.presId < p.parts.length) : q.presId < q.parts.length := by
  rw [h.pres]
  exact Nat.lt_of_lt_of_le hp h.len

theorem getPart_setPart_overflow (pkg : Package) (i : PartId) (p : Part)
    (h : ¬ i < pkg.parts.length) (j : PartId) :
    (pkg.setPart i p).getPart j = pkg.getPart j := by
  by_cases hij : i = j
  · subst hij
    have h1 : (pkg.parts.set i p)[i]? = none := by
      simp [List.getElem?_eq_none, Nat.le_of_not_lt h]
    have h2 : pkg.parts[i]? = none := by
      simp [List.getElem?_eq_none, Nat.le_of_not_lt h]
    simp [Package.setPart, Package.getPart, List.getD, h1, h2]
  · exact getPart_setPart_ne pkg i j p hij

theorem dims_pres_setPart (pkg : Package) (i : PartId) (p : Part)
    (h : contentDims p.content = contentDims ((pkg.getPart i).content)) :
    contentDims (((pkg.setPart i p)).getPart (pkg.setPart i p).presId).content
      = contentDims ((pkg.getPart pkg.presId).content) := by
  rw [presId_setPart]
  by_cases hi : i < pkg.parts.length
  · by_cases hpi : i = pkg.presId
    · subst hpi
      rw [getPart_setPart_self _ _ _ hi, h]
    · rw [getPart_setPart_ne _ _ _ _ hpi]
  · rw [getPart_setPart_overflow _ _ _ hi]

theorem dims_setPart (pkg : Package) (i : PartId) (p : Part)
    (h : contentDims p.content = contentDims ((pkg.getPart i).content)) :
    BFrame pkg (pkg.setPart i p) := by
  refine ⟨presId_setPart pkg i p, by rw [length_setPart], ?_, ?_⟩
  · rw [slideWidth_eq_dims, slideWidth_eq_dims, dims_pres_setPart pkg i p h]
  · rw [slideHeight_eq_dims, slideHeight_eq_dims, dims_pres_setPart pkg i p h]

theorem bframe_addPart (pkg : Package) (p : Part)
    (hp : pkg.presId < pkg.parts.length) : BFrame pkg (pkg.addPart p).1 := by
  refine ⟨presId_addPart pkg p, ?_, ?_, ?_⟩
  · rw [length_addPart]; omega
  · rw [slideWidth_eq_dims, slideWidth_eq_dims, presId_addPart,
      getPart_addPart_lt _ _ _ hp]
  · rw [slideHeight_eq_dims, slideHeight_eq_dims, presId_addPart,
      getPart_addPart_lt _ _ _ hp]

theorem bframe_relate_to (pkg : Package) (o t : PartId) (rt : RelType) :
    BFrame pkg (relate_to pkg o t rt).1 := by
  unfold relate_to
  split
  · exact BFrame.frame_refl pkg
  · exact dims_setPart pkg o _ rfl

theorem bframe_relate_to_external (pkg : Package) (o : PartId) (tr : String)
    (rt : RelType) : BFrame pkg (relate_to_external pkg o tr rt).1 := by
  unfold relate_to_external
  split
  · exact BFrame.frame_refl pkg
  · exact dims_setPart pkg o _ rfl

theorem bframe_get_or_add_image_part (pkg : Package) (o : PartId) (b : Blob)
    (hp : pkg.presId < pkg.parts.length) :
    BFrame pkg (get_or_add_image_part pkg o b).1 := by
  unfold get_or_add_image_part
  split
  · exact bframe_relate_to pkg o _ .image
  · exact BFrame.frame_trans (bframe_addPart pkg _ hp) (bframe_relate_to _ _ _ _)

theorem bframe_copy_theme_part (src : Package) (sm tm : PartId) (tgt : Package)
    (cache : Cache) (hp : tgt.presId < tgt.parts.length) :
    BFrame tgt (copy_theme_part src sm tm tgt cache).1 := by
  unfold copy_theme_part
  split
  · exact BFrame.frame_refl tgt
  · split
    · exact bframe_relate_to tgt tm _ .theme
    · exact BFrame.frame_trans (bframe_addPart tgt _ hp) (bframe_relate_to _ _ _ _)

theorem bframe_copy_part_rels_go (src : Package) (tp : PartId)
    (rels : List (RId × Rel)) (tgt : Package) (m : List (RId × RId))
    (hp : tgt.presId < tgt.parts.length) :
    BFrame tgt (copy_part_rels_go src tp rels tgt m).1 := by
  induction rels generalizing tgt m with
  | nil => exact BFrame.frame_refl tgt
  | cons q rest ih =>
    rcases q with ⟨rid, rel⟩
    show BFrame tgt (copy_part_rels_go src tp ((rid, rel) :: rest) tgt m).1
    unfold copy_part_rels_go
    by_cases hs : rel.reltype.isStructural
    · simp only [hs, if_true]
      exact ih tgt m hp
    · have step : BFrame tgt (if rel.isExternal then
          relate_to_external tgt tp rel.targetRef rel.reltype
        else if rel.reltype == RelType.image then
          let r := get_or_add_image_part tgt tp (partBlobD src rel.targetPart)
          (r.1, r.2.2)
        else
          let ap := tgt.addPart
            ⟨next_partname tgt (partname_to_template (src.getPart rel.targetPart).partname),
             (src.getPart rel.targetPart).content, []⟩
          relate_to ap.1 tp ap.2 rel.reltype).1 := by
        by_cases he : rel.isExternal
        · simpa [he] using bframe_relate_to_external tgt tp rel.targetRef rel.reltype
        · by_cases hi : rel.reltype == RelType.image
          · simpa [he, hi] using
              bframe_get_or_add_image_part tgt tp (partBlobD src rel.targetPart) hp
          · simp only [he, hi, if_false, Bool.false_eq_true]
            exact BFrame.frame_trans (bframe_addPart tgt _ hp) (bframe_relate_to _ _ _ _)
      simp only [hs, if_false, Bool.false_eq_true]
      exact BFrame.frame_trans step (ih _ _ (step.pres_lt hp))

theorem bframe_setMasterBody (pkg : Package) (mid : PartId) (b : Xml) :
    BFrame pkg (setMasterBody pkg mid b) := by
  unfold setMasterBody
  split
  · exact dims_setPart pkg mid _ (by
      rename_i lst x h
      simp [contentDims, h])
  · exact BFrame.frame_refl pkg

theorem bframe_setLayoutBody (pkg : Package) (lid : PartId) (b : Xml) :
    BFrame pkg (setLayoutBody pkg lid b) := by
  unfold setLayoutBody
  split
  · exact dims_setPart pkg lid _ (by
      rename_i n x h
      simp [contentDims, h])
  · exact BFrame.frame_refl pkg

theorem bframe_appendMasterId (pkg : Package) (rid : RId) :
    BFrame pkg (appendMasterId pkg rid) := by
  unfold appendMasterId
  split
  · exact dims_setPart pkg _ _ (by
      rename_i ml sl w hh h
      simp [contentDims, h])
  · exact BFrame.frame_refl pkg

theorem bframe_appendSlideId (pkg : Package) (rid : RId) :
    BFrame pkg (appendSlideId pkg rid) := by
  unfold appendSlideId
  split
  · exact dims_setPart pkg _ _ (by
      rename_i ml sl w hh h
      simp [contentDims, h])
  · exact BFrame.frame_refl pkg

theorem bframe_appendLayoutId (pkg : Package) (mid : PartId) (rid : RId) :
    BFrame pkg (appendLayoutId pkg mid rid) := by
  unfold appendLayoutId
  split
  · exact dims_setPart pkg mid _ (by
      rename_i lst b h
      simp [contentDims, h])
  · exact BFrame.frame_refl pkg

/-! ### Staged views of the compound copy functions

Stage definitions naming the intermediate states of _copy_slide_master_part
and _copy_slide_layout_part, with equation lemmas relating them to the
functions; all reasoning below goes through these stages. -/

/-- XML body of a source master (deep copy). -/
def masterBodyOf (src : Package) (sm : PartId) : Xml :=
  match (src.getPart sm).content with
  | .masterC _ b => b
  | _ => Xml.elem "" [] "" []

/-- Stage 1 of _copy_slide_master_part: the stripped master part is added. -/
def csmpAdd (src : Package) (sm : PartId) (tgt : Package) : Package × PartId :=
  tgt.addPart ⟨next_partname tgt .masterT, .masterC none (masterBodyOf src sm), []⟩

/-- Stage 2: theme copied. -/
def csmpTheme (src : Package) (sm : PartId) (tgt : Package) (cache : Cache) :
    Package × Cache :=
  copy_theme_part src sm (csmpAdd src sm tgt).2 (csmpAdd src sm tgt).1 cache

/-- Stage 3: non-structural relationships copied. -/
def csmpRels (src : Package) (sm : PartId) (tgt : Package) (cache : Cache) :
    Package × List (RId × RId) :=
  copy_part_rels src sm (csmpTheme src sm tgt cache).1 (csmpAdd src sm tgt).2

/-- Stage 4: rIds remapped in the new master's body when needed. -/
def csmpRemap (src : Package) (sm : PartId) (tgt : Package) (cache : Cache) :
    Package :=
  if (csmpRels src sm tgt cache).2.isEmpty then (csmpRels src sm tgt cache).1
  else setMasterBody (csmpRels src sm tgt cache).1 (csmpAdd src sm tgt).2
    (remap_rids (csmpRels src sm tgt cache).2 (masterBodyOf src sm))

/-- Stage 5: presentation-to-master relationship created. -/
def csmpRegister (src : Package) (sm : PartId) (tgt : Package) (cache : Cache) :
    Package × RId :=
  relate_to (csmpRemap src sm tgt cache) (csmpRemap src sm tgt cache).presId
    (csmpAdd src sm tgt).2 .slideMaster

theorem copy_slide_master_part_eq (src : Package) (sm : PartId) (tgt : Package)
    (cache : Cache) :
    copy_slide_master_part src sm tgt cache =
      (appendMasterId (csmpRegister src sm tgt cache).1
        (csmpRegister src sm tgt cache).2,
       (csmpTheme src sm tgt cache).2, (csmpAdd src sm tgt).2) := rfl

theorem bframe_copy_slide_master_part (src : Package) (sm : PartId)
    (tgt : Package) (cache : Cache) (hp : tgt.presId < tgt.parts.length) :
    BFrame tgt (copy_slide_master_part src sm tgt cache).1 := by
  rw [copy_slide_master_part_eq]
  have h1 : BFrame tgt (csmpAdd src sm tgt).1 := bframe_addPart tgt _ hp
  have h2 : BFrame (csmpAdd src sm tgt).1 (csmpTheme src sm tgt cache).1 :=
    bframe_copy_theme_part src sm _ _ cache (h1.pres_lt hp)
  have h3 : BFrame (csmpTheme src sm tgt cache).1 (csmpRels src sm tgt cache).1 :=
    bframe_copy_part_rels_go src _ _ _ [] (h2.pres_lt (h1.pres_lt hp))
  have h123 := BFrame.frame_trans h1 (BFrame.frame_trans h2 h3)
  have h4 : BFrame tgt (csmpRemap src sm tgt cache) := by
    unfold csmpRemap
    split
    · exact h123
    · exact BFrame.frame_trans h123 (bframe_setMasterBody _ _ _)
  exact BFrame.frame_trans h4 (BFrame.frame_trans (bframe_relate_to _ _ _ _)
    (bframe_appendMasterId _ _))

/-- Name and body of a source layout (deep copy). -/
def layoutNB (src : Package) (srcLid : PartId) : String × Xml :=
  match (src.getPart srcLid).content with
  | .layoutC n b => (n, b)
  | _ => ("", Xml.elem "" [] "" [])

/-- Stage 2 of _copy_slide_layout_part (after the master was resolved,
yielding target state tgt1): the layout part is added. -/
def csllAdd (src : Package) (srcLid : PartId) (tgt1 : Package) :
    Package × PartId :=
  tgt1.addPart ⟨next_partname tgt1 .layoutT,
    .layoutC (layoutNB src srcLid).1 (layoutNB src srcLid).2, []⟩

/-- Stage 3: non-structural relationships copied. -/
def csllRels (src : Package) (srcLid : PartId) (tgt1 : Package) :
    Package × List (RId × RId) :=
  copy_part_rels src srcLid (csllAdd src srcLid tgt1).1 (csllAdd src srcLid tgt1).2

/-- Stage 4: rIds remapped in the new layout's body when needed. -/
def csllRemap (src : Package) (srcLid : PartId) (tgt1 : Package) : Package :=
  if (csllRels src srcLid tgt1).2.isEmpty then (csllRels src srcLid tgt1).1
  else setLayoutBody (csllRels src srcLid tgt1).1 (csllAdd src srcLid tgt1).2
    (remap_rids (csllRels src srcLid tgt1).2 (layoutNB src srcLid).2)

/-- Stage 5: layout-to-master and master-to-layout relationships created. -/
def csllAttach (src : Package) (srcLid : PartId) (tgt1 : Package)
    (mPid : PartId) : Package × RId :=
  relate_to (relate_to (csllRemap src srcLid tgt1) (csllAdd src srcLid tgt1).2
    mPid .slideMaster).1 mPid (csllAdd src srcLid tgt1).2 .slideLayout

theorem copy_slide_layout_part_eq (src : Package) (srcLid : PartId)
    (tgt : Package) (cache : Cache) (srcMid : PartId)
    (hrel : part_related_by src srcLid .slideMaster = some srcMid) :
    copy_slide_layout_part src srcLid tgt cache =
      (appendLayoutId
        (csllAttach src srcLid (get_or_copy_slide_master src srcMid tgt cache).1
          (get_or_copy_slide_master src srcMid tgt cache).2.2).1
        (get_or_copy_slide_master src srcMid tgt cache).2.2
        (csllAttach src srcLid (get_or_copy_slide_master src srcMid tgt cache).1
          (get_or_copy_slide_master src srcMid tgt cache).2.2).2,
       (get_or_copy_slide_master src srcMid tgt cache).2.1,
       .ok (csllAdd src srcLid (get_or_copy_slide_master src srcMid tgt cache).1).2) := by
  unfold copy_slide_layout_part
  rw [hrel]
  rfl

theorem bframe_get_or_copy_slide_master (src : Package) (sm : PartId)
    (tgt : Package) (cache : Cache) (hp : tgt.presId < tgt.parts.length) :
    BFrame tgt (get_or_copy_slide_master src sm tgt cache).1 := by
  unfold get_or_copy_slide_master
  split
  · exact BFrame.frame_refl tgt
  · exact bframe_copy_slide_master_part src sm tgt cache hp

theorem bframe_copy_slide_layout_part (src : Package) (srcLid : PartId)
    (tgt : Package) (cache : Cache) (hp : tgt.presId < tgt.parts.length) :
    BFrame tgt (copy_slide_layout_part src srcLid tgt cache).1 := by
  cases hrel : part_related_by src srcLid .slideMaster with
  | none =>
    unfold copy_slide_layout_part
    rw [hrel]
    exact BFrame.frame_refl tgt
  | some srcMid =>
    rw [copy_slide_layout_part_eq src srcLid tgt cache srcMid hrel]
    have h1 : BFrame tgt (get_or_copy_slide_master src srcMid tgt cache).1 :=
      bframe_get_or_copy_slide_master src srcMid tgt cache hp
    have hp1 := h1.pres_lt hp
    have h2 : BFrame (get_or_copy_slide_master src srcMid tgt cache).1
        (csllAdd src srcLid (get_or_copy_slide_master src srcMid tgt cache).1).1 :=
      bframe_addPart _ _ hp1
    have h3 : BFrame (csllAdd src srcLid (get_or_copy_slide_master src srcMid tgt cache).1).1
        (csllRels src srcLid (get_or_copy_slide_master src srcMid tgt cache).1).1 :=
      bframe_copy_part_rels_go src _ _ _ [] (h2.pres_lt hp1)
    have h123 := BFrame.frame_trans h1 (BFrame.frame_trans h2 h3)
    have h4 : BFrame tgt (csllRemap src srcLid
        (get_or_copy_slide_master src srcMid tgt cache).1) := by
      unfold csllRemap
      split
      · exact h123
      · exact BFrame.frame_trans h123 (bframe_setLayoutBody _ _ _)
    exact BFrame.frame_trans h4 (BFrame.frame_trans (bframe_relate_to _ _ _ _)
      (BFrame.frame_trans (bframe_relate_to _ _ _ _) (bframe_appendLayoutId _ _ _)))

theorem bframe_get_or_copy_slide_layout (src : Package) (s : PartId)
    (tgt : Package) (cache : Cache) (hp : tgt.presId < tgt.parts.length) :
    BFrame tgt (get_or_copy_slide_layout src s tgt cache).1 := by
  unfold get_or_copy_slide_layout
  split
  · exact BFrame.frame_refl tgt
  · split
    · exact BFrame.frame_refl tgt
    · split
      · exact bframe_copy_slide_layout_part src _ tgt cache hp
      · exact bframe_copy_slide_layout_part src _ tgt cache hp

theorem bframe_add_slide (tgt : Package) (layoutPid : PartId)
    (hp : tgt.presId < tgt.parts.length) :
    BFrame tgt (add_slide tgt layoutPid).1 := by
  unfold add_slide
  have h1 : BFrame tgt (tgt.addPart ⟨next_partname tgt .slideT, .slideC [], []⟩).1 :=
    bframe_addPart tgt _ hp
  have h2 := bframe_relate_to (tgt.addPart ⟨next_partname tgt .slideT, .slideC [], []⟩).1
    (tgt.addPart ⟨next_partname tgt .slideT, .slideC [], []⟩).2 layoutPid .slideLayout
  have h12 := BFrame.frame_trans h1 h2
  exact BFrame.frame_trans h12 (BFrame.frame_trans (bframe_relate_to _ _ _ _)
    (bframe_appendSlideId _ _))

theorem bframe_copy_shapes (src : Package) (s : PartId) (tgt : Package)
    (d : PartId) : BFrame tgt (copy_shapes src s tgt d) := by
  unfold copy_shapes
  split
  · rename_i dsh h
    exact dims_setPart tgt d _ (by simp [contentDims, h])
  · exact BFrame.frame_refl tgt

theorem bframe_copy_images_rels (src : Package) (d : PartId)
    (rels : List (RId × Rel)) (tgt : Package) (m : List (RId × RId))
    (hp : tgt.presId < tgt.parts.length) :
    BFrame tgt (copy_images_rels src d rels tgt m).1 := by
  induction rels generalizing tgt m with
  | nil => exact BFrame.frame_refl tgt
  | cons q rest ih =>
    rcases q with ⟨rid, rel⟩
    show BFrame tgt (copy_images_rels src d ((rid, rel) :: rest) tgt m).1
    unfold copy_images_rels
    by_cases hi : rel.reltype == RelType.image
    · by_cases he : rel.isExternal
      · simp only [hi, he, if_true]
        exact BFrame.frame_refl tgt
      · simp only [hi, he, if_true, if_false, Bool.false_eq_true]
        have hstep := bframe_get_or_add_image_part tgt d
          (partBlobD src rel.targetPart) hp
        exact BFrame.frame_trans hstep (ih _ _ (hstep.pres_lt hp))
    · simp only [hi, if_false, Bool.false_eq_true]
      exact ih tgt m hp

theorem bframe_copy_images (src : Package) (s : PartId) (tgt : Package)
    (d : PartId) (hp : tgt.presId < tgt.parts.length) :
    BFrame tgt (copy_images src s tgt d) := by
  unfold copy_images
  have h1 : BFrame tgt (ciRun src s tgt d).1 :=
    bframe_copy_images_rels src d (src.getPart s).rels tgt [] hp
  split
  · exact h1
  · split
    · exact h1
    · split
      · rename_i sh h
        exact BFrame.frame_trans h1 (dims_setPart _ d _ (by simp [contentDims, h]))
      · exact h1

/-- Tail of copy_slide after the layout was resolved: new slide added, shapes
copied, image relationships copied. -/
theorem bframe_copy_slide_tail (src : Package) (s : PartId) (t : Package)
    (L : PartId) (hp : t.presId < t.parts.length) :
    BFrame t (copy_images src s
      (copy_shapes src s (add_slide t L).1 (add_slide t L).2) (add_slide t L).2) := by
  have h1 := bframe_add_slide t L hp
  have h2 := bframe_copy_shapes src s (add_slide t L).1 (add_slide t L).2
  have h12 := BFrame.frame_trans h1 h2
  exact BFrame.frame_trans h12 (bframe_copy_images src s _ _ (h12.pres_lt hp))

/-- Presentation part sanity: the presentation id is in range and the part
carries presentation content. -/
def presOkB (pkg : Package) : Bool :=
  decide (pkg.presId < pkg.parts.length) &&
  match (pkg.getPart pkg.presId).content with
  | .presC _ _ _ _ => true
  | _ => false

theorem presOkB_lt {pkg : Package} (h : presOkB pkg = true) :
    pkg.presId < pkg.parts.length := by
  unfold presOkB at h
  rw [Bool.and_eq_true] at h
  exact of_decide_eq_true h.1

theorem presOkB_content {pkg : Package} (h : presOkB pkg = true) :
    ∃ ml sl w hh, (pkg.getPart pkg.presId).content = .presC ml sl w hh := by
  unfold presOkB at h
  rw [Bool.and_eq_true] at h
  have h2 := h.2
  revert h2
  cases hc : (pkg.getPart pkg.presId).content <;> simp

theorem copy_slide_size_dims (src tgt : Package) (h : presOkB tgt = true) :
    slideWidth (copy_slide_size src tgt) = slideWidth src ∧
    slideHeight (copy_slide_size src tgt) = slideHeight src := by
  obtain ⟨ml, sl, w, hh, hc⟩ := presOkB_content h
  have hp := presOkB_lt h
  unfold copy_slide_size
  rw [hc]
  constructor
  · unfold slideWidth
    rw [presId_setPart, getPart_setPart_self _ _ _ hp]
  · unfold slideHeight
    rw [presId_setPart, getPart_setPart_self _ _ _ hp]

theorem bframe_resolve_layout (src : Package) (s : PartId) (tgt1 : Package)
    (lmap : Option (List (String × PartId)))
    (hp : tgt1.presId < tgt1.parts.length) :
    BFrame tgt1 (resolve_layout src s tgt1 lmap).1 := by
  unfold resolve_layout
  have hg := bframe_get_or_copy_slide_layout src s tgt1 [] hp
  split
  · split
    · exact BFrame.frame_refl tgt1
    · split
      · exact BFrame.frame_refl tgt1
      · exact BFrame.frame_refl tgt1
  · split
    · exact hg
    · exact hg

/-- C9: a copy_slide call with a valid index overwrites the target's slide
width and height with the source's values, on every path — with or without a
layout map, whether or not the call later errors, and regardless of the
target's prior contents. -/
theorem c9_size_always_overwritten (src : Package) (idx : Nat) (tgt : Package)
    (lmap : Option (List (String × PartId))) (s : PartId)
    (hidx : (slidesOf src).get? idx = some s) (hok : presOkB tgt = true) :
    slideWidth (copy_slide src idx tgt lmap).1 = slideWidth src ∧
    slideHeight (copy_slide src idx tgt lmap).1 = slideHeight src := by
  have hp := presOkB_lt hok
  have hd := copy_slide_size_dims src tgt hok
  have hp1 : (copy_slide_size src tgt).presId
      < (copy_slide_size src tgt).parts.length := by
    rw [copy_slide_size_presId, copy_slide_size_parts_length]
    exact hp
  have hr := bframe_resolve_layout src s (copy_slide_size src tgt) lmap hp1
  unfold copy_slide
  rw [hidx]
  cases hres : (resolve_layout src s (copy_slide_size src tgt) lmap).2 with
  | error e =>
    simp only [hres]
    exact ⟨hr.width.trans hd.1, hr.height.trans hd.2⟩
  | ok L =>
    simp only [hres]
    have ht := bframe_copy_slide_tail src s
      (resolve_layout src s (copy_slide_size src tgt) lmap).1 L (hr.pres_lt hp1)
    exact ⟨ht.width.trans (hr.width.trans hd.1),
           ht.height.trans (hr.height.trans hd.2)⟩

/-- C9 witness: the concrete source slide size 100 by 70 lands in a target of
size 50 by 50, on the standalone path. -/
theorem c9_size_always_overwritten_witness :
    slideWidth (copy_slide exSrc 0 exTgtSame none).1 = 100 ∧
    slideHeight (copy_slide exSrc 0 exTgtSame none).1 = 70 := by
  have h := c9_size_always_overwritten exSrc 0 exTgtSame none 4 (by decide) (by decide)
  exact ⟨h.1.trans (by decide), h.2.trans (by decide)⟩

/-! ## Claim C10 -/

/-- C10: copy_slide never raises out of the image-copying step.  First, once
the layout is resolved the call returns the newly created slide — the image
step only contributes to the returned package state, never to the error
channel.  Second, when the body of _copy_images raises (copy_images_err),
the exception is swallowed: the package keeps exactly the mutations made up
to the exception and the r:embed remap phase is skipped. -/
theorem c10_images_exceptions_swallowed :
    (∀ src idx tgt lmap s L, (slidesOf src).get? idx = some s →
      (resolve_layout src s (copy_slide_size src tgt) lmap).2 = .ok L →
      (copy_slide src idx tgt lmap).2 =
        .ok (add_slide (resolve_layout src s (copy_slide_size src tgt) lmap).1 L).2) ∧
    (∀ src s t d e, copy_images_err src s t d = some e →
      copy_images src s t d = (ciRun src s t d).1) := by
  constructor
  · intro src idx tgt lmap s L hidx hres
    simp only [copy_slide, hidx, hres]
  · intro src s t d e h
    unfold copy_images_err at h
    unfold copy_images
    rw [h]

/-- C10 witness: a source slide carrying an external image relationship makes
the body of _copy_images raise; the call still returns the new slide and the
error is swallowed. -/
theorem c10_images_exceptions_swallowed_witness :
    (copy_slide exSrcExtImg 0 exTgtSame (some [("Title", 3)])).2 = .ok 4 ∧
    copy_images_err exSrcExtImg 4
      (copy_shapes exSrcExtImg 4
        (add_slide (copy_slide_size exSrcExtImg exTgtSame) 3).1
        (add_slide (copy_slide_size exSrcExtImg exTgtSame) 3).2)
      (add_slide (copy_slide_size exSrcExtImg exTgtSame) 3).2
      = some (.keyErr "target_part of external relationship") := by
  constructor
  · exact c10_images_exceptions_swallowed.1 exSrcExtImg 0 exTgtSame
      (some [("Title", 3)]) 4 3 (by decide) (by rfl)
  · decide

/-! ## Claim C8 -/

/-- Subtree of an XML tree at a child-index path (the nodes element.iter()
visits are exactly the subtrees at such paths). -/
def subtreeAt : List Nat → Xml → Option Xml
  | [], x => some x
  | i :: p, .elem _ _ _ ch =>
    match ch[i]? with
    | some c => subtreeAt p c
    | none => none

theorem remap_rids_elem (m : List (RId × RId)) (t : String)
    (a : List (String × String)) (tx : String) (ch : List Xml) :
    remap_rids m (.elem t a tx ch) =
      .elem t (remapAttrs m a) tx (ch.map (remap_rids m)) := by
  simp [remap_rids]

/-- The remapper commutes with subtree access: the node of the remapped tree
at any path is the remap of the node of the original tree at that path — in
particular the rewrite visits every node, at every depth. -/
theorem subtreeAt_remap_rids (m : List (RId × RId)) :
    ∀ (p : List Nat) (x : Xml),
      subtreeAt p (remap_rids m x) = (subtreeAt p x).map (remap_rids m) := by
  intro p
  induction p with
  | nil => intro x; rfl
  | cons i rest ih =>
    intro x
    rcases x with ⟨t, a, tx, ch⟩
    rw [remap_rids_elem]
    show (match (ch.map (remap_rids m))[i]? with
      | some c => subtreeAt rest c
      | none => none) =
      Option.map (remap_rids m) (match ch[i]? with
      | some c => subtreeAt rest c
      | none => none)
    rw [List.getElem?_map]
    cases h : ch[i]? with
    | none => rfl
    | some c => simpa using ih c

/-- C8, counterexample to the claim as stated: the code only rewrites truthy
attribute values (if val and val in rid_mapping), so an attribute whose
current value is the empty string is left unchanged even when that value is
a key of the map — the claim demands it be replaced by its image rId9. -/
theorem c8_counterexample :
    remap_rids [("", "rId9")] (Xml.elem "p:pic" [("r:embed", "")] "" []) =
      Xml.elem "p:pic" [("r:embed", "")] "" [] ∧
    lookupA [("", "rId9")] "" = some "rId9" ∧
    "r:embed" ∈ rAttrNames ∧ ("rId9" : String) ≠ "" := by
  refine ⟨?_, by decide, by decide, by decide⟩
  rw [remap_rids_elem]
  simp [remapAttrs]

/-- C8 (corrected): for every map and tree, the remapper visits every node
(any path into the tree): tag, text and child count are preserved, and each
attribute is rewritten to its image under the map exactly when it is one of
the three reference attributes (r:embed, r:link, r:id) and its current value
is non-empty and a key of the map; all other attributes, and values that are
empty or not keys, are left unchanged. -/
theorem c8_remap_every_node (m : List (RId × RId)) (x : Xml) (p : List Nat)
    (t : String) (a : List (String × String)) (tx : String) (ch : List Xml)
    (h : subtreeAt p x = some (.elem t a tx ch)) :
    subtreeAt p (remap_rids m x) =
      some (.elem t
        (a.map (fun kv =>
          if kv.1 ∈ rAttrNames ∧ kv.2 ≠ "" ∧ (lookupA m kv.2).isSome then
            (kv.1, (lookupA m kv.2).getD kv.2)
          else kv))
        tx (ch.map (remap_rids m))) := by
  rw [subtreeAt_remap_rids, h]
  show some (remap_rids m (.elem t a tx ch)) = _
  rw [remap_rids_elem]
  rfl

/-- C8 witness: the corrected statement applied at a two-level tree — the
nested blip's r:embed (a key of the map) is rewritten, the unknown value and
the non-reference attribute are untouched. -/
theorem c8_remap_every_node_witness :
    subtreeAt [0] (remap_rids [("rId7", "rId9")]
      (Xml.elem "p:pic" [] ""
        [Xml.elem "a:blip" [("r:embed", "rId7"), ("w", "rId7"), ("r:link", "rIdZ")] "" []])) =
      some (Xml.elem "a:blip"
        [("r:embed", "rId9"), ("w", "rId7"), ("r:link", "rIdZ")] "" []) := by
  have h := c8_remap_every_node [("rId7", "rId9")]
    (Xml.elem "p:pic" [] ""
      [Xml.elem "a:blip" [("r:embed", "rId7"), ("w", "rId7"), ("r:link", "rIdZ")] "" []])
    [0] "a:blip" [("r:embed", "rId7"), ("w", "rId7"), ("r:link", "rIdZ")] "" []
    (by rfl)
  rw [h]
  simp [lookupA, rAttrNames]

/-! ## Counterexamples for C3 and C6 -/

/-- C3, counterexample to the claim as stated: on the standalone copy_slide
path with no layout_map, the master-copy operation never queries the theme
matcher — here the target already holds a master whose theme payload T1 is
byte-equal to the source master's, yet copy_slide clones a second master and
a second theme into the target instead of reusing the existing one. -/
theorem c3_counterexample :
    themeBlobOf exSrc 1 = some "T1" ∧
    1 ∈ slide_masters exSrc ∧
    themeBlobOf exTgtSame 1 = some "T1" ∧
    1 ∈ slide_masters exTgtSame ∧
    masterCount exTgtSame = 1 ∧ themeCount exTgtSame = 1 ∧
    masterCount (copy_slide exSrc 0 exTgtSame none).1 = 2 ∧
    themeCount (copy_slide exSrc 0 exTgtSame none).1 = 2 := by
  decide

/-- C6, counterexample to the claim as stated: a source master with no theme
relationship never matches any target master, so every copy_layouts call
copies it afresh — the second invocation grows the master and layout counts
beyond what the first produced. -/
theorem c6_counterexample :
    masterCount exTgtSame = 1 ∧ layoutCount exTgtSame = 1 ∧
    masterCount (copy_layouts exSrcNoTheme exTgtSame).1 = 2 ∧
    layoutCount (copy_layouts exSrcNoTheme exTgtSame).1 = 2 ∧
    masterCount (copy_layouts exSrcNoTheme
      (copy_layouts exSrcNoTheme exTgtSame).1).1 = 3 ∧
    layoutCount (copy_layouts exSrcNoTheme
      (copy_layouts exSrcNoTheme exTgtSame).1).1 = 3 := by
  decide

/-! ## Well-formedness of packages

The claims about copy_layouts quantify over packages; the data-model
invariants of the specification (section 3) are collected here as decidable
predicates: the presentation id lists resolve to parts of the right kind, a
master's sldLayoutIdLst resolves to layouts through its own relationships,
structural relationships are internal and well-typed, relationship keys are
unique per part, internal targets are in range, and non-structural internal
relationships of masters and layouts point at plain payload parts (images,
generic media) rather than at style-hierarchy parts. -/

def Part.isGeneric (p : Part) : Bool :=
  match p.content with | .genericC _ _ => true | _ => false

def Part.isPres (p : Part) : Bool :=
  match p.content with | .presC _ _ _ _ => true | _ => false

/-- Relationship keys of a part are pairwise distinct. -/
def keysOkB : List (RId × Rel) → Bool
  | [] => true
  | q :: rest => rest.all (fun r => r.1 != q.1) && keysOkB rest

/-- Internal relationship targets are valid part ids. -/
def relTargetsOkB (n : Nat) (p : Part) : Bool :=
  p.rels.all (fun q => q.2.isExternal || decide (q.2.targetPart < n))

/-- Invariants of a master part: sldLayoutIdLst entries resolve through its
relationships to internal layout parts, theme relationships are internal and
point at theme parts, and non-structural internal relationships point at
image or generic parts. -/
def masterPartOkB (pkg : Package) (p : Part) : Bool :=
  match p.content with
  | .masterC lst _ =>
    (lst.getD []).all (fun rid =>
      match p.rels.find? (fun q => q.1 == rid) with
      | some q => !q.2.isExternal && (pkg.getPart q.2.targetPart).isLayout
      | none => false) &&
    p.rels.all (fun q =>
      q.2.reltype != RelType.theme ||
      (!q.2.isExternal && (pkg.getPart q.2.targetPart).isTheme)) &&
    p.rels.all (fun q =>
      q.2.reltype.isStructural || q.2.isExternal ||
      ((pkg.getPart q.2.targetPart).isImage || (pkg.getPart q.2.targetPart).isGeneric))
  | _ => true

/-- Invariants of a layout part: master relationships are internal and point
at master parts, non-structural internal relationships at image or generic
parts. -/
def layoutPartOkB (pkg : Package) (p : Part) : Bool :=
  match p.content with
  | .layoutC _ _ =>
    p.rels.all (fun q =>
      q.2.reltype != RelType.slideMaster ||
      (!q.2.isExternal && (pkg.getPart q.2.targetPart).isMaster)) &&
    p.rels.all (fun q =>
      q.2.reltype.isStructural || q.2.isExternal ||
      ((pkg.getPart q.2.targetPart).isImage || (pkg.getPart q.2.targetPart).isGeneric))
  | _ => true

/-- Invariants of a slide part: layout relationships are internal and point
at layout parts. -/
def slidePartOkB (pkg : Package) (p : Part) : Bool :=
  match p.content with
  | .slideC _ =>
    p.rels.all (fun q =>
      q.2.reltype != RelType.slideLayout ||
      (!q.2.isExternal && (pkg.getPart q.2.targetPart).isLayout))
  | _ => true

/-- The presentation's sldMasterIdLst and sldIdLst resolve through the
presentation part's relationships to internal master and slide parts. -/
def presRidsOkB (pkg : Package) : Bool :=
  (presMasterIds pkg).all (fun rid =>
    match (pkg.getPart pkg.presId).rels.find? (fun q => q.1 == rid) with
    | some q => !q.2.isExternal && (pkg.getPart q.2.targetPart).isMaster
    | none => false) &&
  (presSlideIds pkg).all (fun rid =>
    match (pkg.getPart pkg.presId).rels.find? (fun q => q.1 == rid) with
    | some q => !q.2.isExternal && (pkg.getPart q.2.targetPart).isSlide
    | none => false)

/-- Well-formed package. -/
def wfB (pkg : Package) : Bool :=
  presOkB pkg && presRidsOkB pkg &&
  pkg.parts.all (fun p =>
    relTargetsOkB pkg.parts.length p && keysOkB p.rels &&
    masterPartOkB pkg p && layoutPartOkB pkg p && slidePartOkB pkg p)

/-- Source-side invariants used by claims about copy_layouts: the master
list has no duplicates, each master's layout list has no duplicates, and
every layout listed under a master relates back to exactly that master
(spec section 3, invariants 2 and 3). -/
def srcOkB (src : Package) : Bool :=
  wfB src &&
  decide (slide_masters src).Nodup &&
  (slide_masters src).all (fun m =>
    decide (slide_layouts_of src m).Nodup &&
    (slide_layouts_of src m).all
      (fun l => part_related_by src l .slideMaster == some m))

theorem getPart_mem (pkg : Package) (i : PartId) (hi : i < pkg.parts.length) :
    pkg.getPart i ∈ pkg.parts := by
  exact List.getElem?_mem (getPart_lt pkg i hi)

theorem wfB_presOk {pkg : Package} (h : wfB pkg = true) : presOkB pkg = true := by
  unfold wfB at h
  rw [Bool.and_eq_true, Bool.and_eq_true] at h
  exact h.1.1

theorem wfB_presRidsOk {pkg : Package} (h : wfB pkg = true) :
    presRidsOkB pkg = true := by
  unfold wfB at h
  rw [Bool.and_eq_true, Bool.and_eq_true] at h
  exact h.1.2

theorem wfB_part {pkg : Package} (h : wfB pkg = true) (i : PartId)
    (hi : i < pkg.parts.length) :
    relTargetsOkB pkg.parts.length (pkg.getPart i) = true ∧
    keysOkB (pkg.getPart i).rels = true ∧
    masterPartOkB pkg (pkg.getPart i) = true ∧
    layoutPartOkB pkg (pkg.getPart i) = true ∧
    slidePartOkB pkg (pkg.getPart i) = true := by
  unfold wfB at h
  rw [Bool.and_eq_true, Bool.and_eq_true] at h
  have h2 := h.2
  rw [List.all_eq_true] at h2
  have h3 := h2 (pkg.getPart i) (getPart_mem pkg i hi)
  simp only [Bool.and_eq_true] at h3
  exact ⟨h3.1.1.1.1, h3.1.1.1.2, h3.1.1.2, h3.1.2, h3.2⟩

/-! ## Effect summaries: operations touching a single owner part -/

theorem kind_eq_of_content_eq {p p' : Part} (h : p'.content = p.content) :
    p'.isTheme = p.isTheme ∧ p'.isMaster = p.isMaster ∧
    p'.isLayout = p.isLayout ∧ p'.isImage = p.isImage ∧
    p'.isGeneric = p.isGeneric ∧ p'.isSlide = p.isSlide ∧ p'.isPres = p.isPres := by
  unfold Part.isTheme Part.isMaster Part.isLayout Part.isImage Part.isGeneric
    Part.isSlide Part.isPres
  rw [h]
  exact ⟨rfl, rfl, rfl, rfl, rfl, rfl, rfl⟩

theorem keysOk_append_fresh (l : List (RId × Rel)) (rid : RId) (r : Rel)
    (hk : keysOkB l = true) (hf : ∀ q ∈ l, q.1 ≠ rid) :
    keysOkB (l ++ [(rid, r)]) = true := by
  induction l with
  | nil => simp [keysOkB]
  | cons q rest ih =>
    simp only [keysOkB, Bool.and_eq_true] at hk
    simp only [List.cons_append, keysOkB, Bool.and_eq_true]
    constructor
    · show ((rest ++ [(rid, r)]).all fun r => r.1 != q.1) = true
      rw [List.all_append]
      rw [Bool.and_eq_true]
      refine ⟨hk.1, ?_⟩
      simp only [List.all_cons, List.all_nil, Bool.and_true]
      have := hf q (List.mem_cons_self q rest)
      simpa [bne_iff_ne] using fun hh => this hh.symm
    · exact ih hk.2 (fun q2 hq2 => hf q2 (List.mem_cons_of_mem q hq2))

theorem findIdx?_spec {α : Type} (p : α → Bool) (l : List α) (i : Nat)
    (h : l.findIdx? p = some i) :
    i < l.length ∧ ∃ x, l[i]? = some x ∧ p x = true := by
  induction l generalizing i with
  | nil => simp [List.findIdx?] at h
  | cons a rest ih =>
    rw [List.findIdx?_cons, List.findIdx?_succ] at h
    by_cases hp : p a
    · rw [if_pos hp] at h
      cases h
      exact ⟨by simp, a, by simp, hp⟩
    · rw [if_neg hp] at h
      cases hrest : rest.findIdx? p with
      | none => rw [hrest] at h; simp at h
      | some j =>
        rw [hrest] at h
        simp only [Option.map_some'] at h
        cases h
        obtain ⟨hlt, x, hx, hpx⟩ := ih j hrest
        refine ⟨by simp; omega, x, ?_, hpx⟩
        simpa using hx

/-- Effect summary of an operation that only creates payload parts (images,
generic media) and appends non-structural relationships to one owner. -/
structure TouchSpec (p q : Package) (o : PartId) : Prop where
  pres : q.presId = p.presId
  len : p.parts.length ≤ q.parts.length
  other : ∀ j, j < p.parts.length → j ≠ o → q.getPart j = p.getPart j
  ownerPname : (q.getPart o).partname = (p.getPart o).partname
  ownerContent : (q.getPart o).content = (p.getPart o).content
  ownerRels : ∃ s, (q.getPart o).rels = (p.getPart o).rels ++ s ∧
      (∀ r ∈ s, r.2.reltype.isStructural = false) ∧
      (∀ r ∈ s, r.2.isExternal = true ∨ (r.2.targetPart < q.parts.length ∧
        ((q.getPart r.2.targetPart).isImage = true ∨
         (q.getPart r.2.targetPart).isGeneric = true)))
  ownerKeys : keysOkB (p.getPart o).rels = true → keysOkB (q.getPart o).rels = true
  newParts : ∀ k, p.parts.length ≤ k → k < q.parts.length →
      (q.getPart k).isImage = true ∨ (q.getPart k).isGeneric = true
  newPartsRels : ∀ k, p.parts.length ≤ k → k < q.parts.length →
      (q.getPart k).rels = []
  cTheme : themeCount q = themeCount p
  cMaster : masterCount q = masterCount p
  cLayout : layoutCount q = layoutCount p

theorem TouchSpec.touch_refl (p : Package) (o : PartId) : TouchSpec p p o :=
  ⟨rfl, Nat.le_refl _, fun _ _ _ => rfl, rfl, rfl,
   ⟨[], by simp, by simp, by simp⟩, fun h => h,
   fun k h1 h2 => absurd (Nat.lt_of_le_of_lt h1 h2) (Nat.lt_irrefl _),
   fun k h1 h2 => absurd (Nat.lt_of_le_of_lt h1 h2) (Nat.lt_irrefl _),
   rfl, rfl, rfl⟩

theorem TouchSpec.touch_trans {p q r : Package} {o : PartId}
    (ho : o < p.parts.length)
    (hko : (p.getPart o).isImage = false ∧ (p.getPart o).isGeneric = false)
    (h1 : TouchSpec p q o) (h2 : TouchSpec q r o) : TouchSpec p r o := by
  have hoq : o < q.parts.length := Nat.lt_of_lt_of_le ho h1.len
  refine ⟨h1.pres ▸ h2.pres, Nat.le_trans h1.len h2.len, ?_, ?_, ?_, ?_, ?_, ?_, ?_,
    h2.cTheme.trans h1.cTheme, h2.cMaster.trans h1.cMaster,
    h2.cLayout.trans h1.cLayout⟩
  · intro j hj hjo
    rw [h2.other j (Nat.lt_of_lt_of_le hj h1.len) hjo, h1.other j hj hjo]
  · rw [h2.ownerPname, h1.ownerPname]
  · rw [h2.ownerContent, h1.ownerContent]
  · obtain ⟨s1, hs1, hns1, ht1⟩ := h1.ownerRels
    obtain ⟨s2, hs2, hns2, ht2⟩ := h2.ownerRels
    refine ⟨s1 ++ s2, by rw [hs2, hs1, List.append_assoc], ?_, ?_⟩
    · intro rr hrr
      rcases List.mem_append.mp hrr with h | h
      · exact hns1 rr h
      · exact hns2 rr h
    · intro rr hrr
      rcases List.mem_append.mp hrr with h | h
      · rcases ht1 rr h with he | ⟨hlt, hk⟩
        · exact Or.inl he
        · refine Or.inr ⟨Nat.lt_of_lt_of_le hlt h2.len, ?_⟩
          by_cases hro : rr.2.targetPart = o
          · rw [hro] at hk
            obtain ⟨_, _, _, hi, hg, _, _⟩ :=
              kind_eq_of_content_eq h1.ownerContent
            rw [hi, hko.1, hg, hko.2] at hk
            simp at hk
          · rw [h2.other rr.2.targetPart hlt hro] at *
            exact hk
      · exact ht2 rr h
  · intro hk
    exact h2.ownerKeys (h1.ownerKeys hk)
  · intro k hk1 hk2
    by_cases hkq : k < q.parts.length
    · have hne : k ≠ o := fun he => absurd (he ▸ hk1) (Nat.not_le_of_lt ho)
      rw [h2.other k hkq hne]
      exact h1.newParts k hk1 hkq
    · exact h2.newParts k (Nat.le_of_not_lt hkq) hk2
  · intro k hk1 hk2
    by_cases hkq : k < q.parts.length
    · have hne : k ≠ o := fun he => absurd (he ▸ hk1) (Nat.not_le_of_lt ho)
      rw [h2.other k hkq hne]
      exact h1.newPartsRels k hk1 hkq
    · exact h2.newPartsRels k (Nat.le_of_not_lt hkq) hk2

/-- Branch characterization of relate_to. -/
theorem relate_to_cases (pkg : Package) (o t : PartId) (rt : RelType) :
    (∃ q, (pkg.getPart o).rels.find?
        (fun q => !q.2.isExternal && q.2.reltype == rt && q.2.targetPart == t) = some q ∧
      relate_to pkg o t rt = (pkg, q.1)) ∨
    ((pkg.getPart o).rels.find?
        (fun q => !q.2.isExternal && q.2.reltype == rt && q.2.targetPart == t) = none ∧
      relate_to pkg o t rt =
        (pkg.setPart o { pkg.getPart o with
          rels := (pkg.getPart o).rels
            ++ [(next_rId (pkg.getPart o).rels, ⟨rt, false, t, ""⟩)] },
         next_rId (pkg.getPart o).rels)) := by
  cases h : (pkg.getPart o).rels.find?
      (fun q => !q.2.isExternal && q.2.reltype == rt && q.2.targetPart == t) with
  | some q =>
    left
    exact ⟨q, rfl, by unfold relate_to; rw [h]⟩
  | none =>
    right
    exact ⟨rfl, by unfold relate_to; rw [h]⟩

/-- Branch characterization of relate_to_external. -/
theorem relate_to_external_cases (pkg : Package) (o : PartId) (tr : String)
    (rt : RelType) :
    (∃ q : RId × Rel, relate_to_external pkg o tr rt = (pkg, q.1)) ∨
    (relate_to_external pkg o tr rt =
      (pkg.setPart o { pkg.getPart o with
        rels := (pkg.getPart o).rels
          ++ [(next_rId (pkg.getPart o).rels, ⟨rt, true, 0, tr⟩)] },
       next_rId (pkg.getPart o).rels)) := by
  cases h : (pkg.getPart o).rels.find?
      (fun q => q.2.isExternal && q.2.reltype == rt && q.2.targetRef == tr) with
  | some q =>
    left
    exact ⟨q, by unfold relate_to_external; rw [h]⟩
  | none =>
    right
    unfold relate_to_external
    rw [h]

theorem themeCount_setPart (pkg : Package) (i : PartId) (p : Part)
    (hi : i < pkg.parts.length) (hk : p.isTheme = (pkg.getPart i).isTheme) :
    themeCount (pkg.setPart i p) = themeCount pkg :=
  countB_setPart Part.isTheme pkg i p hi hk

theorem masterCount_setPart (pkg : Package) (i : PartId) (p : Part)
    (hi : i < pkg.parts.length) (hk : p.isMaster = (pkg.getPart i).isMaster) :
    masterCount (pkg.setPart i p) = masterCount pkg :=
  countB_setPart Part.isMaster pkg i p hi hk

theorem layoutCount_setPart (pkg : Package) (i : PartId) (p : Part)
    (hi : i < pkg.parts.length) (hk : p.isLayout = (pkg.getPart i).isLayout) :
    layoutCount (pkg.setPart i p) = layoutCount pkg :=
  countB_setPart Part.isLayout pkg i p hi hk

theorem themeCount_setPart_rels (pkg : Package) (i : PartId) (s : List (RId × Rel))
    (hi : i < pkg.parts.length) :
    themeCount (pkg.setPart i { pkg.getPart i with rels := s }) = themeCount pkg :=
  themeCount_setPart pkg i _ hi rfl

theorem masterCount_setPart_rels (pkg : Package) (i : PartId) (s : List (RId × Rel))
    (hi : i < pkg.parts.length) :
    masterCount (pkg.setPart i { pkg.getPart i with rels := s }) = masterCount pkg :=
  masterCount_setPart pkg i _ hi rfl

theorem layoutCount_setPart_rels (pkg : Package) (i : PartId) (s : List (RId × Rel))
    (hi : i < pkg.parts.length) :
    layoutCount (pkg.setPart i { pkg.getPart i with rels := s }) = layoutCount pkg :=
  layoutCount_setPart pkg i _ hi rfl

theorem touch_setPart_rels (pkg : Package) (o : PartId)
    (s : List (RId × Rel)) (ho : o < pkg.parts.length)
    (hns : ∀ r ∈ s, r.2.reltype.isStructural = false)
    (hts : ∀ r ∈ s, r.2.isExternal = true ∨ (r.2.targetPart < pkg.parts.length ∧
      ((pkg.getPart r.2.targetPart).isImage = true ∨
       (pkg.getPart r.2.targetPart).isGeneric = true)))
    (hkeys : keysOkB (pkg.getPart o).rels = true →
      keysOkB ((pkg.getPart o).rels ++ s) = true) :
    TouchSpec pkg
      (pkg.setPart o { pkg.getPart o with rels := (pkg.getPart o).rels ++ s }) o := by
  have hself := getPart_setPart_self pkg o
    { pkg.getPart o with rels := (pkg.getPart o).rels ++ s } ho
  refine ⟨presId_setPart _ _ _, by rw [length_setPart], ?_, ?_, ?_, ?_, ?_, ?_, ?_,
    ?_, ?_, ?_⟩
  · intro j hj hjo
    exact getPart_setPart_ne pkg o j _ (fun h => hjo h.symm)
  · rw [hself]
  · rw [hself]
  · refine ⟨s, by rw [hself], hns, ?_⟩
    intro r hr
    rcases hts r hr with he | ⟨hlt, hk⟩
    · exact Or.inl he
    · refine Or.inr ⟨by rw [length_setPart]; exact hlt, ?_⟩
      by_cases hro : r.2.targetPart = o
      · rw [hro, hself]
        rw [hro] at hk
        obtain ⟨_, _, _, hi, hg, _, _⟩ :=
          kind_eq_of_content_eq
            (show ({ pkg.getPart o with
              rels := (pkg.getPart o).rels ++ s } : Part).content
              = (pkg.getPart o).content from rfl)
        rw [hi, hg]
        exact hk
      · rw [getPart_setPart_ne pkg o _ _ (fun h => hro h.symm)]
        exact hk
  · intro hk
    rw [hself]
    exact hkeys hk
  · intro k h1 h2
    rw [length_setPart] at h2
    exact absurd (Nat.lt_of_le_of_lt h1 h2) (Nat.lt_irrefl _)
  · intro k h1 h2
    rw [length_setPart] at h2
    exact absurd (Nat.lt_of_le_of_lt h1 h2) (Nat.lt_irrefl _)
  · exact themeCount_setPart pkg o _ ho rfl
  · exact masterCount_setPart pkg o _ ho rfl
  · exact layoutCount_setPart pkg o _ ho rfl

theorem touch_relate_to (pkg : Package) (o t : PartId) (rt : RelType)
    (ho : o < pkg.parts.length) (hrt : rt.isStructural = false)
    (htl : t < pkg.parts.length)
    (htk : (pkg.getPart t).isImage = true ∨ (pkg.getPart t).isGeneric = true) :
    TouchSpec pkg (relate_to pkg o t rt).1 o := by
  rcases relate_to_cases pkg o t rt with ⟨q, hf, he⟩ | ⟨hf, he⟩
  · rw [he]
    exact TouchSpec.touch_refl pkg o
  · rw [he]
    apply touch_setPart_rels pkg o _ ho
    · intro r hr
      rw [List.mem_singleton] at hr
      rw [hr]
      exact hrt
    · intro r hr
      rw [List.mem_singleton] at hr
      rw [hr]
      exact Or.inr ⟨htl, htk⟩
    · intro hk
      exact keysOk_append_fresh _ _ _ hk (next_rId_fresh _)

theorem touch_relate_to_external (pkg : Package) (o : PartId) (tr : String)
    (rt : RelType) (ho : o < pkg.parts.length) (hrt : rt.isStructural = false) :
    TouchSpec pkg (relate_to_external pkg o tr rt).1 o := by
  rcases relate_to_external_cases pkg o tr rt with ⟨q, he⟩ | he
  · rw [he]
    exact TouchSpec.touch_refl pkg o
  · rw [he]
    apply touch_setPart_rels pkg o _ ho
    · intro r hr
      rw [List.mem_singleton] at hr
      rw [hr]
      exact hrt
    · intro r hr
      rw [List.mem_singleton] at hr
      rw [hr]
      exact Or.inl rfl
    · intro hk
      exact keysOk_append_fresh _ _ _ hk (next_rId_fresh _)

theorem kinds_of_imageOrGeneric {p : Part}
    (h : p.isImage = true ∨ p.isGeneric = true) :
    p.isTheme = false ∧ p.isMaster = false ∧ p.isLayout = false := by
  unfold Part.isImage Part.isGeneric Part.isTheme Part.isMaster Part.isLayout at *
  rcases h with h | h <;> (revert h; cases p.content <;> simp)

theorem touch_addPart (pkg : Package) (o : PartId) (pt : Part)
    (ho : o < pkg.parts.length)
    (hkind : pt.isImage = true ∨ pt.isGeneric = true) (hrels : pt.rels = []) :
    TouchSpec pkg (pkg.addPart pt).1 o := by
  obtain ⟨ht, hm, hl⟩ := kinds_of_imageOrGeneric hkind
  refine ⟨presId_addPart _ _, by rw [length_addPart]; omega, ?_, ?_, ?_, ?_, ?_,
    ?_, ?_, ?_, ?_, ?_⟩
  · intro j hj hjo
    exact getPart_addPart_lt pkg pt j hj
  · rw [getPart_addPart_lt pkg pt o ho]
  · rw [getPart_addPart_lt pkg pt o ho]
  · exact ⟨[], by rw [getPart_addPart_lt pkg pt o ho, List.append_nil],
      by simp, by simp⟩
  · intro hk
    rw [getPart_addPart_lt pkg pt o ho]
    exact hk
  · intro k h1 h2
    rw [length_addPart] at h2
    have hk : k = pkg.parts.length := by omega
    rw [hk, getPart_addPart_self]
    exact hkind
  · intro k h1 h2
    rw [length_addPart] at h2
    have hk : k = pkg.parts.length := by omega
    rw [hk, getPart_addPart_self]
    exact hrels
  · rw [themeCount_eq_countB, themeCount_eq_countB, countB_addPart, ht]
    simp
  · rw [masterCount_eq_countB, masterCount_eq_countB, countB_addPart, hm]
    simp
  · rw [layoutCount_eq_countB, layoutCount_eq_countB, countB_addPart, hl]
    simp

theorem touch_get_or_add_image_part (pkg : Package) (o : PartId) (b : Blob)
    (ho : o < pkg.parts.length)
    (hko : (pkg.getPart o).isImage = false ∧ (pkg.getPart o).isGeneric = false) :
    TouchSpec pkg (get_or_add_image_part pkg o b).1 o := by
  unfold get_or_add_image_part
  split
  · rename_i i hfi
    obtain ⟨hlt, x, hx, hpx⟩ := findIdx?_spec _ _ _ hfi
    have hxi : pkg.getPart i = x := by
      rw [getPart_lt pkg i hlt] at hx
      exact Option.some.inj hx
    have himg : (pkg.getPart i).isImage = true := by
      rw [hxi]
      unfold Part.isImage
      revert hpx
      cases x.content <;> simp
    exact touch_relate_to pkg o i .image ho rfl hlt (Or.inl himg)
  · have h1 := touch_addPart pkg o
      ⟨next_partname pkg .imageT, .imageC b, []⟩ ho (Or.inl rfl) rfl
    have h2 := touch_relate_to (pkg.addPart ⟨next_partname pkg .imageT, .imageC b, []⟩).1
      o (pkg.addPart ⟨next_partname pkg .imageT, .imageC b, []⟩).2 .image
      (Nat.lt_of_lt_of_le ho h1.len) rfl
      (by rw [addPart_snd, length_addPart]; exact Nat.lt_succ_self _)
      (by rw [addPart_snd, getPart_addPart_self]; exact Or.inl rfl)
    exact TouchSpec.touch_trans ho hko h1 h2

theorem touch_copy_part_rels_go (src : Package) (o : PartId)
    (rels : List (RId × Rel)) (tgt : Package) (m : List (RId × RId))
    (ho : o < tgt.parts.length)
    (hko : (tgt.getPart o).isImage = false ∧ (tgt.getPart o).isGeneric = false)
    (HR : ∀ r ∈ rels, r.2.reltype.isStructural = false → r.2.isExternal = false →
      (src.getPart r.2.targetPart).isImage = true ∨
      (src.getPart r.2.targetPart).isGeneric = true) :
    TouchSpec tgt (copy_part_rels_go src o rels tgt m).1 o := by
  induction rels generalizing tgt m with
  | nil => exact TouchSpec.touch_refl tgt o
  | cons q rest ih =>
    rcases q with ⟨rid, rel⟩
    show TouchSpec tgt (copy_part_rels_go src o ((rid, rel) :: rest) tgt m).1 o
    unfold copy_part_rels_go
    by_cases hs : rel.reltype.isStructural
    · simp only [hs, if_true]
      exact ih tgt m ho hko (fun r hr => HR r (List.mem_cons_of_mem _ hr))
    · have hs' : rel.reltype.isStructural = false := by
        simpa using hs
      have hstep : TouchSpec tgt (if rel.isExternal then
          relate_to_external tgt o rel.targetRef rel.reltype
        else if rel.reltype == RelType.image then
          let r := get_or_add_image_part tgt o (partBlobD src rel.targetPart)
          (r.1, r.2.2)
        else
          let ap := tgt.addPart
            ⟨next_partname tgt (partname_to_template (src.getPart rel.targetPart).partname),
             (src.getPart rel.targetPart).content, []⟩
          relate_to ap.1 o ap.2 rel.reltype).1 o := by
        by_cases he : rel.isExternal
        · simpa [he] using touch_relate_to_external tgt o rel.targetRef rel.reltype ho hs'
        · by_cases hi : rel.reltype == RelType.image
          · simpa [he, hi] using
              touch_get_or_add_image_part tgt o (partBlobD src rel.targetPart) ho hko
          · simp only [he, hi, if_false, Bool.false_eq_true]
            have hkind := HR (rid, rel) (List.mem_cons_self _ _) hs' (by simpa using he)
            have hknd2 : (⟨next_partname tgt
                (partname_to_template (src.getPart rel.targetPart).partname),
                (src.getPart rel.targetPart).content, []⟩ : Part).isImage = true ∨
                (⟨next_partname tgt
                (partname_to_template (src.getPart rel.targetPart).partname),
                (src.getPart rel.targetPart).content, []⟩ : Part).isGeneric = true := by
              obtain ⟨h1, h2, h3, h4, h5, h6, h7⟩ := kind_eq_of_content_eq
                (show (⟨next_partname tgt
                  (partname_to_template (src.getPart rel.targetPart).partname),
                  (src.getPart rel.targetPart).content, []⟩ : Part).content
                  = (src.getPart rel.targetPart).content from rfl)
              rw [h4, h5]
              exact hkind
            have h1 := touch_addPart tgt o
              ⟨next_partname tgt (partname_to_template (src.getPart rel.targetPart).partname),
               (src.getPart rel.targetPart).content, []⟩ ho hknd2 rfl
            have h2 := touch_relate_to _ o
              (tgt.addPart ⟨next_partname tgt
                (partname_to_template (src.getPart rel.targetPart).partname),
                (src.getPart rel.targetPart).content, []⟩).2 rel.reltype
              (Nat.lt_of_lt_of_le ho h1.len) hs'
              (by rw [addPart_snd, length_addPart]; exact Nat.lt_succ_self _)
              (by rw [addPart_snd, getPart_addPart_self]; exact hknd2)
            exact TouchSpec.touch_trans ho hko h1 h2
      simp only [hs, if_false, Bool.false_eq_true]
      have ho2 : o < (if rel.isExternal then
          relate_to_external tgt o rel.targetRef rel.reltype
        else if rel.reltype == RelType.image then
          let r := get_or_add_image_part tgt o (partBlobD src rel.targetPart)
          (r.1, r.2.2)
        else
          let ap := tgt.addPart
            ⟨next_partname tgt (partname_to_template (src.getPart rel.targetPart).partname),
             (src.getPart rel.targetPart).content, []⟩
          relate_to ap.1 o ap.2 rel.reltype).1.parts.length :=
        Nat.lt_of_lt_of_le ho hstep.len
      exact TouchSpec.touch_trans ho hko hstep
        (ih _ _ ho2
          (by
            obtain ⟨_, _, _, hi, hg, _, _⟩ :=
              kind_eq_of_content_eq hstep.ownerContent
            exact And.intro (hi.trans hko.1) (hg.trans hko.2))
          (fun r hr => HR r (List.mem_cons_of_mem _ hr)))

/-! ## Effect summary of copy_theme_part -/

/-- Invariant on the cache restricted to theme entries: a cached source
theme part maps to a target theme part holding the same payload. -/
def CacheThemesOk (src tgt : Package) (cache : Cache) : Prop :=
  ∀ e ∈ cache, (src.getPart e.1).isTheme = true →
    e.2 < tgt.parts.length ∧ (tgt.getPart e.2).content = .themeC (partBlobD src e.1)

/-- Effect summary of copy_theme_part applied to a freshly created master
part mPid (whose relationship table is still empty). -/
structure ThemeCopySpec (src tgt q : Package) (sm mPid : PartId)
    (cache cache' : Cache) : Prop where
  pres : q.presId = tgt.presId
  len : tgt.parts.length ≤ q.parts.length
  other : ∀ j, j < tgt.parts.length → j ≠ mPid → q.getPart j = tgt.getPart j
  ownerPname : (q.getPart mPid).partname = (tgt.getPart mPid).partname
  ownerContent : (q.getPart mPid).content = (tgt.getPart mPid).content
  ownerRels : (q.getPart mPid).rels = [] ∨
    ∃ rid tp, (q.getPart mPid).rels = [(rid, ⟨RelType.theme, false, tp, ""⟩)] ∧
      tp < q.parts.length ∧
      (q.getPart tp).content = .themeC ((themeBlobOf src sm).getD "")
  blob : themeBlobOf q mPid = themeBlobOf src sm
  newParts : ∀ k, tgt.parts.length ≤ k → k < q.parts.length →
    (q.getPart k).content = .themeC ((themeBlobOf src sm).getD "") ∧
    (q.getPart k).rels = []
  cMaster : masterCount q = masterCount tgt
  cLayout : layoutCount q = layoutCount tgt
  cThemeNoTheme : part_related_by src sm .theme = none →
    themeCount q = themeCount tgt
  cThemeHit : ∀ tp t, part_related_by src sm .theme = some tp →
    cacheLookup cache tp = some t → themeCount q = themeCount tgt
  cThemeFresh : ∀ tp, part_related_by src sm .theme = some tp →
    cacheLookup cache tp = none → themeCount q = themeCount tgt + 1
  cacheNew : ∀ e ∈ cache', e ∈ cache ∨
    ((src.getPart e.1).isTheme = true ∧ e.2 < q.parts.length ∧
     (q.getPart e.2).content = .themeC (partBlobD src e.1))
  cacheOld : ∀ e ∈ cache, e ∈ cache'

theorem part_related_by_eq (pkg : Package) (pid : PartId) (rt : RelType) :
    part_related_by pkg pid rt =
      ((pkg.getPart pid).rels.find? (fun q => q.2.reltype == rt)).map
        (fun q => q.2.targetPart) := rfl

theorem themeBlobOf_eq (pkg : Package) (mid : PartId) :
    themeBlobOf pkg mid = (part_related_by pkg mid .theme).map (partBlobD pkg) := rfl

theorem partBlobD_content {pkg : Package} {pid : PartId} {b : Blob}
    (h : (pkg.getPart pid).content = .themeC b) : partBlobD pkg pid = b := by
  unfold partBlobD
  rw [h]

theorem cacheLookup_mem {cache : Cache} {k v : PartId}
    (h : cacheLookup cache k = some v) : (k, v) ∈ cache := by
  unfold cacheLookup at h
  cases hf : cache.find? (fun p => p.1 == k) with
  | none => rw [hf] at h; cases h
  | some e =>
    rw [hf] at h
    have hmem := List.mem_of_find?_eq_some hf
    have hkey := List.find?_some hf
    simp only [Option.map_some'] at h
    have h2 : e.2 = v := Option.some.inj h
    rw [beq_iff_eq] at hkey
    have he : e = (k, v) := by
      rw [← hkey, ← h2]
    rw [he] at hmem
    exact hmem

theorem copy_theme_part_noTheme (src : Package) (sm mPid : PartId)
    (tgt : Package) (cache : Cache)
    (h : part_related_by src sm .theme = none) :
    copy_theme_part src sm mPid tgt cache = (tgt, cache) := by
  simp only [copy_theme_part, h]

theorem copy_theme_part_hit (src : Package) (sm mPid : PartId)
    (tgt : Package) (cache : Cache) (tp t : PartId)
    (h1 : part_related_by src sm .theme = some tp)
    (h2 : cacheLookup cache tp = some t) :
    copy_theme_part src sm mPid tgt cache =
      ((relate_to tgt mPid t .theme).1, cache) := by
  simp only [copy_theme_part, h1, h2]

theorem copy_theme_part_fresh (src : Package) (sm mPid : PartId)
    (tgt : Package) (cache : Cache) (tp : PartId)
    (h1 : part_related_by src sm .theme = some tp)
    (h2 : cacheLookup cache tp = none) :
    copy_theme_part src sm mPid tgt cache =
      ((relate_to (tgt.addPart
            ⟨next_partname tgt .themeT, .themeC (partBlobD src tp), []⟩).1 mPid
          (tgt.addPart
            ⟨next_partname tgt .themeT, .themeC (partBlobD src tp), []⟩).2 .theme).1,
       cacheInsert cache tp (tgt.addPart
            ⟨next_partname tgt .themeT, .themeC (partBlobD src tp), []⟩).2) := by
  simp only [copy_theme_part, h1, h2]

theorem theme_copy_spec (src : Package) (sm : PartId) (tgt : Package)
    (cache : Cache) (mPid : PartId)
    (hm : mPid < tgt.parts.length)
    (hrels0 : (tgt.getPart mPid).rels = [])
    (hmC : ∃ b, (tgt.getPart mPid).content = .masterC none b)
    (hcache : CacheThemesOk src tgt cache)
    (hThemeKind : ∀ tp, part_related_by src sm .theme = some tp →
      (src.getPart tp).isTheme = true) :
    ThemeCopySpec src tgt (copy_theme_part src sm mPid tgt cache).1 sm mPid cache
      (copy_theme_part src sm mPid tgt cache).2 := by
  cases hrel : part_related_by src sm .theme with
  | none =>
    rw [copy_theme_part_noTheme src sm mPid tgt cache hrel]
    refine ⟨rfl, Nat.le_refl _, fun _ _ _ => rfl, rfl, rfl, Or.inl hrels0, ?_,
      fun k h1 h2 => absurd (Nat.lt_of_le_of_lt h1 h2) (Nat.lt_irrefl _),
      rfl, rfl, fun _ => rfl,
      fun tp t htp _ => absurd (hrel ▸ htp) (by simp),
      fun tp htp _ => absurd (hrel ▸ htp) (by simp),
      fun e he => Or.inl he, fun e he => he⟩
    rw [themeBlobOf_eq, themeBlobOf_eq, hrel, part_related_by_eq, hrels0]
    rfl
  | some tp =>
    have hblob : themeBlobOf src sm = some (partBlobD src tp) := by
      rw [themeBlobOf_eq, hrel]
      rfl
    cases hhit : cacheLookup cache tp with
    | some t =>
      have hpair := copy_theme_part_hit src sm mPid tgt cache tp t hrel hhit
      obtain ⟨htlt, htc⟩ := hcache (tp, t) (cacheLookup_mem hhit)
        (hThemeKind tp hrel)
      obtain ⟨bM, hbM⟩ := hmC
      have htne : t ≠ mPid := by
        intro he
        rw [he, hbM] at htc
        cases htc
      have hfind0 : (tgt.getPart mPid).rels.find?
          (fun q => !q.2.isExternal && q.2.reltype == RelType.theme &&
            q.2.targetPart == t) = none := by
        rw [hrels0]
        rfl
      rcases relate_to_cases tgt mPid t .theme with ⟨qq, hf, he⟩ | ⟨hf, he⟩
      · rw [hfind0] at hf
        cases hf
      · have hq1 : (copy_theme_part src sm mPid tgt cache).1 =
            tgt.setPart mPid { tgt.getPart mPid with rels := (tgt.getPart mPid).rels
              ++ [(next_rId (tgt.getPart mPid).rels, ⟨.theme, false, t, ""⟩)] } := by
          rw [hpair, he]
        have hq2 : (copy_theme_part src sm mPid tgt cache).2 = cache := by
          rw [hpair]
        rw [hq1, hq2]
        have hself := getPart_setPart_self tgt mPid
          { tgt.getPart mPid with rels := (tgt.getPart mPid).rels
              ++ [(next_rId (tgt.getPart mPid).rels, ⟨.theme, false, t, ""⟩)] } hm
        refine ⟨rfl, by rw [length_setPart], ?_, ?_, ?_, ?_, ?_, ?_, ?_, ?_, ?_,
          ?_, ?_, ?_, ?_⟩
        · intro j hj hjo
          exact getPart_setPart_ne tgt mPid j _ (fun h => hjo h.symm)
        · rw [hself]
        · rw [hself]
        · refine Or.inr ⟨next_rId (tgt.getPart mPid).rels, t, ?_, ?_, ?_⟩
          · rw [hself, hrels0]
            rfl
          · rw [length_setPart]
            exact htlt
          · rw [getPart_setPart_ne tgt mPid t _ (fun h => htne h.symm), htc,
              hblob]
            rfl
        · rw [themeBlobOf_eq, part_related_by_eq, hself, hrels0, hblob]
          simp only [List.nil_append, List.find?_cons]
          have : ((⟨.theme, false, t, ""⟩ : Rel).reltype == RelType.theme) = true := rfl
          rw [this]
          simp only [Option.map_some']
          rw [partBlobD_content (by
            rw [getPart_setPart_ne tgt mPid t _ (fun h => htne h.symm)]
            exact htc)]
        · intro k h1 h2
          rw [length_setPart] at h2
          exact absurd (Nat.lt_of_le_of_lt h1 h2) (Nat.lt_irrefl _)
        · exact masterCount_setPart tgt mPid _ hm rfl
        · exact layoutCount_setPart tgt mPid _ hm rfl
        · intro hno
          rw [hrel] at hno
          cases hno
        · intro _ _ _ _
          exact themeCount_setPart tgt mPid _ hm rfl
        · intro tp2 htp2 hmiss
          rw [hrel] at htp2
          cases htp2
          rw [hhit] at hmiss
          cases hmiss
        · intro e he
          exact Or.inl he
        · intro e he
          exact he
    | none =>
      have hadd := getPart_addPart_self tgt
        ⟨next_partname tgt .themeT, .themeC (partBlobD src tp), []⟩
      have hmlt : mPid < (tgt.addPart
          ⟨next_partname tgt .themeT, .themeC (partBlobD src tp), []⟩).1.parts.length := by
        rw [length_addPart]
        exact Nat.lt_succ_of_lt hm
      have hmrels : ((tgt.addPart
          ⟨next_partname tgt .themeT, .themeC (partBlobD src tp), []⟩).1.getPart mPid).rels
          = [] := by
        rw [getPart_addPart_lt tgt _ mPid hm]
        exact hrels0
      have hfind0 : ((tgt.addPart
          ⟨next_partname tgt .themeT, .themeC (partBlobD src tp), []⟩).1.getPart mPid).rels.find?
          (fun q => !q.2.isExternal && q.2.reltype == RelType.theme &&
            q.2.targetPart == (tgt.addPart
              ⟨next_partname tgt .themeT, .themeC (partBlobD src tp), []⟩).2) = none := by
        rw [hmrels]
        rfl
      have hmne : mPid ≠ tgt.parts.length := Nat.ne_of_lt hm
      rcases relate_to_cases (tgt.addPart
          ⟨next_partname tgt .themeT, .themeC (partBlobD src tp), []⟩).1 mPid
          (tgt.addPart ⟨next_partname tgt .themeT, .themeC (partBlobD src tp), []⟩).2
          .theme with ⟨qq, hf, he⟩ | ⟨hf, he⟩
      · rw [hfind0] at hf
        cases hf
      · have hpair := copy_theme_part_fresh src sm mPid tgt cache tp hrel hhit
        have hq1 : (copy_theme_part src sm mPid tgt cache).1 =
            (tgt.addPart
              ⟨next_partname tgt .themeT, .themeC (partBlobD src tp), []⟩).1.setPart mPid
              { (tgt.addPart
                  ⟨next_partname tgt .themeT, .themeC (partBlobD src tp), []⟩).1.getPart mPid with
                rels := ((tgt.addPart
                  ⟨next_partname tgt .themeT, .themeC (partBlobD src tp), []⟩).1.getPart mPid).rels
                  ++ [(next_rId ((tgt.addPart
                      ⟨next_partname tgt .themeT, .themeC (partBlobD src tp), []⟩).1.getPart
                        mPid).rels,
                    ⟨.theme, false, (tgt.addPart
                      ⟨next_partname tgt .themeT, .themeC (partBlobD src tp), []⟩).2, ""⟩)] } := by
          rw [hpair, he]
        have hq2 : (copy_theme_part src sm mPid tgt cache).2 =
            cacheInsert cache tp (tgt.addPart
              ⟨next_partname tgt .themeT, .themeC (partBlobD src tp), []⟩).2 := by
          rw [hpair]
        rw [hq1, hq2]
        have hself := getPart_setPart_self
          (tgt.addPart ⟨next_partname tgt .themeT, .themeC (partBlobD src tp), []⟩).1
          mPid
          { (tgt.addPart
              ⟨next_partname tgt .themeT, .themeC (partBlobD src tp), []⟩).1.getPart mPid with
            rels := ((tgt.addPart
              ⟨next_partname tgt .themeT, .themeC (partBlobD src tp), []⟩).1.getPart mPid).rels
              ++ [(next_rId ((tgt.addPart
                  ⟨next_partname tgt .themeT, .themeC (partBlobD src tp), []⟩).1.getPart
                    mPid).rels,
                ⟨.theme, false, (tgt.addPart
                  ⟨next_partname tgt .themeT, .themeC (partBlobD src tp), []⟩).2, ""⟩)] }
          hmlt
        refine ⟨rfl, by rw [length_setPart, length_addPart]; exact Nat.le_succ _, ?_, ?_, ?_,
          ?_, ?_, ?_, ?_, ?_, ?_, ?_, ?_, ?_, ?_⟩
        · intro j hj hjo
          rw [getPart_setPart_ne _ mPid j _ (fun h => hjo h.symm),
            getPart_addPart_lt tgt _ j hj]
        · rw [hself, getPart_addPart_lt tgt _ mPid hm]
        · rw [hself, getPart_addPart_lt tgt _ mPid hm]
        · refine Or.inr ⟨next_rId ((tgt.addPart
            ⟨next_partname tgt .themeT, .themeC (partBlobD src tp), []⟩).1.getPart mPid).rels,
            (tgt.addPart ⟨next_partname tgt .themeT, .themeC (partBlobD src tp), []⟩).2,
            ?_, ?_, ?_⟩
          · rw [hself, hmrels]
            rfl
          · rw [length_setPart, addPart_snd, length_addPart]
            exact Nat.lt_succ_self _
          · rw [addPart_snd,
              getPart_setPart_ne _ mPid tgt.parts.length _ hmne,
              hadd, hblob]
            rfl
        · rw [themeBlobOf_eq, part_related_by_eq, hself, hmrels, hblob]
          simp only [List.nil_append, List.find?_cons]
          have : ((⟨.theme, false, (tgt.addPart
            ⟨next_partname tgt .themeT, .themeC (partBlobD src tp), []⟩).2, ""⟩ : Rel).reltype
              == RelType.theme) = true := rfl
          rw [this]
          simp only [Option.map_some']
          rw [partBlobD_content (by
            rw [addPart_snd,
              getPart_setPart_ne _ mPid tgt.parts.length _ hmne,
              hadd])]
        · intro k h1 h2
          rw [length_setPart, length_addPart] at h2
          have hk : k = tgt.parts.length := Nat.le_antisymm (Nat.le_of_lt_succ h2) h1
          subst hk
          rw [getPart_setPart_ne _ mPid _ _ hmne, hadd, hblob]
          exact ⟨rfl, rfl⟩
        · rw [masterCount_setPart_rels _ mPid _ hmlt, masterCount_eq_countB,
            masterCount_eq_countB, countB_addPart]
          rfl
        · rw [layoutCount_setPart_rels _ mPid _ hmlt, layoutCount_eq_countB,
            layoutCount_eq_countB, countB_addPart]
          rfl
        · intro hno
          rw [hrel] at hno
          cases hno
        · intro tp2 t2 htp2 hhit2
          rw [hrel] at htp2
          cases htp2
          rw [hhit] at hhit2
          cases hhit2
        · intro tp2 htp2 _
          rw [hrel] at htp2
          cases htp2
          rw [themeCount_setPart_rels _ mPid _ hmlt, themeCount_eq_countB,
            themeCount_eq_countB, countB_addPart]
          rfl
        · intro e he
          unfold cacheInsert at he
          rcases List.mem_cons.mp he with he1 | he1
          · right
            subst he1
            refine ⟨hThemeKind tp hrel, ?_, ?_⟩
            · rw [length_setPart, addPart_snd, length_addPart]
              exact Nat.lt_succ_self _
            · rw [addPart_snd,
                getPart_setPart_ne _ mPid tgt.parts.length _ hmne,
                hadd]
          · exact Or.inl he1
        · intro e he
          unfold cacheInsert
          exact List.mem_cons_of_mem _ he

/-! ## Effect summary of copy_slide_master_part -/

theorem find?_eq_none_of_all {α : Type} {p : α → Bool} {l : List α}
    (h : ∀ x ∈ l, p x = false) : l.find? p = none :=
  List.find?_eq_none.mpr (fun x hx hp => by rw [h x hx] at hp; cases hp)

theorem relTargetsOk_bound {n : Nat} {p : Part} (h : relTargetsOkB n p = true)
    {r : RId × Rel} (hr : r ∈ p.rels) (he : r.2.isExternal = false) :
    r.2.targetPart < n := by
  unfold relTargetsOkB at h
  rw [List.all_eq_true] at h
  have h2 := h r hr
  rw [he, Bool.false_or] at h2
  exact of_decide_eq_true h2

/-- A part whose internal targets are in range has no internal relationship
aimed at an index beyond the range. -/
theorem find_rel_target_oob_none (n : Nat) (p : Part) (rt : RelType) (t : PartId)
    (h : relTargetsOkB n p = true) (ht : n ≤ t) :
    p.rels.find?
      (fun q => !q.2.isExternal && q.2.reltype == rt && q.2.targetPart == t) = none := by
  apply find?_eq_none_of_all
  intro r hr
  cases he : r.2.isExternal with
  | true => simp [he]
  | false =>
    have hb := relTargetsOk_bound h hr he
    have : (r.2.targetPart == t) = false := by
      rw [beq_eq_false_iff_ne]
      exact Nat.ne_of_lt (Nat.lt_of_lt_of_le hb ht)
    rw [this, Bool.and_false]

theorem filterMap_congr_mem {α β : Type} (l : List α) (f g : α → Option β)
    (h : ∀ a ∈ l, f a = g a) : l.filterMap f = l.filterMap g := by
  induction l with
  | nil => rfl
  | cons a rest ih =>
    rw [List.filterMap_cons, List.filterMap_cons, h a (List.mem_cons_self a rest),
      ih (fun b hb => h b (List.mem_cons_of_mem a hb))]

theorem setMasterBody_eq (pkg : Package) (mid : PartId) (x : Xml)
    {lst : Option (List RId)} {b : Xml}
    (h : (pkg.getPart mid).content = .masterC lst b) :
    setMasterBody pkg mid x =
      pkg.setPart mid { pkg.getPart mid with content := .masterC lst x } := by
  unfold setMasterBody
  rw [h]

theorem setLayoutBody_eq (pkg : Package) (lid : PartId) (x : Xml)
    {n : String} {b : Xml}
    (h : (pkg.getPart lid).content = .layoutC n b) :
    setLayoutBody pkg lid x =
      pkg.setPart lid { pkg.getPart lid with content := .layoutC n x } := by
  unfold setLayoutBody
  rw [h]

theorem appendMasterId_eq (pkg : Package) (rid : RId)
    {ml sl : List RId} {w h : Nat}
    (hc : (pkg.getPart pkg.presId).content = .presC ml sl w h) :
    appendMasterId pkg rid =
      pkg.setPart pkg.presId
        { pkg.getPart pkg.presId with content := .presC (ml ++ [rid]) sl w h } := by
  unfold appendMasterId
  rw [hc]

theorem appendLayoutId_eq (pkg : Package) (mid : PartId) (rid : RId)
    {lst : Option (List RId)} {b : Xml}
    (hc : (pkg.getPart mid).content = .masterC lst b) :
    appendLayoutId pkg mid rid =
      pkg.setPart mid
        { pkg.getPart mid with
          content := .masterC (some ((lst.getD []) ++ [rid])) b } := by
  unfold appendLayoutId
  rw [hc]

/-- Effect summary of copy_slide_master_part: the new master part mPid is
appended with its layout-id list removed, its theme copied, non-structural
relationships copied, and the presentation extended by exactly one
sldMasterIdLst entry paired with a fresh slideMaster relationship. -/
structure MasterCopySpec (src : Package) (sm : PartId) (tgt q : Package)
    (cache cache' : Cache) (mPid : PartId) : Prop where
  pres : q.presId = tgt.presId
  mPidEq : mPid = tgt.parts.length
  len : tgt.parts.length < q.parts.length
  old : ∀ j, j < tgt.parts.length → j ≠ tgt.presId → q.getPart j = tgt.getPart j
  presChange : ∀ ml sl wv hv, (tgt.getPart tgt.presId).content = .presC ml sl wv hv →
    ∃ rid, (q.getPart tgt.presId).partname = (tgt.getPart tgt.presId).partname ∧
      (q.getPart tgt.presId).content = .presC (ml ++ [rid]) sl wv hv ∧
      (q.getPart tgt.presId).rels = (tgt.getPart tgt.presId).rels ++
        [(rid, ⟨.slideMaster, false, mPid, ""⟩)] ∧
      ∀ r ∈ (tgt.getPart tgt.presId).rels, r.1 ≠ rid
  masterContent : ∃ b, (q.getPart mPid).content = .masterC none b
  masterRels : ∀ r ∈ (q.getPart mPid).rels,
    (r.2.reltype = .theme ∧ r.2.isExternal = false ∧
      r.2.targetPart < q.parts.length ∧
      (q.getPart r.2.targetPart).isTheme = true) ∨
    (r.2.reltype.isStructural = false ∧ (r.2.isExternal = true ∨
      (r.2.targetPart < q.parts.length ∧
        ((q.getPart r.2.targetPart).isImage = true ∨
         (q.getPart r.2.targetPart).isGeneric = true))))
  masterKeys : keysOkB (q.getPart mPid).rels = true
  blob : themeBlobOf q mPid = themeBlobOf src sm
  masters : slide_masters q = slide_masters tgt ++ [mPid]
  cMaster : masterCount q = masterCount tgt + 1
  cLayout : layoutCount q = layoutCount tgt
  cThemeNoTheme : part_related_by src sm .theme = none →
    themeCount q = themeCount tgt
  cThemeHit : ∀ tp t, part_related_by src sm .theme = some tp →
    cacheLookup cache tp = some t → themeCount q = themeCount tgt
  cThemeFresh : ∀ tp, part_related_by src sm .theme = some tp →
    cacheLookup cache tp = none → themeCount q = themeCount tgt + 1
  newParts : ∀ k, mPid < k → k < q.parts.length →
    ((q.getPart k).isTheme = true ∨ (q.getPart k).isImage = true ∨
     (q.getPart k).isGeneric = true) ∧ (q.getPart k).rels = []
  cacheNew : ∀ e ∈ cache', e ∈ cache ∨
    ((src.getPart e.1).isTheme = true ∧ e.2 < q.parts.length ∧
     (q.getPart e.2).content = .themeC (partBlobD src e.1))
  cacheOld : ∀ e ∈ cache, e ∈ cache'

theorem kinds_presC {p : Part} {ml sl : List RId} {w h : Nat}
    (hc : p.content = .presC ml sl w h) :
    p.isTheme = false ∧ p.isMaster = false ∧ p.isLayout = false ∧
    p.isImage = false ∧ p.isGeneric = false ∧ p.isSlide = false := by
  unfold Part.isTheme Part.isMaster Part.isLayout Part.isImage Part.isGeneric
    Part.isSlide
  rw [hc]
  exact ⟨rfl, rfl, rfl, rfl, rfl, rfl⟩

theorem kinds_masterC {p : Part} {lst : Option (List RId)} {b : Xml}
    (hc : p.content = .masterC lst b) :
    p.isTheme = false ∧ p.isMaster = true ∧ p.isLayout = false ∧
    p.isImage = false ∧ p.isGeneric = false ∧ p.isSlide = false := by
  unfold Part.isTheme Part.isMaster Part.isLayout Part.isImage Part.isGeneric
    Part.isSlide
  rw [hc]
  exact ⟨rfl, rfl, rfl, rfl, rfl, rfl⟩

theorem kinds_themeC {p : Part} {b : Blob} (hc : p.content = .themeC b) :
    p.isTheme = true ∧ p.isMaster = false ∧ p.isLayout = false ∧
    p.isImage = false ∧ p.isGeneric = false ∧ p.isSlide = false := by
  unfold Part.isTheme Part.isMaster Part.isLayout Part.isImage Part.isGeneric
    Part.isSlide
  rw [hc]
  exact ⟨rfl, rfl, rfl, rfl, rfl, rfl⟩

theorem kinds_layoutC {p : Part} {n : String} {b : Xml}
    (hc : p.content = .layoutC n b) :
    p.isTheme = false ∧ p.isMaster = false ∧ p.isLayout = true ∧
    p.isImage = false ∧ p.isGeneric = false ∧ p.isSlide = false := by
  unfold Part.isTheme Part.isMaster Part.isLayout Part.isImage Part.isGeneric
    Part.isSlide
  rw [hc]
  exact ⟨rfl, rfl, rfl, rfl, rfl, rfl⟩

theorem kinds_slideC {p : Part} {sh : List Xml} (hc : p.content = .slideC sh) :
    p.isTheme = false ∧ p.isMaster = false ∧ p.isLayout = false ∧
    p.isImage = false ∧ p.isGeneric = false ∧ p.isSlide = true := by
  unfold Part.isTheme Part.isMaster Part.isLayout Part.isImage Part.isGeneric
    Part.isSlide
  rw [hc]
  exact ⟨rfl, rfl, rfl, rfl, rfl, rfl⟩

theorem partBlobD_congr {p q : Package} {i : PartId}
    (h : (q.getPart i).content = (p.getPart i).content) :
    partBlobD q i = partBlobD p i := by
  unfold partBlobD
  rw [h]

theorem presRidsOk_master_find {pkg : Package} (h : presRidsOkB pkg = true)
    {r : RId} (hr : r ∈ presMasterIds pkg) :
    ∃ qq, (pkg.getPart pkg.presId).rels.find? (fun q => q.1 == r) = some qq ∧
      qq.2.isExternal = false ∧ (pkg.getPart qq.2.targetPart).isMaster = true := by
  unfold presRidsOkB at h
  rw [Bool.and_eq_true] at h
  have h2 := List.all_eq_true.mp h.1 r hr
  revert h2
  cases hf : (pkg.getPart pkg.presId).rels.find? (fun q => q.1 == r) with
  | none => intro h2; cases h2
  | some qq =>
    intro h2
    rw [Bool.and_eq_true] at h2
    exact ⟨qq, rfl, by simpa using h2.1, h2.2⟩

theorem presRidsOk_slide_find {pkg : Package} (h : presRidsOkB pkg = true)
    {r : RId} (hr : r ∈ presSlideIds pkg) :
    ∃ qq, (pkg.getPart pkg.presId).rels.find? (fun q => q.1 == r) = some qq ∧
      qq.2.isExternal = false ∧ (pkg.getPart qq.2.targetPart).isSlide = true := by
  unfold presRidsOkB at h
  rw [Bool.and_eq_true] at h
  have h2 := List.all_eq_true.mp h.2 r hr
  revert h2
  cases hf : (pkg.getPart pkg.presId).rels.find? (fun q => q.1 == r) with
  | none => intro h2; cases h2
  | some qq =>
    intro h2
    rw [Bool.and_eq_true] at h2
    exact ⟨qq, rfl, by simpa using h2.1, h2.2⟩

theorem find_theme_append_nonstructural (l s : List (RId × Rel))
    (hs : ∀ r ∈ s, r.2.reltype.isStructural = false) :
    (l ++ s).find? (fun q => q.2.reltype == RelType.theme) =
      l.find? (fun q => q.2.reltype == RelType.theme) := by
  cases hf : l.find? (fun q => q.2.reltype == RelType.theme) with
  | some q => exact find?_append_some _ l s q hf
  | none =>
    rw [find?_append_none _ l s hf]
    apply find?_eq_none_of_all
    intro r hr
    cases hb : (r.2.reltype == RelType.theme) with
    | false => rfl
    | true =>
      rw [beq_iff_eq] at hb
      have := hs r hr
      rw [hb] at this
      cases this

theorem themeCount_setPart_presC (pkg : Package) (i : PartId) (p : Part)
    (hi : i < pkg.parts.length) {a b : List RId} {c d : Nat}
    (h1 : p.content = .presC a b c d) {a' b' : List RId} {c' d' : Nat}
    (h2 : (pkg.getPart i).content = .presC a' b' c' d') :
    themeCount (pkg.setPart i p) = themeCount pkg :=
  themeCount_setPart pkg i p hi (by rw [(kinds_presC h1).1, (kinds_presC h2).1])

theorem masterCount_setPart_presC (pkg : Package) (i : PartId) (p : Part)
    (hi : i < pkg.parts.length) {a b : List RId} {c d : Nat}
    (h1 : p.content = .presC a b c d) {a' b' : List RId} {c' d' : Nat}
    (h2 : (pkg.getPart i).content = .presC a' b' c' d') :
    masterCount (pkg.setPart i p) = masterCount pkg :=
  masterCount_setPart pkg i p hi
    (by rw [(kinds_presC h1).2.1, (kinds_presC h2).2.1])

theorem layoutCount_setPart_presC (pkg : Package) (i : PartId) (p : Part)
    (hi : i < pkg.parts.length) {a b : List RId} {c d : Nat}
    (h1 : p.content = .presC a b c d) {a' b' : List RId} {c' d' : Nat}
    (h2 : (pkg.getPart i).content = .presC a' b' c' d') :
    layoutCount (pkg.setPart i p) = layoutCount pkg :=
  layoutCount_setPart pkg i p hi
    (by rw [(kinds_presC h1).2.2.1, (kinds_presC h2).2.2.1])

theorem master_copy_spec (src : Package) (sm : PartId) (tgt : Package)
    (cache : Cache)
    (hwf : wfB tgt = true)
    (hThemeKind : ∀ tp, part_related_by src sm .theme = some tp →
      (src.getPart tp).isTheme = true)
    (hSrcRels : ∀ r ∈ (src.getPart sm).rels, r.2.reltype.isStructural = false →
      r.2.isExternal = false →
      (src.getPart r.2.targetPart).isImage = true ∨
      (src.getPart r.2.targetPart).isGeneric = true)
    (hcache : CacheThemesOk src tgt cache) :
    MasterCopySpec src sm tgt (copy_slide_master_part src sm tgt cache).1 cache
      (copy_slide_master_part src sm tgt cache).2.1
      (copy_slide_master_part src sm tgt cache).2.2 := by
  show MasterCopySpec src sm tgt
    (appendMasterId (csmpRegister src sm tgt cache).1 (csmpRegister src sm tgt cache).2)
    cache (csmpTheme src sm tgt cache).2 (csmpAdd src sm tgt).2
  have hpok := wfB_presOk hwf
  have hp : tgt.presId < tgt.parts.length := presOkB_lt hpok
  obtain ⟨ml, sl, w0, h0, hpc⟩ := presOkB_content hpok
  obtain ⟨hpT, hpK, _, _, _⟩ := wfB_part hwf tgt.presId hp
  have hA2 : (csmpAdd src sm tgt).2 = tgt.parts.length := rfl
  have hAlen : (csmpAdd src sm tgt).1.parts.length = tgt.parts.length + 1 :=
    length_addPart tgt _
  have hApres : (csmpAdd src sm tgt).1.presId = tgt.presId := rfl
  have hAold : ∀ j, j < tgt.parts.length →
      (csmpAdd src sm tgt).1.getPart j = tgt.getPart j :=
    fun j hj => getPart_addPart_lt tgt _ j hj
  have hAm : (csmpAdd src sm tgt).1.getPart (csmpAdd src sm tgt).2 =
      ⟨next_partname tgt .masterT, .masterC none (masterBodyOf src sm), []⟩ :=
    getPart_addPart_self tgt _
  have hNeq : (csmpAdd src sm tgt).2 ≠ tgt.presId := by
    rw [hA2]
    exact (Nat.ne_of_lt hp).symm
  have hN1 : (csmpAdd src sm tgt).2 < (csmpAdd src sm tgt).1.parts.length := by
    rw [hA2, hAlen]
    exact Nat.lt_succ_self _
  have hcsmpTheme_eq : csmpTheme src sm tgt cache =
      copy_theme_part src sm (csmpAdd src sm tgt).2 (csmpAdd src sm tgt).1 cache := rfl
  have hTS : ThemeCopySpec src (csmpAdd src sm tgt).1 (csmpTheme src sm tgt cache).1
      sm (csmpAdd src sm tgt).2 cache (csmpTheme src sm tgt cache).2 := by
    rw [hcsmpTheme_eq]
    exact theme_copy_spec src sm (csmpAdd src sm tgt).1 cache (csmpAdd src sm tgt).2
      hN1 (by rw [hAm]) ⟨masterBodyOf src sm, by rw [hAm]⟩
      (fun e he hk => by
        obtain ⟨h1, h2⟩ := hcache e he hk
        refine ⟨by rw [hAlen]; exact Nat.lt_succ_of_lt h1, ?_⟩
        rw [hAold e.2 h1]
        exact h2)
      hThemeKind
  have hS2len : (csmpAdd src sm tgt).1.parts.length ≤
      (csmpTheme src sm tgt cache).1.parts.length := hTS.len
  have hN2 : (csmpAdd src sm tgt).2 < (csmpTheme src sm tgt cache).1.parts.length :=
    Nat.lt_of_lt_of_le hN1 hS2len
  have hS2m_content :
      ((csmpTheme src sm tgt cache).1.getPart (csmpAdd src sm tgt).2).content
      = .masterC none (masterBodyOf src sm) := by
    rw [hTS.ownerContent, hAm]
  have hS2pres_part : (csmpTheme src sm tgt cache).1.getPart tgt.presId =
      tgt.getPart tgt.presId := by
    rw [hTS.other tgt.presId (by rw [hAlen]; exact Nat.lt_succ_of_lt hp)
      (fun h => hNeq h.symm), hAold tgt.presId hp]
  have hcsmpRels_eq : csmpRels src sm tgt cache =
      copy_part_rels_go src (csmpAdd src sm tgt).2 (src.getPart sm).rels
        (csmpTheme src sm tgt cache).1 [] := rfl
  have hS2m_kinds := kinds_masterC hS2m_content
  have hTS3 : TouchSpec (csmpTheme src sm tgt cache).1 (csmpRels src sm tgt cache).1
      (csmpAdd src sm tgt).2 := by
    rw [hcsmpRels_eq]
    exact touch_copy_part_rels_go src (csmpAdd src sm tgt).2 (src.getPart sm).rels
      (csmpTheme src sm tgt cache).1 [] hN2
      ⟨hS2m_kinds.2.2.2.1, hS2m_kinds.2.2.2.2.1⟩ hSrcRels
  have hS3len : (csmpTheme src sm tgt cache).1.parts.length ≤
      (csmpRels src sm tgt cache).1.parts.length := hTS3.len
  have hN3 : (csmpAdd src sm tgt).2 < (csmpRels src sm tgt cache).1.parts.length :=
    Nat.lt_of_lt_of_le hN2 hS3len
  have htlen3 : tgt.parts.length < (csmpRels src sm tgt cache).1.parts.length := by
    have h := hN3
    rw [hA2] at h
    exact h
  have hp3 : tgt.presId < (csmpRels src sm tgt cache).1.parts.length :=
    Nat.lt_trans hp htlen3
  have hS3m_content :
      ((csmpRels src sm tgt cache).1.getPart (csmpAdd src sm tgt).2).content
      = .masterC none (masterBodyOf src sm) := by
    rw [hTS3.ownerContent, hS2m_content]
  have hS3pres_part : (csmpRels src sm tgt cache).1.getPart tgt.presId =
      tgt.getPart tgt.presId := by
    rw [hTS3.other tgt.presId
      (Nat.lt_of_lt_of_le (by rw [hAlen]; exact Nat.lt_succ_of_lt hp) hS2len)
      (fun h => hNeq h.symm), hS2pres_part]
  have hS3old : ∀ j, j < tgt.parts.length →
      (csmpRels src sm tgt cache).1.getPart j = tgt.getPart j := by
    intro j hj
    have hjne : j ≠ (csmpAdd src sm tgt).2 := by
      rw [hA2]
      exact Nat.ne_of_lt hj
    rw [hTS3.other j
      (Nat.lt_of_lt_of_le (by rw [hAlen]; exact Nat.lt_succ_of_lt hj) hS2len) hjne,
      hTS.other j (by rw [hAlen]; exact Nat.lt_succ_of_lt hj) hjne, hAold j hj]
  have hS4 : (csmpRemap src sm tgt cache).presId = (csmpRels src sm tgt cache).1.presId ∧
      (csmpRemap src sm tgt cache).parts.length =
        (csmpRels src sm tgt cache).1.parts.length ∧
      (∀ j, j ≠ (csmpAdd src sm tgt).2 →
        (csmpRemap src sm tgt cache).getPart j =
          (csmpRels src sm tgt cache).1.getPart j) ∧
      ((csmpRemap src sm tgt cache).getPart (csmpAdd src sm tgt).2).rels =
        ((csmpRels src sm tgt cache).1.getPart (csmpAdd src sm tgt).2).rels ∧
      (∃ b, ((csmpRemap src sm tgt cache).getPart (csmpAdd src sm tgt).2).content =
        .masterC none b) ∧
      themeCount (csmpRemap src sm tgt cache) =
        themeCount (csmpRels src sm tgt cache).1 ∧
      masterCount (csmpRemap src sm tgt cache) =
        masterCount (csmpRels src sm tgt cache).1 ∧
      layoutCount (csmpRemap src sm tgt cache) =
        layoutCount (csmpRels src sm tgt cache).1 := by
    unfold csmpRemap
    split
    · exact ⟨rfl, rfl, fun j _ => rfl, rfl, ⟨masterBodyOf src sm, hS3m_content⟩,
        rfl, rfl, rfl⟩
    · rw [setMasterBody_eq _ _ _ hS3m_content]
      have hself := getPart_setPart_self (csmpRels src sm tgt cache).1
        (csmpAdd src sm tgt).2
        { (csmpRels src sm tgt cache).1.getPart (csmpAdd src sm tgt).2 with
          content := .masterC none (remap_rids (csmpRels src sm tgt cache).2
            (masterBodyOf src sm)) } hN3
      refine ⟨rfl, length_setPart _ _ _, ?_, ?_, ?_, ?_, ?_, ?_⟩
      · intro j hj
        exact getPart_setPart_ne _ _ j _ (fun h => hj h.symm)
      · rw [hself]
      · exact ⟨remap_rids (csmpRels src sm tgt cache).2 (masterBodyOf src sm),
          by rw [hself]⟩
      · exact themeCount_setPart _ _ _ hN3
          (by rw [(kinds_masterC hS3m_content).1]; rfl)
      · exact masterCount_setPart _ _ _ hN3
          (by rw [(kinds_masterC hS3m_content).2.1]; rfl)
      · exact layoutCount_setPart _ _ _ hN3
          (by rw [(kinds_masterC hS3m_content).2.2.1]; rfl)
  obtain ⟨h4pres, h4len, h4other, h4rels, h4content, h4theme, h4master, h4layout⟩ := hS4
  have hS3presId : (csmpRels src sm tgt cache).1.presId = tgt.presId := by
    rw [hTS3.pres, hTS.pres, hApres]
  have hS4presId : (csmpRemap src sm tgt cache).presId = tgt.presId := by
    rw [h4pres, hS3presId]
  have hS4pres_part : (csmpRemap src sm tgt cache).getPart tgt.presId =
      tgt.getPart tgt.presId := by
    rw [h4other tgt.presId (fun h => hNeq h.symm), hS3pres_part]
  have hp4 : tgt.presId < (csmpRemap src sm tgt cache).parts.length := by
    rw [h4len]
    exact hp3
  have hfindE : ((csmpRemap src sm tgt cache).getPart
      (csmpRemap src sm tgt cache).presId).rels.find?
      (fun q => !q.2.isExternal && q.2.reltype == RelType.slideMaster &&
        q.2.targetPart == (csmpAdd src sm tgt).2) = none := by
    rw [hS4presId, hS4pres_part, hA2]
    exact find_rel_target_oob_none tgt.parts.length _ RelType.slideMaster
      tgt.parts.length hpT (Nat.le_refl _)
  rcases relate_to_cases (csmpRemap src sm tgt cache)
      (csmpRemap src sm tgt cache).presId (csmpAdd src sm tgt).2 .slideMaster with
    ⟨qq, hf, _⟩ | ⟨_, he⟩
  · rw [hfindE] at hf
    cases hf
  have hreg1 : (csmpRegister src sm tgt cache).1 =
      (csmpRemap src sm tgt cache).setPart tgt.presId
        { tgt.getPart tgt.presId with
          rels := (tgt.getPart tgt.presId).rels ++
            [(next_rId (tgt.getPart tgt.presId).rels,
              ⟨.slideMaster, false, (csmpAdd src sm tgt).2, ""⟩)] } := by
    show (relate_to (csmpRemap src sm tgt cache) (csmpRemap src sm tgt cache).presId
      (csmpAdd src sm tgt).2 .slideMaster).1 = _
    rw [he, hS4presId, hS4pres_part]
  have hreg2 : (csmpRegister src sm tgt cache).2 =
      next_rId (tgt.getPart tgt.presId).rels := by
    show (relate_to (csmpRemap src sm tgt cache) (csmpRemap src sm tgt cache).presId
      (csmpAdd src sm tgt).2 .slideMaster).2 = _
    rw [he, hS4presId, hS4pres_part]
  have hS5len : (csmpRegister src sm tgt cache).1.parts.length =
      (csmpRemap src sm tgt cache).parts.length := by
    rw [hreg1, length_setPart]
  have hS5presId : (csmpRegister src sm tgt cache).1.presId = tgt.presId := by
    rw [hreg1, presId_setPart, hS4presId]
  have hS5pres_part : (csmpRegister src sm tgt cache).1.getPart tgt.presId =
      { tgt.getPart tgt.presId with
        rels := (tgt.getPart tgt.presId).rels ++
          [(next_rId (tgt.getPart tgt.presId).rels,
            ⟨.slideMaster, false, (csmpAdd src sm tgt).2, ""⟩)] } := by
    rw [hreg1]
    exact getPart_setPart_self _ _ _ hp4
  have hp5 : tgt.presId < (csmpRegister src sm tgt cache).1.parts.length := by
    rw [hS5len]
    exact hp4
  have hS5pc : ((csmpRegister src sm tgt cache).1.getPart
      (csmpRegister src sm tgt cache).1.presId).content = .presC ml sl w0 h0 := by
    rw [hS5presId, hS5pres_part]
    exact hpc
  have happF : appendMasterId (csmpRegister src sm tgt cache).1
      (csmpRegister src sm tgt cache).2 =
      (csmpRegister src sm tgt cache).1.setPart
        (csmpRegister src sm tgt cache).1.presId
        { (csmpRegister src sm tgt cache).1.getPart
            (csmpRegister src sm tgt cache).1.presId with
          content := .presC (ml ++ [(csmpRegister src sm tgt cache).2]) sl w0 h0 } :=
    appendMasterId_eq _ _ hS5pc
  rw [hS5presId, hS5pres_part] at happF
  conv at happF => rhs; rw [hreg2]
  have hFpresId : (appendMasterId (csmpRegister src sm tgt cache).1
      (csmpRegister src sm tgt cache).2).presId = tgt.presId := by
    rw [happF, presId_setPart, hS5presId]
  have hFlen : (appendMasterId (csmpRegister src sm tgt cache).1
      (csmpRegister src sm tgt cache).2).parts.length =
      (csmpRemap src sm tgt cache).parts.length := by
    rw [happF, length_setPart, hS5len]
  have hFpres_part : (appendMasterId (csmpRegister src sm tgt cache).1
      (csmpRegister src sm tgt cache).2).getPart tgt.presId =
      { partname := (tgt.getPart tgt.presId).partname,
        content := .presC (ml ++ [next_rId (tgt.getPart tgt.presId).rels]) sl w0 h0,
        rels := (tgt.getPart tgt.presId).rels ++
          [(next_rId (tgt.getPart tgt.presId).rels,
            ⟨.slideMaster, false, (csmpAdd src sm tgt).2, ""⟩)] } := by
    rw [happF]
    exact getPart_setPart_self _ _ _ hp5
  have hstable : ∀ u, u ≠ (csmpAdd src sm tgt).2 → u ≠ tgt.presId →
      (appendMasterId (csmpRegister src sm tgt cache).1
        (csmpRegister src sm tgt cache).2).getPart u =
      (csmpRels src sm tgt cache).1.getPart u := by
    intro u hu1 hu2
    rw [happF, getPart_setPart_ne _ _ _ _ (fun h => hu2 h.symm),
      hreg1, getPart_setPart_ne _ _ _ _ (fun h => hu2 h.symm), h4other u hu1]
  have hstable2 : ∀ u, u ≠ (csmpAdd src sm tgt).2 → u ≠ tgt.presId →
      u < (csmpTheme src sm tgt cache).1.parts.length →
      (appendMasterId (csmpRegister src sm tgt cache).1
        (csmpRegister src sm tgt cache).2).getPart u =
      (csmpTheme src sm tgt cache).1.getPart u := by
    intro u hu1 hu2 hu3
    rw [hstable u hu1 hu2, hTS3.other u hu3 hu1]
  have hFmEq : (appendMasterId (csmpRegister src sm tgt cache).1
      (csmpRegister src sm tgt cache).2).getPart (csmpAdd src sm tgt).2 =
      (csmpRemap src sm tgt cache).getPart (csmpAdd src sm tgt).2 := by
    rw [happF, getPart_setPart_ne _ _ _ _ (fun h => hNeq h.symm),
      hreg1, getPart_setPart_ne _ _ _ _ (fun h => hNeq h.symm)]
  have hS4pcT : ((csmpRemap src sm tgt cache).getPart tgt.presId).content =
      .presC ml sl w0 h0 := by
    rw [hS4pres_part]
    exact hpc
  have hS5pcT : ((csmpRegister src sm tgt cache).1.getPart tgt.presId).content =
      .presC ml sl w0 h0 := by
    rw [hS5pres_part]
    exact hpc
  have hEtheme : themeCount (csmpRegister src sm tgt cache).1 =
      themeCount (csmpRemap src sm tgt cache) := by
    rw [hreg1]
    exact themeCount_setPart_presC _ _ _ hp4 hpc hS4pcT
  have hEmaster : masterCount (csmpRegister src sm tgt cache).1 =
      masterCount (csmpRemap src sm tgt cache) := by
    rw [hreg1]
    exact masterCount_setPart_presC _ _ _ hp4 hpc hS4pcT
  have hElayout : layoutCount (csmpRegister src sm tgt cache).1 =
      layoutCount (csmpRemap src sm tgt cache) := by
    rw [hreg1]
    exact layoutCount_setPart_presC _ _ _ hp4 hpc hS4pcT
  have hFtheme : themeCount (appendMasterId (csmpRegister src sm tgt cache).1
      (csmpRegister src sm tgt cache).2) =
      themeCount (csmpTheme src sm tgt cache).1 := by
    rw [happF]
    exact (themeCount_setPart_presC _ _ _ hp5 rfl hS5pcT).trans
      ((hEtheme.trans h4theme).trans hTS3.cTheme)
  have hFmaster : masterCount (appendMasterId (csmpRegister src sm tgt cache).1
      (csmpRegister src sm tgt cache).2) =
      masterCount (csmpTheme src sm tgt cache).1 := by
    rw [happF]
    exact (masterCount_setPart_presC _ _ _ hp5 rfl hS5pcT).trans
      ((hEmaster.trans h4master).trans hTS3.cMaster)
  have hFlayout : layoutCount (appendMasterId (csmpRegister src sm tgt cache).1
      (csmpRegister src sm tgt cache).2) =
      layoutCount (csmpTheme src sm tgt cache).1 := by
    rw [happF]
    exact (layoutCount_setPart_presC _ _ _ hp5 rfl hS5pcT).trans
      ((hElayout.trans h4layout).trans hTS3.cLayout)
  have hAeq : csmpAdd src sm tgt = tgt.addPart
      ⟨next_partname tgt .masterT, .masterC none (masterBodyOf src sm), []⟩ := rfl
  have hS1theme : themeCount (csmpAdd src sm tgt).1 = themeCount tgt := by
    rw [themeCount_eq_countB, themeCount_eq_countB, hAeq, countB_addPart]
    rfl
  have hS1master : masterCount (csmpAdd src sm tgt).1 = masterCount tgt + 1 := by
    rw [masterCount_eq_countB, masterCount_eq_countB, hAeq, countB_addPart]
    rfl
  have hS1layout : layoutCount (csmpAdd src sm tgt).1 = layoutCount tgt := by
    rw [layoutCount_eq_countB, layoutCount_eq_countB, hAeq, countB_addPart]
    rfl
  refine ⟨hFpresId, hA2, ?_, ?_, ?_, ?_, ?_, ?_, ?_, ?_, ?_, ?_, ?_, ?_, ?_, ?_,
    ?_, ?_⟩
  · -- len
    rw [hFlen, h4len]
    exact htlen3
  · -- old
    intro j hj hjp
    rw [hstable j (by rw [hA2]; exact Nat.ne_of_lt hj) hjp, hS3old j hj]
  · -- presChange
    intro ml' sl' w' h' hpc'
    rw [hpc] at hpc'
    cases hpc'
    refine ⟨next_rId (tgt.getPart tgt.presId).rels, ?_, ?_, ?_,
      next_rId_fresh (tgt.getPart tgt.presId).rels⟩
    · rw [hFpres_part]
    · rw [hFpres_part]
    · rw [hFpres_part]
  · -- masterContent
    rw [hFmEq]
    exact h4content
  · -- masterRels
    rw [hFmEq, h4rels]
    obtain ⟨s3, hs3eq, hs3ns, hs3t⟩ := hTS3.ownerRels
    rw [hs3eq]
    intro r hr
    rcases List.mem_append.mp hr with hr2 | hr3
    · rcases hTS.ownerRels with h0 | ⟨rid', tp', heq, hlt', hct'⟩
      · rw [h0] at hr2
        cases hr2
      · rw [heq, List.mem_singleton] at hr2
        subst hr2
        left
        refine ⟨rfl, rfl, ?_, ?_⟩
        · rw [hFlen, h4len]
          exact Nat.lt_of_lt_of_le hlt' hS3len
        · have htp'N : tp' ≠ (csmpAdd src sm tgt).2 := by
            intro hEq
            rw [hEq, hS2m_content] at hct'
            cases hct'
          have htp'P : tp' ≠ tgt.presId := by
            intro hEq
            rw [hEq, hS2pres_part, hpc] at hct'
            cases hct'
          rw [hstable2 tp' htp'N htp'P hlt']
          exact (kinds_themeC hct').1
    · right
      refine ⟨hs3ns r hr3, ?_⟩
      rcases hs3t r hr3 with hext | ⟨hlt3, hk3⟩
      · exact Or.inl hext
      · have hS3p_kinds := kinds_presC
          (show ((csmpRels src sm tgt cache).1.getPart tgt.presId).content =
            .presC ml sl w0 h0 from by rw [hS3pres_part]; exact hpc)
        have huN : r.2.targetPart ≠ (csmpAdd src sm tgt).2 := by
          intro hEq
          rw [hEq] at hk3
          rcases hk3 with h | h
          · rw [(kinds_masterC hS3m_content).2.2.2.1] at h
            cases h
          · rw [(kinds_masterC hS3m_content).2.2.2.2.1] at h
            cases h
        have huP : r.2.targetPart ≠ tgt.presId := by
          intro hEq
          rw [hEq] at hk3
          rcases hk3 with h | h
          · rw [hS3p_kinds.2.2.2.1] at h
            cases h
          · rw [hS3p_kinds.2.2.2.2.1] at h
            cases h
        refine Or.inr ⟨by rw [hFlen, h4len]; exact hlt3, ?_⟩
        rw [hstable r.2.targetPart huN huP]
        exact hk3
  · -- masterKeys
    rw [hFmEq, h4rels]
    apply hTS3.ownerKeys
    rcases hTS.ownerRels with h0 | ⟨rid', tp', heq, _, _⟩
    · rw [h0]
      rfl
    · rw [heq]
      rfl
  · -- blob
    have hkey : themeBlobOf (appendMasterId (csmpRegister src sm tgt cache).1
        (csmpRegister src sm tgt cache).2) (csmpAdd src sm tgt).2 =
        themeBlobOf (csmpTheme src sm tgt cache).1 (csmpAdd src sm tgt).2 := by
      obtain ⟨s3, hs3eq, hs3ns, hs3t⟩ := hTS3.ownerRels
      rw [themeBlobOf_eq, themeBlobOf_eq, part_related_by_eq, part_related_by_eq,
        hFmEq, h4rels, hs3eq, find_theme_append_nonstructural _ _ hs3ns]
      cases hff : ((csmpTheme src sm tgt cache).1.getPart
          (csmpAdd src sm tgt).2).rels.find?
          (fun q => q.2.reltype == RelType.theme) with
      | none => rfl
      | some qf =>
        simp only [Option.map_some']
        have hqmem := List.mem_of_find?_eq_some hff
        rcases hTS.ownerRels with h0 | ⟨rid', tp', heq, hlt', hct'⟩
        · rw [h0] at hqmem
          cases hqmem
        · rw [heq, List.mem_singleton] at hqmem
          subst hqmem
          have htp'N : tp' ≠ (csmpAdd src sm tgt).2 := by
            intro hEq
            rw [hEq, hS2m_content] at hct'
            cases hct'
          have htp'P : tp' ≠ tgt.presId := by
            intro hEq
            rw [hEq, hS2pres_part, hpc] at hct'
            cases hct'
          rw [partBlobD_congr (show ((appendMasterId
              (csmpRegister src sm tgt cache).1
              (csmpRegister src sm tgt cache).2).getPart tp').content =
            (((csmpTheme src sm tgt cache).1.getPart tp')).content from by
              rw [hstable2 tp' htp'N htp'P hlt'])]
    rw [hkey]
    exact hTS.blob
  · -- masters
    unfold slide_masters
    have hpmF : presMasterIds (appendMasterId (csmpRegister src sm tgt cache).1
        (csmpRegister src sm tgt cache).2) =
        ml ++ [next_rId (tgt.getPart tgt.presId).rels] := by
      unfold presMasterIds
      rw [hFpresId, hFpres_part]
    have hpmT : presMasterIds tgt = ml := by
      unfold presMasterIds
      rw [hpc]
    have hFprels : ((appendMasterId (csmpRegister src sm tgt cache).1
        (csmpRegister src sm tgt cache).2).getPart tgt.presId).rels =
        (tgt.getPart tgt.presId).rels ++
          [(next_rId (tgt.getPart tgt.presId).rels,
            ⟨.slideMaster, false, (csmpAdd src sm tgt).2, ""⟩)] := by
      rw [hFpres_part]
    rw [hpmF, hpmT, List.filterMap_append]
    have h1 : ml.filterMap (resolveRel (appendMasterId
        (csmpRegister src sm tgt cache).1 (csmpRegister src sm tgt cache).2)
        (appendMasterId (csmpRegister src sm tgt cache).1
          (csmpRegister src sm tgt cache).2).presId) =
        ml.filterMap (resolveRel tgt tgt.presId) := by
      apply filterMap_congr_mem
      intro r hr
      obtain ⟨qq, hfq, _, _⟩ := presRidsOk_master_find (wfB_presRidsOk hwf)
        (show r ∈ presMasterIds tgt from by rw [hpmT]; exact hr)
      unfold resolveRel
      rw [hFpresId, hFprels, find?_append_some _ _ _ qq hfq, hfq]
    have h2 : [next_rId (tgt.getPart tgt.presId).rels].filterMap
        (resolveRel (appendMasterId (csmpRegister src sm tgt cache).1
          (csmpRegister src sm tgt cache).2)
          (appendMasterId (csmpRegister src sm tgt cache).1
            (csmpRegister src sm tgt cache).2).presId) =
        [(csmpAdd src sm tgt).2] := by
      rw [List.filterMap_cons, List.filterMap_nil]
      have hres : resolveRel (appendMasterId (csmpRegister src sm tgt cache).1
          (csmpRegister src sm tgt cache).2)
          (appendMasterId (csmpRegister src sm tgt cache).1
            (csmpRegister src sm tgt cache).2).presId
          (next_rId (tgt.getPart tgt.presId).rels) =
          some (csmpAdd src sm tgt).2 := by
        unfold resolveRel
        have hb : (next_rId (tgt.getPart tgt.presId).rels ==
            next_rId (tgt.getPart tgt.presId).rels) = true := beq_self_eq_true _
        rw [hFpresId, hFprels, find?_append_none _ _ _
          (find?_eq_none_of_all (fun q hq => by
            rw [beq_eq_false_iff_ne]
            exact next_rId_fresh (tgt.getPart tgt.presId).rels q hq))]
        simp only [List.find?_cons, hb, if_true, Option.map_some']
      rw [hres]
    rw [h1, h2]
  · -- cMaster
    rw [hFmaster, hTS.cMaster, hS1master]
  · -- cLayout
    rw [hFlayout, hTS.cLayout, hS1layout]
  · -- cThemeNoTheme
    intro h
    rw [hFtheme, hTS.cThemeNoTheme h, hS1theme]
  · -- cThemeHit
    intro tp t h1 h2
    rw [hFtheme, hTS.cThemeHit tp t h1 h2, hS1theme]
  · -- cThemeFresh
    intro tp h1 h2
    rw [hFtheme, hTS.cThemeFresh tp h1 h2, hS1theme]
  · -- newParts
    intro k hk1 hk2
    have hk1' : tgt.parts.length < k := by
      rw [hA2] at hk1
      exact hk1
    have hkN : k ≠ (csmpAdd src sm tgt).2 := by
      rw [hA2]
      exact (Nat.ne_of_lt hk1').symm
    have hkP : k ≠ tgt.presId := (Nat.ne_of_lt (Nat.lt_trans hp hk1')).symm
    rw [hFlen, h4len] at hk2
    by_cases hkS2 : k < (csmpTheme src sm tgt cache).1.parts.length
    · have hnew := hTS.newParts k (by rw [hAlen]; exact hk1') hkS2
      rw [hstable2 k hkN hkP hkS2]
      exact ⟨Or.inl (kinds_themeC hnew.1).1, hnew.2⟩
    · have hnew := hTS3.newParts k (Nat.le_of_not_lt hkS2) hk2
      have hnew2 := hTS3.newPartsRels k (Nat.le_of_not_lt hkS2) hk2
      rw [hstable k hkN hkP]
      exact ⟨Or.inr hnew, hnew2⟩
  · -- cacheNew
    intro e he
    rcases hTS.cacheNew e he with h | ⟨hk, hlt2, hc2⟩
    · exact Or.inl h
    · right
      have heN : e.2 ≠ (csmpAdd src sm tgt).2 := by
        intro hEq
        rw [hEq, hS2m_content] at hc2
        cases hc2
      have heP : e.2 ≠ tgt.presId := by
        intro hEq
        rw [hEq, hS2pres_part, hpc] at hc2
        cases hc2
      refine ⟨hk, ?_, ?_⟩
      · rw [hFlen, h4len]
        exact Nat.lt_of_lt_of_le hlt2 hS3len
      · rw [hstable2 e.2 heN heP hlt2]
        exact hc2
  · -- cacheOld
    exact hTS.cacheOld

/-! ## Preservation of well-formedness by the master copy -/

theorem relTargetsOk_mono {n m : Nat} (h : n ≤ m) {p : Part}
    (hp : relTargetsOkB n p = true) : relTargetsOkB m p = true := by
  unfold relTargetsOkB at hp ⊢
  rw [List.all_eq_true] at hp ⊢
  intro r hr
  have hr2 := hp r hr
  cases he : r.2.isExternal with
  | true => rfl
  | false =>
    rw [he, Bool.false_or] at hr2
    rw [Bool.false_or]
    exact decide_eq_true (Nat.lt_of_lt_of_le (of_decide_eq_true hr2) h)

theorem all_parts_of_getPart (pkg : Package) (f : Part → Bool)
    (h : ∀ i, i < pkg.parts.length → f (pkg.getPart i) = true) :
    pkg.parts.all f = true := by
  rw [List.all_eq_true]
  intro p hp
  obtain ⟨i, hi, hgi⟩ := List.mem_iff_getElem.mp hp
  have h2 := h i hi
  have h3 : pkg.getPart i = p := by
    have h4 := getPart_lt pkg i hi
    rw [List.getElem?_eq_getElem hi, hgi] at h4
    exact (Option.some.inj h4).symm
  rw [h3] at h2
  exact h2

theorem content_of_isTheme {p : Part} (h : p.isTheme = true) :
    ∃ b, p.content = .themeC b := by
  unfold Part.isTheme at h
  revert h
  cases hc : p.content <;> simp

theorem content_of_isImage {p : Part} (h : p.isImage = true) :
    ∃ b, p.content = .imageC b := by
  unfold Part.isImage at h
  revert h
  cases hc : p.content <;> simp

theorem content_of_isGeneric {p : Part} (h : p.isGeneric = true) :
    ∃ ct b, p.content = .genericC ct b := by
  unfold Part.isGeneric at h
  revert h
  cases hc : p.content <;> simp

theorem content_of_isMaster {p : Part} (h : p.isMaster = true) :
    ∃ lst b, p.content = .masterC lst b := by
  unfold Part.isMaster at h
  revert h
  cases hc : p.content <;> simp

theorem content_of_isLayout {p : Part} (h : p.isLayout = true) :
    ∃ n b, p.content = .layoutC n b := by
  unfold Part.isLayout at h
  revert h
  cases hc : p.content <;> simp

theorem masterPartOkB_mono {pkg pkg' : Package} {p : Part} {n : Nat}
    (hT : relTargetsOkB n p = true)
    (hk : ∀ t, t < n →
      (pkg'.getPart t).isLayout = (pkg.getPart t).isLayout ∧
      (pkg'.getPart t).isTheme = (pkg.getPart t).isTheme ∧
      (pkg'.getPart t).isImage = (pkg.getPart t).isImage ∧
      (pkg'.getPart t).isGeneric = (pkg.getPart t).isGeneric)
    (h : masterPartOkB pkg p = true) : masterPartOkB pkg' p = true := by
  cases hc : p.content
  case masterC lst b =>
    simp only [masterPartOkB, hc] at h ⊢
    rw [Bool.and_eq_true, Bool.and_eq_true] at h
    obtain ⟨⟨h1, h2⟩, h3⟩ := h
    rw [Bool.and_eq_true, Bool.and_eq_true]
    refine ⟨⟨?_, ?_⟩, ?_⟩
    · rw [List.all_eq_true] at h1 ⊢
      intro rid hrid
      have hr2 := h1 rid hrid
      cases hf : p.rels.find? (fun q => q.1 == rid) with
      | none =>
        rw [hf] at hr2
        cases hr2
      | some qq =>
        rw [hf] at hr2
        have hr3 : (!qq.2.isExternal &&
            (pkg.getPart qq.2.targetPart).isLayout) = true := hr2
        rw [Bool.and_eq_true] at hr3
        have hmem := List.mem_of_find?_eq_some hf
        have hext : qq.2.isExternal = false := by simpa using hr3.1
        have hbound := relTargetsOk_bound hT hmem hext
        show (!qq.2.isExternal && (pkg'.getPart qq.2.targetPart).isLayout) = true
        rw [Bool.and_eq_true]
        exact ⟨hr3.1, by rw [(hk _ hbound).1]; exact hr3.2⟩
    · rw [List.all_eq_true] at h2 ⊢
      intro r hr
      have hr2 := h2 r hr
      cases hrt : (r.2.reltype != RelType.theme) with
      | true => rfl
      | false =>
        rw [hrt, Bool.false_or, Bool.and_eq_true] at hr2
        rw [Bool.false_or, Bool.and_eq_true]
        have hext : r.2.isExternal = false := by simpa using hr2.1
        have hbound := relTargetsOk_bound hT hr hext
        exact ⟨hr2.1, by rw [(hk _ hbound).2.1]; exact hr2.2⟩
    · rw [List.all_eq_true] at h3 ⊢
      intro r hr
      have hr2 := h3 r hr
      cases hs : r.2.reltype.isStructural with
      | true => rfl
      | false =>
        rw [hs, Bool.false_or] at hr2
        rw [Bool.false_or]
        cases he : r.2.isExternal with
        | true => rfl
        | false =>
          rw [he, Bool.false_or] at hr2
          rw [Bool.false_or]
          have hbound := relTargetsOk_bound hT hr he
          rw [(hk _ hbound).2.2.1, (hk _ hbound).2.2.2]
          exact hr2
  all_goals simp only [masterPartOkB, hc]

theorem layoutPartOkB_mono {pkg pkg' : Package} {p : Part} {n : Nat}
    (hT : relTargetsOkB n p = true)
    (hk : ∀ t, t < n →
      (pkg'.getPart t).isMaster = (pkg.getPart t).isMaster ∧
      (pkg'.getPart t).isImage = (pkg.getPart t).isImage ∧
      (pkg'.getPart t).isGeneric = (pkg.getPart t).isGeneric)
    (h : layoutPartOkB pkg p = true) : layoutPartOkB pkg' p = true := by
  cases hc : p.content
  case layoutC nm b =>
    simp only [layoutPartOkB, hc] at h ⊢
    rw [Bool.and_eq_true] at h
    obtain ⟨h1, h2⟩ := h
    rw [Bool.and_eq_true]
    constructor
    · rw [List.all_eq_true] at h1 ⊢
      intro r hr
      have hr2 := h1 r hr
      cases hrt : (r.2.reltype != RelType.slideMaster) with
      | true => rfl
      | false =>
        rw [hrt, Bool.false_or, Bool.and_eq_true] at hr2
        rw [Bool.false_or, Bool.and_eq_true]
        have hext : r.2.isExternal = false := by simpa using hr2.1
        have hbound := relTargetsOk_bound hT hr hext
        exact ⟨hr2.1, by rw [(hk _ hbound).1]; exact hr2.2⟩
    · rw [List.all_eq_true] at h2 ⊢
      intro r hr
      have hr2 := h2 r hr
      cases hs : r.2.reltype.isStructural with
      | true => rfl
      | false =>
        rw [hs, Bool.false_or] at hr2
        rw [Bool.false_or]
        cases he : r.2.isExternal with
        | true => rfl
        | false =>
          rw [he, Bool.false_or] at hr2
          rw [Bool.false_or]
          have hbound := relTargetsOk_bound hT hr he
          rw [(hk _ hbound).2.1, (hk _ hbound).2.2]
          exact hr2
  all_goals simp only [layoutPartOkB, hc]

theorem slidePartOkB_mono {pkg pkg' : Package} {p : Part} {n : Nat}
    (hT : relTargetsOkB n p = true)
    (hk : ∀ t, t < n →
      (pkg'.getPart t).isLayout = (pkg.getPart t).isLayout)
    (h : slidePartOkB pkg p = true) : slidePartOkB pkg' p = true := by
  cases hc : p.content
  case slideC sh =>
    simp only [slidePartOkB, hc] at h ⊢
    rw [List.all_eq_true] at h ⊢
    intro r hr
    have hr2 := h r hr
    cases hrt : (r.2.reltype != RelType.slideLayout) with
    | true => rfl
    | false =>
      rw [hrt, Bool.false_or, Bool.and_eq_true] at hr2
      rw [Bool.false_or, Bool.and_eq_true]
      have hext : r.2.isExternal = false := by simpa using hr2.1
      have hbound := relTargetsOk_bound hT hr hext
      exact ⟨hr2.1, by rw [hk _ hbound]; exact hr2.2⟩
  all_goals simp only [slidePartOkB, hc]

theorem wfB_master_copy (src : Package) (sm : PartId) {tgt q : Package}
    {cache cache' : Cache} {mPid : PartId}
    (hwf : wfB tgt = true)
    (S : MasterCopySpec src sm tgt q cache cache' mPid) : wfB q = true := by
  have hp : tgt.presId < tgt.parts.length := presOkB_lt (wfB_presOk hwf)
  obtain ⟨ml, sl, w0, h0, hpc⟩ := presOkB_content (wfB_presOk hwf)
  obtain ⟨rid, hqn, hqc, hqr, hqfresh⟩ := S.presChange ml sl w0 h0 hpc
  obtain ⟨hpT, hpK, _, _, _⟩ := wfB_part hwf tgt.presId hp
  have hkinds : ∀ t, t < tgt.parts.length →
      ((q.getPart t).isTheme = (tgt.getPart t).isTheme ∧
       (q.getPart t).isMaster = (tgt.getPart t).isMaster ∧
       (q.getPart t).isLayout = (tgt.getPart t).isLayout ∧
       (q.getPart t).isImage = (tgt.getPart t).isImage ∧
       (q.getPart t).isGeneric = (tgt.getPart t).isGeneric ∧
       (q.getPart t).isSlide = (tgt.getPart t).isSlide) := by
    intro t ht
    by_cases htp : t = tgt.presId
    · subst htp
      have k1 := kinds_presC hqc
      have k2 := kinds_presC hpc
      exact ⟨k1.1.trans k2.1.symm, k1.2.1.trans k2.2.1.symm,
        k1.2.2.1.trans k2.2.2.1.symm, k1.2.2.2.1.trans k2.2.2.2.1.symm,
        k1.2.2.2.2.1.trans k2.2.2.2.2.1.symm, k1.2.2.2.2.2.trans k2.2.2.2.2.2.symm⟩
    · rw [S.old t ht htp]
      exact ⟨rfl, rfl, rfl, rfl, rfl, rfl⟩
  unfold wfB
  rw [Bool.and_eq_true, Bool.and_eq_true]
  refine ⟨⟨?_, ?_⟩, ?_⟩
  · -- presOkB
    unfold presOkB
    rw [Bool.and_eq_true]
    refine ⟨decide_eq_true ?_, ?_⟩
    · rw [S.pres]
      exact Nat.lt_trans hp S.len
    · rw [S.pres, hqc]
  · -- presRidsOkB
    unfold presRidsOkB
    rw [Bool.and_eq_true]
    constructor
    · rw [List.all_eq_true]
      intro r hr
      have hpm : presMasterIds q = ml ++ [rid] := by
        unfold presMasterIds
        rw [S.pres, hqc]
      rw [hpm] at hr
      rw [S.pres, hqr]
      rcases List.mem_append.mp hr with hr1 | hr2
      · obtain ⟨qq, hfq, hqe, hqm⟩ := presRidsOk_master_find (wfB_presRidsOk hwf)
          (show r ∈ presMasterIds tgt from by
            unfold presMasterIds
            rw [hpc]
            exact hr1)
        rw [find?_append_some _ _ _ qq hfq]
        show (!qq.2.isExternal && (q.getPart qq.2.targetPart).isMaster) = true
        rw [Bool.and_eq_true]
        have hbound := relTargetsOk_bound hpT (List.mem_of_find?_eq_some hfq) hqe
        refine ⟨by rw [hqe]; rfl, ?_⟩
        rw [(hkinds _ hbound).2.1]
        exact hqm
      · rw [List.mem_singleton] at hr2
        rw [hr2]
        rw [find?_append_none _ _ _ (find?_eq_none_of_all (fun x hx => by
          rw [beq_eq_false_iff_ne]
          exact hqfresh x hx))]
        have hb : (rid == rid) = true := beq_self_eq_true _
        simp only [List.find?_cons, hb, if_true, Bool.not_false, Bool.true_and]
        obtain ⟨b, hbm⟩ := S.masterContent
        exact (kinds_masterC hbm).2.1
    · rw [List.all_eq_true]
      intro r hr
      have hps : presSlideIds q = sl := by
        unfold presSlideIds
        rw [S.pres, hqc]
      rw [hps] at hr
      rw [S.pres, hqr]
      obtain ⟨qq, hfq, hqe, hqs⟩ := presRidsOk_slide_find (wfB_presRidsOk hwf)
        (show r ∈ presSlideIds tgt from by
          unfold presSlideIds
          rw [hpc]
          exact hr)
      rw [find?_append_some _ _ _ qq hfq]
      show (!qq.2.isExternal && (q.getPart qq.2.targetPart).isSlide) = true
      rw [Bool.and_eq_true]
      have hbound := relTargetsOk_bound hpT (List.mem_of_find?_eq_some hfq) hqe
      refine ⟨by rw [hqe]; rfl, ?_⟩
      rw [(hkinds _ hbound).2.2.2.2.2]
      exact hqs
  · -- per-part invariants
    apply all_parts_of_getPart
    intro i hi
    by_cases hiP : i = tgt.presId
    · subst hiP
      rw [Bool.and_eq_true, Bool.and_eq_true, Bool.and_eq_true, Bool.and_eq_true]
      refine ⟨⟨⟨⟨?_, ?_⟩, ?_⟩, ?_⟩, ?_⟩
      · unfold relTargetsOkB
        rw [hqr, List.all_append, Bool.and_eq_true]
        constructor
        · exact relTargetsOk_mono (Nat.le_of_lt S.len) hpT
        · simp only [List.all_cons, List.all_nil, Bool.and_true]
          show (false || decide (mPid < q.parts.length)) = true
          rw [Bool.false_or]
          exact decide_eq_true (by rw [S.mPidEq]; exact S.len)
      · rw [hqr]
        exact keysOk_append_fresh _ _ _ hpK hqfresh
      · simp only [masterPartOkB, hqc]
      · simp only [layoutPartOkB, hqc]
      · simp only [slidePartOkB, hqc]
    · by_cases hiM : i = mPid
      · subst hiM
        obtain ⟨b, hbm⟩ := S.masterContent
        rw [Bool.and_eq_true, Bool.and_eq_true, Bool.and_eq_true, Bool.and_eq_true]
        refine ⟨⟨⟨⟨?_, S.masterKeys⟩, ?_⟩, ?_⟩, ?_⟩
        · unfold relTargetsOkB
          rw [List.all_eq_true]
          intro r hr
          rcases S.masterRels r hr with ⟨_, hext, hlt, _⟩ | ⟨_, hor⟩
          · rw [hext, Bool.false_or]
            exact decide_eq_true hlt
          · rcases hor with hext | ⟨hlt, _⟩
            · rw [hext]
              rfl
            · rw [decide_eq_true hlt, Bool.or_true]
        · simp only [masterPartOkB, hbm]
          rw [Bool.and_eq_true, Bool.and_eq_true]
          refine ⟨⟨rfl, ?_⟩, ?_⟩
          · rw [List.all_eq_true]
            intro r hr
            rcases S.masterRels r hr with ⟨hth, hext, _, hthm⟩ | ⟨hns, _⟩
            · rw [hth, hext]
              show (false || (!false && (q.getPart r.2.targetPart).isTheme)) = true
              rw [Bool.false_or, Bool.not_false, Bool.true_and]
              exact hthm
            · have hne : (r.2.reltype != RelType.theme) = true := by
                rw [bne_iff_ne]
                intro he
                rw [he] at hns
                cases hns
              rw [hne]
              rfl
          · rw [List.all_eq_true]
            intro r hr
            rcases S.masterRels r hr with ⟨hth, _, _, _⟩ | ⟨hns, hor⟩
            · rw [hth]
              rfl
            · rw [hns, Bool.false_or]
              rcases hor with hext | ⟨_, hk⟩
              · rw [hext]
                rfl
              · rcases hk with h | h
                · rw [h, Bool.true_or, Bool.or_true]
                · rw [h, Bool.or_true, Bool.or_true]
        · simp only [layoutPartOkB, hbm]
        · simp only [slidePartOkB, hbm]
      · by_cases hiOld : i < tgt.parts.length
        · have heq := S.old i hiOld hiP
          obtain ⟨o1, o2, o3, o4, o5⟩ := wfB_part hwf i hiOld
          rw [heq, Bool.and_eq_true, Bool.and_eq_true, Bool.and_eq_true,
            Bool.and_eq_true]
          refine ⟨⟨⟨⟨relTargetsOk_mono (Nat.le_of_lt S.len) o1, o2⟩, ?_⟩, ?_⟩, ?_⟩
          · exact masterPartOkB_mono o1 (fun t ht =>
              ⟨(hkinds t ht).2.2.1, (hkinds t ht).1, (hkinds t ht).2.2.2.1,
               (hkinds t ht).2.2.2.2.1⟩) o3
          · exact layoutPartOkB_mono o1 (fun t ht =>
              ⟨(hkinds t ht).2.1, (hkinds t ht).2.2.2.1,
               (hkinds t ht).2.2.2.2.1⟩) o4
          · exact slidePartOkB_mono o1 (fun t ht => (hkinds t ht).2.2.1) o5
        · have hmlt : mPid < i := by
            rw [S.mPidEq]
            exact Nat.lt_of_le_of_ne (Nat.le_of_not_lt hiOld)
              (fun h => hiM (h.symm.trans S.mPidEq.symm))
          obtain ⟨hkind, hrels0⟩ := S.newParts i hmlt hi
          rw [Bool.and_eq_true, Bool.and_eq_true, Bool.and_eq_true,
            Bool.and_eq_true]
          refine ⟨⟨⟨⟨?_, ?_⟩, ?_⟩, ?_⟩, ?_⟩
          · unfold relTargetsOkB
            rw [hrels0]
            rfl
          · rw [hrels0]
            rfl
          · rcases hkind with h | h | h
            · obtain ⟨b, hc⟩ := content_of_isTheme h
              simp only [masterPartOkB, hc]
            · obtain ⟨b, hc⟩ := content_of_isImage h
              simp only [masterPartOkB, hc]
            · obtain ⟨ct, b, hc⟩ := content_of_isGeneric h
              simp only [masterPartOkB, hc]
          · rcases hkind with h | h | h
            · obtain ⟨b, hc⟩ := content_of_isTheme h
              simp only [layoutPartOkB, hc]
            · obtain ⟨b, hc⟩ := content_of_isImage h
              simp only [layoutPartOkB, hc]
            · obtain ⟨ct, b, hc⟩ := content_of_isGeneric h
              simp only [layoutPartOkB, hc]
          · rcases hkind with h | h | h
            · obtain ⟨b, hc⟩ := content_of_isTheme h
              simp only [slidePartOkB, hc]
            · obtain ⟨b, hc⟩ := content_of_isImage h
              simp only [slidePartOkB, hc]
            · obtain ⟨ct, b, hc⟩ := content_of_isGeneric h
              simp only [slidePartOkB, hc]

/-! ## Effect summary of copy_slide_layout_part on the cached-master path -/

theorem beq_structural_false {rt : RelType} (h : rt.isStructural = false) :
    (rt == RelType.slideMaster) = false ∧ (rt == RelType.slideLayout) = false ∧
    (rt == RelType.theme) = false := by
  cases rt with
  | slideMaster => cases h
  | slideLayout => cases h
  | theme => cases h
  | image => exact ⟨rfl, rfl, rfl⟩
  | slide => exact ⟨rfl, rfl, rfl⟩
  | other s => exact ⟨rfl, rfl, rfl⟩

/-- Effect summary of copy_slide_layout_part when the parent master is
already cached as target master tm: one fresh layout part is created and
wired to tm by a paired sldLayoutIdLst entry and slideLayout relationship;
nothing else of the old package changes except payload parts appended. -/
structure LayoutCopySpec (src : Package) (srcLid : PartId) (tgt q : Package)
    (tm lPid : PartId) : Prop where
  pres : q.presId = tgt.presId
  lPidEq : lPid = tgt.parts.length
  len : tgt.parts.length < q.parts.length
  old : ∀ j, j < tgt.parts.length → j ≠ tm → q.getPart j = tgt.getPart j
  tmChange : ∀ lst b, (tgt.getPart tm).content = .masterC lst b →
    ∃ rid2, (q.getPart tm).partname = (tgt.getPart tm).partname ∧
      (q.getPart tm).content = .masterC (some ((lst.getD []) ++ [rid2])) b ∧
      (q.getPart tm).rels = (tgt.getPart tm).rels ++
        [(rid2, ⟨.slideLayout, false, lPid, ""⟩)] ∧
      ∀ r ∈ (tgt.getPart tm).rels, r.1 ≠ rid2
  layoutContent : ∃ b2, (q.getPart lPid).content =
    .layoutC (layoutNB src srcLid).1 b2
  layoutRels : ∀ r ∈ (q.getPart lPid).rels,
    (r.2.reltype = .slideMaster ∧ r.2.isExternal = false ∧ r.2.targetPart = tm) ∨
    (r.2.reltype.isStructural = false ∧ (r.2.isExternal = true ∨
      (r.2.targetPart < q.parts.length ∧
        ((q.getPart r.2.targetPart).isImage = true ∨
         (q.getPart r.2.targetPart).isGeneric = true))))
  layoutKeys : keysOkB (q.getPart lPid).rels = true
  cTheme : themeCount q = themeCount tgt
  cMaster : masterCount q = masterCount tgt
  cLayout : layoutCount q = layoutCount tgt + 1
  newParts : ∀ k, lPid < k → k < q.parts.length →
    ((q.getPart k).isImage = true ∨ (q.getPart k).isGeneric = true) ∧
    (q.getPart k).rels = []

/-- Layout-copy stages 1-5 run on the package tgt holding the already
resolved target master tm: the cache-independent core of
_copy_slide_layout_part. -/
theorem layout_stage_spec (src : Package) (srcLid : PartId) (tgt : Package)
    (tm : PartId)
    (hwf : wfB tgt = true)
    (htm : tm < tgt.parts.length)
    (htmc : ∃ lst b, (tgt.getPart tm).content = .masterC lst b)
    (hSrcRels : ∀ r ∈ (src.getPart srcLid).rels, r.2.reltype.isStructural = false →
      r.2.isExternal = false →
      (src.getPart r.2.targetPart).isImage = true ∨
      (src.getPart r.2.targetPart).isGeneric = true) :
    LayoutCopySpec src srcLid tgt
      (appendLayoutId (csllAttach src srcLid tgt tm).1 tm
        (csllAttach src srcLid tgt tm).2) tm (csllAdd src srcLid tgt).2 := by
  obtain ⟨lst, b, htc⟩ := htmc
  obtain ⟨tmT, tmK, _, _, _⟩ := wfB_part hwf tm htm
  -- stage 1: the layout part is appended
  have hL2 : (csllAdd src srcLid tgt).2 = tgt.parts.length := rfl
  have hLlen : (csllAdd src srcLid tgt).1.parts.length = tgt.parts.length + 1 :=
    length_addPart tgt _
  have hLold : ∀ j, j < tgt.parts.length →
      (csllAdd src srcLid tgt).1.getPart j = tgt.getPart j :=
    fun j hj => getPart_addPart_lt tgt _ j hj
  have hLm : (csllAdd src srcLid tgt).1.getPart (csllAdd src srcLid tgt).2 =
      ⟨next_partname tgt .layoutT,
       .layoutC (layoutNB src srcLid).1 (layoutNB src srcLid).2, []⟩ :=
    getPart_addPart_self tgt _
  have hLmc : ((csllAdd src srcLid tgt).1.getPart (csllAdd src srcLid tgt).2).content
      = .layoutC (layoutNB src srcLid).1 (layoutNB src srcLid).2 := by
    rw [hLm]
  have hN1 : (csllAdd src srcLid tgt).2 < (csllAdd src srcLid tgt).1.parts.length := by
    rw [hL2, hLlen]
    exact Nat.lt_succ_self _
  have htmNe : tm ≠ (csllAdd src srcLid tgt).2 := by
    rw [hL2]
    exact Nat.ne_of_lt htm
  -- stage 2: non-structural relationships copied
  have hcsllRels_eq : csllRels src srcLid tgt =
      copy_part_rels_go src (csllAdd src srcLid tgt).2 (src.getPart srcLid).rels
        (csllAdd src srcLid tgt).1 [] := rfl
  have hTS3 : TouchSpec (csllAdd src srcLid tgt).1 (csllRels src srcLid tgt).1
      (csllAdd src srcLid tgt).2 := by
    rw [hcsllRels_eq]
    exact touch_copy_part_rels_go src (csllAdd src srcLid tgt).2
      (src.getPart srcLid).rels (csllAdd src srcLid tgt).1 [] hN1
      ⟨(kinds_layoutC hLmc).2.2.2.1, (kinds_layoutC hLmc).2.2.2.2.1⟩ hSrcRels
  have hS3len : (csllAdd src srcLid tgt).1.parts.length ≤
      (csllRels src srcLid tgt).1.parts.length := hTS3.len
  have hN3 : (csllAdd src srcLid tgt).2 < (csllRels src srcLid tgt).1.parts.length :=
    Nat.lt_of_lt_of_le hN1 hS3len
  have htlen3 : tgt.parts.length < (csllRels src srcLid tgt).1.parts.length := by
    have h := hN3
    rw [hL2] at h
    exact h
  have hS3content : ((csllRels src srcLid tgt).1.getPart
      (csllAdd src srcLid tgt).2).content =
      .layoutC (layoutNB src srcLid).1 (layoutNB src srcLid).2 := by
    rw [hTS3.ownerContent, hLmc]
  have hS3tm : (csllRels src srcLid tgt).1.getPart tm = tgt.getPart tm := by
    rw [hTS3.other tm (by rw [hLlen]; exact Nat.lt_succ_of_lt htm) htmNe,
      hLold tm htm]
  have hS3old : ∀ j, j < tgt.parts.length →
      (csllRels src srcLid tgt).1.getPart j = tgt.getPart j := by
    intro j hj
    have hjne : j ≠ (csllAdd src srcLid tgt).2 := by
      rw [hL2]
      exact Nat.ne_of_lt hj
    rw [hTS3.other j (by rw [hLlen]; exact Nat.lt_succ_of_lt hj) hjne, hLold j hj]
  -- stage 3: the body remap
  have hS4 : (csllRemap src srcLid tgt).presId = (csllRels src srcLid tgt).1.presId ∧
      (csllRemap src srcLid tgt).parts.length =
        (csllRels src srcLid tgt).1.parts.length ∧
      (∀ j, j ≠ (csllAdd src srcLid tgt).2 →
        (csllRemap src srcLid tgt).getPart j =
          (csllRels src srcLid tgt).1.getPart j) ∧
      ((csllRemap src srcLid tgt).getPart (csllAdd src srcLid tgt).2).rels =
        ((csllRels src srcLid tgt).1.getPart (csllAdd src srcLid tgt).2).rels ∧
      (∃ b2, ((csllRemap src srcLid tgt).getPart (csllAdd src srcLid tgt).2).content =
        .layoutC (layoutNB src srcLid).1 b2) ∧
      themeCount (csllRemap src srcLid tgt) = themeCount (csllRels src srcLid tgt).1 ∧
      masterCount (csllRemap src srcLid tgt) =
        masterCount (csllRels src srcLid tgt).1 ∧
      layoutCount (csllRemap src srcLid tgt) =
        layoutCount (csllRels src srcLid tgt).1 := by
    unfold csllRemap
    split
    · exact ⟨rfl, rfl, fun j _ => rfl, rfl,
        ⟨(layoutNB src srcLid).2, hS3content⟩, rfl, rfl, rfl⟩
    · rw [setLayoutBody_eq _ _ _ hS3content]
      have hself := getPart_setPart_self (csllRels src srcLid tgt).1
        (csllAdd src srcLid tgt).2
        { (csllRels src srcLid tgt).1.getPart (csllAdd src srcLid tgt).2 with
          content := .layoutC (layoutNB src srcLid).1
            (remap_rids (csllRels src srcLid tgt).2 (layoutNB src srcLid).2) } hN3
      refine ⟨rfl, length_setPart _ _ _, ?_, ?_, ?_, ?_, ?_, ?_⟩
      · intro j hj
        exact getPart_setPart_ne _ _ j _ (fun h => hj h.symm)
      · rw [hself]
      · exact ⟨remap_rids (csllRels src srcLid tgt).2 (layoutNB src srcLid).2,
          by rw [hself]⟩
      · exact themeCount_setPart _ _ _ hN3
          (by rw [(kinds_layoutC hS3content).1]; rfl)
      · exact masterCount_setPart _ _ _ hN3
          (by rw [(kinds_layoutC hS3content).2.1]; rfl)
      · exact layoutCount_setPart _ _ _ hN3
          (by rw [(kinds_layoutC hS3content).2.2.1]; rfl)
  obtain ⟨h4pres, h4len, h4other, h4rels, h4content, h4theme, h4master, h4layout⟩ :=
    hS4
  have hS4tm : (csllRemap src srcLid tgt).getPart tm = tgt.getPart tm := by
    rw [h4other tm htmNe, hS3tm]
  have hN4 : (csllAdd src srcLid tgt).2 < (csllRemap src srcLid tgt).parts.length := by
    rw [h4len]
    exact hN3
  have htm4 : tm < (csllRemap src srcLid tgt).parts.length := by
    rw [h4len]
    exact Nat.lt_trans htm htlen3
  -- stage 4: layout-to-master relationship
  have hfind1 : ((csllRemap src srcLid tgt).getPart
      (csllAdd src srcLid tgt).2).rels.find?
      (fun q => !q.2.isExternal && q.2.reltype == RelType.slideMaster &&
        q.2.targetPart == tm) = none := by
    apply find?_eq_none_of_all
    intro r hr
    rw [h4rels] at hr
    obtain ⟨s3, hs3eq, hs3ns, _⟩ := hTS3.ownerRels
    rw [hs3eq] at hr
    rcases List.mem_append.mp hr with hr1 | hr1
    · rw [hLm] at hr1
      cases hr1
    · rw [(beq_structural_false (hs3ns r hr1)).1, Bool.and_false, Bool.false_and]
  rcases relate_to_cases (csllRemap src srcLid tgt) (csllAdd src srcLid tgt).2 tm
      .slideMaster with ⟨qq, hf, _⟩ | ⟨_, he1⟩
  · rw [hfind1] at hf
    cases hf
  have hE1 : (relate_to (csllRemap src srcLid tgt) (csllAdd src srcLid tgt).2 tm
      .slideMaster).1 = (csllRemap src srcLid tgt).setPart (csllAdd src srcLid tgt).2
      { (csllRemap src srcLid tgt).getPart (csllAdd src srcLid tgt).2 with
        rels := ((csllRemap src srcLid tgt).getPart (csllAdd src srcLid tgt).2).rels
          ++ [(next_rId ((csllRemap src srcLid tgt).getPart
              (csllAdd src srcLid tgt).2).rels, ⟨.slideMaster, false, tm, ""⟩)] } := by
    rw [he1]
  have hE1len : (relate_to (csllRemap src srcLid tgt) (csllAdd src srcLid tgt).2 tm
      .slideMaster).1.parts.length = (csllRemap src srcLid tgt).parts.length := by
    rw [hE1, length_setPart]
  have hE1tm : (relate_to (csllRemap src srcLid tgt) (csllAdd src srcLid tgt).2 tm
      .slideMaster).1.getPart tm = tgt.getPart tm := by
    rw [hE1, getPart_setPart_ne _ _ _ _ (fun h => htmNe h.symm), hS4tm]
  have htmE1 : tm < (relate_to (csllRemap src srcLid tgt) (csllAdd src srcLid tgt).2
      tm .slideMaster).1.parts.length := by
    rw [hE1len]
    exact htm4
  -- stage 5: master-to-layout relationship
  have hfind2 : ((relate_to (csllRemap src srcLid tgt) (csllAdd src srcLid tgt).2 tm
      .slideMaster).1.getPart tm).rels.find?
      (fun q => !q.2.isExternal && q.2.reltype == RelType.slideLayout &&
        q.2.targetPart == (csllAdd src srcLid tgt).2) = none := by
    rw [hE1tm, hL2]
    exact find_rel_target_oob_none tgt.parts.length _ RelType.slideLayout
      tgt.parts.length tmT (Nat.le_refl _)
  rcases relate_to_cases (relate_to (csllRemap src srcLid tgt)
      (csllAdd src srcLid tgt).2 tm .slideMaster).1 tm (csllAdd src srcLid tgt).2
      .slideLayout with ⟨qq, hf, _⟩ | ⟨_, he2⟩
  · rw [hfind2] at hf
    cases hf
  have hatt1 : (csllAttach src srcLid tgt tm).1 =
      (relate_to (csllRemap src srcLid tgt) (csllAdd src srcLid tgt).2 tm
        .slideMaster).1.setPart tm
      { tgt.getPart tm with
        rels := (tgt.getPart tm).rels ++
          [(next_rId (tgt.getPart tm).rels,
            ⟨.slideLayout, false, (csllAdd src srcLid tgt).2, ""⟩)] } := by
    show (relate_to (relate_to (csllRemap src srcLid tgt)
      (csllAdd src srcLid tgt).2 tm .slideMaster).1 tm (csllAdd src srcLid tgt).2
      .slideLayout).1 = _
    rw [he2, hE1tm]
  have hatt2 : (csllAttach src srcLid tgt tm).2 =
      next_rId (tgt.getPart tm).rels := by
    show (relate_to (relate_to (csllRemap src srcLid tgt)
      (csllAdd src srcLid tgt).2 tm .slideMaster).1 tm (csllAdd src srcLid tgt).2
      .slideLayout).2 = _
    rw [he2, hE1tm]
  have hattLen : (csllAttach src srcLid tgt tm).1.parts.length =
      (csllRemap src srcLid tgt).parts.length := by
    rw [hatt1, length_setPart, hE1len]
  have htmAtt : tm < (csllAttach src srcLid tgt tm).1.parts.length := by
    rw [hattLen]
    exact htm4
  have hattTm : (csllAttach src srcLid tgt tm).1.getPart tm =
      { tgt.getPart tm with
        rels := (tgt.getPart tm).rels ++
          [(next_rId (tgt.getPart tm).rels,
            ⟨.slideLayout, false, (csllAdd src srcLid tgt).2, ""⟩)] } := by
    rw [hatt1]
    exact getPart_setPart_self _ _ _ htmE1
  have hattTmc : ((csllAttach src srcLid tgt tm).1.getPart tm).content =
      .masterC lst b := by
    rw [hattTm]
    exact htc
  have happF : appendLayoutId (csllAttach src srcLid tgt tm).1 tm
      (csllAttach src srcLid tgt tm).2 =
      (csllAttach src srcLid tgt tm).1.setPart tm
        { (csllAttach src srcLid tgt tm).1.getPart tm with
          content := .masterC (some ((lst.getD []) ++
            [(csllAttach src srcLid tgt tm).2])) b } := by
    rw [appendLayoutId_eq _ _ _ hattTmc]
  rw [hattTm] at happF
  conv at happF => rhs; rw [hatt2]
  have hS4presId : (csllRemap src srcLid tgt).presId = tgt.presId := by
    rw [h4pres, hTS3.pres]
    rfl
  have hFpres : (appendLayoutId (csllAttach src srcLid tgt tm).1 tm
      (csllAttach src srcLid tgt tm).2).presId = tgt.presId := by
    rw [happF, presId_setPart, hatt1, presId_setPart, hE1, presId_setPart,
      hS4presId]
  have hFlen : (appendLayoutId (csllAttach src srcLid tgt tm).1 tm
      (csllAttach src srcLid tgt tm).2).parts.length =
      (csllRemap src srcLid tgt).parts.length := by
    rw [happF, length_setPart, hattLen]
  have hstableAny : ∀ u, u ≠ tm → u ≠ (csllAdd src srcLid tgt).2 →
      (appendLayoutId (csllAttach src srcLid tgt tm).1 tm
        (csllAttach src srcLid tgt tm).2).getPart u =
      (csllRels src srcLid tgt).1.getPart u := by
    intro u hu1 hu2
    rw [happF, getPart_setPart_ne _ _ _ _ (fun h => hu1 h.symm),
      hatt1, getPart_setPart_ne _ _ _ _ (fun h => hu1 h.symm),
      hE1, getPart_setPart_ne _ _ _ _ (fun h => hu2 h.symm), h4other u hu2]
  have hFtm : (appendLayoutId (csllAttach src srcLid tgt tm).1 tm
      (csllAttach src srcLid tgt tm).2).getPart tm =
      { { tgt.getPart tm with
          rels := (tgt.getPart tm).rels ++
            [(next_rId (tgt.getPart tm).rels,
              (⟨.slideLayout, false, (csllAdd src srcLid tgt).2, ""⟩ : Rel))] } with
        content := .masterC (some ((lst.getD []) ++
          [next_rId (tgt.getPart tm).rels])) b } := by
    rw [happF]
    exact getPart_setPart_self _ _ _ htmAtt
  have hFl : (appendLayoutId (csllAttach src srcLid tgt tm).1 tm
      (csllAttach src srcLid tgt tm).2).getPart (csllAdd src srcLid tgt).2 =
      { (csllRemap src srcLid tgt).getPart (csllAdd src srcLid tgt).2 with
        rels := ((csllRemap src srcLid tgt).getPart (csllAdd src srcLid tgt).2).rels
          ++ [(next_rId ((csllRemap src srcLid tgt).getPart
              (csllAdd src srcLid tgt).2).rels, ⟨.slideMaster, false, tm, ""⟩)] } := by
    rw [happF, getPart_setPart_ne _ _ _ _ htmNe, hatt1,
      getPart_setPart_ne _ _ _ _ htmNe, hE1]
    exact getPart_setPart_self _ _ _ hN4
  have hC_E1t : themeCount (relate_to (csllRemap src srcLid tgt)
      (csllAdd src srcLid tgt).2 tm .slideMaster).1 =
      themeCount (csllRemap src srcLid tgt) := by
    rw [hE1]
    exact themeCount_setPart_rels _ _ _ hN4
  have hC_E1m : masterCount (relate_to (csllRemap src srcLid tgt)
      (csllAdd src srcLid tgt).2 tm .slideMaster).1 =
      masterCount (csllRemap src srcLid tgt) := by
    rw [hE1]
    exact masterCount_setPart_rels _ _ _ hN4
  have hC_E1l : layoutCount (relate_to (csllRemap src srcLid tgt)
      (csllAdd src srcLid tgt).2 tm .slideMaster).1 =
      layoutCount (csllRemap src srcLid tgt) := by
    rw [hE1]
    exact layoutCount_setPart_rels _ _ _ hN4
  have hC_attT : themeCount (csllAttach src srcLid tgt tm).1 =
      themeCount (relate_to (csllRemap src srcLid tgt)
        (csllAdd src srcLid tgt).2 tm .slideMaster).1 := by
    rw [hatt1]
    exact themeCount_setPart _ _ _ htmE1 (by rw [hE1tm]; rfl)
  have hC_attM : masterCount (csllAttach src srcLid tgt tm).1 =
      masterCount (relate_to (csllRemap src srcLid tgt)
        (csllAdd src srcLid tgt).2 tm .slideMaster).1 := by
    rw [hatt1]
    exact masterCount_setPart _ _ _ htmE1 (by rw [hE1tm]; rfl)
  have hC_attL : layoutCount (csllAttach src srcLid tgt tm).1 =
      layoutCount (relate_to (csllRemap src srcLid tgt)
        (csllAdd src srcLid tgt).2 tm .slideMaster).1 := by
    rw [hatt1]
    exact layoutCount_setPart _ _ _ htmE1 (by rw [hE1tm]; rfl)
  have hC_FT : themeCount (appendLayoutId (csllAttach src srcLid tgt tm).1 tm
      (csllAttach src srcLid tgt tm).2) =
      themeCount (csllAttach src srcLid tgt tm).1 := by
    rw [happF]
    exact themeCount_setPart _ _ _ htmAtt
      (by rw [hattTm]; exact ((kinds_masterC htc).1).symm)
  have hC_FM : masterCount (appendLayoutId (csllAttach src srcLid tgt tm).1 tm
      (csllAttach src srcLid tgt tm).2) =
      masterCount (csllAttach src srcLid tgt tm).1 := by
    rw [happF]
    exact masterCount_setPart _ _ _ htmAtt
      (by rw [hattTm]; exact ((kinds_masterC htc).2.1).symm)
  have hC_FL : layoutCount (appendLayoutId (csllAttach src srcLid tgt tm).1 tm
      (csllAttach src srcLid tgt tm).2) =
      layoutCount (csllAttach src srcLid tgt tm).1 := by
    rw [happF]
    exact layoutCount_setPart _ _ _ htmAtt
      (by rw [hattTm]; exact ((kinds_masterC htc).2.2.1).symm)
  have hLeq : csllAdd src srcLid tgt = tgt.addPart
      ⟨next_partname tgt .layoutT,
       .layoutC (layoutNB src srcLid).1 (layoutNB src srcLid).2, []⟩ := rfl
  have hC_L1T : themeCount (csllAdd src srcLid tgt).1 = themeCount tgt := by
    rw [themeCount_eq_countB, themeCount_eq_countB, hLeq, countB_addPart]
    rfl
  have hC_L1M : masterCount (csllAdd src srcLid tgt).1 = masterCount tgt := by
    rw [masterCount_eq_countB, masterCount_eq_countB, hLeq, countB_addPart]
    rfl
  have hC_L1L : layoutCount (csllAdd src srcLid tgt).1 = layoutCount tgt + 1 := by
    rw [layoutCount_eq_countB, layoutCount_eq_countB, hLeq, countB_addPart]
    rfl
  refine ⟨hFpres, hL2, ?_, ?_, ?_, ?_, ?_, ?_, ?_, ?_, ?_, ?_⟩
  · -- len
    rw [hFlen, h4len]
    exact htlen3
  · -- old
    intro j hj hjtm
    have hjl : j ≠ (csllAdd src srcLid tgt).2 := by
      rw [hL2]
      exact Nat.ne_of_lt hj
    rw [hstableAny j hjtm hjl, hS3old j hj]
  · -- tmChange
    intro lst' b' htc'
    rw [htc] at htc'
    cases htc'
    refine ⟨next_rId (tgt.getPart tm).rels, ?_, ?_, ?_,
      next_rId_fresh (tgt.getPart tm).rels⟩
    · rw [hFtm]
    · rw [hFtm]
    · rw [hFtm]
  · -- layoutContent
    obtain ⟨b2, h4c⟩ := h4content
    refine ⟨b2, ?_⟩
    rw [hFl]
    exact h4c
  · -- layoutRels
    intro r hr
    have hr2 : r ∈ ((csllRemap src srcLid tgt).getPart
        (csllAdd src srcLid tgt).2).rels ++
        [(next_rId ((csllRemap src srcLid tgt).getPart
          (csllAdd src srcLid tgt).2).rels, ⟨.slideMaster, false, tm, ""⟩)] := by
      rw [hFl] at hr
      exact hr
    rcases List.mem_append.mp hr2 with hr1 | hr1
    · rw [h4rels] at hr1
      obtain ⟨s3, hs3eq, hs3ns, hs3t⟩ := hTS3.ownerRels
      rw [hs3eq] at hr1
      rcases List.mem_append.mp hr1 with hr0 | hr0
      · rw [hLm] at hr0
        cases hr0
      · right
        refine ⟨hs3ns r hr0, ?_⟩
        rcases hs3t r hr0 with hext | ⟨hlt3, hk3⟩
        · exact Or.inl hext
        · have huL : r.2.targetPart ≠ (csllAdd src srcLid tgt).2 := by
            intro hEq
            rw [hEq] at hk3
            rcases hk3 with h | h
            · rw [(kinds_layoutC hS3content).2.2.2.1] at h
              cases h
            · rw [(kinds_layoutC hS3content).2.2.2.2.1] at h
              cases h
          have hS3tmk := kinds_masterC
            (show ((csllRels src srcLid tgt).1.getPart tm).content =
              .masterC lst b from by rw [hS3tm]; exact htc)
          have huT : r.2.targetPart ≠ tm := by
            intro hEq
            rw [hEq] at hk3
            rcases hk3 with h | h
            · rw [hS3tmk.2.2.2.1] at h
              cases h
            · rw [hS3tmk.2.2.2.2.1] at h
              cases h
          refine Or.inr ⟨by rw [hFlen, h4len]; exact hlt3, ?_⟩
          rw [hstableAny r.2.targetPart huT huL]
          exact hk3
    · rw [List.mem_singleton] at hr1
      rw [hr1]
      exact Or.inl ⟨rfl, rfl, rfl⟩
  · -- layoutKeys
    have hkS4 : keysOkB ((csllRemap src srcLid tgt).getPart
        (csllAdd src srcLid tgt).2).rels = true := by
      rw [h4rels]
      exact hTS3.ownerKeys (by rw [hLm]; rfl)
    have hre : ((appendLayoutId (csllAttach src srcLid tgt tm).1 tm
        (csllAttach src srcLid tgt tm).2).getPart (csllAdd src srcLid tgt).2).rels =
        ((csllRemap src srcLid tgt).getPart (csllAdd src srcLid tgt).2).rels ++
        [(next_rId ((csllRemap src srcLid tgt).getPart
          (csllAdd src srcLid tgt).2).rels, ⟨.slideMaster, false, tm, ""⟩)] := by
      rw [hFl]
    rw [hre]
    exact keysOk_append_fresh _ _ _ hkS4 (next_rId_fresh _)
  · -- cTheme
    rw [hC_FT, hC_attT, hC_E1t, h4theme, hTS3.cTheme, hC_L1T]
  · -- cMaster
    rw [hC_FM, hC_attM, hC_E1m, h4master, hTS3.cMaster, hC_L1M]
  · -- cLayout
    rw [hC_FL, hC_attL, hC_E1l, h4layout, hTS3.cLayout, hC_L1L]
  · -- newParts
    intro k hk1 hk2
    have hk1' : tgt.parts.length < k := by
      rw [hL2] at hk1
      exact hk1
    have hkT : k ≠ tm := (Nat.ne_of_lt (Nat.lt_trans htm hk1')).symm
    have hkL : k ≠ (csllAdd src srcLid tgt).2 := by
      rw [hL2]
      exact (Nat.ne_of_lt hk1').symm
    rw [hFlen, h4len] at hk2
    rw [hstableAny k hkT hkL]
    exact ⟨hTS3.newParts k (by rw [hLlen]; exact hk1') hk2,
      hTS3.newPartsRels k (by rw [hLlen]; exact hk1') hk2⟩

theorem layout_copy_spec (src : Package) (srcLid : PartId) (tgt : Package)
    (cache : Cache) (srcMid tm : PartId)
    (hwf : wfB tgt = true)
    (hrelM : part_related_by src srcLid .slideMaster = some srcMid)
    (hhit : cacheLookup cache srcMid = some tm)
    (htm : tm < tgt.parts.length)
    (htmc : ∃ lst b, (tgt.getPart tm).content = .masterC lst b)
    (hSrcRels : ∀ r ∈ (src.getPart srcLid).rels, r.2.reltype.isStructural = false →
      r.2.isExternal = false →
      (src.getPart r.2.targetPart).isImage = true ∨
      (src.getPart r.2.targetPart).isGeneric = true) :
    (copy_slide_layout_part src srcLid tgt cache).2.1 = cache ∧
    (copy_slide_layout_part src srcLid tgt cache).2.2 =
      .ok (csllAdd src srcLid tgt).2 ∧
    LayoutCopySpec src srcLid tgt (copy_slide_layout_part src srcLid tgt cache).1
      tm (csllAdd src srcLid tgt).2 := by
  have hgm : get_or_copy_slide_master src srcMid tgt cache = (tgt, cache, tm) := by
    unfold get_or_copy_slide_master
    rw [hhit]
  have hgm1 : (get_or_copy_slide_master src srcMid tgt cache).1 = tgt := by
    rw [hgm]
  have hgm21 : (get_or_copy_slide_master src srcMid tgt cache).2.1 = cache := by
    rw [hgm]
  have hgm22 : (get_or_copy_slide_master src srcMid tgt cache).2.2 = tm := by
    rw [hgm]
  have hcl : copy_slide_layout_part src srcLid tgt cache =
      (appendLayoutId (csllAttach src srcLid tgt tm).1 tm
        (csllAttach src srcLid tgt tm).2, cache, .ok (csllAdd src srcLid tgt).2) := by
    rw [copy_slide_layout_part_eq src srcLid tgt cache srcMid hrelM, hgm1, hgm21,
      hgm22]
  refine ⟨by rw [hcl], by rw [hcl], ?_⟩
  have hcl1 : (copy_slide_layout_part src srcLid tgt cache).1 =
      appendLayoutId (csllAttach src srcLid tgt tm).1 tm
        (csllAttach src srcLid tgt tm).2 := by
    rw [hcl]
  rw [hcl1]
  exact layout_stage_spec src srcLid tgt tm hwf htm htmc hSrcRels

theorem wfB_layout_copy (src : Package) (srcLid : PartId) {tgt q : Package}
    {tm lPid : PartId}
    (hwf : wfB tgt = true) (htm : tm < tgt.parts.length)
    (htmc0 : ∃ lst b, (tgt.getPart tm).content = .masterC lst b)
    (S : LayoutCopySpec src srcLid tgt q tm lPid) : wfB q = true := by
  obtain ⟨lst, b, htmc⟩ := htmc0
  have hp : tgt.presId < tgt.parts.length := presOkB_lt (wfB_presOk hwf)
  obtain ⟨ml, sl, w0, h0, hpc⟩ := presOkB_content (wfB_presOk hwf)
  have htmP : tm ≠ tgt.presId := by
    intro hEq
    rw [hEq, hpc] at htmc
    cases htmc
  obtain ⟨rid2, htn, htcq, htr, htfresh⟩ := S.tmChange lst b htmc
  obtain ⟨tmT, tmK, tmM, _, _⟩ := wfB_part hwf tm htm
  obtain ⟨bl, hlc⟩ := S.layoutContent
  have hlPid : lPid < q.parts.length := by
    rw [S.lPidEq]
    exact S.len
  have hkinds : ∀ t, t < tgt.parts.length →
      ((q.getPart t).isTheme = (tgt.getPart t).isTheme ∧
       (q.getPart t).isMaster = (tgt.getPart t).isMaster ∧
       (q.getPart t).isLayout = (tgt.getPart t).isLayout ∧
       (q.getPart t).isImage = (tgt.getPart t).isImage ∧
       (q.getPart t).isGeneric = (tgt.getPart t).isGeneric ∧
       (q.getPart t).isSlide = (tgt.getPart t).isSlide) := by
    intro t ht
    by_cases htt : t = tm
    · subst htt
      have k1 := kinds_masterC htcq
      have k2 := kinds_masterC htmc
      exact ⟨k1.1.trans k2.1.symm, k1.2.1.trans k2.2.1.symm,
        k1.2.2.1.trans k2.2.2.1.symm, k1.2.2.2.1.trans k2.2.2.2.1.symm,
        k1.2.2.2.2.1.trans k2.2.2.2.2.1.symm, k1.2.2.2.2.2.trans k2.2.2.2.2.2.symm⟩
    · rw [S.old t ht htt]
      exact ⟨rfl, rfl, rfl, rfl, rfl, rfl⟩
  have hpres_part : q.getPart tgt.presId = tgt.getPart tgt.presId :=
    S.old tgt.presId hp (fun h => htmP h.symm)
  unfold wfB
  rw [Bool.and_eq_true, Bool.and_eq_true]
  refine ⟨⟨?_, ?_⟩, ?_⟩
  · -- presOkB
    unfold presOkB
    rw [Bool.and_eq_true]
    refine ⟨decide_eq_true ?_, ?_⟩
    · rw [S.pres]
      exact Nat.lt_trans hp S.len
    · rw [S.pres, hpres_part, hpc]
  · -- presRidsOkB
    unfold presRidsOkB
    rw [Bool.and_eq_true]
    have hpm : presMasterIds q = presMasterIds tgt := by
      unfold presMasterIds
      rw [S.pres, hpres_part]
    have hps : presSlideIds q = presSlideIds tgt := by
      unfold presSlideIds
      rw [S.pres, hpres_part]
    obtain ⟨hpT, _, _, _, _⟩ := wfB_part hwf tgt.presId hp
    constructor
    · rw [List.all_eq_true]
      intro r hr
      rw [hpm] at hr
      rw [S.pres, hpres_part]
      obtain ⟨qq, hfq, hqe, hqm⟩ := presRidsOk_master_find (wfB_presRidsOk hwf) hr
      rw [hfq]
      show (!qq.2.isExternal && (q.getPart qq.2.targetPart).isMaster) = true
      rw [Bool.and_eq_true]
      have hbound := relTargetsOk_bound hpT (List.mem_of_find?_eq_some hfq) hqe
      refine ⟨by rw [hqe]; rfl, ?_⟩
      rw [(hkinds _ hbound).2.1]
      exact hqm
    · rw [List.all_eq_true]
      intro r hr
      rw [hps] at hr
      rw [S.pres, hpres_part]
      obtain ⟨qq, hfq, hqe, hqs⟩ := presRidsOk_slide_find (wfB_presRidsOk hwf) hr
      rw [hfq]
      show (!qq.2.isExternal && (q.getPart qq.2.targetPart).isSlide) = true
      rw [Bool.and_eq_true]
      have hbound := relTargetsOk_bound hpT (List.mem_of_find?_eq_some hfq) hqe
      refine ⟨by rw [hqe]; rfl, ?_⟩
      rw [(hkinds _ hbound).2.2.2.2.2]
      exact hqs
  · -- per-part invariants
    apply all_parts_of_getPart
    intro i hi
    by_cases hiT : i = tm
    · rw [hiT]
      rw [Bool.and_eq_true, Bool.and_eq_true, Bool.and_eq_true, Bool.and_eq_true]
      refine ⟨⟨⟨⟨?_, ?_⟩, ?_⟩, ?_⟩, ?_⟩
      · -- relTargets
        unfold relTargetsOkB
        rw [htr, List.all_append, Bool.and_eq_true]
        constructor
        · exact relTargetsOk_mono (Nat.le_of_lt S.len) tmT
        · simp only [List.all_cons, List.all_nil, Bool.and_true]
          show (false || decide (lPid < q.parts.length)) = true
          rw [Bool.false_or]
          exact decide_eq_true hlPid
      · -- keys
        rw [htr]
        exact keysOk_append_fresh _ _ _ tmK htfresh
      · -- masterPartOkB
        simp only [masterPartOkB, htcq] at tmM ⊢
        simp only [masterPartOkB, htmc] at tmM
        rw [Bool.and_eq_true, Bool.and_eq_true] at tmM
        obtain ⟨⟨m1, m2⟩, m3⟩ := tmM
        rw [Bool.and_eq_true, Bool.and_eq_true]
        refine ⟨⟨?_, ?_⟩, ?_⟩
        · show ((lst.getD [] ++ [rid2]).all _) = true
          rw [List.all_append, Bool.and_eq_true]
          constructor
          · rw [List.all_eq_true]
            intro rid hrid
            have hm := List.all_eq_true.mp m1 rid hrid
            revert hm
            cases hf : (tgt.getPart tm).rels.find? (fun qr => qr.1 == rid) with
            | none => intro hm; cases hm
            | some qq =>
              intro hm
              have hm3 : (!qq.2.isExternal &&
                  (tgt.getPart qq.2.targetPart).isLayout) = true := hm
              rw [Bool.and_eq_true] at hm3
              rw [htr, find?_append_some _ _ _ qq hf]
              show (!qq.2.isExternal && (q.getPart qq.2.targetPart).isLayout) = true
              rw [Bool.and_eq_true]
              have hext : qq.2.isExternal = false := by simpa using hm3.1
              have hbound := relTargetsOk_bound tmT (List.mem_of_find?_eq_some hf)
                hext
              refine ⟨hm3.1, ?_⟩
              rw [(hkinds _ hbound).2.2.1]
              exact hm3.2
          · simp only [List.all_cons, List.all_nil, Bool.and_true]
            rw [htr, find?_append_none _ _ _ (find?_eq_none_of_all (fun x hx => by
              rw [beq_eq_false_iff_ne]
              exact htfresh x hx))]
            have hb : (rid2 == rid2) = true := beq_self_eq_true _
            simp only [List.find?_cons, hb, if_true, Bool.not_false, Bool.true_and]
            exact (kinds_layoutC hlc).2.2.1
        · rw [htr, List.all_append, Bool.and_eq_true]
          constructor
          · rw [List.all_eq_true]
            intro r hr
            have hm := List.all_eq_true.mp m2 r hr
            cases hrt : (r.2.reltype != RelType.theme) with
            | true => rfl
            | false =>
              rw [hrt, Bool.false_or, Bool.and_eq_true] at hm
              rw [Bool.false_or, Bool.and_eq_true]
              have hext : r.2.isExternal = false := by simpa using hm.1
              have hbound := relTargetsOk_bound tmT hr hext
              refine ⟨hm.1, ?_⟩
              rw [(hkinds _ hbound).1]
              exact hm.2
          · rfl
        · rw [htr, List.all_append, Bool.and_eq_true]
          constructor
          · rw [List.all_eq_true]
            intro r hr
            have hm := List.all_eq_true.mp m3 r hr
            cases hs : r.2.reltype.isStructural with
            | true => rfl
            | false =>
              rw [hs, Bool.false_or] at hm
              rw [Bool.false_or]
              cases he : r.2.isExternal with
              | true => rfl
              | false =>
                rw [he, Bool.false_or] at hm
                rw [Bool.false_or]
                have hbound := relTargetsOk_bound tmT hr he
                rw [(hkinds _ hbound).2.2.2.1, (hkinds _ hbound).2.2.2.2.1]
                exact hm
          · rfl
      · simp only [layoutPartOkB, htcq]
      · simp only [slidePartOkB, htcq]
    · by_cases hiL : i = lPid
      · subst hiL
        rw [Bool.and_eq_true, Bool.and_eq_true, Bool.and_eq_true, Bool.and_eq_true]
        refine ⟨⟨⟨⟨?_, S.layoutKeys⟩, ?_⟩, ?_⟩, ?_⟩
        · unfold relTargetsOkB
          rw [List.all_eq_true]
          intro r hr
          rcases S.layoutRels r hr with ⟨_, hext, htp⟩ | ⟨_, hor⟩
          · rw [hext, Bool.false_or]
            exact decide_eq_true (by rw [htp]; exact Nat.lt_trans htm S.len)
          · rcases hor with hext | ⟨hlt, _⟩
            · rw [hext]
              rfl
            · rw [decide_eq_true hlt, Bool.or_true]
        · simp only [masterPartOkB, hlc]
        · simp only [layoutPartOkB, hlc]
          rw [Bool.and_eq_true]
          constructor
          · rw [List.all_eq_true]
            intro r hr
            rcases S.layoutRels r hr with ⟨hsm, hext, htp⟩ | ⟨hns, _⟩
            · rw [hsm, hext]
              show (false || (!false && (q.getPart r.2.targetPart).isMaster)) = true
              rw [Bool.false_or, Bool.not_false, Bool.true_and, htp]
              exact (kinds_masterC htcq).2.1
            · have hne : (r.2.reltype != RelType.slideMaster) = true := by
                rw [bne_iff_ne]
                intro he
                rw [he] at hns
                cases hns
              rw [hne]
              rfl
          · rw [List.all_eq_true]
            intro r hr
            rcases S.layoutRels r hr with ⟨hsm, _, _⟩ | ⟨hns, hor⟩
            · rw [hsm]
              rfl
            · rw [hns, Bool.false_or]
              rcases hor with hext | ⟨_, hk⟩
              · rw [hext]
                rfl
              · rcases hk with h | h
                · rw [h, Bool.true_or, Bool.or_true]
                · rw [h, Bool.or_true, Bool.or_true]
        · simp only [slidePartOkB, hlc]
      · by_cases hiOld : i < tgt.parts.length
        · have heq := S.old i hiOld hiT
          obtain ⟨o1, o2, o3, o4, o5⟩ := wfB_part hwf i hiOld
          rw [heq, Bool.and_eq_true, Bool.and_eq_true, Bool.and_eq_true,
            Bool.and_eq_true]
          refine ⟨⟨⟨⟨relTargetsOk_mono (Nat.le_of_lt S.len) o1, o2⟩, ?_⟩, ?_⟩, ?_⟩
          · exact masterPartOkB_mono o1 (fun t ht =>
              ⟨(hkinds t ht).2.2.1, (hkinds t ht).1, (hkinds t ht).2.2.2.1,
               (hkinds t ht).2.2.2.2.1⟩) o3
          · exact layoutPartOkB_mono o1 (fun t ht =>
              ⟨(hkinds t ht).2.1, (hkinds t ht).2.2.2.1,
               (hkinds t ht).2.2.2.2.1⟩) o4
          · exact slidePartOkB_mono o1 (fun t ht => (hkinds t ht).2.2.1) o5
        · have hllt : lPid < i := by
            rw [S.lPidEq]
            exact Nat.lt_of_le_of_ne (Nat.le_of_not_lt hiOld)
              (fun h => hiL (h.symm.trans S.lPidEq.symm))
          obtain ⟨hkind, hrels0⟩ := S.newParts i hllt hi
          rw [Bool.and_eq_true, Bool.and_eq_true, Bool.and_eq_true,
            Bool.and_eq_true]
          refine ⟨⟨⟨⟨?_, ?_⟩, ?_⟩, ?_⟩, ?_⟩
          · unfold relTargetsOkB
            rw [hrels0]
            rfl
          · rw [hrels0]
            rfl
          · rcases hkind with h | h
            · obtain ⟨bb, hc⟩ := content_of_isImage h
              simp only [masterPartOkB, hc]
            · obtain ⟨ct, bb, hc⟩ := content_of_isGeneric h
              simp only [masterPartOkB, hc]
          · rcases hkind with h | h
            · obtain ⟨bb, hc⟩ := content_of_isImage h
              simp only [layoutPartOkB, hc]
            · obtain ⟨ct, bb, hc⟩ := content_of_isGeneric h
              simp only [layoutPartOkB, hc]
          · rcases hkind with h | h
            · obtain ⟨bb, hc⟩ := content_of_isImage h
              simp only [slidePartOkB, hc]
            · obtain ⟨ct, bb, hc⟩ := content_of_isGeneric h
              simp only [slidePartOkB, hc]

/-! ## Helpers for the copy_layouts loop -/

theorem find?_congr {α : Type} {p q : α → Bool} (l : List α)
    (h : ∀ x ∈ l, p x = q x) : l.find? p = l.find? q := by
  induction l with
  | nil => rfl
  | cons a rest ih =>
    rw [List.find?_cons, List.find?_cons, h a (List.mem_cons_self a rest),
      ih (fun x hx => h x (List.mem_cons_of_mem a hx))]

theorem find_theme_append_nonTheme (l s : List (RId × Rel))
    (hs : ∀ r ∈ s, (r.2.reltype == RelType.theme) = false) :
    (l ++ s).find? (fun q => q.2.reltype == RelType.theme) =
      l.find? (fun q => q.2.reltype == RelType.theme) := by
  cases hf : l.find? (fun q => q.2.reltype == RelType.theme) with
  | some q => exact find?_append_some _ l s q hf
  | none =>
    rw [find?_append_none _ l s hf]
    exact find?_eq_none_of_all hs

theorem mem_dictInsert {α : Type} {d : List (String × α)} {k : String} {v : α}
    {e : String × α} (h : e ∈ dictInsert d k v) : e ∈ d ∨ e = (k, v) := by
  unfold dictInsert at h
  split at h
  · rw [List.mem_map] at h
    obtain ⟨x, hx, hxe⟩ := h
    by_cases hk : (x.1 == k) = true
    · rw [if_pos hk] at hxe
      exact Or.inr hxe.symm
    · rw [if_neg hk] at hxe
      exact Or.inl (hxe ▸ hx)
  · rcases List.mem_append.mp h with h1 | h1
    · exact Or.inl h1
    · rw [List.mem_singleton] at h1
      exact Or.inr h1

theorem lookupA_mem {α : Type} {d : List (String × α)} {k : String} {v : α}
    (h : lookupA d k = some v) : (k, v) ∈ d := by
  unfold lookupA at h
  cases hf : d.find? (fun p => p.1 == k) with
  | none => rw [hf] at h; cases h
  | some e =>
    rw [hf] at h
    have hmem := List.mem_of_find?_eq_some hf
    have hkey := List.find?_some hf
    simp only [Option.map_some'] at h
    have h2 : e.2 = v := Option.some.inj h
    rw [beq_iff_eq] at hkey
    have he : e = (k, v) := by
      rw [← hkey, ← h2]
    rw [he] at hmem
    exact hmem

theorem layoutNB_name (src : Package) (l : PartId) :
    (layoutNB src l).1 = layoutNameOf src l := by
  unfold layoutNB layoutNameOf
  cases (src.getPart l).content <;> rfl

theorem mem_slide_masters_bound {T : Package} (hwf : wfB T = true)
    {tm : PartId} (h : tm ∈ slide_masters T) :
    tm < T.parts.length ∧ (T.getPart tm).isMaster = true := by
  unfold slide_masters at h
  rw [List.mem_filterMap] at h
  obtain ⟨r, hr, hres⟩ := h
  obtain ⟨qq, hfq, hqe, hqm⟩ := presRidsOk_master_find (wfB_presRidsOk hwf) hr
  unfold resolveRel at hres
  rw [hfq] at hres
  simp only [Option.map_some'] at hres
  have htm : qq.2.targetPart = tm := Option.some.inj hres
  have hp : T.presId < T.parts.length := presOkB_lt (wfB_presOk hwf)
  have hbound := relTargetsOk_bound (wfB_part hwf T.presId hp).1
    (List.mem_of_find?_eq_some hfq) hqe
  rw [htm] at hbound hqm
  exact ⟨hbound, hqm⟩

theorem mem_slide_layouts_bound {T : Package} (hwf : wfB T = true)
    {tm : PartId} (htm : tm < T.parts.length)
    {l : PartId} (h : l ∈ slide_layouts_of T tm) :
    l < T.parts.length ∧ (T.getPart l).isLayout = true := by
  unfold slide_layouts_of at h
  obtain ⟨o1, _, o3, _, _⟩ := wfB_part hwf tm htm
  cases hc : (T.getPart tm).content with
  | masterC lst b =>
    rw [hc] at h
    rw [List.mem_filterMap] at h
    obtain ⟨r, hr, hres⟩ := h
    simp only [masterPartOkB, hc, Bool.and_eq_true] at o3
    have hall := o3.1.1
    rw [List.all_eq_true] at hall
    have h2 := hall r hr
    revert h2
    cases hf : (T.getPart tm).rels.find? (fun q => q.1 == r) with
    | none => intro h2; cases h2
    | some qq =>
      intro h2
      have h3 : (!qq.2.isExternal && (T.getPart qq.2.targetPart).isLayout) = true :=
        h2
      rw [Bool.and_eq_true] at h3
      unfold resolveRel at hres
      rw [hf] at hres
      simp only [Option.map_some'] at hres
      have hres2 : qq.2.targetPart = l := Option.some.inj hres
      have hext : qq.2.isExternal = false := by simpa using h3.1
      have hbound := relTargetsOk_bound o1 (List.mem_of_find?_eq_some hf) hext
      rw [hres2] at hbound
      have h4 := h3.2
      rw [hres2] at h4
      exact ⟨hbound, h4⟩
  | layoutC n b => rw [hc] at h; cases h
  | slideC sh => rw [hc] at h; cases h
  | themeC bb => rw [hc] at h; cases h
  | imageC bb => rw [hc] at h; cases h
  | presC a c d e => rw [hc] at h; cases h
  | genericC ct bb => rw [hc] at h; cases h

theorem themeBlobOf_stable {p q : Package} {mid : PartId}
    {ext : List (RId × Rel)}
    (hrels : (q.getPart mid).rels = (p.getPart mid).rels ++ ext)
    (hext : ∀ r ∈ ext, (r.2.reltype == RelType.theme) = false)
    (htargets : ∀ r ∈ (p.getPart mid).rels, r.2.reltype = .theme →
      partBlobD q r.2.targetPart = partBlobD p r.2.targetPart) :
    themeBlobOf q mid = themeBlobOf p mid := by
  rw [themeBlobOf_eq, themeBlobOf_eq, part_related_by_eq, part_related_by_eq,
    hrels, find_theme_append_nonTheme _ _ hext]
  cases hf : (p.getPart mid).rels.find? (fun r => r.2.reltype == RelType.theme) with
  | none => rfl
  | some qf =>
    simp only [Option.map_some']
    have hmem := List.mem_of_find?_eq_some hf
    have hth := List.find?_some hf
    rw [beq_iff_eq] at hth
    rw [htargets qf hmem hth]

theorem buildNameDict_mem (pkg : Package) :
    ∀ (L : List PartId) (d : List (String × PartId)) (e : String × PartId),
      e ∈ buildNameDict pkg L d →
      e ∈ d ∨ (e.2 ∈ L ∧ e.1 = layoutNameOf pkg e.2) := by
  intro L
  induction L with
  | nil => intro d e h; exact Or.inl h
  | cons l rest ih =>
    intro d e h
    unfold buildNameDict at h
    rcases ih (dictInsert d (layoutNameOf pkg l) l) e h with h1 | h1
    · rcases mem_dictInsert h1 with h2 | h2
      · exact Or.inl h2
      · right
        rw [h2]
        exact ⟨List.mem_cons_self l rest, rfl⟩
    · right
      exact ⟨List.mem_cons_of_mem l h1.1, h1.2⟩

theorem lookupA_isSome_of_mem {α : Type} (d : List (String × α)) (k : String)
    (h : ∃ v, (k, v) ∈ d) : (lookupA d k).isSome = true := by
  obtain ⟨v, hv⟩ := h
  unfold lookupA
  cases hf : d.find? (fun p => p.1 == k) with
  | some e => rfl
  | none =>
    rw [List.find?_eq_none] at hf
    have := hf (k, v) hv
    simp at this

theorem buildNameDict_complete (pkg : Package) :
    ∀ (L : List PartId) (d : List (String × PartId)) (n : String),
      (n ∈ L.map (layoutNameOf pkg) ∨ (lookupA d n).isSome = true) →
      (lookupA (buildNameDict pkg L d) n).isSome = true := by
  intro L
  induction L with
  | nil =>
    intro d n h
    rcases h with h | h
    · cases h
    · exact h
  | cons l rest ih =>
    intro d n h
    unfold buildNameDict
    apply ih
    rcases h with h | h
    · rw [List.map_cons] at h
      rcases List.mem_cons.mp h with h1 | h1
    -- head: the freshly inserted key is present
      · right
        subst h1
        apply lookupA_isSome_of_mem
        refine ⟨l, ?_⟩
        unfold dictInsert
        split
        · rename_i hsome
          rw [Option.isSome_iff_exists] at hsome
          obtain ⟨e, he⟩ := hsome
          have hmem := List.mem_of_find?_eq_some he
          have hkey := List.find?_some he
          rw [List.mem_map]
          refine ⟨e, hmem, ?_⟩
          rw [if_pos hkey]
        · exact List.mem_append_right _ (List.mem_singleton.mpr rfl)
      · exact Or.inl h1
    · right
      apply lookupA_isSome_of_mem
      rw [Option.isSome_iff_exists] at h
      obtain ⟨v, hv⟩ := h
      have hmem := lookupA_mem hv
      unfold dictInsert
      split
      · rename_i hsome
        by_cases hk : (n == layoutNameOf pkg l) = true
        · rw [beq_iff_eq] at hk
          subst hk
          rw [Option.isSome_iff_exists] at hsome
          obtain ⟨e, he⟩ := hsome
          refine ⟨l, ?_⟩
          rw [List.mem_map]
          refine ⟨e, List.mem_of_find?_eq_some he, ?_⟩
          rw [if_pos (List.find?_some he)]
        · refine ⟨v, ?_⟩
          rw [List.mem_map]
          refine ⟨(n, v), hmem, ?_⟩
          rw [if_neg ?_]
          intro hcon
          exact hk hcon
      · exact ⟨v, List.mem_append_left _ hmem⟩

theorem cacheLookup_cons_self (C : Cache) (k v : PartId) :
    cacheLookup ((k, v) :: C) k = some v := by
  unfold cacheLookup
  rw [List.find?_cons_of_pos]
  · rfl
  · exact beq_self_eq_true k

theorem cacheLookup_cons_ne (C : Cache) (k v j : PartId) (h : k ≠ j) :
    cacheLookup ((k, v) :: C) j = cacheLookup C j := by
  unfold cacheLookup
  rw [List.find?_cons_of_neg]
  intro hc
  exact h (by simpa using hc)

theorem cacheLookup_insert_self (C : Cache) (k v : PartId) :
    cacheLookup (cacheInsert C k v) k = some v :=
  cacheLookup_cons_self C k v

theorem cacheLookup_insert_ne (C : Cache) (k v j : PartId) (h : k ≠ j) :
    cacheLookup (cacheInsert C k v) j = cacheLookup C j :=
  cacheLookup_cons_ne C k v j h

/-- All package mutation of a layout loop is confined to the attachment
master tm and freshly appended parts. -/
structure LoopFrame (T q : Package) (tm : PartId) : Prop where
  pres : q.presId = T.presId
  len : T.parts.length ≤ q.parts.length
  old : ∀ j, j < T.parts.length → j ≠ tm → q.getPart j = T.getPart j
  tmMaster : ∀ lst b, (T.getPart tm).content = .masterC lst b →
    ∃ lst2, (q.getPart tm).content = .masterC lst2 b
  tmBlob : themeBlobOf q tm = themeBlobOf T tm
  tmLayoutsExt : ∃ ext, slide_layouts_of q tm = slide_layouts_of T tm ++ ext
  tmLayoutNames : ∀ l ∈ slide_layouts_of T tm, layoutNameOf q l = layoutNameOf T l

theorem LoopFrame.loop_refl (T : Package) (tm : PartId) : LoopFrame T T tm :=
  ⟨rfl, Nat.le_refl _, fun _ _ _ => rfl, fun lst b h => ⟨lst, h⟩, rfl,
   ⟨[], (List.append_nil _).symm⟩, fun _ _ => rfl⟩

theorem LoopFrame.loop_trans {T q r : Package} {tm : PartId}
    (h1 : LoopFrame T q tm) (h2 : LoopFrame q r tm) : LoopFrame T r tm := by
  refine ⟨h1.pres ▸ h2.pres, Nat.le_trans h1.len h2.len, ?_, ?_, ?_, ?_, ?_⟩
  · intro j hj hjt
    rw [h2.old j (Nat.lt_of_lt_of_le hj h1.len) hjt, h1.old j hj hjt]
  · intro lst b hc
    obtain ⟨lst2, hc2⟩ := h1.tmMaster lst b hc
    obtain ⟨lst3, hc3⟩ := h2.tmMaster lst2 b hc2
    exact ⟨lst3, hc3⟩
  · rw [h2.tmBlob, h1.tmBlob]
  · obtain ⟨e1, he1⟩ := h1.tmLayoutsExt
    obtain ⟨e2, he2⟩ := h2.tmLayoutsExt
    exact ⟨e1 ++ e2, by rw [he2, he1, List.append_assoc]⟩
  · intro l hl
    rw [h2.tmLayoutNames l (by
      obtain ⟨e1, he1⟩ := h1.tmLayoutsExt
      rw [he1]
      exact List.mem_append_left _ hl), h1.tmLayoutNames l hl]

theorem blob_stable_of_frame {p q : Package} (hwfp : wfB p = true)
    {mm touched : PartId}
    (hold : ∀ j, j < p.parts.length → j ≠ touched → q.getPart j = p.getPart j)
    (htouched : (p.getPart touched).isTheme = false)
    (hmm : mm < p.parts.length) (hmmNe : mm ≠ touched)
    (hmmc : ∃ lst b, (p.getPart mm).content = .masterC lst b) :
    themeBlobOf q mm = themeBlobOf p mm := by
  obtain ⟨lst, b, hmc⟩ := hmmc
  have hpart := hold mm hmm hmmNe
  apply @themeBlobOf_stable p q mm []
  · rw [hpart, List.append_nil]
  · intro r hr
    cases hr
  · intro r hr hth
    obtain ⟨rT, _, rM, _, _⟩ := wfB_part hwfp mm hmm
    simp only [masterPartOkB, hmc, Bool.and_eq_true] at rM
    have h2 := List.all_eq_true.mp rM.1.2 r hr
    rw [hth, bne_self_eq_false, Bool.false_or, Bool.and_eq_true] at h2
    have hext : r.2.isExternal = false := by
      cases he : r.2.isExternal
      · rfl
      · rw [he] at h2
        exact absurd h2.1 (by decide)
    have hbound : r.2.targetPart < p.parts.length := relTargetsOk_bound rT hr hext
    have hne2 : r.2.targetPart ≠ touched := by
      intro heq
      rw [heq] at h2
      rw [h2.2] at htouched
      exact absurd htouched (by decide)
    exact partBlobD_congr (by rw [hold r.2.targetPart hbound hne2])

theorem layouts_stable_of_frame {p q : Package} (hwfp : wfB p = true)
    {mm touched : PartId}
    (hold : ∀ j, j < p.parts.length → j ≠ touched → q.getPart j = p.getPart j)
    (htouched : (p.getPart touched).isLayout = false)
    (hmm : mm < p.parts.length) (hmmNe : mm ≠ touched) :
    slide_layouts_of q mm = slide_layouts_of p mm ∧
    ∀ l ∈ slide_layouts_of p mm, layoutNameOf q l = layoutNameOf p l := by
  have hpart := hold mm hmm hmmNe
  constructor
  · unfold slide_layouts_of
    rw [hpart]
    cases hc : (p.getPart mm).content <;> try rfl
    apply filterMap_congr_mem
    intro r _
    unfold resolveRel
    rw [hpart]
  · intro l hl
    have hb := mem_slide_layouts_bound hwfp hmm hl
    have hne : l ≠ touched := by
      intro he
      rw [he, htouched] at hb
      exact absurd hb.2 (by decide)
    unfold layoutNameOf
    rw [hold l hb.1 hne]

theorem masters_stable_of_frame {p q : Package} {touched : PartId}
    (hold : ∀ j, j < p.parts.length → j ≠ touched → q.getPart j = p.getPart j)
    (hpres : q.presId = p.presId)
    (hp : p.presId < p.parts.length) (hpresNe : p.presId ≠ touched) :
    slide_masters q = slide_masters p := by
  have hpp := hold p.presId hp hpresNe
  have hids : presMasterIds q = presMasterIds p := by
    unfold presMasterIds
    rw [hpres, hpp]
  unfold slide_masters
  rw [hids, hpres]
  apply filterMap_congr_mem
  intro r _
  unfold resolveRel
  rw [hpp]

/-- The package change of one cached-master layout copy is a tm-confined
frame: tm gains exactly the new layout at the end of its layout list, and the
new layout carries the source layout's name. -/
theorem loopFrame_of_layout_copy {src : Package} {srcLid : PartId}
    {tgt q : Package} {tm lPid : PartId}
    (hwf : wfB tgt = true) (htm : tm < tgt.parts.length)
    (htmc : ∃ lst b, (tgt.getPart tm).content = .masterC lst b)
    (S : LayoutCopySpec src srcLid tgt q tm lPid) :
    LoopFrame tgt q tm ∧
    slide_layouts_of q tm = slide_layouts_of tgt tm ++ [lPid] ∧
    layoutNameOf q lPid = layoutNameOf src srcLid := by
  obtain ⟨lst, b, htc⟩ := htmc
  obtain ⟨rid2, htn, htcq, htr, htfresh⟩ := S.tmChange lst b htc
  obtain ⟨tmT, _, tmM, _, _⟩ := wfB_part hwf tm htm
  have hkm := kinds_masterC htc
  simp only [masterPartOkB, htc, Bool.and_eq_true] at tmM
  have hres_old : ∀ rid ∈ lst.getD [],
      resolveRel q tm rid = resolveRel tgt tm rid := by
    intro rid hrid
    have hall := List.all_eq_true.mp tmM.1.1 rid hrid
    revert hall
    cases hf : (tgt.getPart tm).rels.find? (fun qq => qq.1 == rid) with
    | none => intro hall; simp at hall
    | some qq =>
      intro _
      unfold resolveRel
      rw [htr, find?_append_some _ _ _ _ hf, hf]
  have hres_new : resolveRel q tm rid2 = some lPid := by
    unfold resolveRel
    rw [htr]
    have hnone : (tgt.getPart tm).rels.find? (fun qq => qq.1 == rid2) = none := by
      apply find?_eq_none_of_all
      intro r hr
      rw [beq_eq_false_iff_ne]
      exact htfresh r hr
    rw [find?_append_none _ _ _ hnone]
    have hb2 : (rid2 == rid2) = true := beq_self_eq_true rid2
    simp only [List.find?_cons, hb2, if_true, Option.map_some']
  have hlq : slide_layouts_of q tm = slide_layouts_of tgt tm ++ [lPid] := by
    simp only [slide_layouts_of, htcq, htc, Option.getD_some, List.filterMap_append]
    rw [filterMap_congr_mem _ (resolveRel q tm) (resolveRel tgt tm) hres_old]
    simp only [List.filterMap_cons, hres_new, List.filterMap_nil]
  have hname : layoutNameOf q lPid = layoutNameOf src srcLid := by
    obtain ⟨b2, hlc⟩ := S.layoutContent
    have h1 : layoutNameOf q lPid = (layoutNB src srcLid).1 := by
      unfold layoutNameOf
      rw [hlc]
    rw [h1, layoutNB_name]
  refine ⟨⟨S.pres, Nat.le_of_lt S.len, S.old, ?_, ?_, ⟨[lPid], hlq⟩, ?_⟩, hlq, hname⟩
  · intro lst' b' hc'
    rw [htc] at hc'
    injection hc' with h1 h2
    exact ⟨some ((lst.getD []) ++ [rid2]), by rw [← h2]; exact htcq⟩
  · apply themeBlobOf_stable htr
    · intro r hr
      rw [List.mem_singleton] at hr
      rw [hr]
      rfl
    · intro r hr hth
      have h2 := List.all_eq_true.mp tmM.1.2 r hr
      rw [hth, bne_self_eq_false, Bool.false_or, Bool.and_eq_true] at h2
      have hext : r.2.isExternal = false := by
        cases he : r.2.isExternal
        · rfl
        · rw [he] at h2
          exact absurd h2.1 (by decide)
      have hbound : r.2.targetPart < tgt.parts.length :=
        relTargetsOk_bound tmT hr hext
      have hne2 : r.2.targetPart ≠ tm := by
        intro heq
        rw [heq] at h2
        rw [hkm.1] at h2
        exact absurd h2.2 (by decide)
      exact partBlobD_congr (by rw [S.old r.2.targetPart hbound hne2])
  · intro l hl
    have hb := mem_slide_layouts_bound hwf htm hl
    have hne : l ≠ tm := by
      intro he
      rw [he, hkm.2.2.1] at hb
      exact absurd hb.2 (by decide)
    unfold layoutNameOf
    rw [S.old l hb.1 hne]

/-- The only cache key copy_theme_part can add is the source master's own
theme part. -/
theorem copy_theme_part_cache_keys (src : Package) (sm mPid : PartId)
    (tgt : Package) (cache : Cache) :
    ∀ e ∈ (copy_theme_part src sm mPid tgt cache).2,
      e ∈ cache ∨ part_related_by src sm .theme = some e.1 := by
  intro e he
  cases hrel : part_related_by src sm .theme with
  | none =>
    simp only [copy_theme_part, hrel] at he
    exact Or.inl he
  | some tp =>
    cases hl : cacheLookup cache tp with
    | some t =>
      simp only [copy_theme_part, hrel, hl] at he
      exact Or.inl he
    | none =>
      simp only [copy_theme_part, hrel, hl] at he
      rcases List.mem_cons.mp he with h1 | h1
      · right
        rw [h1]
      · exact Or.inl h1

theorem copy_slide_master_part_cache_keys (src : Package) (sm : PartId)
    (tgt : Package) (cache : Cache) :
    ∀ e ∈ (copy_slide_master_part src sm tgt cache).2.1,
      e ∈ cache ∨ part_related_by src sm .theme = some e.1 := by
  intro e he
  exact copy_theme_part_cache_keys src sm (csmpAdd src sm tgt).2
    (csmpAdd src sm tgt).1 cache e he

/-- _copy_slide_layout_part on a master-cache miss: the parent master is
copied first, then the layout stages run on the grown package with the fresh
master as attachment point. -/
theorem layout_copy_spec_miss (src : Package) (srcLid : PartId) (tgt : Package)
    (cache : Cache) (srcMid : PartId)
    (hwf : wfB tgt = true)
    (hrelM : part_related_by src srcLid .slideMaster = some srcMid)
    (hmiss : cacheLookup cache srcMid = none)
    (hThemeKind : ∀ tp, part_related_by src srcMid .theme = some tp →
      (src.getPart tp).isTheme = true)
    (hMSrcRels : ∀ r ∈ (src.getPart srcMid).rels, r.2.reltype.isStructural = false →
      r.2.isExternal = false →
      (src.getPart r.2.targetPart).isImage = true ∨
      (src.getPart r.2.targetPart).isGeneric = true)
    (hSrcRels : ∀ r ∈ (src.getPart srcLid).rels, r.2.reltype.isStructural = false →
      r.2.isExternal = false →
      (src.getPart r.2.targetPart).isImage = true ∨
      (src.getPart r.2.targetPart).isGeneric = true)
    (hcache : CacheThemesOk src tgt cache) :
    (copy_slide_layout_part src srcLid tgt cache).2.1 =
      cacheInsert (copy_slide_master_part src srcMid tgt cache).2.1 srcMid
        (copy_slide_master_part src srcMid tgt cache).2.2 ∧
    (copy_slide_layout_part src srcLid tgt cache).2.2 =
      .ok (csllAdd src srcLid (copy_slide_master_part src srcMid tgt cache).1).2 ∧
    MasterCopySpec src srcMid tgt (copy_slide_master_part src srcMid tgt cache).1
      cache (copy_slide_master_part src srcMid tgt cache).2.1
      (copy_slide_master_part src srcMid tgt cache).2.2 ∧
    LayoutCopySpec src srcLid (copy_slide_master_part src srcMid tgt cache).1
      (copy_slide_layout_part src srcLid tgt cache).1
      (copy_slide_master_part src srcMid tgt cache).2.2
      (csllAdd src srcLid (copy_slide_master_part src srcMid tgt cache).1).2 := by
  have hgm : get_or_copy_slide_master src srcMid tgt cache =
      ((copy_slide_master_part src srcMid tgt cache).1,
       cacheInsert (copy_slide_master_part src srcMid tgt cache).2.1 srcMid
         (copy_slide_master_part src srcMid tgt cache).2.2,
       (copy_slide_master_part src srcMid tgt cache).2.2) := by
    unfold get_or_copy_slide_master
    rw [hmiss]
  have hg1 : (get_or_copy_slide_master src srcMid tgt cache).1 =
      (copy_slide_master_part src srcMid tgt cache).1 := by
    rw [hgm]
  have hg21 : (get_or_copy_slide_master src srcMid tgt cache).2.1 =
      cacheInsert (copy_slide_master_part src srcMid tgt cache).2.1 srcMid
        (copy_slide_master_part src srcMid tgt cache).2.2 := by
    rw [hgm]
  have hg22 : (get_or_copy_slide_master src srcMid tgt cache).2.2 =
      (copy_slide_master_part src srcMid tgt cache).2.2 := by
    rw [hgm]
  have S := master_copy_spec src srcMid tgt cache hwf hThemeKind hMSrcRels hcache
  have hwfM : wfB (copy_slide_master_part src srcMid tgt cache).1 = true :=
    wfB_master_copy src srcMid hwf S
  have htmM : (copy_slide_master_part src srcMid tgt cache).2.2 <
      (copy_slide_master_part src srcMid tgt cache).1.parts.length := by
    rw [S.mPidEq]
    exact S.len
  have htmcM : ∃ lst b, ((copy_slide_master_part src srcMid tgt cache).1.getPart
      (copy_slide_master_part src srcMid tgt cache).2.2).content =
      .masterC lst b := by
    obtain ⟨b, hb⟩ := S.masterContent
    exact ⟨none, b, hb⟩
  have hstage := layout_stage_spec src srcLid
    (copy_slide_master_part src srcMid tgt cache).1
    (copy_slide_master_part src srcMid tgt cache).2.2 hwfM htmM htmcM hSrcRels
  have hcl := copy_slide_layout_part_eq src srcLid tgt cache srcMid hrelM
  rw [hg1, hg21, hg22] at hcl
  refine ⟨by rw [hcl], by rw [hcl], S, ?_⟩
  have hcl1 : (copy_slide_layout_part src srcLid tgt cache).1 =
      appendLayoutId
        (csllAttach src srcLid (copy_slide_master_part src srcMid tgt cache).1
          (copy_slide_master_part src srcMid tgt cache).2.2).1
        (copy_slide_master_part src srcMid tgt cache).2.2
        (csllAttach src srcLid (copy_slide_master_part src srcMid tgt cache).1
          (copy_slide_master_part src srcMid tgt cache).2.2).2 := by
    rw [hcl]
  rw [hcl1]
  exact hstage

/-! ## Loop-level invariants of copy_layouts -/

/-- Contract of a layout map: each value is a target layout part named by its
key (the documented shape of the dict copy_layouts returns). -/
def LmOk (T : Package) (lm : List (String × PartId)) : Prop :=
  ∀ e ∈ lm, e.2 < T.parts.length ∧ ∃ bb, (T.getPart e.2).content = .layoutC e.1 bb

/-- Facts about one source layout under a given master, extracted from the
source-side invariants. -/
def SrcLayoutOk (src : Package) (m l : PartId) : Prop :=
  part_related_by src l .slideMaster = some m ∧
  (src.getPart l).isLayout = true ∧
  ∀ r ∈ (src.getPart l).rels, r.2.reltype.isStructural = false →
    r.2.isExternal = false →
    (src.getPart r.2.targetPart).isImage = true ∨
    (src.getPart r.2.targetPart).isGeneric = true

/-- The sldLayoutIdLst carried by a master part. -/
def masterLayoutIds (T : Package) (tm : PartId) : List RId :=
  match (T.getPart tm).content with
  | .masterC lst _ => lst.getD []
  | _ => []

/-- The master's layout-id list pairs exactly, in order, with its
references-layout relationships (claim C5's invariant). -/
def LayoutIdsOk (T : Package) (tm : PartId) : Prop :=
  masterLayoutIds T tm =
    ((T.getPart tm).rels.filter
      (fun r => r.2.reltype == RelType.slideLayout)).map (fun r => r.1)

/-- Monotone package evolution as seen by the matching and coverage queries:
the master list only grows at the end, old masters keep their theme blobs,
their layout lists only grow at the end, and old layouts keep their names. -/
structure PkgExt (T q : Package) : Prop where
  mastersExt : ∃ ext, slide_masters q = slide_masters T ++ ext
  blob : ∀ mm ∈ slide_masters T, themeBlobOf q mm = themeBlobOf T mm
  layoutsExt : ∀ mm ∈ slide_masters T,
    ∃ ext, slide_layouts_of q mm = slide_layouts_of T mm ++ ext
  names : ∀ mm ∈ slide_masters T, ∀ l ∈ slide_layouts_of T mm,
    layoutNameOf q l = layoutNameOf T l

theorem PkgExt.ext_refl (T : Package) : PkgExt T T :=
  ⟨⟨[], (List.append_nil _).symm⟩, fun _ _ => rfl,
   fun _ _ => ⟨[], (List.append_nil _).symm⟩, fun _ _ _ _ => rfl⟩

theorem PkgExt.ext_trans {T q r : Package} (h1 : PkgExt T q) (h2 : PkgExt q r) :
    PkgExt T r := by
  obtain ⟨e1, he1⟩ := h1.mastersExt
  obtain ⟨e2, he2⟩ := h2.mastersExt
  have hmem : ∀ mm ∈ slide_masters T, mm ∈ slide_masters q := by
    intro mm hmm
    rw [he1]
    exact List.mem_append_left _ hmm
  refine ⟨⟨e1 ++ e2, by rw [he2, he1, List.append_assoc]⟩, ?_, ?_, ?_⟩
  · intro mm hmm
    rw [h2.blob mm (hmem mm hmm), h1.blob mm hmm]
  · intro mm hmm
    obtain ⟨f1, hf1⟩ := h1.layoutsExt mm hmm
    obtain ⟨f2, hf2⟩ := h2.layoutsExt mm (hmem mm hmm)
    exact ⟨f1 ++ f2, by rw [hf2, hf1, List.append_assoc]⟩
  · intro mm hmm l hl
    obtain ⟨f1, hf1⟩ := h1.layoutsExt mm hmm
    rw [h2.names mm (hmem mm hmm) l (by rw [hf1]; exact List.mem_append_left _ hl),
      h1.names mm hmm l hl]

/-- The theme matcher finds a target master for the source master m, and that
target master already carries every one of m's layout names. -/
def MatchCovered (src : Package) (m : PartId) (T : Package) : Prop :=
  ∃ tm, find_matching_master src m T = some tm ∧
    ∀ l ∈ slide_layouts_of src m, layoutNameOf src l ∈
      (slide_layouts_of T tm).map (layoutNameOf T)

theorem matchCovered_mono {src : Package} {m : PartId} {T q : Package}
    (hc : MatchCovered src m T) (he : PkgExt T q) : MatchCovered src m q := by
  obtain ⟨tm, hf, hcov⟩ := hc
  cases hb : themeBlobOf src m with
  | none =>
    unfold find_matching_master at hf
    rw [hb] at hf
    cases hf
  | some b =>
    unfold find_matching_master at hf
    rw [hb] at hf
    have htmmem : tm ∈ slide_masters T := List.mem_of_find?_eq_some hf
    obtain ⟨ext, hm⟩ := he.mastersExt
    refine ⟨tm, ?_, ?_⟩
    · unfold find_matching_master
      rw [hb, hm]
      have hcg : (slide_masters T).find? (fun mm => themeBlobOf q mm == some b) =
          (slide_masters T).find? (fun mm => themeBlobOf T mm == some b) :=
        find?_congr _ (fun mm hmm => by rw [he.blob mm hmm])
      exact find?_append_some _ _ _ _ (hcg.trans hf)
    · intro l hl
      obtain ⟨tl, htl, hname⟩ := List.mem_map.mp (hcov l hl)
      obtain ⟨ext2, hly⟩ := he.layoutsExt tm htmmem
      refine List.mem_map.mpr ⟨tl, ?_, ?_⟩
      · rw [hly]
        exact List.mem_append_left _ htl
      · rw [he.names tm htmmem tl htl]
        exact hname

/-- A master-confined loop frame is a monotone package evolution. -/
theorem pkgExt_of_loopFrame {T q : Package} {tm : PartId}
    (hwf : wfB T = true) (htm : tm < T.parts.length)
    (htmM : (T.getPart tm).isMaster = true) (F : LoopFrame T q tm) :
    PkgExt T q := by
  have hp : T.presId < T.parts.length := presOkB_lt (wfB_presOk hwf)
  obtain ⟨ml, sl, w0, h0, hpc⟩ := presOkB_content (wfB_presOk hwf)
  have hkp := kinds_presC hpc
  obtain ⟨lst0, b0, htmc⟩ := content_of_isMaster htmM
  have hkm := kinds_masterC htmc
  have hpresNe : T.presId ≠ tm := by
    intro he
    rw [← he] at htmM
    rw [hkp.2.1] at htmM
    exact absurd htmM (by decide)
  have hmst := masters_stable_of_frame F.old F.pres hp hpresNe
  refine ⟨⟨[], by rw [hmst, List.append_nil]⟩, ?_, ?_, ?_⟩
  · intro mm hmm
    obtain ⟨h1, h2⟩ := mem_slide_masters_bound hwf hmm
    by_cases hEq : mm = tm
    · rw [hEq]
      exact F.tmBlob
    · exact blob_stable_of_frame hwf F.old hkm.1 h1 hEq (content_of_isMaster h2)
  · intro mm hmm
    obtain ⟨h1, h2⟩ := mem_slide_masters_bound hwf hmm
    by_cases hEq : mm = tm
    · rw [hEq]
      exact F.tmLayoutsExt
    · exact ⟨[], by
        rw [(layouts_stable_of_frame hwf F.old hkm.2.2.1 h1 hEq).1,
          List.append_nil]⟩
  · intro mm hmm l hl
    obtain ⟨h1, h2⟩ := mem_slide_masters_bound hwf hmm
    by_cases hEq : mm = tm
    · rw [hEq] at hl
      exact F.tmLayoutNames l hl
    · exact (layouts_stable_of_frame hwf F.old hkm.2.2.1 h1 hEq).2 l hl

/-- A master copy is a monotone package evolution: the fresh master lands at
the end of the master list and nothing about old masters changes. -/
theorem pkgExt_of_master_copy {src : Package} {sm : PartId} {tgt q : Package}
    {cache cache' : Cache} {mPid : PartId} (hwf : wfB tgt = true)
    (S : MasterCopySpec src sm tgt q cache cache' mPid) : PkgExt tgt q := by
  have hp : tgt.presId < tgt.parts.length := presOkB_lt (wfB_presOk hwf)
  obtain ⟨ml, sl, w0, h0, hpc⟩ := presOkB_content (wfB_presOk hwf)
  have hkp := kinds_presC hpc
  refine ⟨⟨[mPid], S.masters⟩, ?_, ?_, ?_⟩
  · intro mm hmm
    obtain ⟨h1, h2⟩ := mem_slide_masters_bound hwf hmm
    have hne : mm ≠ tgt.presId := by
      intro he
      rw [he, hkp.2.1] at h2
      exact absurd h2 (by decide)
    exact blob_stable_of_frame hwf S.old hkp.1 h1 hne (content_of_isMaster h2)
  · intro mm hmm
    obtain ⟨h1, h2⟩ := mem_slide_masters_bound hwf hmm
    have hne : mm ≠ tgt.presId := by
      intro he
      rw [he, hkp.2.1] at h2
      exact absurd h2 (by decide)
    exact ⟨[], by
      rw [(layouts_stable_of_frame hwf S.old hkp.2.2.1 h1 hne).1, List.append_nil]⟩
  · intro mm hmm l hl
    obtain ⟨h1, h2⟩ := mem_slide_masters_bound hwf hmm
    have hne : mm ≠ tgt.presId := by
      intro he
      rw [he, hkp.2.1] at h2
      exact absurd h2 (by decide)
    exact (layouts_stable_of_frame hwf S.old hkp.2.2.1 h1 hne).2 l hl

/-- When every source layout name is already a key of the existing dict, the
matched layout loop reuses throughout: package and cache come back
unchanged and no error is raised. -/
theorem matched_loop_all_hits (src : Package) (existing : List (String × PartId)) :
    ∀ (L : List PartId) (T : Package) (C : Cache) (lm : List (String × PartId)),
    (∀ l ∈ L, (lookupA existing (layoutNameOf src l)).isSome = true) →
    (matched_layout_loop src existing L T C lm).1 = T ∧
    (matched_layout_loop src existing L T C lm).2.1 = C ∧
    (matched_layout_loop src existing L T C lm).2.2.2 = none := by
  intro L
  induction L with
  | nil => intro T C lm _; exact ⟨rfl, rfl, rfl⟩
  | cons l rest ih =>
    intro T C lm hall
    have h1 := hall l (List.mem_cons_self l rest)
    rw [Option.isSome_iff_exists] at h1
    obtain ⟨tl, htl⟩ := h1
    have heq : matched_layout_loop src existing (l :: rest) T C lm =
        matched_layout_loop src existing rest T C
          (dictInsert lm (layoutNameOf src l) tl) := by
      simp only [matched_layout_loop, htl]
    rw [heq]
    exact ih T C _ (fun l' hl' => hall l' (List.mem_cons_of_mem l hl'))

/-- Appending one layout relationship and its id entry preserves the
id-list/relationship pairing of the master. -/
theorem layoutIdsOk_step {T q : Package} {tm lPid : PartId}
    {lst : Option (List RId)} {b : Xml} {rid2 : RId}
    (h0 : (T.getPart tm).content = .masterC lst b)
    (htcq : (q.getPart tm).content = .masterC (some ((lst.getD []) ++ [rid2])) b)
    (htr : (q.getPart tm).rels = (T.getPart tm).rels ++
      [(rid2, ⟨.slideLayout, false, lPid, ""⟩)])
    (hids : LayoutIdsOk T tm) : LayoutIdsOk q tm := by
  unfold LayoutIdsOk at hids ⊢
  have h1 : masterLayoutIds T tm = lst.getD [] := by
    unfold masterLayoutIds
    rw [h0]
  have h2 : masterLayoutIds q tm = lst.getD [] ++ [rid2] := by
    unfold masterLayoutIds
    rw [htcq]
    rfl
  rw [h2, htr, List.filter_append, List.map_append, ← hids, h1]
  rfl

/-- Common conclusions of both layout loops of copy_layouts. -/
structure LoopOut (src : Package) (L : List PartId) (T : Package) (C : Cache)
    (lm : List (String × PartId)) (tm : PartId)
    (out : Package × Cache × List (String × PartId) × Option CopyErr) : Prop where
  err : out.2.2.2 = none
  wf : wfB out.1 = true
  frame : LoopFrame T out.1 tm
  cTheme : themeCount out.1 = themeCount T
  cMaster : masterCount out.1 = masterCount T
  cover : ∀ l ∈ L, layoutNameOf src l ∈
    (slide_layouts_of out.1 tm).map (layoutNameOf out.1)
  cacheNew : ∀ e ∈ out.2.1, e ∈ C ∨ e.1 ∈ L
  cacheOld : ∀ e ∈ C, e ∈ out.2.1
  cacheStable : ∀ k, (∀ l ∈ L, k ≠ l) → cacheLookup out.2.1 k = cacheLookup C k
  lmOk : LmOk T lm → LmOk out.1 out.2.2.1
  idsOk : LayoutIdsOk T tm → LayoutIdsOk out.1 tm

/-- The unmatched layout loop copies every layout in order: no error, all
mutation confined to the attachment master and fresh parts, exactly one new
layout part per source layout, no new theme or master parts. -/
theorem unmatched_loop_spec (src : Package) (m tm : PartId) :
    ∀ (L : List PartId) (T : Package) (C : Cache) (lm : List (String × PartId)),
    wfB T = true →
    cacheLookup C m = some tm →
    tm < T.parts.length →
    (∃ lst b, (T.getPart tm).content = .masterC lst b) →
    (∀ l ∈ L, SrcLayoutOk src m l) →
    (∀ l ∈ L, cacheLookup C l = none) →
    L.Nodup →
    LoopOut src L T C lm tm (unmatched_layout_loop src L T C lm) ∧
    layoutCount (unmatched_layout_loop src L T C lm).1 =
      layoutCount T + L.length := by
  intro L
  induction L with
  | nil =>
    intro T C lm hwf _ _ _ _ _ _
    exact ⟨⟨rfl, hwf, LoopFrame.loop_refl T tm, rfl, rfl,
      (fun l hl => by cases hl), fun e he => Or.inl he, fun e he => he,
      fun k _ => rfl, fun h => h, fun h => h⟩, rfl⟩
  | cons l rest ih =>
    intro T C lm hwf hM htm htmc hok hfresh hnodup
    have hmiss : cacheLookup C l = none := hfresh l (List.mem_cons_self l rest)
    obtain ⟨hrelM, hisL, hRels⟩ := hok l (List.mem_cons_self l rest)
    obtain ⟨hc1, hc2, S⟩ := layout_copy_spec src l T C m tm hwf hrelM hM htm htmc
      hRels
    have heq : unmatched_layout_loop src (l :: rest) T C lm =
        unmatched_layout_loop src rest (copy_slide_layout_part src l T C).1
          (cacheInsert C l (csllAdd src l T).2)
          (dictInsert lm (layoutNameOf src l) (csllAdd src l T).2) := by
      simp only [unmatched_layout_loop, hmiss, hc2, hc1]
    obtain ⟨F1, hlq, hname⟩ := loopFrame_of_layout_copy hwf htm htmc S
    have hwf1 : wfB (copy_slide_layout_part src l T C).1 = true :=
      wfB_layout_copy src l hwf htm htmc S
    have hlm_ne : l ≠ m := by
      intro he
      rw [he] at hmiss
      rw [hmiss] at hM
      cases hM
    have hM1 : cacheLookup (cacheInsert C l (csllAdd src l T).2) m = some tm := by
      rw [cacheLookup_insert_ne _ _ _ _ hlm_ne]
      exact hM
    have htm1 : tm < (copy_slide_layout_part src l T C).1.parts.length :=
      Nat.lt_of_lt_of_le htm F1.len
    have htmc1 : ∃ lst b,
        ((copy_slide_layout_part src l T C).1.getPart tm).content =
          .masterC lst b := by
      obtain ⟨lst, b, h0⟩ := htmc
      obtain ⟨lst2, h2⟩ := F1.tmMaster lst b h0
      exact ⟨lst2, b, h2⟩
    have hnotmem : l ∉ rest := (List.nodup_cons.mp hnodup).1
    have hfresh1 : ∀ l' ∈ rest,
        cacheLookup (cacheInsert C l (csllAdd src l T).2) l' = none := by
      intro l' hl'
      have hne : l ≠ l' := fun he => hnotmem (he ▸ hl')
      rw [cacheLookup_insert_ne _ _ _ _ hne]
      exact hfresh l' (List.mem_cons_of_mem _ hl')
    obtain ⟨O, hcount⟩ := ih (copy_slide_layout_part src l T C).1
      (cacheInsert C l (csllAdd src l T).2)
      (dictInsert lm (layoutNameOf src l) (csllAdd src l T).2)
      hwf1 hM1 htm1 htmc1
      (fun l' hl' => hok l' (List.mem_cons_of_mem _ hl'))
      hfresh1 (List.nodup_cons.mp hnodup).2
    rw [heq]
    refine ⟨⟨O.err, O.wf, F1.loop_trans O.frame, ?_, ?_, ?_, ?_, ?_, ?_, ?_, ?_⟩, ?_⟩
    · rw [O.cTheme, S.cTheme]
    · rw [O.cMaster, S.cMaster]
    · -- coverage
      intro l' hl'
      rcases List.mem_cons.mp hl' with h | h
      · subst h
        have hmem : (csllAdd src l' T).2 ∈
            slide_layouts_of (unmatched_layout_loop src rest
              (copy_slide_layout_part src l' T C).1
              (cacheInsert C l' (csllAdd src l' T).2)
              (dictInsert lm (layoutNameOf src l') (csllAdd src l' T).2)).1 tm := by
          obtain ⟨ext2, hext2⟩ := O.frame.tmLayoutsExt
          rw [hext2, hlq]
          exact List.mem_append_left _
            (List.mem_append_right _ (List.mem_singleton_self _))
        refine List.mem_map.mpr ⟨(csllAdd src l' T).2, hmem, ?_⟩
        rw [O.frame.tmLayoutNames _ (by
          rw [hlq]
          exact List.mem_append_right _ (List.mem_singleton_self _)), hname]
      · exact O.cover l' h
    · -- cacheNew
      intro e he
      rcases O.cacheNew e he with h | h
      · rcases List.mem_cons.mp h with h2 | h2
        · right
          rw [h2]
          exact List.mem_cons_self l rest
        · exact Or.inl h2
      · exact Or.inr (List.mem_cons_of_mem l h)
    · -- cacheOld
      intro e he
      exact O.cacheOld e (List.mem_cons_of_mem _ he)
    · -- cacheStable
      intro k hk
      rw [O.cacheStable k (fun l' hl' => hk l' (List.mem_cons_of_mem _ hl')),
        cacheLookup_insert_ne _ _ _ _
          (fun he => hk l (List.mem_cons_self _ _) he.symm)]
    · -- lmOk
      intro hlm
      apply O.lmOk
      intro e he
      rcases mem_dictInsert he with h | h
      · obtain ⟨h1, bb, h2⟩ := hlm e h
        have hne : e.2 ≠ tm := by
          intro hEq
          obtain ⟨lst, b, h0⟩ := htmc
          rw [hEq] at h2
          rw [h0] at h2
          cases h2
        exact ⟨Nat.lt_of_lt_of_le h1 F1.len,
          ⟨bb, by rw [F1.old e.2 h1 hne]; exact h2⟩⟩
      · rw [h]
        obtain ⟨b2, hlc⟩ := S.layoutContent
        refine ⟨S.len, ⟨b2, ?_⟩⟩
        show ((copy_slide_layout_part src l T C).1.getPart
          (csllAdd src l T).2).content = .layoutC (layoutNameOf src l) b2
        rw [← layoutNB_name src l]
        exact hlc
    · -- idsOk
      intro hids
      apply O.idsOk
      obtain ⟨lst, b, h0⟩ := htmc
      obtain ⟨rid2, htn, htcq, htr, hfresh2⟩ := S.tmChange lst b h0
      exact layoutIdsOk_step h0 htcq htr hids
    · -- layout count
      rw [hcount, S.cLayout, List.length_cons, Nat.add_assoc,
        Nat.add_comm 1 rest.length]

/-- The matched layout loop reuses target layouts by name and copies only
the missing ones: no error, no new theme or master parts, at most one new
layout per source layout. -/
theorem matched_loop_spec (src : Package) (m tm : PartId)
    (existing : List (String × PartId)) :
    ∀ (L : List PartId) (T : Package) (C : Cache) (lm : List (String × PartId)),
    wfB T = true →
    cacheLookup C m = some tm →
    tm < T.parts.length →
    (∃ lst b, (T.getPart tm).content = .masterC lst b) →
    (∀ l ∈ L, SrcLayoutOk src m l) →
    (∀ l ∈ L, cacheLookup C l = none) →
    L.Nodup →
    (∀ n tl, lookupA existing n = some tl →
      tl ∈ slide_layouts_of T tm ∧ layoutNameOf T tl = n) →
    LoopOut src L T C lm tm (matched_layout_loop src existing L T C lm) ∧
    layoutCount (matched_layout_loop src existing L T C lm).1 ≤
      layoutCount T + L.length := by
  intro L
  induction L with
  | nil =>
    intro T C lm hwf _ _ _ _ _ _ _
    exact ⟨⟨rfl, hwf, LoopFrame.loop_refl T tm, rfl, rfl, (fun l hl => by cases hl),
      fun e he => Or.inl he, fun e he => he, fun k _ => rfl,
      fun h => h, fun h => h⟩, Nat.le_add_right _ _⟩
  | cons l rest ih =>
    intro T C lm hwf hM htm htmc hok hfresh hnodup hex
    cases hhit : lookupA existing (layoutNameOf src l) with
    | some tl =>
      have heq : matched_layout_loop src existing (l :: rest) T C lm =
          matched_layout_loop src existing rest T C
            (dictInsert lm (layoutNameOf src l) tl) := by
        simp only [matched_layout_loop, hhit]
      rw [heq]
      obtain ⟨O, hcount⟩ := ih T C (dictInsert lm (layoutNameOf src l) tl) hwf hM
        htm htmc
        (fun l' hl' => hok l' (List.mem_cons_of_mem _ hl'))
        (fun l' hl' => hfresh l' (List.mem_cons_of_mem _ hl'))
        (List.nodup_cons.mp hnodup).2 hex
      obtain ⟨hmemtl, hnametl⟩ := hex _ tl hhit
      refine ⟨⟨O.err, O.wf, O.frame, O.cTheme, O.cMaster, ?_,
        (fun e he => (O.cacheNew e he).imp id (List.mem_cons_of_mem l)),
        O.cacheOld,
        (fun k hk => O.cacheStable k
          (fun l' hl' => hk l' (List.mem_cons_of_mem _ hl'))),
        ?_, O.idsOk⟩, ?_⟩
      · -- coverage
        intro l' hl'
        rcases List.mem_cons.mp hl' with h | h
        · subst h
          obtain ⟨ext2, hext2⟩ := O.frame.tmLayoutsExt
          refine List.mem_map.mpr ⟨tl, by
            rw [hext2]
            exact List.mem_append_left _ hmemtl, ?_⟩
          rw [O.frame.tmLayoutNames tl hmemtl]
          exact hnametl
        · exact O.cover l' h
      · -- lmOk
        intro hlm
        apply O.lmOk
        intro e he
        rcases mem_dictInsert he with h | h
        · exact hlm e h
        · rw [h]
          obtain ⟨htl_lt, htl_isL⟩ := mem_slide_layouts_bound hwf htm hmemtl
          obtain ⟨n2, bb, hc⟩ := content_of_isLayout htl_isL
          have hn : n2 = layoutNameOf src l := by
            rw [← hnametl]
            unfold layoutNameOf
            rw [hc]
          refine ⟨htl_lt, bb, ?_⟩
          show (T.getPart tl).content = .layoutC (layoutNameOf src l) bb
          rw [hc, hn]
      · exact Nat.le_trans hcount (Nat.add_le_add_left (Nat.le_succ _) _)
    | none =>
      have hmiss : cacheLookup C l = none := hfresh l (List.mem_cons_self l rest)
      obtain ⟨hrelM, hisL, hRels⟩ := hok l (List.mem_cons_self l rest)
      obtain ⟨hc1, hc2, S⟩ := layout_copy_spec src l T C m tm hwf hrelM hM htm htmc
        hRels
      have heq : matched_layout_loop src existing (l :: rest) T C lm =
          matched_layout_loop src existing rest (copy_slide_layout_part src l T C).1
            (cacheInsert C l (csllAdd src l T).2)
            (dictInsert lm (layoutNameOf src l) (csllAdd src l T).2) := by
        simp only [matched_layout_loop, hhit, hc2, hc1]
      obtain ⟨F1, hlq, hname⟩ := loopFrame_of_layout_copy hwf htm htmc S
      have hwf1 : wfB (copy_slide_layout_part src l T C).1 = true :=
        wfB_layout_copy src l hwf htm htmc S
      have hlm_ne : l ≠ m := by
        intro he
        rw [he] at hmiss
        rw [hmiss] at hM
        cases hM
      have hM1 : cacheLookup (cacheInsert C l (csllAdd src l T).2) m = some tm := by
        rw [cacheLookup_insert_ne _ _ _ _ hlm_ne]
        exact hM
      have htm1 : tm < (copy_slide_layout_part src l T C).1.parts.length :=
        Nat.lt_of_lt_of_le htm F1.len
      have htmc1 : ∃ lst b,
          ((copy_slide_layout_part src l T C).1.getPart tm).content =
            .masterC lst b := by
        obtain ⟨lst, b, h0⟩ := htmc
        obtain ⟨lst2, h2⟩ := F1.tmMaster lst b h0
        exact ⟨lst2, b, h2⟩
      have hnotmem : l ∉ rest := (List.nodup_cons.mp hnodup).1
      have hfresh1 : ∀ l' ∈ rest,
          cacheLookup (cacheInsert C l (csllAdd src l T).2) l' = none := by
        intro l' hl'
        have hne : l ≠ l' := fun he => hnotmem (he ▸ hl')
        rw [cacheLookup_insert_ne _ _ _ _ hne]
        exact hfresh l' (List.mem_cons_of_mem _ hl')
      have hex1 : ∀ n tl, lookupA existing n = some tl →
          tl ∈ slide_layouts_of (copy_slide_layout_part src l T C).1 tm ∧
          layoutNameOf (copy_slide_layout_part src l T C).1 tl = n := by
        intro n tl h
        obtain ⟨h1, h2⟩ := hex n tl h
        refine ⟨by rw [hlq]; exact List.mem_append_left _ h1, ?_⟩
        rw [F1.tmLayoutNames tl h1]
        exact h2
      obtain ⟨O, hcount⟩ := ih (copy_slide_layout_part src l T C).1
        (cacheInsert C l (csllAdd src l T).2)
        (dictInsert lm (layoutNameOf src l) (csllAdd src l T).2)
        hwf1 hM1 htm1 htmc1
        (fun l' hl' => hok l' (List.mem_cons_of_mem _ hl'))
        hfresh1 (List.nodup_cons.mp hnodup).2 hex1
      rw [heq]
      refine ⟨⟨O.err, O.wf, F1.loop_trans O.frame, ?_, ?_, ?_, ?_, ?_, ?_, ?_, ?_⟩, ?_⟩
      · rw [O.cTheme, S.cTheme]
      · rw [O.cMaster, S.cMaster]
      · -- coverage
        intro l' hl'
        rcases List.mem_cons.mp hl' with h | h
        · subst h
          have hmem : (csllAdd src l' T).2 ∈
              slide_layouts_of (matched_layout_loop src existing rest
                (copy_slide_layout_part src l' T C).1
                (cacheInsert C l' (csllAdd src l' T).2)
                (dictInsert lm (layoutNameOf src l') (csllAdd src l' T).2)).1 tm := by
            obtain ⟨ext2, hext2⟩ := O.frame.tmLayoutsExt
            rw [hext2, hlq]
            exact List.mem_append_left _
              (List.mem_append_right _ (List.mem_singleton_self _))
          refine List.mem_map.mpr ⟨(csllAdd src l' T).2, hmem, ?_⟩
          rw [O.frame.tmLayoutNames _ (by
            rw [hlq]
            exact List.mem_append_right _ (List.mem_singleton_self _)), hname]
        · exact O.cover l' h
      · -- cacheNew
        intro e he
        rcases O.cacheNew e he with h | h
        · rcases List.mem_cons.mp h with h2 | h2
          · right
            rw [h2]
            exact List.mem_cons_self l rest
          · exact Or.inl h2
        · exact Or.inr (List.mem_cons_of_mem l h)
      · -- cacheOld
        intro e he
        exact O.cacheOld e (List.mem_cons_of_mem _ he)
      · -- cacheStable
        intro k hk
        rw [O.cacheStable k (fun l' hl' => hk l' (List.mem_cons_of_mem _ hl')),
          cacheLookup_insert_ne _ _ _ _
            (fun he => hk l (List.mem_cons_self _ _) he.symm)]
      · -- lmOk
        intro hlm
        apply O.lmOk
        intro e he
        rcases mem_dictInsert he with h | h
        · obtain ⟨h1, bb, h2⟩ := hlm e h
          have hne : e.2 ≠ tm := by
            intro hEq
            obtain ⟨lst, b, h0⟩ := htmc
            rw [hEq] at h2
            rw [h0] at h2
            cases h2
          exact ⟨Nat.lt_of_lt_of_le h1 F1.len,
            ⟨bb, by rw [F1.old e.2 h1 hne]; exact h2⟩⟩
        · rw [h]
          obtain ⟨b2, hlc⟩ := S.layoutContent
          refine ⟨S.len, ⟨b2, ?_⟩⟩
          show ((copy_slide_layout_part src l T C).1.getPart
            (csllAdd src l T).2).content = .layoutC (layoutNameOf src l) b2
          rw [← layoutNB_name src l]
          exact hlc
      · -- idsOk
        intro hids
        apply O.idsOk
        obtain ⟨lst, b, h0⟩ := htmc
        obtain ⟨rid2, htn, htcq, htr, hfresh2⟩ := S.tmChange lst b h0
        exact layoutIdsOk_step h0 htcq htr hids
      · -- layout count
        rw [List.length_cons]
        have h1 : layoutCount (copy_slide_layout_part src l T C).1 + rest.length =
            layoutCount T + (rest.length + 1) := by
          rw [S.cLayout, Nat.add_assoc, Nat.add_comm 1 rest.length]
        exact h1 ▸ hcount

/-! ## Per-master step of copy_layouts -/

theorem srcOkB_parts {src : Package} (h : srcOkB src = true) :
    wfB src = true ∧ (slide_masters src).Nodup ∧
    ∀ m ∈ slide_masters src, (slide_layouts_of src m).Nodup ∧
      ∀ l ∈ slide_layouts_of src m,
        part_related_by src l .slideMaster = some m := by
  unfold srcOkB at h
  rw [Bool.and_eq_true, Bool.and_eq_true] at h
  refine ⟨h.1.1, of_decide_eq_true h.1.2, ?_⟩
  intro m hm
  have h2 := List.all_eq_true.mp h.2 m hm
  rw [Bool.and_eq_true] at h2
  refine ⟨of_decide_eq_true h2.1, ?_⟩
  intro l hl
  have h3 := List.all_eq_true.mp h2.2 l hl
  rw [beq_iff_eq] at h3
  exact h3

theorem master_theme_kind {pkg : Package} (hwf : wfB pkg = true) {m : PartId}
    (hmlt : m < pkg.parts.length) (hmM : (pkg.getPart m).isMaster = true) :
    ∀ tp, part_related_by pkg m .theme = some tp →
      (pkg.getPart tp).isTheme = true := by
  intro tp h
  obtain ⟨lst, b, hc⟩ := content_of_isMaster hmM
  obtain ⟨_, _, hMok, _, _⟩ := wfB_part hwf m hmlt
  simp only [masterPartOkB, hc, Bool.and_eq_true] at hMok
  unfold part_related_by at h
  cases hf : (pkg.getPart m).rels.find? (fun q => q.2.reltype == RelType.theme) with
  | none =>
    rw [hf] at h
    cases h
  | some q =>
    rw [hf] at h
    simp only [Option.map_some'] at h
    have htp : q.2.targetPart = tp := Option.some.inj h
    have hmem := List.mem_of_find?_eq_some hf
    have hth := List.find?_some hf
    rw [beq_iff_eq] at hth
    have h2 := List.all_eq_true.mp hMok.1.2 q hmem
    rw [hth, bne_self_eq_false, Bool.false_or, Bool.and_eq_true] at h2
    rw [← htp]
    exact h2.2

theorem master_nonstructural_rels {pkg : Package} (hwf : wfB pkg = true)
    {m : PartId} (hmlt : m < pkg.parts.length)
    (hmM : (pkg.getPart m).isMaster = true) :
    ∀ r ∈ (pkg.getPart m).rels, r.2.reltype.isStructural = false →
      r.2.isExternal = false →
      (pkg.getPart r.2.targetPart).isImage = true ∨
      (pkg.getPart r.2.targetPart).isGeneric = true := by
  intro r hr hns hext
  obtain ⟨lst, b, hc⟩ := content_of_isMaster hmM
  obtain ⟨_, _, hMok, _, _⟩ := wfB_part hwf m hmlt
  simp only [masterPartOkB, hc, Bool.and_eq_true] at hMok
  have h2 := List.all_eq_true.mp hMok.2 r hr
  rw [hns, hext, Bool.false_or, Bool.false_or, Bool.or_eq_true] at h2
  exact h2

theorem layout_nonstructural_rels {pkg : Package} (hwf : wfB pkg = true)
    {l : PartId} (hllt : l < pkg.parts.length)
    (hlL : (pkg.getPart l).isLayout = true) :
    ∀ r ∈ (pkg.getPart l).rels, r.2.reltype.isStructural = false →
      r.2.isExternal = false →
      (pkg.getPart r.2.targetPart).isImage = true ∨
      (pkg.getPart r.2.targetPart).isGeneric = true := by
  intro r hr hns hext
  obtain ⟨n, b, hc⟩ := content_of_isLayout hlL
  obtain ⟨_, _, _, hLok, _⟩ := wfB_part hwf l hllt
  simp only [layoutPartOkB, hc, Bool.and_eq_true] at hLok
  have h2 := List.all_eq_true.mp hLok.2 r hr
  rw [hns, hext, Bool.false_or, Bool.false_or, Bool.or_eq_true] at h2
  exact h2

/-- Facts about one source master used by the copy_layouts step, extracted
from the source-side invariants. -/
theorem src_master_facts {src : Package} (hsrc : srcOkB src = true)
    {m : PartId} (hm : m ∈ slide_masters src) :
    (m < src.parts.length ∧ (src.getPart m).isMaster = true) ∧
    (∀ tp, part_related_by src m .theme = some tp →
      (src.getPart tp).isTheme = true) ∧
    (∀ r ∈ (src.getPart m).rels, r.2.reltype.isStructural = false →
      r.2.isExternal = false →
      (src.getPart r.2.targetPart).isImage = true ∨
      (src.getPart r.2.targetPart).isGeneric = true) ∧
    (∀ l ∈ slide_layouts_of src m, SrcLayoutOk src m l) ∧
    (slide_layouts_of src m).Nodup := by
  obtain ⟨hwfs, hnd, hper⟩ := srcOkB_parts hsrc
  obtain ⟨hmlt, hmM⟩ := mem_slide_masters_bound hwfs hm
  obtain ⟨hlnd, hrel⟩ := hper m hm
  refine ⟨⟨hmlt, hmM⟩, master_theme_kind hwfs hmlt hmM,
    master_nonstructural_rels hwfs hmlt hmM, ?_, hlnd⟩
  intro l hl
  obtain ⟨hllt, hlL⟩ := mem_slide_layouts_bound hwfs hmlt hl
  exact ⟨hrel l hl, hlL, layout_nonstructural_rels hwfs hllt hlL⟩

theorem cacheLookup_none_iff (C : Cache) (k : PartId) :
    cacheLookup C k = none ↔ ∀ e ∈ C, e.1 ≠ k := by
  constructor
  · intro h e he hk
    unfold cacheLookup at h
    cases hf : C.find? (fun p => p.1 == k) with
    | some q =>
      rw [hf] at h
      cases h
    | none =>
      rw [List.find?_eq_none] at hf
      exact hf e he (by rw [hk]; exact beq_self_eq_true k)
  · intro h
    unfold cacheLookup
    rw [List.find?_eq_none.mpr (fun e he hp => h e he (by rwa [beq_iff_eq] at hp))]
    rfl

theorem master_not_theme {p : Part} (h : p.isMaster = true) : p.isTheme = false := by
  obtain ⟨l0, b0, hc⟩ := content_of_isMaster h
  exact (kinds_masterC hc).1

theorem master_not_layout {p : Part} (h : p.isMaster = true) :
    p.isLayout = false := by
  obtain ⟨l0, b0, hc⟩ := content_of_isMaster h
  exact (kinds_masterC hc).2.2.1

theorem layout_not_theme {p : Part} (h : p.isLayout = true) : p.isTheme = false := by
  obtain ⟨n0, b0, hc⟩ := content_of_isLayout h
  exact (kinds_layoutC hc).1

/-- Every cached theme is represented by some target master carrying that
blob as its theme (so the matcher would find it). -/
def ThemeRep (src T : Package) (C : Cache) : Prop :=
  ∀ e ∈ C, (src.getPart e.1).isTheme = true →
    ∃ mm ∈ slide_masters T, themeBlobOf T mm = some (partBlobD src e.1)

/-- Common conclusions of one copy_layouts master step. -/
structure MStepOut (src : Package) (m : PartId) (T : Package) (C : Cache)
    (lm : List (String × PartId))
    (out : Package × Cache × List (String × PartId) × Option CopyErr) : Prop where
  err : out.2.2.2 = none
  wf : wfB out.1 = true
  ext : PkgExt T out.1
  cacheKeys : ∀ e ∈ out.2.1, e ∈ C ∨ (src.getPart e.1).isTheme = true ∨
    e.1 = m ∨ e.1 ∈ slide_layouts_of src m
  cacheOld : ∀ e ∈ C, e ∈ out.2.1
  inv : CacheThemesOk src T C → ThemeRep src T C →
    CacheThemesOk src out.1 out.2.1 ∧ ThemeRep src out.1 out.2.1
  lmOk : LmOk T lm → LmOk out.1 out.2.2.1
  covered : themeBlobOf src m ≠ none → MatchCovered src m out.1

/-- The matched branch of a copy_layouts master step: the matching target
master is reused and recorded in the cache, nothing master- or theme-level
is cloned, and only by-name-missing layouts are copied. -/
theorem matched_step_spec (src : Package) (m : PartId) (T : Package) (C : Cache)
    (lm : List (String × PartId)) (tm : PartId)
    (hsrc : srcOkB src = true) (hm : m ∈ slide_masters src)
    (hwf : wfB T = true)
    (hfind : find_matching_master src m T = some tm)
    (hLfresh : ∀ l ∈ slide_layouts_of src m, cacheLookup C l = none) :
    MStepOut src m T C lm (copy_layouts_master_step src m T C lm) ∧
    themeCount (copy_layouts_master_step src m T C lm).1 = themeCount T ∧
    masterCount (copy_layouts_master_step src m T C lm).1 = masterCount T ∧
    layoutCount (copy_layouts_master_step src m T C lm).1 ≤
      layoutCount T + (slide_layouts_of src m).length ∧
    cacheLookup (copy_layouts_master_step src m T C lm).2.1 m = some tm := by
  obtain ⟨⟨hmlt, hmM⟩, hThemeKind, hMRels, hLok, hLnd⟩ := src_master_facts hsrc hm
  have hb : ∃ b, themeBlobOf src m = some b ∧
      (slide_masters T).find? (fun mm => themeBlobOf T mm == some b) = some tm := by
    unfold find_matching_master at hfind
    cases hbb : themeBlobOf src m with
    | none =>
      rw [hbb] at hfind
      cases hfind
    | some b =>
      rw [hbb] at hfind
      exact ⟨b, rfl, hfind⟩
  obtain ⟨b, hbb, hfind2⟩ := hb
  have htmmem : tm ∈ slide_masters T := List.mem_of_find?_eq_some hfind2
  obtain ⟨htmlt, htmM⟩ := mem_slide_masters_bound hwf htmmem
  obtain ⟨lst0, b0, htmc0⟩ := content_of_isMaster htmM
  have hex : ∀ n tl,
      lookupA (buildNameDict T (slide_layouts_of T tm) []) n = some tl →
      tl ∈ slide_layouts_of T tm ∧ layoutNameOf T tl = n := by
    intro n tl h
    have hmem := lookupA_mem h
    rcases buildNameDict_mem T (slide_layouts_of T tm) [] (n, tl) hmem with h0 | h0
    · cases h0
    · exact ⟨h0.1, h0.2.symm⟩
  have hMLne : ∀ l ∈ slide_layouts_of src m, m ≠ l := by
    intro l hl he
    obtain ⟨_, hlL, _⟩ := hLok l hl
    rw [← he, master_not_layout hmM] at hlL
    cases hlL
  have hM1 : cacheLookup (cacheInsert C m tm) m = some tm :=
    cacheLookup_insert_self C m tm
  have hLfresh1 : ∀ l ∈ slide_layouts_of src m,
      cacheLookup (cacheInsert C m tm) l = none := by
    intro l hl
    rw [cacheLookup_insert_ne _ _ _ _ (hMLne l hl)]
    exact hLfresh l hl
  obtain ⟨O, hcount⟩ := matched_loop_spec src m tm
    (buildNameDict T (slide_layouts_of T tm) []) (slide_layouts_of src m) T
    (cacheInsert C m tm) lm hwf hM1 htmlt ⟨lst0, b0, htmc0⟩ hLok hLfresh1 hLnd hex
  have hstep : copy_layouts_master_step src m T C lm =
      matched_layout_loop src (buildNameDict T (slide_layouts_of T tm) [])
        (slide_layouts_of src m) T (cacheInsert C m tm) lm := by
    simp only [copy_layouts_master_step, hfind]
  rw [hstep]
  have E := pkgExt_of_loopFrame hwf htmlt htmM O.frame
  refine ⟨⟨O.err, O.wf, E, ?_, ?_, ?_, O.lmOk, ?_⟩, O.cTheme, O.cMaster, hcount, ?_⟩
  · -- cacheKeys
    intro e he
    rcases O.cacheNew e he with h | h
    · rcases List.mem_cons.mp h with h2 | h2
      · right
        right
        left
        rw [h2]
      · exact Or.inl h2
    · right
      right
      right
      exact h
  · -- cacheOld
    intro e he
    exact O.cacheOld e (List.mem_cons_of_mem _ he)
  · -- inv
    intro hct hrep
    have hMnotTheme : ∀ e : PartId × PartId, e = (m, tm) →
        (src.getPart e.1).isTheme = true → False := by
      intro e he hk
      have hk2 : (src.getPart m).isTheme = true := by
        rw [he] at hk
        exact hk
      rw [master_not_theme hmM] at hk2
      cases hk2
    constructor
    · intro e he hk
      rcases O.cacheNew e he with h | h
      · rcases List.mem_cons.mp h with h2 | h2
        · exact absurd hk (fun hkk => hMnotTheme e h2 hkk)
        · obtain ⟨h1, h2⟩ := hct e h2 hk
          have hne : e.2 ≠ tm := by
            intro hEq
            rw [hEq, htmc0] at h2
            cases h2
          exact ⟨Nat.lt_of_lt_of_le h1 O.frame.len,
            by rw [O.frame.old e.2 h1 hne]; exact h2⟩
      · exfalso
        obtain ⟨_, hlL, _⟩ := hLok e.1 h
        rw [layout_not_theme hlL] at hk
        cases hk
    · intro e he hk
      have hmemC : e ∈ C := by
        rcases O.cacheNew e he with h | h
        · rcases List.mem_cons.mp h with h2 | h2
          · exact absurd hk (fun hkk => hMnotTheme e h2 hkk)
          · exact h2
        · exfalso
          obtain ⟨_, hlL, _⟩ := hLok e.1 h
          rw [layout_not_theme hlL] at hk
          cases hk
      obtain ⟨mm, hmm, hblob⟩ := hrep e hmemC hk
      obtain ⟨ext, hmext⟩ := E.mastersExt
      refine ⟨mm, by rw [hmext]; exact List.mem_append_left _ hmm, ?_⟩
      rw [E.blob mm hmm]
      exact hblob
  · -- covered
    intro _
    refine ⟨tm, ?_, O.cover⟩
    unfold find_matching_master
    rw [hbb]
    obtain ⟨ext, hmext⟩ := E.mastersExt
    rw [hmext]
    exact find?_append_some _ _ _ _
      ((find?_congr _ (fun mm hmm => by rw [E.blob mm hmm])).trans hfind2)
  · -- cache hit recorded
    rw [O.cacheStable m hMLne]
    exact hM1

/-- The unmatched branch of a copy_layouts master step: the master is cloned
once, its theme is cloned exactly once when it has one, every layout is
cloned once, and the fresh master's layout-id list pairs with its layout
relationships. -/
theorem unmatched_step_spec (src : Package) (m : PartId) (T : Package)
    (C : Cache) (lm : List (String × PartId))
    (hsrc : srcOkB src = true) (hm : m ∈ slide_masters src)
    (hwf : wfB T = true)
    (hfind : find_matching_master src m T = none)
    (hMfresh : cacheLookup C m = none)
    (hLfresh : ∀ l ∈ slide_layouts_of src m, cacheLookup C l = none)
    (hct : CacheThemesOk src T C) (hrep : ThemeRep src T C) :
    MStepOut src m T C lm (copy_layouts_master_step src m T C lm) ∧
    masterCount (copy_layouts_master_step src m T C lm).1 = masterCount T + 1 ∧
    layoutCount (copy_layouts_master_step src m T C lm).1 =
      layoutCount T + (slide_layouts_of src m).length ∧
    (themeBlobOf src m = none →
      themeCount (copy_layouts_master_step src m T C lm).1 = themeCount T) ∧
    (themeBlobOf src m ≠ none →
      themeCount (copy_layouts_master_step src m T C lm).1 = themeCount T + 1) ∧
    LayoutIdsOk (copy_layouts_master_step src m T C lm).1
      (copy_slide_master_part src m T C).2.2 ∧
    cacheLookup (copy_layouts_master_step src m T C lm).2.1 m =
      some (copy_slide_master_part src m T C).2.2 := by
  obtain ⟨⟨hmlt, hmM⟩, hThemeKind, hMRels, hLok, hLnd⟩ := src_master_facts hsrc hm
  have S := master_copy_spec src m T C hwf hThemeKind hMRels hct
  have hwfM : wfB (copy_slide_master_part src m T C).1 = true :=
    wfB_master_copy src m hwf S
  obtain ⟨bM, hbM⟩ := S.masterContent
  have hstep : copy_layouts_master_step src m T C lm =
      unmatched_layout_loop src (slide_layouts_of src m)
        (copy_slide_master_part src m T C).1
        (cacheInsert (copy_slide_master_part src m T C).2.1 m
          (copy_slide_master_part src m T C).2.2) lm := by
    simp only [copy_layouts_master_step, hfind, get_or_copy_slide_master, hMfresh]
  have htmlt1 : (copy_slide_master_part src m T C).2.2 <
      (copy_slide_master_part src m T C).1.parts.length := by
    rw [S.mPidEq]
    exact S.len
  have htmM1 : ((copy_slide_master_part src m T C).1.getPart
      (copy_slide_master_part src m T C).2.2).isMaster = true :=
    (kinds_masterC hbM).2.1
  have hE1 : PkgExt T (copy_slide_master_part src m T C).1 :=
    pkgExt_of_master_copy hwf S
  have hMLne : ∀ l ∈ slide_layouts_of src m, m ≠ l := by
    intro l hl he
    obtain ⟨_, hlL, _⟩ := hLok l hl
    rw [← he, master_not_layout hmM] at hlL
    cases hlL
  have hM1 : cacheLookup (cacheInsert (copy_slide_master_part src m T C).2.1 m
      (copy_slide_master_part src m T C).2.2) m =
      some (copy_slide_master_part src m T C).2.2 :=
    cacheLookup_insert_self _ _ _
  have hLfresh1 : ∀ l ∈ slide_layouts_of src m,
      cacheLookup (cacheInsert (copy_slide_master_part src m T C).2.1 m
        (copy_slide_master_part src m T C).2.2) l = none := by
    intro l hl
    rw [cacheLookup_insert_ne _ _ _ _ (hMLne l hl)]
    rw [cacheLookup_none_iff]
    intro e he hek
    rcases copy_slide_master_part_cache_keys src m T C e he with h | h
    · exact (cacheLookup_none_iff C l).mp (hLfresh l hl) e h hek
    · obtain ⟨_, hlL, _⟩ := hLok l hl
      have hth := hThemeKind e.1 h
      rw [hek, layout_not_theme hlL] at hth
      cases hth
  obtain ⟨O, hcountL⟩ := unmatched_loop_spec src m
    (copy_slide_master_part src m T C).2.2 (slide_layouts_of src m)
    (copy_slide_master_part src m T C).1
    (cacheInsert (copy_slide_master_part src m T C).2.1 m
      (copy_slide_master_part src m T C).2.2) lm
    hwfM hM1 htmlt1 ⟨none, bM, hbM⟩ hLok hLfresh1 hLnd
  have hE2 := pkgExt_of_loopFrame hwfM htmlt1 htmM1 O.frame
  have E : PkgExt T (unmatched_layout_loop src (slide_layouts_of src m)
      (copy_slide_master_part src m T C).1
      (cacheInsert (copy_slide_master_part src m T C).2.1 m
        (copy_slide_master_part src m T C).2.2) lm).1 := hE1.ext_trans hE2
  have hpM : (copy_slide_master_part src m T C).1.presId <
      (copy_slide_master_part src m T C).1.parts.length :=
    presOkB_lt (wfB_presOk hwfM)
  obtain ⟨ml1, sl1, w1, h1, hpc1⟩ := presOkB_content (wfB_presOk hwfM)
  have hpresNe1 : (copy_slide_master_part src m T C).1.presId ≠
      (copy_slide_master_part src m T C).2.2 := by
    intro he
    rw [he, hbM] at hpc1
    cases hpc1
  have hmasters : slide_masters (unmatched_layout_loop src (slide_layouts_of src m)
      (copy_slide_master_part src m T C).1
      (cacheInsert (copy_slide_master_part src m T C).2.1 m
        (copy_slide_master_part src m T C).2.2) lm).1 =
      slide_masters T ++ [(copy_slide_master_part src m T C).2.2] := by
    rw [masters_stable_of_frame O.frame.old O.frame.pres hpM hpresNe1, S.masters]
  have hblobm : themeBlobOf (unmatched_layout_loop src (slide_layouts_of src m)
      (copy_slide_master_part src m T C).1
      (cacheInsert (copy_slide_master_part src m T C).2.1 m
        (copy_slide_master_part src m T C).2.2) lm).1
      (copy_slide_master_part src m T C).2.2 = themeBlobOf src m := by
    rw [O.frame.tmBlob, S.blob]
  have hnoT : themeBlobOf src m = none → part_related_by src m .theme = none := by
    intro h
    unfold themeBlobOf at h
    cases hr : part_related_by src m .theme with
    | none => rfl
    | some tp =>
      rw [hr] at h
      simp only [Option.map_some'] at h
      exact Option.noConfusion h
  have hsomeT : ∀ b, themeBlobOf src m = some b →
      ∃ tp, part_related_by src m .theme = some tp ∧ partBlobD src tp = b := by
    intro b h
    unfold themeBlobOf at h
    cases hr : part_related_by src m .theme with
    | none =>
      rw [hr] at h
      cases h
    | some tp =>
      rw [hr] at h
      simp only [Option.map_some'] at h
      exact ⟨tp, rfl, Option.some.inj h⟩
  have htpmiss : ∀ tp, part_related_by src m .theme = some tp →
      cacheLookup C tp = none := by
    intro tp hr
    cases hc : cacheLookup C tp with
    | none => rfl
    | some t =>
      exfalso
      have hmemtp := cacheLookup_mem hc
      have hthtp := hThemeKind tp hr
      obtain ⟨mm, hmm, hbb⟩ := hrep (tp, t) hmemtp hthtp
      have hbm : themeBlobOf src m = some (partBlobD src tp) := by
        unfold themeBlobOf
        rw [hr]
        rfl
      unfold find_matching_master at hfind
      rw [hbm, List.find?_eq_none] at hfind
      exact hfind mm hmm (by rw [hbb]; exact beq_self_eq_true _)
  have hPresKinds := kinds_presC (presOkB_content (wfB_presOk hwf)).choose_spec.choose_spec.choose_spec.choose_spec
  have hctM : CacheThemesOk src (copy_slide_master_part src m T C).1
      (copy_slide_master_part src m T C).2.1 := by
    intro e he hk
    obtain ⟨b2, hc2⟩ := content_of_isTheme hk
    rcases S.cacheNew e he with h | h
    · obtain ⟨h1, h2⟩ := hct e h hk
      have hne : e.2 ≠ T.presId := by
        intro hEq
        obtain ⟨ml0, sl0, w00, h00, hpc0⟩ := presOkB_content (wfB_presOk hwf)
        rw [hEq, hpc0] at h2
        cases h2
      refine ⟨Nat.lt_trans h1 S.len, ?_⟩
      rw [S.old e.2 h1 hne]
      exact h2
    · exact ⟨h.2.1, h.2.2⟩
  rw [hstep]
  refine ⟨⟨O.err, O.wf, E, ?_, ?_, ?_, ?_, ?_⟩, ?_, ?_, ?_, ?_, ?_, ?_⟩
  · -- cacheKeys
    intro e he
    rcases O.cacheNew e he with h | h
    · rcases List.mem_cons.mp h with h2 | h2
      · right
        right
        left
        rw [h2]
      · rcases copy_slide_master_part_cache_keys src m T C e h2 with h3 | h3
        · exact Or.inl h3
        · exact Or.inr (Or.inl (hThemeKind e.1 h3))
    · right
      right
      right
      exact h
  · -- cacheOld
    intro e he
    exact O.cacheOld e (List.mem_cons_of_mem _ (S.cacheOld e he))
  · -- inv
    intro _ _
    have hctLoop : CacheThemesOk src (unmatched_layout_loop src
        (slide_layouts_of src m) (copy_slide_master_part src m T C).1
        (cacheInsert (copy_slide_master_part src m T C).2.1 m
          (copy_slide_master_part src m T C).2.2) lm).1
        (unmatched_layout_loop src (slide_layouts_of src m)
          (copy_slide_master_part src m T C).1
          (cacheInsert (copy_slide_master_part src m T C).2.1 m
            (copy_slide_master_part src m T C).2.2) lm).2.1 := by
      intro e he hk
      rcases O.cacheNew e he with h | h
      · rcases List.mem_cons.mp h with h2 | h2
        · exfalso
          have hk2 : (src.getPart m).isTheme = true := by
            rw [h2] at hk
            exact hk
          rw [master_not_theme hmM] at hk2
          cases hk2
        · obtain ⟨h1, h2⟩ := hctM e h2 hk
          have hne : e.2 ≠ (copy_slide_master_part src m T C).2.2 := by
            intro hEq
            rw [hEq, hbM] at h2
            cases h2
          exact ⟨Nat.lt_of_lt_of_le h1 O.frame.len,
            by rw [O.frame.old e.2 h1 hne]; exact h2⟩
      · exfalso
        obtain ⟨_, hlL, _⟩ := hLok e.1 h
        rw [layout_not_theme hlL] at hk
        cases hk
    refine ⟨hctLoop, ?_⟩
    intro e he hk
    rcases O.cacheNew e he with h | h
    · rcases List.mem_cons.mp h with h2 | h2
      · exfalso
        have hk2 : (src.getPart m).isTheme = true := by
          rw [h2] at hk
          exact hk
        rw [master_not_theme hmM] at hk2
        cases hk2
      · rcases copy_slide_master_part_cache_keys src m T C e h2 with h3 | h3
        · obtain ⟨mm, hmm, hbb⟩ := hrep e h3 hk
          obtain ⟨ext, hmext⟩ := E.mastersExt
          refine ⟨mm, by rw [hmext]; exact List.mem_append_left _ hmm, ?_⟩
          rw [E.blob mm hmm]
          exact hbb
        · refine ⟨(copy_slide_master_part src m T C).2.2, ?_, ?_⟩
          · rw [hmasters]
            exact List.mem_append_right _ (List.mem_singleton_self _)
          · rw [hblobm]
            unfold themeBlobOf
            rw [h3]
            rfl
    · exfalso
      obtain ⟨_, hlL, _⟩ := hLok e.1 h
      rw [layout_not_theme hlL] at hk
      cases hk
  · -- lmOk
    intro hlm
    apply O.lmOk
    intro e he
    obtain ⟨h1, bb, h2⟩ := hlm e he
    have hne : e.2 ≠ T.presId := by
      intro hEq
      obtain ⟨ml0, sl0, w00, h00, hpc0⟩ := presOkB_content (wfB_presOk hwf)
      rw [hEq, hpc0] at h2
      cases h2
    exact ⟨Nat.lt_trans h1 S.len, ⟨bb, by rw [S.old e.2 h1 hne]; exact h2⟩⟩
  · -- covered
    intro hneT
    cases hbb : themeBlobOf src m with
    | none => exact absurd hbb hneT
    | some b =>
      refine ⟨(copy_slide_master_part src m T C).2.2, ?_, O.cover⟩
      have hfmEq : find_matching_master src m (unmatched_layout_loop src
          (slide_layouts_of src m) (copy_slide_master_part src m T C).1
          (cacheInsert (copy_slide_master_part src m T C).2.1 m
            (copy_slide_master_part src m T C).2.2) lm).1 =
          (slide_masters (unmatched_layout_loop src (slide_layouts_of src m)
            (copy_slide_master_part src m T C).1
            (cacheInsert (copy_slide_master_part src m T C).2.1 m
              (copy_slide_master_part src m T C).2.2) lm).1).find?
          (fun mm => themeBlobOf (unmatched_layout_loop src
            (slide_layouts_of src m) (copy_slide_master_part src m T C).1
            (cacheInsert (copy_slide_master_part src m T C).2.1 m
              (copy_slide_master_part src m T C).2.2) lm).1 mm == some b) := by
        unfold find_matching_master
        rw [hbb]
      rw [hfmEq, hmasters]
      have hTnone : (slide_masters T).find?
          (fun mm => themeBlobOf (unmatched_layout_loop src
            (slide_layouts_of src m) (copy_slide_master_part src m T C).1
            (cacheInsert (copy_slide_master_part src m T C).2.1 m
              (copy_slide_master_part src m T C).2.2) lm).1 mm == some b) =
          none := by
        apply find?_eq_none_of_all
        intro mm hmm
        rw [E.blob mm hmm]
        unfold find_matching_master at hfind
        rw [hbb, List.find?_eq_none] at hfind
        have h2 := hfind mm hmm
        cases hp : (themeBlobOf T mm == some b) with
        | false => rfl
        | true => exact absurd hp h2
      rw [find?_append_none _ _ _ hTnone]
      have hpt : (themeBlobOf (unmatched_layout_loop src (slide_layouts_of src m)
          (copy_slide_master_part src m T C).1
          (cacheInsert (copy_slide_master_part src m T C).2.1 m
            (copy_slide_master_part src m T C).2.2) lm).1
          (copy_slide_master_part src m T C).2.2 == some b) = true := by
        rw [hblobm, hbb]
        exact beq_self_eq_true _
      simp only [List.find?_cons, hpt, if_true]
  · -- master count
    rw [O.cMaster, S.cMaster]
  · -- layout count
    rw [hcountL, S.cLayout]
  · -- theme count, no theme
    intro h
    rw [O.cTheme, S.cThemeNoTheme (hnoT h)]
  · -- theme count, themed
    intro hneT
    cases hbb : themeBlobOf src m with
    | none => exact absurd hbb hneT
    | some b =>
      obtain ⟨tp, hr, _⟩ := hsomeT b hbb
      rw [O.cTheme, S.cThemeFresh tp hr (htpmiss tp hr)]
  · -- layout-id pairing of the fresh master
    apply O.idsOk
    unfold LayoutIdsOk
    have h1 : masterLayoutIds (copy_slide_master_part src m T C).1
        (copy_slide_master_part src m T C).2.2 = [] := by
      unfold masterLayoutIds
      rw [hbM]
      rfl
    rw [h1]
    have h2 : ((copy_slide_master_part src m T C).1.getPart
        (copy_slide_master_part src m T C).2.2).rels.filter
        (fun r => r.2.reltype == RelType.slideLayout) = [] := by
      rw [List.filter_eq_nil_iff]
      intro r hr
      rcases S.masterRels r hr with ⟨hth, _⟩ | ⟨hns, _⟩
      · rw [hth]
        decide
      · rw [(beq_structural_false hns).2.1]
        decide
    rw [h2]
    rfl
  · -- cache records the fresh master
    rw [O.cacheStable m hMLne]
    exact hM1

/-- The theme payloads of the masters of L that have no byte-equal match in
the target T: the distinct values of this list are the theme parts a
copy_layouts run over L still has to copy. -/
def uncovThemeBlobs (src T : Package) (L : List PartId) : List Blob :=
  (L.filter (fun mm => (find_matching_master src mm T).isNone)).filterMap
    (fun mm => themeBlobOf src mm)

theorem mem_uncovThemeBlobs {src T : Package} {L : List PartId} {b : Blob} :
    b ∈ uncovThemeBlobs src T L ↔
    ∃ mm ∈ L, (find_matching_master src mm T).isNone = true ∧
      themeBlobOf src mm = some b := by
  unfold uncovThemeBlobs
  constructor
  · intro h
    obtain ⟨mm, hmm, hblob⟩ := List.mem_filterMap.mp h
    obtain ⟨hmem, hpred⟩ := List.mem_filter.mp hmm
    exact ⟨mm, hmem, hpred, hblob⟩
  · intro h
    obtain ⟨mm, hmem, hpred, hblob⟩ := h
    exact List.mem_filterMap.mpr ⟨mm, List.mem_filter.mpr ⟨hmem, hpred⟩, hblob⟩

/-- The match query depends only on the source master through its theme
payload. -/
theorem findMM_blob_eq {src : Package} {m1 m2 : PartId} (T : Package)
    (h : themeBlobOf src m1 = themeBlobOf src m2) :
    find_matching_master src m1 T = find_matching_master src m2 T := by
  unfold find_matching_master
  rw [h]

/-- A source master matched in the target stays matched in any extension of
the target. -/
theorem findMM_isSome_mono {src : Package} {m : PartId} {T q : Package}
    (he : PkgExt T q) (h : (find_matching_master src m T).isSome = true) :
    (find_matching_master src m q).isSome = true := by
  cases hb : themeBlobOf src m with
  | none =>
    unfold find_matching_master at h
    rw [hb] at h
    simp at h
  | some b =>
    unfold find_matching_master at h ⊢
    rw [hb] at h ⊢
    rw [Option.isSome_iff_exists] at h
    obtain ⟨tm, hf⟩ := h
    obtain ⟨ext, hm⟩ := he.mastersExt
    rw [hm, Option.isSome_iff_exists]
    have hcg : (slide_masters T).find? (fun mm => themeBlobOf q mm == some b) =
        (slide_masters T).find? (fun mm => themeBlobOf T mm == some b) :=
      find?_congr _ (fun mm hmm => by rw [he.blob mm hmm])
    exact ⟨tm, find?_append_some _ _ _ _ (hcg.trans hf)⟩

theorem toFinset_card_mono_of_mem {l1 l2 : List Blob}
    (h : ∀ b ∈ l1, b ∈ l2) : l1.toFinset.card ≤ l2.toFinset.card :=
  Finset.card_le_card (fun x hx =>
    List.mem_toFinset.mpr (h x (List.mem_toFinset.mp hx)))

/-- Extending the target can only shrink the set of still-uncovered theme
payloads. -/
theorem uncovThemeBlobs_mono {src : Package} {T q : Package} (he : PkgExt T q)
    (L : List PartId) :
    ∀ b ∈ uncovThemeBlobs src q L, b ∈ uncovThemeBlobs src T L := by
  intro b hb
  rw [mem_uncovThemeBlobs] at hb ⊢
  obtain ⟨mm, hmm, hnone, hblob⟩ := hb
  refine ⟨mm, hmm, ?_, hblob⟩
  cases hf : find_matching_master src mm T with
  | none => rfl
  | some tm =>
    have h1 : (find_matching_master src mm T).isSome = true := by
      rw [hf]
      rfl
    have h2 := findMM_isSome_mono he h1
    rw [Option.isSome_iff_exists] at h2
    obtain ⟨x, hx⟩ := h2
    rw [hx] at hnone
    simp at hnone

theorem uncovThemeBlobs_cons_matched {src T : Package} {m : PartId}
    {tm : PartId} (hf : find_matching_master src m T = some tm)
    (rest : List PartId) :
    uncovThemeBlobs src T (m :: rest) = uncovThemeBlobs src T rest := by
  unfold uncovThemeBlobs
  rw [List.filter_cons, hf]
  rfl

theorem uncovThemeBlobs_cons_unmatched_none {src T : Package} {m : PartId}
    (hf : find_matching_master src m T = none)
    (hb : themeBlobOf src m = none) (rest : List PartId) :
    uncovThemeBlobs src T (m :: rest) = uncovThemeBlobs src T rest := by
  unfold uncovThemeBlobs
  rw [List.filter_cons, hf]
  show List.filterMap _ (m :: _) = _
  rw [List.filterMap_cons, hb]

theorem uncovThemeBlobs_cons_unmatched_some {src T : Package} {m : PartId}
    {b : Blob} (hf : find_matching_master src m T = none)
    (hb : themeBlobOf src m = some b) (rest : List PartId) :
    uncovThemeBlobs src T (m :: rest) = b :: uncovThemeBlobs src T rest := by
  unfold uncovThemeBlobs
  rw [List.filter_cons, hf]
  show List.filterMap _ (m :: _) = _
  rw [List.filterMap_cons, hb]

/-- Master loop of copy_layouts: over well-formed inputs it never errors,
keeps the target well-formed, grows it monotonically, covers every themed
source master, and creates at most one master and theme copy per source
master and at most one layout copy per source layout. -/
theorem copy_layouts_go_spec (src : Package) (hsrc : srcOkB src = true) :
    ∀ (L : List PartId) (T : Package) (C : Cache) (lm : List (String × PartId)),
    (∀ m ∈ L, m ∈ slide_masters src) →
    L.Nodup →
    (∀ m ∈ L, cacheLookup C m = none) →
    (∀ m ∈ L, ∀ l ∈ slide_layouts_of src m, cacheLookup C l = none) →
    wfB T = true →
    CacheThemesOk src T C →
    ThemeRep src T C →
    (copy_layouts_go src L T C lm).2.2.2 = none ∧
    wfB (copy_layouts_go src L T C lm).1 = true ∧
    PkgExt T (copy_layouts_go src L T C lm).1 ∧
    (∀ m ∈ L, themeBlobOf src m ≠ none →
      MatchCovered src m (copy_layouts_go src L T C lm).1) ∧
    (LmOk T lm → LmOk (copy_layouts_go src L T C lm).1
      (copy_layouts_go src L T C lm).2.2.1) ∧
    masterCount (copy_layouts_go src L T C lm).1 ≤ masterCount T + L.length ∧
    themeCount (copy_layouts_go src L T C lm).1 ≤ themeCount T + L.length ∧
    layoutCount (copy_layouts_go src L T C lm).1 ≤
      layoutCount T + (L.map (fun mm => (slide_layouts_of src mm).length)).sum ∧
    themeCount (copy_layouts_go src L T C lm).1 ≤
      themeCount T + (uncovThemeBlobs src T L).toFinset.card := by
  intro L
  induction L with
  | nil =>
    intro T C lm _ _ _ _ hwf _ _
    exact ⟨rfl, hwf, PkgExt.ext_refl T, (fun m hm => by cases hm), fun h => h,
      Nat.le_add_right _ _, Nat.le_add_right _ _, Nat.le_add_right _ _,
      Nat.le_add_right _ _⟩
  | cons m rest ih =>
    intro T C lm hmem hnd hMf hLf hwf hct hrep
    have hwfs : wfB src = true := (srcOkB_parts hsrc).1
    have hnotM : m ∉ rest := (List.nodup_cons.mp hnd).1
    have hmm : m ∈ slide_masters src := hmem m (List.mem_cons_self m rest)
    have hmM : (src.getPart m).isMaster = true :=
      (mem_slide_masters_bound hwfs hmm).2
    have hstepAll : MStepOut src m T C lm (copy_layouts_master_step src m T C lm) ∧
        masterCount (copy_layouts_master_step src m T C lm).1 ≤
          masterCount T + 1 ∧
        themeCount (copy_layouts_master_step src m T C lm).1 ≤
          themeCount T + 1 ∧
        layoutCount (copy_layouts_master_step src m T C lm).1 ≤
          layoutCount T + (slide_layouts_of src m).length ∧
        themeCount (copy_layouts_master_step src m T C lm).1 +
          (uncovThemeBlobs src (copy_layouts_master_step src m T C lm).1
            rest).toFinset.card ≤
          themeCount T + (uncovThemeBlobs src T (m :: rest)).toFinset.card := by
      cases hfind : find_matching_master src m T with
      | some tm =>
        obtain ⟨MS, h1, h2, h3, _⟩ := matched_step_spec src m T C lm tm hsrc hmm
          hwf hfind (hLf m (List.mem_cons_self m rest))
        refine ⟨MS, by rw [h2]; exact Nat.le_add_right _ _,
          by rw [h1]; exact Nat.le_add_right _ _, h3, ?_⟩
        rw [h1, uncovThemeBlobs_cons_matched hfind rest]
        exact Nat.add_le_add_left
          (toFinset_card_mono_of_mem (uncovThemeBlobs_mono MS.ext rest)) _
      | none =>
        obtain ⟨MS, h1, h2, h3, h4, _, _⟩ := unmatched_step_spec src m T C lm hsrc
          hmm hwf hfind (hMf m (List.mem_cons_self m rest))
          (hLf m (List.mem_cons_self m rest)) hct hrep
        refine ⟨MS, by rw [h1], ?_, by rw [h2], ?_⟩
        · cases hbb : themeBlobOf src m with
          | none =>
            rw [h3 hbb]
            exact Nat.le_add_right _ _
          | some b =>
            have hneb : themeBlobOf src m ≠ none := by
              rw [hbb]
              exact fun hcc => Option.noConfusion hcc
            rw [h4 hneb]
        · cases hbb : themeBlobOf src m with
          | none =>
            rw [h3 hbb, uncovThemeBlobs_cons_unmatched_none hfind hbb rest]
            exact Nat.add_le_add_left
              (toFinset_card_mono_of_mem (uncovThemeBlobs_mono MS.ext rest)) _
          | some b =>
            have hneb : themeBlobOf src m ≠ none := by
              rw [hbb]
              exact fun hcc => Option.noConfusion hcc
            rw [h4 hneb, uncovThemeBlobs_cons_unmatched_some hfind hbb rest,
              List.toFinset_cons]
            have hsub : (uncovThemeBlobs src
                (copy_layouts_master_step src m T C lm).1 rest).toFinset ⊆
                (insert b (uncovThemeBlobs src T rest).toFinset).erase b := by
              intro x hx
              rw [List.mem_toFinset] at hx
              refine Finset.mem_erase.mpr ⟨?_, Finset.mem_insert.mpr (Or.inr
                (List.mem_toFinset.mpr
                  (uncovThemeBlobs_mono MS.ext rest x hx)))⟩
              intro hxb
              obtain ⟨mm, _, hnone, hblob⟩ := mem_uncovThemeBlobs.mp hx
              obtain ⟨tm2, hf2, _⟩ := MS.covered hneb
              have hbe : themeBlobOf src mm = themeBlobOf src m := by
                rw [hblob, hxb, hbb]
              have h5 : find_matching_master src mm
                  (copy_layouts_master_step src m T C lm).1 = some tm2 := by
                rw [findMM_blob_eq _ hbe]
                exact hf2
              rw [h5] at hnone
              simp at hnone
            have hbmem : b ∈ insert b (uncovThemeBlobs src T rest).toFinset :=
              Finset.mem_insert_self b _
            have hcard := Finset.card_le_card hsub
            rw [Finset.card_erase_of_mem hbmem] at hcard
            have hpos :
                0 < (insert b (uncovThemeBlobs src T rest).toFinset).card :=
              Finset.card_pos.mpr ⟨b, hbmem⟩
            omega
    obtain ⟨MS, hMle, hTle, hLle, hTD⟩ := hstepAll
    have heq : copy_layouts_go src (m :: rest) T C lm =
        copy_layouts_go src rest (copy_layouts_master_step src m T C lm).1
          (copy_layouts_master_step src m T C lm).2.1
          (copy_layouts_master_step src m T C lm).2.2.1 := by
      simp only [copy_layouts_go, MS.err]
    have hMfresh2 : ∀ m' ∈ rest,
        cacheLookup (copy_layouts_master_step src m T C lm).2.1 m' = none := by
      intro m' hm'
      have hm'm : m' ∈ slide_masters src := hmem m' (List.mem_cons_of_mem _ hm')
      have hm'M := (mem_slide_masters_bound hwfs hm'm).2
      rw [cacheLookup_none_iff]
      intro e he hek
      rcases MS.cacheKeys e he with h | h | h | h
      · exact (cacheLookup_none_iff C m').mp
          (hMf m' (List.mem_cons_of_mem _ hm')) e h hek
      · rw [hek, master_not_theme hm'M] at h
        cases h
      · rw [hek] at h
        exact hnotM (h ▸ hm')
      · obtain ⟨_, hlL, _⟩ := (src_master_facts hsrc hmm).2.2.2.1 e.1 h
        rw [hek, master_not_layout hm'M] at hlL
        cases hlL
    have hLfresh2 : ∀ m' ∈ rest, ∀ l' ∈ slide_layouts_of src m',
        cacheLookup (copy_layouts_master_step src m T C lm).2.1 l' = none := by
      intro m' hm' l' hl'
      have hm'm : m' ∈ slide_masters src := hmem m' (List.mem_cons_of_mem _ hm')
      obtain ⟨hrel2, hl'L, _⟩ := (src_master_facts hsrc hm'm).2.2.2.1 l' hl'
      rw [cacheLookup_none_iff]
      intro e he hek
      rcases MS.cacheKeys e he with h | h | h | h
      · exact (cacheLookup_none_iff C l').mp
          (hLf m' (List.mem_cons_of_mem _ hm') l' hl') e h hek
      · rw [hek, layout_not_theme hl'L] at h
        cases h
      · rw [hek] at h
        have hmM2 := hmM
        rw [← h] at hmM2
        rw [master_not_layout hmM2] at hl'L
        cases hl'L
      · rw [hek] at h
        obtain ⟨hrelm, _, _⟩ := (src_master_facts hsrc hmm).2.2.2.1 l' h
        rw [hrel2] at hrelm
        have h2 := Option.some.inj hrelm
        exact hnotM (h2 ▸ hm')
    obtain ⟨hct2, hrep2⟩ := MS.inv hct hrep
    obtain ⟨herr2, hwf2, hext2, hcov2, hlm2, hm2, ht2, hl2, htd2⟩ := ih
      (copy_layouts_master_step src m T C lm).1
      (copy_layouts_master_step src m T C lm).2.1
      (copy_layouts_master_step src m T C lm).2.2.1
      (fun m' hm' => hmem m' (List.mem_cons_of_mem _ hm'))
      (List.nodup_cons.mp hnd).2 hMfresh2 hLfresh2 MS.wf hct2 hrep2
    rw [heq]
    refine ⟨herr2, hwf2, MS.ext.ext_trans hext2, ?_, ?_, ?_, ?_, ?_, ?_⟩
    · -- coverage
      intro m' hm' hth
      rcases List.mem_cons.mp hm' with h | h
      · subst h
        exact matchCovered_mono (MS.covered hth) hext2
      · exact hcov2 m' h hth
    · -- layout map contract
      intro h
      exact hlm2 (MS.lmOk h)
    · -- master count
      calc masterCount (copy_layouts_go src rest
            (copy_layouts_master_step src m T C lm).1
            (copy_layouts_master_step src m T C lm).2.1
            (copy_layouts_master_step src m T C lm).2.2.1).1 ≤
          masterCount (copy_layouts_master_step src m T C lm).1 + rest.length :=
            hm2
        _ ≤ (masterCount T + 1) + rest.length := Nat.add_le_add_right hMle _
        _ = masterCount T + (m :: rest).length := by
            rw [List.length_cons, Nat.add_right_comm, Nat.add_assoc]
    · -- theme count
      calc themeCount (copy_layouts_go src rest
            (copy_layouts_master_step src m T C lm).1
            (copy_layouts_master_step src m T C lm).2.1
            (copy_layouts_master_step src m T C lm).2.2.1).1 ≤
          themeCount (copy_layouts_master_step src m T C lm).1 + rest.length :=
            ht2
        _ ≤ (themeCount T + 1) + rest.length := Nat.add_le_add_right hTle _
        _ = themeCount T + (m :: rest).length := by
            rw [List.length_cons, Nat.add_right_comm, Nat.add_assoc]
    · -- layout count
      calc layoutCount (copy_layouts_go src rest
            (copy_layouts_master_step src m T C lm).1
            (copy_layouts_master_step src m T C lm).2.1
            (copy_layouts_master_step src m T C lm).2.2.1).1 ≤
          layoutCount (copy_layouts_master_step src m T C lm).1 +
            (rest.map (fun mm => (slide_layouts_of src mm).length)).sum := hl2
        _ ≤ (layoutCount T + (slide_layouts_of src m).length) +
            (rest.map (fun mm => (slide_layouts_of src mm).length)).sum :=
              Nat.add_le_add_right hLle _
        _ = layoutCount T +
            ((m :: rest).map (fun mm => (slide_layouts_of src mm).length)).sum := by
            rw [List.map_cons, List.sum_cons, Nat.add_assoc]
    · -- theme count, deduplicated by payload
      calc themeCount (copy_layouts_go src rest
            (copy_layouts_master_step src m T C lm).1
            (copy_layouts_master_step src m T C lm).2.1
            (copy_layouts_master_step src m T C lm).2.2.1).1 ≤
          themeCount (copy_layouts_master_step src m T C lm).1 +
            (uncovThemeBlobs src (copy_layouts_master_step src m T C lm).1
              rest).toFinset.card := htd2
        _ ≤ themeCount T + (uncovThemeBlobs src T (m :: rest)).toFinset.card :=
            hTD

/-- When every source master is already matched and covered, a copy_layouts
run leaves the target package untouched. -/
theorem go_all_matched (src : Package) :
    ∀ (L : List PartId) (T : Package) (C : Cache) (lm : List (String × PartId)),
    (∀ m ∈ L, MatchCovered src m T) →
    (copy_layouts_go src L T C lm).1 = T ∧
    (copy_layouts_go src L T C lm).2.2.2 = none := by
  intro L
  induction L with
  | nil => intro T C lm _; exact ⟨rfl, rfl⟩
  | cons m rest ih =>
    intro T C lm hall
    obtain ⟨tm, hf, hcov⟩ := hall m (List.mem_cons_self m rest)
    have hhits : ∀ l ∈ slide_layouts_of src m,
        (lookupA (buildNameDict T (slide_layouts_of T tm) [])
          (layoutNameOf src l)).isSome = true := by
      intro l hl
      exact buildNameDict_complete T (slide_layouts_of T tm) [] _
        (Or.inl (hcov l hl))
    obtain ⟨hT, hC, herr⟩ := matched_loop_all_hits src
      (buildNameDict T (slide_layouts_of T tm) []) (slide_layouts_of src m) T
      (cacheInsert C m tm) lm hhits
    have hstep1 : (copy_layouts_master_step src m T C lm).1 = T := by
      simp only [copy_layouts_master_step, hf]
      exact hT
    have hsteperr : (copy_layouts_master_step src m T C lm).2.2.2 = none := by
      simp only [copy_layouts_master_step, hf]
      exact herr
    have heq : copy_layouts_go src (m :: rest) T C lm =
        copy_layouts_go src rest (copy_layouts_master_step src m T C lm).1
          (copy_layouts_master_step src m T C lm).2.1
          (copy_layouts_master_step src m T C lm).2.2.1 := by
      simp only [copy_layouts_go, hsteperr]
    rw [heq, hstep1]
    exact ih T _ _ (fun m' hm' => hall m' (List.mem_cons_of_mem _ hm'))

/-! ## Well-formedness and frame facts of the copy_slide path -/

/-- Overwriting only the slide dimensions of the presentation part keeps the
package well-formed. -/
theorem wfB_setPres_dims (tgt : Package) (hwf : wfB tgt = true)
    {ml sl : List RId} {w0 h0 : Nat} (W H : Nat)
    (hpc : (tgt.getPart tgt.presId).content = .presC ml sl w0 h0) :
    wfB (tgt.setPart tgt.presId
      { tgt.getPart tgt.presId with content := .presC ml sl W H }) = true := by
  have hp := presOkB_lt (wfB_presOk hwf)
  obtain ⟨hpT, hpK, _, _, _⟩ := wfB_part hwf tgt.presId hp
  have hqlen : (tgt.setPart tgt.presId
      { tgt.getPart tgt.presId with content := .presC ml sl W H }).parts.length =
      tgt.parts.length := length_setPart _ _ _
  have hqself : (tgt.setPart tgt.presId
      { tgt.getPart tgt.presId with content := .presC ml sl W H }).getPart
      tgt.presId = { tgt.getPart tgt.presId with content := .presC ml sl W H } :=
    getPart_setPart_self _ _ _ hp
  have hqne : ∀ j, j ≠ tgt.presId → (tgt.setPart tgt.presId
      { tgt.getPart tgt.presId with content := .presC ml sl W H }).getPart j =
      tgt.getPart j :=
    fun j hj => getPart_setPart_ne _ _ _ _ (fun h => hj h.symm)
  have hkinds : ∀ t, t < tgt.parts.length →
      (((tgt.setPart tgt.presId { tgt.getPart tgt.presId with
          content := .presC ml sl W H }).getPart t).isTheme =
        (tgt.getPart t).isTheme ∧
       ((tgt.setPart tgt.presId { tgt.getPart tgt.presId with
          content := .presC ml sl W H }).getPart t).isMaster =
        (tgt.getPart t).isMaster ∧
       ((tgt.setPart tgt.presId { tgt.getPart tgt.presId with
          content := .presC ml sl W H }).getPart t).isLayout =
        (tgt.getPart t).isLayout ∧
       ((tgt.setPart tgt.presId { tgt.getPart tgt.presId with
          content := .presC ml sl W H }).getPart t).isImage =
        (tgt.getPart t).isImage ∧
       ((tgt.setPart tgt.presId { tgt.getPart tgt.presId with
          content := .presC ml sl W H }).getPart t).isGeneric =
        (tgt.getPart t).isGeneric ∧
       ((tgt.setPart tgt.presId { tgt.getPart tgt.presId with
          content := .presC ml sl W H }).getPart t).isSlide =
        (tgt.getPart t).isSlide) := by
    intro t ht
    by_cases htp : t = tgt.presId
    · subst htp
      rw [hqself]
      have k1 := kinds_presC (show ({ tgt.getPart tgt.presId with
        content := PartContent.presC ml sl W H } : Part).content =
        .presC ml sl W H from rfl)
      have k2 := kinds_presC hpc
      exact ⟨k1.1.trans k2.1.symm, k1.2.1.trans k2.2.1.symm,
        k1.2.2.1.trans k2.2.2.1.symm, k1.2.2.2.1.trans k2.2.2.2.1.symm,
        k1.2.2.2.2.1.trans k2.2.2.2.2.1.symm, k1.2.2.2.2.2.trans k2.2.2.2.2.2.symm⟩
    · rw [hqne t htp]
      exact ⟨rfl, rfl, rfl, rfl, rfl, rfl⟩
  have hqrels : ((tgt.setPart tgt.presId { tgt.getPart tgt.presId with
      content := .presC ml sl W H }).getPart tgt.presId).rels =
      (tgt.getPart tgt.presId).rels := by
    rw [hqself]
  unfold wfB
  rw [Bool.and_eq_true, Bool.and_eq_true]
  refine ⟨⟨?_, ?_⟩, ?_⟩
  · unfold presOkB
    rw [Bool.and_eq_true]
    refine ⟨decide_eq_true ?_, ?_⟩
    · rw [presId_setPart, hqlen]
      exact hp
    · rw [presId_setPart, hqself]
  · unfold presRidsOkB
    have hpm : presMasterIds (tgt.setPart tgt.presId { tgt.getPart tgt.presId with
        content := .presC ml sl W H }) = ml := by
      unfold presMasterIds
      rw [presId_setPart, hqself]
    have hps : presSlideIds (tgt.setPart tgt.presId { tgt.getPart tgt.presId with
        content := .presC ml sl W H }) = sl := by
      unfold presSlideIds
      rw [presId_setPart, hqself]
    rw [Bool.and_eq_true]
    constructor
    · rw [List.all_eq_true]
      intro r hr
      rw [hpm] at hr
      rw [presId_setPart, hqrels]
      obtain ⟨qq, hfq, hqe, hqm⟩ := presRidsOk_master_find (wfB_presRidsOk hwf)
        (show r ∈ presMasterIds tgt from by
          unfold presMasterIds
          rw [hpc]
          exact hr)
      rw [hfq]
      show (!qq.2.isExternal && _) = true
      rw [Bool.and_eq_true]
      have hbound := relTargetsOk_bound hpT (List.mem_of_find?_eq_some hfq) hqe
      refine ⟨by rw [hqe]; rfl, ?_⟩
      rw [(hkinds _ hbound).2.1]
      exact hqm
    · rw [List.all_eq_true]
      intro r hr
      rw [hps] at hr
      rw [presId_setPart, hqrels]
      obtain ⟨qq, hfq, hqe, hqs⟩ := presRidsOk_slide_find (wfB_presRidsOk hwf)
        (show r ∈ presSlideIds tgt from by
          unfold presSlideIds
          rw [hpc]
          exact hr)
      rw [hfq]
      show (!qq.2.isExternal && _) = true
      rw [Bool.and_eq_true]
      have hbound := relTargetsOk_bound hpT (List.mem_of_find?_eq_some hfq) hqe
      refine ⟨by rw [hqe]; rfl, ?_⟩
      rw [(hkinds _ hbound).2.2.2.2.2]
      exact hqs
  · apply all_parts_of_getPart
    intro i hi
    rw [hqlen] at hi
    rw [Bool.and_eq_true, Bool.and_eq_true, Bool.and_eq_true, Bool.and_eq_true]
    by_cases hiP : i = tgt.presId
    · subst hiP
      rw [hqself]
      refine ⟨⟨⟨⟨?_, hpK⟩, ?_⟩, ?_⟩, ?_⟩
      · rw [hqlen]
        exact hpT
      · simp only [masterPartOkB]
      · simp only [layoutPartOkB]
      · simp only [slidePartOkB]
    · rw [hqne i hiP]
      obtain ⟨o1, o2, o3, o4, o5⟩ := wfB_part hwf i hi
      refine ⟨⟨⟨⟨by rw [hqlen]; exact o1, o2⟩, ?_⟩, ?_⟩, ?_⟩
      · exact masterPartOkB_mono o1 (fun t ht =>
          ⟨(hkinds t ht).2.2.1, (hkinds t ht).1, (hkinds t ht).2.2.2.1,
           (hkinds t ht).2.2.2.2.1⟩) o3
      · exact layoutPartOkB_mono o1 (fun t ht =>
          ⟨(hkinds t ht).2.1, (hkinds t ht).2.2.2.1,
           (hkinds t ht).2.2.2.2.1⟩) o4
      · exact slidePartOkB_mono o1 (fun t ht => (hkinds t ht).2.2.1) o5

theorem wfB_copy_slide_size (src tgt : Package) (hwf : wfB tgt = true) :
    wfB (copy_slide_size src tgt) = true := by
  obtain ⟨ml, sl, w0, h0, hpc⟩ := presOkB_content (wfB_presOk hwf)
  unfold copy_slide_size
  rw [hpc]
  exact wfB_setPres_dims tgt hwf (slideWidth src) (slideHeight src) hpc

/-- The image-relationship loop of _copy_images only grows the package with
image parts, touches no part but the destination slide, and appends to that
slide's relationships without changing its content. -/
theorem tail_images_rels (src : Package) (d : PartId) :
    ∀ (rels : List (RId × Rel)) (tgt : Package) (mm : List (RId × RId)),
    d < tgt.parts.length →
    tgt.parts.length ≤ (copy_images_rels src d rels tgt mm).1.parts.length ∧
    (copy_images_rels src d rels tgt mm).1.presId = tgt.presId ∧
    (∀ j, j < tgt.parts.length → j ≠ d →
      (copy_images_rels src d rels tgt mm).1.getPart j = tgt.getPart j) ∧
    (∃ ext, ((copy_images_rels src d rels tgt mm).1.getPart d).rels =
      (tgt.getPart d).rels ++ ext) ∧
    ((copy_images_rels src d rels tgt mm).1.getPart d).content =
      (tgt.getPart d).content ∧
    themeCount (copy_images_rels src d rels tgt mm).1 = themeCount tgt ∧
    masterCount (copy_images_rels src d rels tgt mm).1 = masterCount tgt ∧
    layoutCount (copy_images_rels src d rels tgt mm).1 = layoutCount tgt := by
  intro rels
  induction rels with
  | nil =>
    intro tgt mm _
    exact ⟨Nat.le_refl _, rfl, fun j _ _ => rfl, ⟨[], (List.append_nil _).symm⟩,
      rfl, rfl, rfl, rfl⟩
  | cons q rest ih =>
    intro tgt mm hd
    rcases q with ⟨rid, rel⟩
    by_cases hi : (rel.reltype == RelType.image) = true
    · by_cases he : rel.isExternal = true
      · have heq : copy_images_rels src d ((rid, rel) :: rest) tgt mm =
            (tgt, mm, some (.keyErr "target_part of external relationship")) := by
          simp only [copy_images_rels, hi, he, if_true]
        rw [heq]
        exact ⟨Nat.le_refl _, rfl, fun j _ _ => rfl,
          ⟨[], (List.append_nil _).symm⟩, rfl, rfl, rfl, rfl⟩
      · have hext : rel.isExternal = false := by
          cases hx : rel.isExternal
          · rfl
          · exact absurd hx he
        have heq : copy_images_rels src d ((rid, rel) :: rest) tgt mm =
            copy_images_rels src d rest
              (get_or_add_image_part tgt d (partBlobD src rel.targetPart)).1
              (mm ++ [(rid, (get_or_add_image_part tgt d
                (partBlobD src rel.targetPart)).2.2)]) := by
          simp only [copy_images_rels, hi, hext, if_true, Bool.false_eq_true,
            if_false]
        rw [heq]
        -- one get_or_add_image_part step
        have hstep : tgt.parts.length ≤ (get_or_add_image_part tgt d
              (partBlobD src rel.targetPart)).1.parts.length ∧
            (get_or_add_image_part tgt d
              (partBlobD src rel.targetPart)).1.presId = tgt.presId ∧
            (∀ j, j < tgt.parts.length → j ≠ d →
              (get_or_add_image_part tgt d
                (partBlobD src rel.targetPart)).1.getPart j = tgt.getPart j) ∧
            (∃ ext, ((get_or_add_image_part tgt d
              (partBlobD src rel.targetPart)).1.getPart d).rels =
              (tgt.getPart d).rels ++ ext) ∧
            ((get_or_add_image_part tgt d
              (partBlobD src rel.targetPart)).1.getPart d).content =
              (tgt.getPart d).content ∧
            themeCount (get_or_add_image_part tgt d
              (partBlobD src rel.targetPart)).1 = themeCount tgt ∧
            masterCount (get_or_add_image_part tgt d
              (partBlobD src rel.targetPart)).1 = masterCount tgt ∧
            layoutCount (get_or_add_image_part tgt d
              (partBlobD src rel.targetPart)).1 = layoutCount tgt := by
          cases hfi : tgt.parts.findIdx?
              (fun p => match p.content with
                | .imageC b => b == partBlobD src rel.targetPart
                | _ => false) with
          | some i =>
            have hg : get_or_add_image_part tgt d (partBlobD src rel.targetPart) =
                ((relate_to tgt d i .image).1, i, (relate_to tgt d i .image).2) := by
              simp only [get_or_add_image_part, hfi]
            rcases relate_to_cases tgt d i .image with ⟨qq, hf, he2⟩ | ⟨hf, he2⟩
            · have hg1 : (get_or_add_image_part tgt d
                  (partBlobD src rel.targetPart)).1 = tgt := by
                rw [hg, he2]
              rw [hg1]
              exact ⟨Nat.le_refl _, rfl, fun j _ _ => rfl,
                ⟨[], (List.append_nil _).symm⟩, rfl, rfl, rfl, rfl⟩
            · have hg1 : (get_or_add_image_part tgt d
                  (partBlobD src rel.targetPart)).1 =
                  tgt.setPart d { tgt.getPart d with
                    rels := (tgt.getPart d).rels ++
                      [(next_rId (tgt.getPart d).rels, ⟨.image, false, i, ""⟩)] } := by
                rw [hg, he2]
              rw [hg1]
              refine ⟨Nat.le_of_eq (length_setPart _ _ _).symm, rfl, ?_, ?_, ?_,
                themeCount_setPart_rels _ _ _ hd,
                masterCount_setPart_rels _ _ _ hd,
                layoutCount_setPart_rels _ _ _ hd⟩
              · intro j hj hjd
                exact getPart_setPart_ne _ _ _ _ (fun h => hjd h.symm)
              · rw [getPart_setPart_self _ _ _ hd]
                exact ⟨_, rfl⟩
              · rw [getPart_setPart_self _ _ _ hd]
          | none =>
            have hg : get_or_add_image_part tgt d (partBlobD src rel.targetPart) =
                ((relate_to (tgt.addPart ⟨next_partname tgt .imageT,
                    .imageC (partBlobD src rel.targetPart), []⟩).1 d
                    (tgt.addPart ⟨next_partname tgt .imageT,
                      .imageC (partBlobD src rel.targetPart), []⟩).2 .image).1,
                  (tgt.addPart ⟨next_partname tgt .imageT,
                    .imageC (partBlobD src rel.targetPart), []⟩).2,
                  (relate_to (tgt.addPart ⟨next_partname tgt .imageT,
                    .imageC (partBlobD src rel.targetPart), []⟩).1 d
                    (tgt.addPart ⟨next_partname tgt .imageT,
                      .imageC (partBlobD src rel.targetPart), []⟩).2 .image).2) := by
              simp only [get_or_add_image_part, hfi]
            have hLen := length_addPart tgt
              ⟨next_partname tgt .imageT,
               .imageC (partBlobD src rel.targetPart), []⟩
            have hdlt : d < (tgt.addPart ⟨next_partname tgt .imageT,
                .imageC (partBlobD src rel.targetPart), []⟩).1.parts.length := by
              rw [hLen]
              exact Nat.lt_succ_of_lt hd
            have hdold : (tgt.addPart ⟨next_partname tgt .imageT,
                .imageC (partBlobD src rel.targetPart), []⟩).1.getPart d =
                tgt.getPart d := getPart_addPart_lt tgt _ d hd
            have hcT : themeCount (tgt.addPart ⟨next_partname tgt .imageT,
                .imageC (partBlobD src rel.targetPart), []⟩).1 = themeCount tgt := by
              rw [themeCount_eq_countB, themeCount_eq_countB, countB_addPart]
              rfl
            have hcM : masterCount (tgt.addPart ⟨next_partname tgt .imageT,
                .imageC (partBlobD src rel.targetPart), []⟩).1 = masterCount tgt := by
              rw [masterCount_eq_countB, masterCount_eq_countB, countB_addPart]
              rfl
            have hcL : layoutCount (tgt.addPart ⟨next_partname tgt .imageT,
                .imageC (partBlobD src rel.targetPart), []⟩).1 = layoutCount tgt := by
              rw [layoutCount_eq_countB, layoutCount_eq_countB, countB_addPart]
              rfl
            rcases relate_to_cases (tgt.addPart ⟨next_partname tgt .imageT,
                .imageC (partBlobD src rel.targetPart), []⟩).1 d
                (tgt.addPart ⟨next_partname tgt .imageT,
                  .imageC (partBlobD src rel.targetPart), []⟩).2 .image with
              ⟨qq, hf, he2⟩ | ⟨hf, he2⟩
            · have hg1 : (get_or_add_image_part tgt d
                  (partBlobD src rel.targetPart)).1 =
                  (tgt.addPart ⟨next_partname tgt .imageT,
                    .imageC (partBlobD src rel.targetPart), []⟩).1 := by
                rw [hg, he2]
              rw [hg1]
              refine ⟨by rw [hLen]; exact Nat.le_succ _, rfl, ?_, ?_, ?_,
                hcT, hcM, hcL⟩
              · intro j hj _
                exact getPart_addPart_lt tgt _ j hj
              · rw [hdold]
                exact ⟨[], (List.append_nil _).symm⟩
              · rw [hdold]
            · have hg1 : (get_or_add_image_part tgt d
                  (partBlobD src rel.targetPart)).1 =
                  (tgt.addPart ⟨next_partname tgt .imageT,
                    .imageC (partBlobD src rel.targetPart), []⟩).1.setPart d
                    { (tgt.addPart ⟨next_partname tgt .imageT,
                        .imageC (partBlobD src rel.targetPart), []⟩).1.getPart d with
                      rels := ((tgt.addPart ⟨next_partname tgt .imageT,
                        .imageC (partBlobD src rel.targetPart), []⟩).1.getPart d).rels
                        ++ [(next_rId ((tgt.addPart ⟨next_partname tgt .imageT,
                          .imageC (partBlobD src rel.targetPart), []⟩).1.getPart d).rels,
                          ⟨.image, false, (tgt.addPart ⟨next_partname tgt .imageT,
                            .imageC (partBlobD src rel.targetPart), []⟩).2, ""⟩)] } := by
                rw [hg, he2]
              rw [hg1]
              refine ⟨?_, rfl, ?_, ?_, ?_, ?_, ?_, ?_⟩
              · rw [length_setPart, hLen]
                exact Nat.le_succ _
              · intro j hj hjd
                rw [getPart_setPart_ne _ _ _ _ (fun h => hjd h.symm),
                  getPart_addPart_lt tgt _ j hj]
              · rw [getPart_setPart_self _ _ _ hdlt, hdold]
                exact ⟨_, rfl⟩
              · rw [getPart_setPart_self _ _ _ hdlt, hdold]
              · rw [themeCount_setPart_rels _ _ _ hdlt, hcT]
              · rw [masterCount_setPart_rels _ _ _ hdlt, hcM]
              · rw [layoutCount_setPart_rels _ _ _ hdlt, hcL]
        obtain ⟨s1, s2, s3, ⟨ext1, s4⟩, s5, s6, s7, s8⟩ := hstep
        obtain ⟨r1, r2, r3, ⟨ext2, r4⟩, r5, r6, r7, r8⟩ := ih
          (get_or_add_image_part tgt d (partBlobD src rel.targetPart)).1
          (mm ++ [(rid, (get_or_add_image_part tgt d
            (partBlobD src rel.targetPart)).2.2)])
          (Nat.lt_of_lt_of_le hd s1)
        refine ⟨Nat.le_trans s1 r1, r2.trans s2, ?_, ?_, r5.trans s5,
          r6.trans s6, r7.trans s7, r8.trans s8⟩
        · intro j hj hjd
          rw [r3 j (Nat.lt_of_lt_of_le hj s1) hjd, s3 j hj hjd]
        · exact ⟨ext1 ++ ext2, by rw [r4, s4, List.append_assoc]⟩
    · have hif : (rel.reltype == RelType.image) = false := by
        cases hx : (rel.reltype == RelType.image)
        · rfl
        · exact absurd hx hi
      have heq : copy_images_rels src d ((rid, rel) :: rest) tgt mm =
          copy_images_rels src d rest tgt mm := by
        simp only [copy_images_rels, hif, Bool.false_eq_true, if_false]
      rw [heq]
      exact ih tgt mm hd

/-- Stage 1 of add_slide: the slide part is appended. -/
def adsAdd (tgt : Package) : Package × PartId :=
  tgt.addPart ⟨next_partname tgt .slideT, .slideC [], []⟩

/-- Stage 2: the slide-to-layout relationship. -/
def adsRel1 (tgt : Package) (layoutPid : PartId) : Package :=
  (relate_to (adsAdd tgt).1 (adsAdd tgt).2 layoutPid .slideLayout).1

/-- Stage 3: the presentation-to-slide relationship. -/
def adsRel2 (tgt : Package) (layoutPid : PartId) : Package × RId :=
  relate_to (adsRel1 tgt layoutPid) (adsRel1 tgt layoutPid).presId
    (adsAdd tgt).2 .slide

theorem add_slide_eq (tgt : Package) (layoutPid : PartId) :
    add_slide tgt layoutPid =
      (appendSlideId (adsRel2 tgt layoutPid).1 (adsRel2 tgt layoutPid).2,
       (adsAdd tgt).2) := rfl

/-- A relationship lookup survives appending further relationships. -/
theorem part_related_by_ext {P Q : Package} {i : PartId} {rt : RelType}
    {L : PartId} (ext : List (RId × Rel))
    (hr : (Q.getPart i).rels = (P.getPart i).rels ++ ext)
    (h : part_related_by P i rt = some L) : part_related_by Q i rt = some L := by
  unfold part_related_by at h ⊢
  cases hf : (P.getPart i).rels.find? (fun q => q.2.reltype == rt) with
  | none =>
    rw [hf] at h
    cases h
  | some q0 =>
    rw [hf] at h
    rw [hr, find?_append_some _ _ _ _ hf]
    exact h

theorem part_related_by_congr (P Q : Package) (i : PartId) (rt : RelType)
    (hr : (Q.getPart i).rels = (P.getPart i).rels) :
    part_related_by Q i rt = part_related_by P i rt := by
  unfold part_related_by
  rw [hr]

/-- Tail of copy_slide after the layout is resolved: the new slide lands at
the end, is bound to the requested layout, no old part other than the
presentation part changes, and no theme, master or layout part is created. -/
theorem slide_tail_spec (src : Package) (s : PartId) (T1 : Package) (L : PartId)
    (hp : T1.presId < T1.parts.length)
    (hpc : ∃ ml sl w h, (T1.getPart T1.presId).content = .presC ml sl w h) :
    (copy_images src s (copy_shapes src s (add_slide T1 L).1 (add_slide T1 L).2)
      (add_slide T1 L).2).presId = T1.presId ∧
    T1.parts.length ≤ (copy_images src s
      (copy_shapes src s (add_slide T1 L).1 (add_slide T1 L).2)
      (add_slide T1 L).2).parts.length ∧
    (∀ j, j < T1.parts.length → j ≠ T1.presId →
      (copy_images src s (copy_shapes src s (add_slide T1 L).1 (add_slide T1 L).2)
        (add_slide T1 L).2).getPart j = T1.getPart j) ∧
    part_related_by (copy_images src s
      (copy_shapes src s (add_slide T1 L).1 (add_slide T1 L).2)
      (add_slide T1 L).2) (add_slide T1 L).2 .slideLayout = some L ∧
    themeCount (copy_images src s
      (copy_shapes src s (add_slide T1 L).1 (add_slide T1 L).2)
      (add_slide T1 L).2) = themeCount T1 ∧
    masterCount (copy_images src s
      (copy_shapes src s (add_slide T1 L).1 (add_slide T1 L).2)
      (add_slide T1 L).2) = masterCount T1 ∧
    layoutCount (copy_images src s
      (copy_shapes src s (add_slide T1 L).1 (add_slide T1 L).2)
      (add_slide T1 L).2) = layoutCount T1 ∧
    (∃ ml2 sl2 w2 h2, ((copy_images src s
      (copy_shapes src s (add_slide T1 L).1 (add_slide T1 L).2)
      (add_slide T1 L).2).getPart T1.presId).content = .presC ml2 sl2 w2 h2) := by
  obtain ⟨ml, sl, w0, h0, hpcT⟩ := hpc
  -- stage 0: the slide part appended
  have hds : (adsAdd T1).2 = T1.parts.length := rfl
  have h0len : (adsAdd T1).1.parts.length = T1.parts.length + 1 :=
    length_addPart T1 _
  have h0old : ∀ j, j < T1.parts.length →
      (adsAdd T1).1.getPart j = T1.getPart j :=
    fun j hj => getPart_addPart_lt T1 _ j hj
  have h0self : (adsAdd T1).1.getPart (adsAdd T1).2 =
      ⟨next_partname T1 .slideT, .slideC [], []⟩ := getPart_addPart_self T1 _
  have h0pres : (adsAdd T1).1.presId = T1.presId := rfl
  have h0dslt : (adsAdd T1).2 < (adsAdd T1).1.parts.length := by
    rw [hds, h0len]
    exact Nat.lt_succ_self _
  have hAeq : adsAdd T1 = T1.addPart
      ⟨next_partname T1 .slideT, .slideC [], []⟩ := rfl
  have h0cT : themeCount (adsAdd T1).1 = themeCount T1 := by
    rw [themeCount_eq_countB, themeCount_eq_countB, hAeq, countB_addPart]
    rfl
  have h0cM : masterCount (adsAdd T1).1 = masterCount T1 := by
    rw [masterCount_eq_countB, masterCount_eq_countB, hAeq, countB_addPart]
    rfl
  have h0cL : layoutCount (adsAdd T1).1 = layoutCount T1 := by
    rw [layoutCount_eq_countB, layoutCount_eq_countB, hAeq, countB_addPart]
    rfl
  -- stage 1: slide-to-layout relationship
  rcases relate_to_cases (adsAdd T1).1 (adsAdd T1).2 L .slideLayout with
    ⟨qq, hf1, he1⟩ | ⟨hf1, he1⟩
  · rw [h0self] at hf1
    exact Option.noConfusion hf1
  have h1eq : adsRel1 T1 L = (adsAdd T1).1.setPart (adsAdd T1).2
      { (adsAdd T1).1.getPart (adsAdd T1).2 with
        rels := ((adsAdd T1).1.getPart (adsAdd T1).2).rels ++
          [(next_rId ((adsAdd T1).1.getPart (adsAdd T1).2).rels,
            ⟨.slideLayout, false, L, ""⟩)] } := by
    unfold adsRel1
    rw [he1]
  have h1self : (adsRel1 T1 L).getPart (adsAdd T1).2 =
      { (adsAdd T1).1.getPart (adsAdd T1).2 with
        rels := ((adsAdd T1).1.getPart (adsAdd T1).2).rels ++
          [(next_rId ((adsAdd T1).1.getPart (adsAdd T1).2).rels,
            ⟨.slideLayout, false, L, ""⟩)] } := by
    rw [h1eq]
    exact getPart_setPart_self _ _ _ h0dslt
  have h1rels : ((adsRel1 T1 L).getPart (adsAdd T1).2).rels =
      [(next_rId [], (⟨.slideLayout, false, L, ""⟩ : Rel))] := by
    rw [h1self]
    show ((adsAdd T1).1.getPart (adsAdd T1).2).rels ++
      [(next_rId ((adsAdd T1).1.getPart (adsAdd T1).2).rels,
        (⟨.slideLayout, false, L, ""⟩ : Rel))] = _
    rw [h0self]
    rfl
  have h1content : ((adsRel1 T1 L).getPart (adsAdd T1).2).content = .slideC [] := by
    rw [h1self]
    show ((adsAdd T1).1.getPart (adsAdd T1).2).content = _
    rw [h0self]
  have h1rel : part_related_by (adsRel1 T1 L) (adsAdd T1).2 .slideLayout =
      some L := by
    unfold part_related_by
    rw [h1rels]
    rfl
  have h1old : ∀ j, j < T1.parts.length →
      (adsRel1 T1 L).getPart j = T1.getPart j := by
    intro j hj
    rw [h1eq, getPart_setPart_ne _ _ _ _ (fun h => (Nat.ne_of_lt hj) (hds ▸ h.symm)),
      h0old j hj]
  have h1pres : (adsRel1 T1 L).presId = T1.presId := by
    rw [h1eq]
    rfl
  have h1len : (adsRel1 T1 L).parts.length = T1.parts.length + 1 := by
    rw [h1eq, length_setPart, h0len]
  have h1cT : themeCount (adsRel1 T1 L) = themeCount T1 := by
    rw [h1eq, themeCount_setPart_rels _ _ _ h0dslt, h0cT]
  have h1cM : masterCount (adsRel1 T1 L) = masterCount T1 := by
    rw [h1eq, masterCount_setPart_rels _ _ _ h0dslt, h0cM]
  have h1cL : layoutCount (adsRel1 T1 L) = layoutCount T1 := by
    rw [h1eq, layoutCount_setPart_rels _ _ _ h0dslt, h0cL]
  have h1plt : (adsRel1 T1 L).presId < (adsRel1 T1 L).parts.length := by
    rw [h1pres, h1len]
    exact Nat.lt_succ_of_lt hp
  have h1presContent : ((adsRel1 T1 L).getPart T1.presId).content =
      .presC ml sl w0 h0 := by
    rw [h1old T1.presId hp]
    exact hpcT
  -- stage 2: presentation-to-slide relationship
  have hS2 : (adsRel2 T1 L).1.presId = T1.presId ∧
      (adsRel2 T1 L).1.parts.length = T1.parts.length + 1 ∧
      (∀ j, j < T1.parts.length → j ≠ T1.presId →
        (adsRel2 T1 L).1.getPart j = T1.getPart j) ∧
      (adsRel2 T1 L).1.getPart (adsAdd T1).2 =
        (adsRel1 T1 L).getPart (adsAdd T1).2 ∧
      ((adsRel2 T1 L).1.getPart T1.presId).content = .presC ml sl w0 h0 ∧
      themeCount (adsRel2 T1 L).1 = themeCount T1 ∧
      masterCount (adsRel2 T1 L).1 = masterCount T1 ∧
      layoutCount (adsRel2 T1 L).1 = layoutCount T1 := by
    rcases relate_to_cases (adsRel1 T1 L) (adsRel1 T1 L).presId (adsAdd T1).2
        .slide with ⟨qq, hf2, he2⟩ | ⟨hf2, he2⟩
    · have h2eq : (adsRel2 T1 L).1 = adsRel1 T1 L := by
        unfold adsRel2
        rw [he2]
      rw [h2eq]
      exact ⟨h1pres, h1len, fun j hj _ => h1old j hj, rfl, h1presContent,
        h1cT, h1cM, h1cL⟩
    · have h2eq : (adsRel2 T1 L).1 =
          (adsRel1 T1 L).setPart (adsRel1 T1 L).presId
            { (adsRel1 T1 L).getPart (adsRel1 T1 L).presId with
              rels := ((adsRel1 T1 L).getPart (adsRel1 T1 L).presId).rels ++
                [(next_rId ((adsRel1 T1 L).getPart (adsRel1 T1 L).presId).rels,
                  ⟨.slide, false, (adsAdd T1).2, ""⟩)] } := by
        unfold adsRel2
        rw [he2]
      rw [h2eq]
      refine ⟨?_, ?_, ?_, ?_, ?_, ?_, ?_, ?_⟩
      · rw [presId_setPart, h1pres]
      · rw [length_setPart, h1len]
      · intro j hj hjp
        rw [getPart_setPart_ne _ _ _ _ (fun h => hjp (h.symm.trans h1pres)),
          h1old j hj]
      · rw [getPart_setPart_ne _ _ _ _ (fun h => ?_)]
        have h2 : T1.presId = (adsAdd T1).2 := h1pres ▸ h
        rw [hds] at h2
        exact Nat.ne_of_lt hp h2
      · rw [← h1pres, getPart_setPart_self _ _ _ h1plt]
        show ((adsRel1 T1 L).getPart (adsRel1 T1 L).presId).content = _
        rw [h1pres]
        exact h1presContent
      · rw [themeCount_setPart_rels _ _ _ h1plt, h1cT]
      · rw [masterCount_setPart_rels _ _ _ h1plt, h1cM]
      · rw [layoutCount_setPart_rels _ _ _ h1plt, h1cL]
  obtain ⟨h2pres, h2len, h2old, h2ds, h2presC, h2cT, h2cM, h2cL⟩ := hS2
  -- stage 3: the sldIdLst entry
  have h3match : ((adsRel2 T1 L).1.getPart (adsRel2 T1 L).1.presId).content =
      .presC ml sl w0 h0 := by
    rw [h2pres]
    exact h2presC
  have h3eq : appendSlideId (adsRel2 T1 L).1 (adsRel2 T1 L).2 =
      (adsRel2 T1 L).1.setPart (adsRel2 T1 L).1.presId
        { (adsRel2 T1 L).1.getPart (adsRel2 T1 L).1.presId with
          content := .presC ml (sl ++ [(adsRel2 T1 L).2]) w0 h0 } := by
    unfold appendSlideId
    rw [h3match]
  have h2plt : (adsRel2 T1 L).1.presId < (adsRel2 T1 L).1.parts.length := by
    rw [h2pres, h2len]
    exact Nat.lt_succ_of_lt hp
  have h3pres : (appendSlideId (adsRel2 T1 L).1 (adsRel2 T1 L).2).presId =
      T1.presId := by
    rw [h3eq, presId_setPart, h2pres]
  have h3len : (appendSlideId (adsRel2 T1 L).1 (adsRel2 T1 L).2).parts.length =
      T1.parts.length + 1 := by
    rw [h3eq, length_setPart, h2len]
  have h3old : ∀ j, j < T1.parts.length → j ≠ T1.presId →
      (appendSlideId (adsRel2 T1 L).1 (adsRel2 T1 L).2).getPart j =
        T1.getPart j := by
    intro j hj hjp
    rw [h3eq, getPart_setPart_ne _ _ _ _ (fun h => hjp (h.symm.trans h2pres)),
      h2old j hj hjp]
  have h3ds : (appendSlideId (adsRel2 T1 L).1 (adsRel2 T1 L).2).getPart
      (adsAdd T1).2 = (adsRel1 T1 L).getPart (adsAdd T1).2 := by
    rw [h3eq, getPart_setPart_ne _ _ _ _ (fun h => ?_), h2ds]
    have h2 : T1.presId = (adsAdd T1).2 := h2pres ▸ h
    rw [hds] at h2
    exact Nat.ne_of_lt hp h2
  have h3cT : themeCount (appendSlideId (adsRel2 T1 L).1 (adsRel2 T1 L).2) =
      themeCount T1 := by
    rw [h3eq, themeCount_setPart_presC _ _ _ h2plt rfl h3match, h2cT]
  have h3cM : masterCount (appendSlideId (adsRel2 T1 L).1 (adsRel2 T1 L).2) =
      masterCount T1 := by
    rw [h3eq, masterCount_setPart_presC _ _ _ h2plt rfl h3match, h2cM]
  have h3cL : layoutCount (appendSlideId (adsRel2 T1 L).1 (adsRel2 T1 L).2) =
      layoutCount T1 := by
    rw [h3eq, layoutCount_setPart_presC _ _ _ h2plt rfl h3match, h2cL]
  have h3rels2 : ((appendSlideId (adsRel2 T1 L).1 (adsRel2 T1 L).2).getPart
      (adsAdd T1).2).rels = ((adsRel1 T1 L).getPart (adsAdd T1).2).rels := by
    rw [h3ds]
  have h3rel : part_related_by (appendSlideId (adsRel2 T1 L).1 (adsRel2 T1 L).2)
      (adsAdd T1).2 .slideLayout = some L := by
    rw [part_related_by_congr _ _ _ _ h3rels2]
    exact h1rel
  have h3presPart : ((appendSlideId (adsRel2 T1 L).1 (adsRel2 T1 L).2).getPart
      T1.presId).content = .presC ml (sl ++ [(adsRel2 T1 L).2]) w0 h0 := by
    rw [h3eq, ← h2pres, getPart_setPart_self _ _ _ h2plt]
  -- normalize the goal to the stage spellings
  have hadd1 : (add_slide T1 L).1 =
      appendSlideId (adsRel2 T1 L).1 (adsRel2 T1 L).2 := rfl
  have hadd2 : (add_slide T1 L).2 = (adsAdd T1).2 := rfl
  rw [hadd1, hadd2]
  -- stage 4: shapes copied onto the new slide
  have h4match : ((appendSlideId (adsRel2 T1 L).1 (adsRel2 T1 L).2).getPart
      (adsAdd T1).2).content = .slideC [] := by
    rw [h3ds]
    exact h1content
  have h4eq : copy_shapes src s (appendSlideId (adsRel2 T1 L).1 (adsRel2 T1 L).2)
      (adsAdd T1).2 =
      (appendSlideId (adsRel2 T1 L).1 (adsRel2 T1 L).2).setPart (adsAdd T1).2
        { (appendSlideId (adsRel2 T1 L).1 (adsRel2 T1 L).2).getPart (adsAdd T1).2
          with content := .slideC ([] ++ slideShapesOf src s) } := by
    unfold copy_shapes
    rw [h4match]
  have h3dslt : (adsAdd T1).2 <
      (appendSlideId (adsRel2 T1 L).1 (adsRel2 T1 L).2).parts.length := by
    rw [h3len, hds]
    exact Nat.lt_succ_self _
  have h4pres : (copy_shapes src s (appendSlideId (adsRel2 T1 L).1
      (adsRel2 T1 L).2) (adsAdd T1).2).presId = T1.presId := by
    rw [h4eq, presId_setPart, h3pres]
  have h4len : (copy_shapes src s (appendSlideId (adsRel2 T1 L).1
      (adsRel2 T1 L).2) (adsAdd T1).2).parts.length = T1.parts.length + 1 := by
    rw [h4eq, length_setPart, h3len]
  have h4old : ∀ j, j < T1.parts.length → j ≠ T1.presId →
      (copy_shapes src s (appendSlideId (adsRel2 T1 L).1 (adsRel2 T1 L).2)
        (adsAdd T1).2).getPart j = T1.getPart j := by
    intro j hj hjp
    rw [h4eq, getPart_setPart_ne _ _ _ _ (fun h => (Nat.ne_of_lt hj) (hds ▸ h.symm)),
      h3old j hj hjp]
  have h4self : (copy_shapes src s (appendSlideId (adsRel2 T1 L).1
      (adsRel2 T1 L).2) (adsAdd T1).2).getPart (adsAdd T1).2 =
      { (appendSlideId (adsRel2 T1 L).1 (adsRel2 T1 L).2).getPart (adsAdd T1).2
        with content := .slideC ([] ++ slideShapesOf src s) } := by
    rw [h4eq]
    exact getPart_setPart_self _ _ _ h3dslt
  have h4rels2 : ((copy_shapes src s (appendSlideId (adsRel2 T1 L).1
      (adsRel2 T1 L).2) (adsAdd T1).2).getPart (adsAdd T1).2).rels =
      ((appendSlideId (adsRel2 T1 L).1 (adsRel2 T1 L).2).getPart
        (adsAdd T1).2).rels := by
    rw [h4self]
  have h4rel : part_related_by (copy_shapes src s (appendSlideId (adsRel2 T1 L).1
      (adsRel2 T1 L).2) (adsAdd T1).2) (adsAdd T1).2 .slideLayout = some L := by
    rw [part_related_by_congr _ _ _ _ h4rels2]
    exact h3rel
  have h4cT : themeCount (copy_shapes src s (appendSlideId (adsRel2 T1 L).1
      (adsRel2 T1 L).2) (adsAdd T1).2) = themeCount T1 := by
    rw [h4eq, themeCount_setPart _ _ _ h3dslt
      (by rw [(kinds_slideC (show ({ (appendSlideId (adsRel2 T1 L).1
        (adsRel2 T1 L).2).getPart (adsAdd T1).2 with
        content := PartContent.slideC ([] ++ slideShapesOf src s) } : Part).content
        = .slideC ([] ++ slideShapesOf src s) from rfl)).1, (kinds_slideC h4match).1]),
      h3cT]
  have h4cM : masterCount (copy_shapes src s (appendSlideId (adsRel2 T1 L).1
      (adsRel2 T1 L).2) (adsAdd T1).2) = masterCount T1 := by
    rw [h4eq, masterCount_setPart _ _ _ h3dslt
      (by rw [(kinds_slideC (show ({ (appendSlideId (adsRel2 T1 L).1
        (adsRel2 T1 L).2).getPart (adsAdd T1).2 with
        content := PartContent.slideC ([] ++ slideShapesOf src s) } : Part).content
        = .slideC ([] ++ slideShapesOf src s) from rfl)).2.1,
        (kinds_slideC h4match).2.1]),
      h3cM]
  have h4cL : layoutCount (copy_shapes src s (appendSlideId (adsRel2 T1 L).1
      (adsRel2 T1 L).2) (adsAdd T1).2) = layoutCount T1 := by
    rw [h4eq, layoutCount_setPart _ _ _ h3dslt
      (by rw [(kinds_slideC (show ({ (appendSlideId (adsRel2 T1 L).1
        (adsRel2 T1 L).2).getPart (adsAdd T1).2 with
        content := PartContent.slideC ([] ++ slideShapesOf src s) } : Part).content
        = .slideC ([] ++ slideShapesOf src s) from rfl)).2.2.1,
        (kinds_slideC h4match).2.2.1]),
      h3cL]
  have hdsnp : (adsAdd T1).2 ≠ T1.presId :=
    fun h => Nat.ne_of_lt hp (h.symm.trans hds)
  have h4presPart : ((copy_shapes src s (appendSlideId (adsRel2 T1 L).1
      (adsRel2 T1 L).2) (adsAdd T1).2).getPart T1.presId).content =
      .presC ml (sl ++ [(adsRel2 T1 L).2]) w0 h0 := by
    rw [h4eq, getPart_setPart_ne _ _ _ _ hdsnp]
    exact h3presPart
  have h4dslt : (adsAdd T1).2 < (copy_shapes src s (appendSlideId
      (adsRel2 T1 L).1 (adsRel2 T1 L).2) (adsAdd T1).2).parts.length := by
    rw [h4len, hds]
    exact Nat.lt_succ_self _
  -- stage 5: image relationships
  obtain ⟨i1, i2, i3, ⟨ext5, i4⟩, i5, i6, i7, i8⟩ := tail_images_rels src
    (adsAdd T1).2 (src.getPart s).rels
    (copy_shapes src s (appendSlideId (adsRel2 T1 L).1 (adsRel2 T1 L).2)
      (adsAdd T1).2) [] h4dslt
  have hciEq : ciRun src s (copy_shapes src s (appendSlideId (adsRel2 T1 L).1
      (adsRel2 T1 L).2) (adsAdd T1).2) (adsAdd T1).2 =
      copy_images_rels src (adsAdd T1).2 (src.getPart s).rels
        (copy_shapes src s (appendSlideId (adsRel2 T1 L).1 (adsRel2 T1 L).2)
          (adsAdd T1).2) [] := rfl
  rw [← hciEq] at i1 i2 i3 i4 i5 i6 i7 i8
  -- whatever branch copy_images takes, the result is the loop result or a
  -- content-only rewrite of the destination slide
  have h5 : copy_images src s (copy_shapes src s (appendSlideId (adsRel2 T1 L).1
        (adsRel2 T1 L).2) (adsAdd T1).2) (adsAdd T1).2 =
        (ciRun src s (copy_shapes src s (appendSlideId (adsRel2 T1 L).1
          (adsRel2 T1 L).2) (adsAdd T1).2) (adsAdd T1).2).1 ∨
      ∃ sh, ((ciRun src s (copy_shapes src s (appendSlideId (adsRel2 T1 L).1
          (adsRel2 T1 L).2) (adsAdd T1).2) (adsAdd T1).2).1.getPart
          (adsAdd T1).2).content = .slideC sh ∧
        copy_images src s (copy_shapes src s (appendSlideId (adsRel2 T1 L).1
          (adsRel2 T1 L).2) (adsAdd T1).2) (adsAdd T1).2 =
        (ciRun src s (copy_shapes src s (appendSlideId (adsRel2 T1 L).1
          (adsRel2 T1 L).2) (adsAdd T1).2) (adsAdd T1).2).1.setPart (adsAdd T1).2
          { (ciRun src s (copy_shapes src s (appendSlideId (adsRel2 T1 L).1
            (adsRel2 T1 L).2) (adsAdd T1).2) (adsAdd T1).2).1.getPart (adsAdd T1).2
            with content := .slideC (sh.map (picBlipWalk
              (ciRun src s (copy_shapes src s (appendSlideId (adsRel2 T1 L).1
                (adsRel2 T1 L).2) (adsAdd T1).2) (adsAdd T1).2).2.1)) } := by
    cases herr : (ciRun src s (copy_shapes src s (appendSlideId (adsRel2 T1 L).1
        (adsRel2 T1 L).2) (adsAdd T1).2) (adsAdd T1).2).2.2 with
    | some e =>
      left
      simp only [copy_images, herr]
    | none =>
      cases hemp : (ciRun src s (copy_shapes src s (appendSlideId (adsRel2 T1 L).1
          (adsRel2 T1 L).2) (adsAdd T1).2) (adsAdd T1).2).2.1.isEmpty with
      | true =>
        left
        simp only [copy_images, herr, hemp, if_true]
      | false =>
        have hcon : ((ciRun src s (copy_shapes src s (appendSlideId
            (adsRel2 T1 L).1 (adsRel2 T1 L).2) (adsAdd T1).2)
            (adsAdd T1).2).1.getPart (adsAdd T1).2).content =
            .slideC ([] ++ slideShapesOf src s) := by
          rw [i5, h4self]
        right
        refine ⟨[] ++ slideShapesOf src s, hcon, ?_⟩
        simp only [copy_images, herr, hemp, Bool.false_eq_true, if_false, hcon]

  have hciPres : ((ciRun src s (copy_shapes src s (appendSlideId (adsRel2 T1 L).1
      (adsRel2 T1 L).2) (adsAdd T1).2) (adsAdd T1).2).1.getPart
      T1.presId).content = .presC ml (sl ++ [(adsRel2 T1 L).2]) w0 h0 := by
    rw [i3 T1.presId (by rw [h4len]; exact Nat.lt_succ_of_lt hp)
      (fun h => hdsnp h.symm)]
    exact h4presPart
  have hlenF : T1.parts.length ≤ (ciRun src s (copy_shapes src s (appendSlideId
      (adsRel2 T1 L).1 (adsRel2 T1 L).2) (adsAdd T1).2)
      (adsAdd T1).2).1.parts.length := by
    have i1x := i1
    rw [h4len] at i1x
    exact Nat.le_trans (Nat.le_succ _) i1x
  rcases h5 with h5 | ⟨sh5, hcon5, h5⟩
  · rw [h5]
    refine ⟨i2.trans h4pres, hlenF, ?_, ?_, i6.trans h4cT, i7.trans h4cM,
      i8.trans h4cL, ⟨ml, sl ++ [(adsRel2 T1 L).2], w0, h0, hciPres⟩⟩
    · intro j hj hjp
      rw [i3 j (by rw [h4len]; exact Nat.lt_succ_of_lt hj)
        (fun h => (Nat.ne_of_lt hj) (hds ▸ h)), h4old j hj hjp]
    · exact part_related_by_ext _ i4 h4rel
  · rw [h5]
    have hlt5 : (adsAdd T1).2 < (ciRun src s (copy_shapes src s (appendSlideId
        (adsRel2 T1 L).1 (adsRel2 T1 L).2) (adsAdd T1).2)
        (adsAdd T1).2).1.parts.length := Nat.lt_of_lt_of_le h4dslt i1
    refine ⟨?_, ?_, ?_, ?_, ?_, ?_, ?_, ?_⟩
    · rw [presId_setPart]
      exact i2.trans h4pres
    · rw [length_setPart]
      exact hlenF
    · intro j hj hjp
      rw [getPart_setPart_ne _ _ _ _ (fun h => (Nat.ne_of_lt hj) (hds ▸ h.symm)),
        i3 j (by rw [h4len]; exact Nat.lt_succ_of_lt hj)
          (fun h => (Nat.ne_of_lt hj) (hds ▸ h)), h4old j hj hjp]
    · refine part_related_by_ext ext5 ?_ h4rel
      rw [getPart_setPart_self _ _ _ hlt5]
      exact i4
    · rw [themeCount_setPart _ _ _ hlt5 (by
        rw [(kinds_slideC (show ({ (ciRun src s (copy_shapes src s (appendSlideId
          (adsRel2 T1 L).1 (adsRel2 T1 L).2) (adsAdd T1).2)
          (adsAdd T1).2).1.getPart (adsAdd T1).2 with
          content := PartContent.slideC (sh5.map (picBlipWalk
            (ciRun src s (copy_shapes src s (appendSlideId (adsRel2 T1 L).1
              (adsRel2 T1 L).2) (adsAdd T1).2) (adsAdd T1).2).2.1)) } : Part).content
          = _ from rfl)).1, (kinds_slideC hcon5).1])]
      exact i6.trans h4cT
    · rw [masterCount_setPart _ _ _ hlt5 (by
        rw [(kinds_slideC (show ({ (ciRun src s (copy_shapes src s (appendSlideId
          (adsRel2 T1 L).1 (adsRel2 T1 L).2) (adsAdd T1).2)
          (adsAdd T1).2).1.getPart (adsAdd T1).2 with
          content := PartContent.slideC (sh5.map (picBlipWalk
            (ciRun src s (copy_shapes src s (appendSlideId (adsRel2 T1 L).1
              (adsRel2 T1 L).2) (adsAdd T1).2) (adsAdd T1).2).2.1)) } : Part).content
          = _ from rfl)).2.1, (kinds_slideC hcon5).2.1])]
      exact i7.trans h4cM
    · rw [layoutCount_setPart _ _ _ hlt5 (by
        rw [(kinds_slideC (show ({ (ciRun src s (copy_shapes src s (appendSlideId
          (adsRel2 T1 L).1 (adsRel2 T1 L).2) (adsAdd T1).2)
          (adsAdd T1).2).1.getPart (adsAdd T1).2 with
          content := PartContent.slideC (sh5.map (picBlipWalk
            (ciRun src s (copy_shapes src s (appendSlideId (adsRel2 T1 L).1
              (adsRel2 T1 L).2) (adsAdd T1).2) (adsAdd T1).2).2.1)) } : Part).content
          = _ from rfl)).2.2.1, (kinds_slideC hcon5).2.2.1])]
      exact i8.trans h4cL
    · refine ⟨ml, sl ++ [(adsRel2 T1 L).2], w0, h0, ?_⟩
      rw [getPart_setPart_ne _ _ _ _ hdsnp]
      exact hciPres

/-- copy_slide_size rewrites only the dimensions of the presentation part. -/
theorem copy_slide_size_spec (src tgt : Package)
    (hp : tgt.presId < tgt.parts.length)
    {ml sl : List RId} {w0 h0 : Nat}
    (hpc : (tgt.getPart tgt.presId).content = .presC ml sl w0 h0) :
    themeCount (copy_slide_size src tgt) = themeCount tgt ∧
    masterCount (copy_slide_size src tgt) = masterCount tgt ∧
    layoutCount (copy_slide_size src tgt) = layoutCount tgt ∧
    (∀ j, j ≠ tgt.presId → (copy_slide_size src tgt).getPart j = tgt.getPart j) ∧
    ((copy_slide_size src tgt).getPart tgt.presId).content =
      .presC ml sl (slideWidth src) (slideHeight src) := by
  have heq : copy_slide_size src tgt = tgt.setPart tgt.presId
      { tgt.getPart tgt.presId with
        content := .presC ml sl (slideWidth src) (slideHeight src) } := by
    unfold copy_slide_size
    rw [hpc]
  rw [heq]
  refine ⟨?_, ?_, ?_, ?_, ?_⟩
  · exact themeCount_setPart_presC _ _ _ hp rfl hpc
  · exact masterCount_setPart_presC _ _ _ hp rfl hpc
  · exact layoutCount_setPart_presC _ _ _ hp rfl hpc
  · intro j hj
    exact getPart_setPart_ne _ _ _ _ (fun h => hj h.symm)
  · rw [getPart_setPart_self _ _ _ hp]

/-- A copy_slide call driven by a layout map never creates theme, master or
layout parts, and keeps the presentation part sane. -/
theorem counts_copy_slide_map (src : Package) (i : Nat) (T : Package)
    (lm : List (String × PartId)) (hp : T.presId < T.parts.length)
    {ml sl : List RId} {w0 h0 : Nat}
    (hpc : (T.getPart T.presId).content = .presC ml sl w0 h0) :
    themeCount (copy_slide src i T (some lm)).1 = themeCount T ∧
    masterCount (copy_slide src i T (some lm)).1 = masterCount T ∧
    layoutCount (copy_slide src i T (some lm)).1 = layoutCount T ∧
    (copy_slide src i T (some lm)).1.presId = T.presId ∧
    T.parts.length ≤ (copy_slide src i T (some lm)).1.parts.length ∧
    ∃ ml2 sl2 w2 h2, ((copy_slide src i T (some lm)).1.getPart
      (copy_slide src i T (some lm)).1.presId).content =
        .presC ml2 sl2 w2 h2 := by
  cases hidx : (slidesOf src).get? i with
  | none =>
    have heq : copy_slide src i T (some lm) = (T, .error .indexErr) := by
      unfold copy_slide
      rw [hidx]
    rw [heq]
    exact ⟨rfl, rfl, rfl, rfl, Nat.le_refl _, ⟨ml, sl, w0, h0, hpc⟩⟩
  | some s =>
    obtain ⟨sT, sM, sL, sOld, sPc⟩ := copy_slide_size_spec src T hp hpc
    have hp1 : (copy_slide_size src T).presId < (copy_slide_size src T).parts.length := by
      rw [copy_slide_size_presId, copy_slide_size_parts_length]
      exact hp
    have hpc1 : ((copy_slide_size src T).getPart
        (copy_slide_size src T).presId).content =
        .presC ml sl (slideWidth src) (slideHeight src) := by
      rw [copy_slide_size_presId]
      exact sPc
    have hres1 : (resolve_layout src s (copy_slide_size src T) (some lm)).1 =
        copy_slide_size src T := by
      cases hrl : part_related_by src s .slideLayout with
      | none => simp only [resolve_layout, hrl]
      | some lid =>
        cases hlk : lookupA lm (layoutNameOf src lid) with
        | none => simp only [resolve_layout, hrl, hlk]
        | some tl => simp only [resolve_layout, hrl, hlk]
    cases hres : (resolve_layout src s (copy_slide_size src T) (some lm)).2 with
    | error e =>
      have heq : (copy_slide src i T (some lm)).1 =
          (resolve_layout src s (copy_slide_size src T) (some lm)).1 := by
        simp only [copy_slide, hidx, hres]
      rw [heq, hres1]
      exact ⟨sT, sM, sL, copy_slide_size_presId src T,
        Nat.le_of_eq (copy_slide_size_parts_length src T).symm,
        ⟨ml, sl, slideWidth src, slideHeight src, hpc1⟩⟩
    | ok L =>
      have heq : (copy_slide src i T (some lm)).1 =
          copy_images src s
            (copy_shapes src s
              (add_slide (resolve_layout src s (copy_slide_size src T) (some lm)).1
                L).1
              (add_slide (resolve_layout src s (copy_slide_size src T) (some lm)).1
                L).2)
            (add_slide (resolve_layout src s (copy_slide_size src T) (some lm)).1
              L).2 := by
        simp only [copy_slide, hidx, hres]
      rw [heq, hres1]
      obtain ⟨t1, t2, t3, t4, t5, t6, t7, t8⟩ := slide_tail_spec src s
        (copy_slide_size src T) L hp1
        ⟨ml, sl, slideWidth src, slideHeight src, hpc1⟩
      refine ⟨t5.trans sT, t6.trans sM, t7.trans sL,
        t1.trans (copy_slide_size_presId src T), ?_, ?_⟩
      · rw [← copy_slide_size_parts_length src T]
        exact t2
      · obtain ⟨ml2, sl2, w2, h2, hc2⟩ := t8
        refine ⟨ml2, sl2, w2, h2, ?_⟩
        rw [show (copy_images src s
          (copy_shapes src s
            (add_slide (copy_slide_size src T) L).1
            (add_slide (copy_slide_size src T) L).2)
          (add_slide (copy_slide_size src T) L).2).presId =
          (copy_slide_size src T).presId from t1]
        exact hc2

/-- The slide loop of copy_slides creates no theme, master or layout parts. -/
theorem counts_copy_slides_go (src : Package) :
    ∀ (idxs : List Nat) (T : Package) (lm : List (String × PartId))
      (acc : List PartId),
    T.presId < T.parts.length →
    (∃ ml sl w h, (T.getPart T.presId).content = .presC ml sl w h) →
    themeCount (copy_slides_go src idxs T lm acc).1 = themeCount T ∧
    masterCount (copy_slides_go src idxs T lm acc).1 = masterCount T ∧
    layoutCount (copy_slides_go src idxs T lm acc).1 = layoutCount T := by
  intro idxs
  induction idxs with
  | nil =>
    intro T lm acc _ _
    exact ⟨rfl, rfl, rfl⟩
  | cons i rest ih =>
    intro T lm acc hp hpc
    obtain ⟨ml, sl, w0, h0, hpc0⟩ := hpc
    obtain ⟨c1, c2, c3, c4, c5, c6⟩ := counts_copy_slide_map src i T lm hp hpc0
    cases hcs : (copy_slide src i T (some lm)).2 with
    | error e =>
      have heq : copy_slides_go src (i :: rest) T lm acc =
          ((copy_slide src i T (some lm)).1, .error e) := by
        simp only [copy_slides_go, hcs]
      rw [heq]
      exact ⟨c1, c2, c3⟩
    | ok s2 =>
      have heq : copy_slides_go src (i :: rest) T lm acc =
          copy_slides_go src rest (copy_slide src i T (some lm)).1 lm
            (acc ++ [s2]) := by
        simp only [copy_slides_go, hcs]
      rw [heq]
      obtain ⟨r1, r2, r3⟩ := ih (copy_slide src i T (some lm)).1 lm (acc ++ [s2])
        (by rw [c4]; exact Nat.lt_of_lt_of_le hp c5) c6
      exact ⟨r1.trans c1, r2.trans c2, r3.trans c3⟩

theorem cacheLookup_nil (k : PartId) : cacheLookup [] k = none := rfl

/-- A freshly copied master has only non-layout relationships and an empty
layout-id list, so its pairing invariant holds. -/
theorem layoutIdsOk_fresh_master {src : Package} {sm : PartId} {tgt q : Package}
    {cache cache' : Cache} {mPid : PartId}
    (S : MasterCopySpec src sm tgt q cache cache' mPid) : LayoutIdsOk q mPid := by
  obtain ⟨bM, hbM⟩ := S.masterContent
  unfold LayoutIdsOk
  have h1 : masterLayoutIds q mPid = [] := by
    unfold masterLayoutIds
    rw [hbM]
    rfl
  rw [h1]
  have h2 : ((q.getPart mPid).rels.filter
      (fun r => r.2.reltype == RelType.slideLayout)) = [] := by
    rw [List.filter_eq_nil_iff]
    intro r hr
    rcases S.masterRels r hr with ⟨hth, _⟩ | ⟨hns, _⟩
    · rw [hth]
      decide
    · rw [(beq_structural_false hns).2.1]
      decide
  rw [h2]
  rfl

/-- The standalone layout-resolution path of copy_slide (no layout map,
fresh cache): the layout's master chain is copied once and the fresh layout
carries the source layout's name. -/
theorem standalone_layout_resolution (src : Package) (s srcLid srcMid : PartId)
    (T1 : Package) (hwf1 : wfB T1 = true)
    (hrelL : part_related_by src s .slideLayout = some srcLid)
    (hrelM : part_related_by src srcLid .slideMaster = some srcMid)
    (hThemeKind : ∀ tp, part_related_by src srcMid .theme = some tp →
      (src.getPart tp).isTheme = true)
    (hMRels : ∀ r ∈ (src.getPart srcMid).rels, r.2.reltype.isStructural = false →
      r.2.isExternal = false →
      (src.getPart r.2.targetPart).isImage = true ∨
      (src.getPart r.2.targetPart).isGeneric = true)
    (hLRels : ∀ r ∈ (src.getPart srcLid).rels, r.2.reltype.isStructural = false →
      r.2.isExternal = false →
      (src.getPart r.2.targetPart).isImage = true ∨
      (src.getPart r.2.targetPart).isGeneric = true) :
    (resolve_layout src s T1 none).1 =
      (copy_slide_layout_part src srcLid T1 []).1 ∧
    (resolve_layout src s T1 none).2 =
      .ok (csllAdd src srcLid (copy_slide_master_part src srcMid T1 []).1).2 ∧
    wfB (copy_slide_layout_part src srcLid T1 []).1 = true ∧
    themeCount (copy_slide_layout_part src srcLid T1 []).1 ≤ themeCount T1 + 1 ∧
    masterCount (copy_slide_layout_part src srcLid T1 []).1 =
      masterCount T1 + 1 ∧
    layoutCount (copy_slide_layout_part src srcLid T1 []).1 =
      layoutCount T1 + 1 ∧
    (csllAdd src srcLid (copy_slide_master_part src srcMid T1 []).1).2 <
      (copy_slide_layout_part src srcLid T1 []).1.parts.length ∧
    layoutNameOf (copy_slide_layout_part src srcLid T1 []).1
      (csllAdd src srcLid (copy_slide_master_part src srcMid T1 []).1).2 =
      layoutNameOf src srcLid ∧
    (∃ b2, ((copy_slide_layout_part src srcLid T1 []).1.getPart
      (csllAdd src srcLid (copy_slide_master_part src srcMid T1 []).1).2).content =
      .layoutC (layoutNameOf src srcLid) b2) ∧
    LayoutIdsOk (copy_slide_layout_part src srcLid T1 []).1
      (copy_slide_master_part src srcMid T1 []).2.2 := by
  obtain ⟨hc21, hc22, S, SL⟩ := layout_copy_spec_miss src srcLid T1 [] srcMid
    hwf1 hrelM (cacheLookup_nil srcMid) hThemeKind hMRels hLRels
    (fun e he => absurd he (List.not_mem_nil e))
  have hwfM : wfB (copy_slide_master_part src srcMid T1 []).1 = true :=
    wfB_master_copy src srcMid hwf1 S
  have htmM : (copy_slide_master_part src srcMid T1 []).2.2 <
      (copy_slide_master_part src srcMid T1 []).1.parts.length := by
    rw [S.mPidEq]
    exact S.len
  have htmc : ∃ lst b, ((copy_slide_master_part src srcMid T1 []).1.getPart
      (copy_slide_master_part src srcMid T1 []).2.2).content = .masterC lst b := by
    obtain ⟨bM, hbM⟩ := S.masterContent
    exact ⟨none, bM, hbM⟩
  have hwfQ : wfB (copy_slide_layout_part src srcLid T1 []).1 = true :=
    wfB_layout_copy src srcLid hwfM htmM htmc SL
  have hgproj2 : (get_or_copy_slide_layout src s T1 []).2.2 =
      .ok (csllAdd src srcLid (copy_slide_master_part src srcMid T1 []).1).2 := by
    simp only [get_or_copy_slide_layout, hrelL, cacheLookup_nil, hc22]
  have hgproj1 : (get_or_copy_slide_layout src s T1 []).1 =
      (copy_slide_layout_part src srcLid T1 []).1 := by
    simp only [get_or_copy_slide_layout, hrelL, cacheLookup_nil, hc22]
  have hres2 : (resolve_layout src s T1 none).2 =
      .ok (csllAdd src srcLid (copy_slide_master_part src srcMid T1 []).1).2 := by
    simp only [resolve_layout, hgproj2]
  have hres1 : (resolve_layout src s T1 none).1 =
      (copy_slide_layout_part src srcLid T1 []).1 := by
    simp only [resolve_layout, hgproj2, hgproj1]
  have hTle : themeCount (copy_slide_layout_part src srcLid T1 []).1 ≤
      themeCount T1 + 1 := by
    rw [SL.cTheme]
    cases hth : part_related_by src srcMid .theme with
    | none =>
      rw [S.cThemeNoTheme hth]
      exact Nat.le_add_right _ _
    | some tp =>
      rw [S.cThemeFresh tp hth (cacheLookup_nil tp)]
  have hname : layoutNameOf (copy_slide_layout_part src srcLid T1 []).1
      (csllAdd src srcLid (copy_slide_master_part src srcMid T1 []).1).2 =
      layoutNameOf src srcLid := by
    obtain ⟨b2, hlc⟩ := SL.layoutContent
    have h1 : layoutNameOf (copy_slide_layout_part src srcLid T1 []).1
        (csllAdd src srcLid (copy_slide_master_part src srcMid T1 []).1).2 =
        (layoutNB src srcLid).1 := by
      unfold layoutNameOf
      rw [hlc]
    rw [h1, layoutNB_name]
  have hids : LayoutIdsOk (copy_slide_layout_part src srcLid T1 []).1
      (copy_slide_master_part src srcMid T1 []).2.2 := by
    obtain ⟨lst, b, h0⟩ := htmc
    obtain ⟨rid2, htn, htcq, htr, hfresh2⟩ := SL.tmChange lst b h0
    exact layoutIdsOk_step h0 htcq htr (layoutIdsOk_fresh_master S)
  have hcontent : ∃ b2, ((copy_slide_layout_part src srcLid T1 []).1.getPart
      (csllAdd src srcLid (copy_slide_master_part src srcMid T1 []).1).2).content =
      .layoutC (layoutNameOf src srcLid) b2 := by
    obtain ⟨b2, hlc⟩ := SL.layoutContent
    refine ⟨b2, ?_⟩
    rw [← layoutNB_name src srcLid]
    exact hlc
  refine ⟨hres1, hres2, hwfQ, hTle, ?_, ?_, ?_, hname, hcontent, hids⟩
  · rw [SL.cMaster, S.cMaster]
  · rw [SL.cLayout, S.cLayout]
  · rw [SL.lPidEq]
    exact SL.len

/-! ## Claim C1 -/

/-- C1: in a copy_layouts master step over a well-formed source and target,
a source master whose theme payload is byte-equal to some target master's
theme (the matcher finds a match) creates zero new theme parts, and a themed
source master matching no target master creates exactly one new theme part. -/
theorem c1_theme_dedup (src : Package) (m : PartId) (T : Package) (C : Cache)
    (lm : List (String × PartId)) (b : Blob)
    (hsrc : srcOkB src = true) (hm : m ∈ slide_masters src)
    (hwf : wfB T = true) (hth : themeBlobOf src m = some b)
    (hMfresh : cacheLookup C m = none)
    (hLfresh : ∀ l ∈ slide_layouts_of src m, cacheLookup C l = none)
    (hct : CacheThemesOk src T C) (hrep : ThemeRep src T C) :
    (∀ tm, find_matching_master src m T = some tm →
      themeCount (copy_layouts_master_step src m T C lm).1 = themeCount T) ∧
    (find_matching_master src m T = none →
      themeCount (copy_layouts_master_step src m T C lm).1 = themeCount T + 1) := by
  constructor
  · intro tm hf
    exact (matched_step_spec src m T C lm tm hsrc hm hwf hf hLfresh).2.1
  · intro hf
    exact (unmatched_step_spec src m T C lm hsrc hm hwf hf hMfresh hLfresh hct
      hrep).2.2.2.2.1 (by rw [hth]; exact fun h => Option.noConfusion h)

/-- C1 witness: against a target sharing the theme blob T1 the step adds no
theme part; against a target with a different theme it adds exactly one. -/
theorem c1_theme_dedup_witness :
    themeCount (copy_layouts_master_step exSrc 1 exTgtSame [] []).1 =
      themeCount exTgtSame ∧
    themeCount (copy_layouts_master_step exSrc 1 exTgtDiff [] []).1 =
      themeCount exTgtDiff + 1 := by
  constructor
  · exact (c1_theme_dedup exSrc 1 exTgtSame [] [] "T1" (by decide) (by decide)
      (by decide) (by decide) rfl (fun l _ => rfl)
      (fun e he => absurd he (List.not_mem_nil e))
      (fun e he => absurd he (List.not_mem_nil e))).1 1 (by decide)
  · exact (c1_theme_dedup exSrc 1 exTgtDiff [] [] "T1" (by decide) (by decide)
      (by decide) (by decide) rfl (fun l _ => rfl)
      (fun e he => absurd he (List.not_mem_nil e))
      (fun e he => absurd he (List.not_mem_nil e))).2 (by decide)

/-! ## Claim C3 -/

/-- C3 (corrected): on the copy_layouts path, when the theme matcher finds a
target master whose theme payload is byte-equal to the source master's, that
master is reused — no master or theme part is cloned — and the reused master
is recorded in the cache under the source master.  (As stated the claim also
covered the standalone copy_slide path, which never queries the matcher: see
the counterexample.) -/
theorem c3_matched_master_reuse (src : Package) (m : PartId) (T : Package)
    (C : Cache) (lm : List (String × PartId)) (tm : PartId)
    (hsrc : srcOkB src = true) (hm : m ∈ slide_masters src)
    (hwf : wfB T = true)
    (hfind : find_matching_master src m T = some tm)
    (hLfresh : ∀ l ∈ slide_layouts_of src m, cacheLookup C l = none) :
    masterCount (copy_layouts_master_step src m T C lm).1 = masterCount T ∧
    themeCount (copy_layouts_master_step src m T C lm).1 = themeCount T ∧
    cacheLookup (copy_layouts_master_step src m T C lm).2.1 m = some tm := by
  obtain ⟨MS, h1, h2, h3, h4⟩ := matched_step_spec src m T C lm tm hsrc hm hwf
    hfind hLfresh
  exact ⟨h2, h1, h4⟩

/-- C3 witness: the source master with theme T1 is matched by the target's
master 1; nothing master-level is cloned and the cache records the reuse. -/
theorem c3_matched_master_reuse_witness :
    masterCount (copy_layouts_master_step exSrc 1 exTgtSame [] []).1 =
      masterCount exTgtSame ∧
    themeCount (copy_layouts_master_step exSrc 1 exTgtSame [] []).1 =
      themeCount exTgtSame ∧
    cacheLookup (copy_layouts_master_step exSrc 1 exTgtSame [] []).2.1 1 =
      some 1 :=
  c3_matched_master_reuse exSrc 1 exTgtSame [] [] 1 (by decide) (by decide)
    (by decide) (by decide) (fun l _ => rfl)

/-! ## Claim C5 -/

/-- C5: after either operation that creates a target master — the unmatched
branch of a copy_layouts master step, or the standalone layout copy of
copy_slide — the fresh master's layout-id list pairs exactly, in order, with
its references-layout relationships: the cloned list is dropped at creation
and entries are appended only together with their layout relationship. -/
theorem c5_layout_ids_pair_rels :
    (∀ src m T C lm, srcOkB src = true → m ∈ slide_masters src →
      wfB T = true → find_matching_master src m T = none →
      cacheLookup C m = none →
      (∀ l ∈ slide_layouts_of src m, cacheLookup C l = none) →
      CacheThemesOk src T C → ThemeRep src T C →
      LayoutIdsOk (copy_layouts_master_step src m T C lm).1
        (copy_slide_master_part src m T C).2.2) ∧
    (∀ src s srcLid srcMid T1, wfB T1 = true →
      part_related_by src s .slideLayout = some srcLid →
      part_related_by src srcLid .slideMaster = some srcMid →
      (∀ tp, part_related_by src srcMid .theme = some tp →
        (src.getPart tp).isTheme = true) →
      (∀ r ∈ (src.getPart srcMid).rels, r.2.reltype.isStructural = false →
        r.2.isExternal = false →
        (src.getPart r.2.targetPart).isImage = true ∨
        (src.getPart r.2.targetPart).isGeneric = true) →
      (∀ r ∈ (src.getPart srcLid).rels, r.2.reltype.isStructural = false →
        r.2.isExternal = false →
        (src.getPart r.2.targetPart).isImage = true ∨
        (src.getPart r.2.targetPart).isGeneric = true) →
      LayoutIdsOk (copy_slide_layout_part src srcLid T1 []).1
        (copy_slide_master_part src srcMid T1 []).2.2) := by
  constructor
  · intro src m T C lm hsrc hm hwf hfind hMfresh hLfresh hct hrep
    exact (unmatched_step_spec src m T C lm hsrc hm hwf hfind hMfresh hLfresh
      hct hrep).2.2.2.2.2.1
  · intro src s srcLid srcMid T1 hwf1 hrelL hrelM hThemeKind hMRels hLRels
    exact (standalone_layout_resolution src s srcLid srcMid T1 hwf1 hrelL hrelM
      hThemeKind hMRels hLRels).2.2.2.2.2.2.2.2.2

/-- C5 witness: both master-creating operations applied at the concrete
packages leave the fresh master's id list paired with its layout rels. -/
theorem c5_layout_ids_pair_rels_witness :
    LayoutIdsOk (copy_layouts_master_step exSrc 1 exTgtDiff [] []).1
      (copy_slide_master_part exSrc 1 exTgtDiff []).2.2 ∧
    LayoutIdsOk (copy_slide_layout_part exSrc 3 exTgtSame []).1
      (copy_slide_master_part exSrc 1 exTgtSame []).2.2 := by
  constructor
  · exact c5_layout_ids_pair_rels.1 exSrc 1 exTgtDiff [] [] (by decide)
      (by decide) (by decide) (by decide) rfl (fun l _ => rfl)
      (fun e he => absurd he (List.not_mem_nil e))
      (fun e he => absurd he (List.not_mem_nil e))
  · exact c5_layout_ids_pair_rels.2 exSrc 4 3 1 exTgtSame (by decide)
      (by decide) (by decide) (fun tp h => by
        rw [show (part_related_by exSrc 1 RelType.theme) = some 2 from by decide]
          at h
        rw [← Option.some.inj h]
        decide)
      (by decide) (by decide)

/-! ## Claim C6 -/

/-- C6 (corrected): when every source master carries a theme, a second
copy_layouts run against the target already populated by the first returns
the target unchanged — in particular the theme, master and layout counts do
not grow.  (A source master with no theme never matches and is recopied on
every run: see the counterexample.) -/
theorem c6_second_copy_layouts_idempotent (src tgt : Package)
    (hsrc : srcOkB src = true) (hwf : wfB tgt = true)
    (hthemed : ∀ m ∈ slide_masters src, themeBlobOf src m ≠ none) :
    (copy_layouts src (copy_layouts src tgt).1).1 = (copy_layouts src tgt).1 ∧
    themeCount (copy_layouts src (copy_layouts src tgt).1).1 =
      themeCount (copy_layouts src tgt).1 ∧
    masterCount (copy_layouts src (copy_layouts src tgt).1).1 =
      masterCount (copy_layouts src tgt).1 ∧
    layoutCount (copy_layouts src (copy_layouts src tgt).1).1 =
      layoutCount (copy_layouts src tgt).1 := by
  obtain ⟨herr, hwf1, hext, hcov, _, _, _, _⟩ := copy_layouts_go_spec src hsrc
    (slide_masters src) tgt [] [] (fun m hm => hm) (srcOkB_parts hsrc).2.1
    (fun m _ => rfl) (fun m _ l _ => rfl) hwf
    (fun e he => absurd he (List.not_mem_nil e))
    (fun e he => absurd he (List.not_mem_nil e))
  have hgen : ∀ Q : Package,
      (copy_layouts_go src (slide_masters src) Q [] []).2.2.2 = none →
      (copy_layouts src Q).1 =
        (copy_layouts_go src (slide_masters src) Q [] []).1 := by
    intro Q hQ
    unfold copy_layouts
    rw [hQ]
  have h1 : (copy_layouts src tgt).1 =
      (copy_layouts_go src (slide_masters src) tgt [] []).1 := hgen tgt herr
  have hallcov : ∀ m ∈ slide_masters src,
      MatchCovered src m (copy_layouts src tgt).1 := by
    intro m hm
    rw [h1]
    exact hcov m hm (hthemed m hm)
  obtain ⟨hT2, herr2⟩ := go_all_matched src (slide_masters src)
    (copy_layouts src tgt).1 [] [] hallcov
  have hrun2 : (copy_layouts src (copy_layouts src tgt).1).1 =
      (copy_layouts_go src (slide_masters src) (copy_layouts src tgt).1 [] []).1
      := hgen (copy_layouts src tgt).1 herr2
  have heq : (copy_layouts src (copy_layouts src tgt).1).1 =
      (copy_layouts src tgt).1 := by
    rw [hrun2, hT2]
  exact ⟨heq, by rw [heq], by rw [heq], by rw [heq]⟩

/-- C6 witness: running copy_layouts twice from the themed source against
the same-theme target leaves the package of the first run untouched. -/
theorem c6_second_copy_layouts_idempotent_witness :
    (copy_layouts exSrc (copy_layouts exSrc exTgtSame).1).1 =
      (copy_layouts exSrc exTgtSame).1 ∧
    themeCount (copy_layouts exSrc (copy_layouts exSrc exTgtSame).1).1 =
      themeCount (copy_layouts exSrc exTgtSame).1 :=
  ⟨(c6_second_copy_layouts_idempotent exSrc exTgtSame (by decide) (by decide)
      (by decide)).1,
   (c6_second_copy_layouts_idempotent exSrc exTgtSame (by decide) (by decide)
      (by decide)).2.1⟩

/-- Parts equal at two locations give equal layout names there. -/
theorem layoutNameOf_congr {P1 P2 : Package} {j1 j2 : PartId}
    (h : P1.getPart j1 = P2.getPart j2) :
    layoutNameOf P1 j1 = layoutNameOf P2 j2 := by
  unfold layoutNameOf
  rw [h]

/-- The payloads still to be copied by a copy_layouts run number at most
the distinct source theme parts: each uncovered payload is the blob of the
theme part of some source master. -/
theorem uncov_card_le_theme_parts (src tgt : Package) :
    (uncovThemeBlobs src tgt (slide_masters src)).toFinset.card ≤
    ((slide_masters src).filterMap
      (fun mm => part_related_by src mm RelType.theme)).toFinset.card := by
  have hsub : (uncovThemeBlobs src tgt (slide_masters src)).toFinset ⊆
      Finset.image (partBlobD src) ((slide_masters src).filterMap
        (fun mm => part_related_by src mm RelType.theme)).toFinset := by
    intro b hb
    rw [List.mem_toFinset] at hb
    obtain ⟨mm, hmm, _, hblob⟩ := mem_uncovThemeBlobs.mp hb
    unfold themeBlobOf at hblob
    cases hrel : part_related_by src mm RelType.theme with
    | none =>
      rw [hrel, Option.map_none'] at hblob
      exact absurd hblob (fun hcc => Option.noConfusion hcc)
    | some tp =>
      rw [hrel, Option.map_some'] at hblob
      refine Finset.mem_image.mpr ⟨tp, ?_, Option.some.inj hblob⟩
      rw [List.mem_toFinset]
      exact List.mem_filterMap.mpr ⟨mm, hmm, hrel⟩
  exact (Finset.card_le_card hsub).trans Finset.card_image_le

/-- Under the source invariants the layout lists of distinct masters are
disjoint (each layout points back at its master), so the concatenation of
all source layout lists has no duplicates: its length counts distinct
source layout parts. -/
theorem src_layouts_flatten_nodup {src : Package} (hsrc : srcOkB src = true) :
    ((slide_masters src).map
      (fun mm => slide_layouts_of src mm)).flatten.Nodup := by
  rw [List.nodup_flatten]
  constructor
  · intro l hl
    obtain ⟨mm, hmm, hEq⟩ := List.mem_map.mp hl
    rw [← hEq]
    exact (src_master_facts hsrc hmm).2.2.2.2
  · rw [List.pairwise_map]
    refine List.Pairwise.imp_of_mem ?_ (srcOkB_parts hsrc).2.1
    intro a c ha hc hne l hla hlc
    obtain ⟨hra, _, _⟩ := (src_master_facts hsrc ha).2.2.2.1 l hla
    obtain ⟨hrc, _, _⟩ := (src_master_facts hsrc hc).2.2.2.1 l hlc
    rw [hra] at hrc
    exact hne (Option.some.inj hrc)

/-! ## Claim C4 -/

/-- C4: within one top-level copy operation, at most one target copy is
created per distinct source part.  For copy_layouts and copy_slides, the
number of new master parts is bounded by the number of distinct source
masters, the number of new theme parts by the number of distinct source
theme parts, and the number of new layout parts by the number of distinct
source layout parts; for a standalone copy_slide, the single source layout
chain yields at most one new theme, master and layout part. -/
theorem c4_at_most_one_copy_per_part :
    (∀ src tgt, srcOkB src = true → wfB tgt = true →
      themeCount (copy_layouts src tgt).1 ≤ themeCount tgt +
        ((slide_masters src).filterMap
          (fun mm => part_related_by src mm RelType.theme)).toFinset.card ∧
      masterCount (copy_layouts src tgt).1 ≤
        masterCount tgt + (slide_masters src).toFinset.card ∧
      layoutCount (copy_layouts src tgt).1 ≤ layoutCount tgt +
        ((slide_masters src).map
          (fun mm => slide_layouts_of src mm)).flatten.toFinset.card) ∧
    (∀ src tgt idxs, srcOkB src = true → wfB tgt = true →
      themeCount (copy_slides src tgt idxs).1 ≤ themeCount tgt +
        ((slide_masters src).filterMap
          (fun mm => part_related_by src mm RelType.theme)).toFinset.card ∧
      masterCount (copy_slides src tgt idxs).1 ≤
        masterCount tgt + (slide_masters src).toFinset.card ∧
      layoutCount (copy_slides src tgt idxs).1 ≤ layoutCount tgt +
        ((slide_masters src).map
          (fun mm => slide_layouts_of src mm)).flatten.toFinset.card) ∧
    (∀ src idx tgt s srcLid srcMid, wfB tgt = true →
      (slidesOf src).get? idx = some s →
      part_related_by src s .slideLayout = some srcLid →
      part_related_by src srcLid .slideMaster = some srcMid →
      (∀ tp, part_related_by src srcMid .theme = some tp →
        (src.getPart tp).isTheme = true) →
      (∀ r ∈ (src.getPart srcMid).rels, r.2.reltype.isStructural = false →
        r.2.isExternal = false →
        (src.getPart r.2.targetPart).isImage = true ∨
        (src.getPart r.2.targetPart).isGeneric = true) →
      (∀ r ∈ (src.getPart srcLid).rels, r.2.reltype.isStructural = false →
        r.2.isExternal = false →
        (src.getPart r.2.targetPart).isImage = true ∨
        (src.getPart r.2.targetPart).isGeneric = true) →
      themeCount (copy_slide src idx tgt none).1 ≤ themeCount tgt + 1 ∧
      masterCount (copy_slide src idx tgt none).1 ≤ masterCount tgt + 1 ∧
      layoutCount (copy_slide src idx tgt none).1 ≤ layoutCount tgt + 1) := by
  refine ⟨?_, ?_, ?_⟩
  · intro src tgt hsrc hwf
    obtain ⟨herr, _, _, _, _, hmle, _, hlle, htd⟩ := copy_layouts_go_spec src
      hsrc (slide_masters src) tgt [] [] (fun m hm => hm)
      (srcOkB_parts hsrc).2.1 (fun m _ => rfl) (fun m _ l _ => rfl) hwf
      (fun e he => absurd he (List.not_mem_nil e))
      (fun e he => absurd he (List.not_mem_nil e))
    have h1 : (copy_layouts src tgt).1 =
        (copy_layouts_go src (slide_masters src) tgt [] []).1 := by
      unfold copy_layouts
      rw [herr]
    rw [h1]
    refine ⟨htd.trans (Nat.add_le_add_left
      (uncov_card_le_theme_parts src tgt) _), ?_, ?_⟩
    · rw [List.toFinset_card_of_nodup (srcOkB_parts hsrc).2.1]
      exact hmle
    · rw [List.toFinset_card_of_nodup (src_layouts_flatten_nodup hsrc),
        List.length_flatten, List.map_map]
      exact hlle
  · intro src tgt idxs hsrc hwf
    obtain ⟨herr, hwf1, _, _, _, hmle, _, hlle, htd⟩ := copy_layouts_go_spec src
      hsrc (slide_masters src) tgt [] [] (fun m hm => hm)
      (srcOkB_parts hsrc).2.1 (fun m _ => rfl) (fun m _ l _ => rfl) hwf
      (fun e he => absurd he (List.not_mem_nil e))
      (fun e he => absurd he (List.not_mem_nil e))
    have h1 : (copy_layouts src tgt).1 =
        (copy_layouts_go src (slide_masters src) tgt [] []).1 := by
      unfold copy_layouts
      rw [herr]
    have hok : (copy_layouts src tgt).2 =
        .ok (copy_layouts_go src (slide_masters src) tgt [] []).2.2.1 := by
      unfold copy_layouts
      rw [herr]
    have heq : copy_slides src tgt idxs =
        copy_slides_go src (idxs.getD (List.range (slidesOf src).length))
          (copy_layouts src tgt).1
          (copy_layouts_go src (slide_masters src) tgt [] []).2.2.1 [] := by
      unfold copy_slides
      rw [hok]
    have hwfT : wfB (copy_layouts src tgt).1 = true := by
      rw [h1]
      exact hwf1
    obtain ⟨c1, c2, c3⟩ := counts_copy_slides_go src
      (idxs.getD (List.range (slidesOf src).length)) (copy_layouts src tgt).1
      (copy_layouts_go src (slide_masters src) tgt [] []).2.2.1 []
      (presOkB_lt (wfB_presOk hwfT)) (presOkB_content (wfB_presOk hwfT))
    rw [heq, c1, c2, c3, h1]
    refine ⟨htd.trans (Nat.add_le_add_left
      (uncov_card_le_theme_parts src tgt) _), ?_, ?_⟩
    · rw [List.toFinset_card_of_nodup (srcOkB_parts hsrc).2.1]
      exact hmle
    · rw [List.toFinset_card_of_nodup (src_layouts_flatten_nodup hsrc),
        List.length_flatten, List.map_map]
      exact hlle
  · intro src idx tgt s srcLid srcMid hwf hidx hrelL hrelM hThemeKind hMRels
      hLRels
    have hp : tgt.presId < tgt.parts.length := presOkB_lt (wfB_presOk hwf)
    obtain ⟨ml, sl, w0, h0, hpc⟩ := presOkB_content (wfB_presOk hwf)
    obtain ⟨sT, sM, sL, sOld, sPc⟩ := copy_slide_size_spec src tgt hp hpc
    have hwf1 : wfB (copy_slide_size src tgt) = true :=
      wfB_copy_slide_size src tgt hwf
    obtain ⟨hres1, hres2, hwfQ, hTle, hMeq, hLeq, hLlt, hname, hcont, hids⟩ :=
      standalone_layout_resolution src s srcLid srcMid (copy_slide_size src tgt)
        hwf1 hrelL hrelM hThemeKind hMRels hLRels
    have heq : (copy_slide src idx tgt none).1 =
        copy_images src s
          (copy_shapes src s
            (add_slide (resolve_layout src s (copy_slide_size src tgt) none).1
              (csllAdd src srcLid
                (copy_slide_master_part src srcMid
                  (copy_slide_size src tgt) []).1).2).1
            (add_slide (resolve_layout src s (copy_slide_size src tgt) none).1
              (csllAdd src srcLid
                (copy_slide_master_part src srcMid
                  (copy_slide_size src tgt) []).1).2).2)
          (add_slide (resolve_layout src s (copy_slide_size src tgt) none).1
            (csllAdd src srcLid
              (copy_slide_master_part src srcMid
                (copy_slide_size src tgt) []).1).2).2 := by
      simp only [copy_slide, hidx, hres2]
    rw [heq, hres1]
    obtain ⟨t1, t2, t3, t4, t5, t6, t7, t8⟩ := slide_tail_spec src s
      (copy_slide_layout_part src srcLid (copy_slide_size src tgt) []).1
      (csllAdd src srcLid
        (copy_slide_master_part src srcMid (copy_slide_size src tgt) []).1).2
      (presOkB_lt (wfB_presOk hwfQ)) (presOkB_content (wfB_presOk hwfQ))
    refine ⟨?_, ?_, ?_⟩
    · rw [t5]
      rw [sT] at hTle
      exact hTle
    · rw [t6, hMeq, sM]
    · rw [t7, hLeq, sL]

/-- C4 witness: at the concrete packages, each bulk operation and the
standalone copy_slide respect the at-most-one-copy-per-distinct-part
bounds. -/
theorem c4_at_most_one_copy_per_part_witness :
    themeCount (copy_layouts exSrc exTgtDiff).1 ≤ themeCount exTgtDiff +
      ((slide_masters exSrc).filterMap
        (fun mm => part_related_by exSrc mm RelType.theme)).toFinset.card ∧
    themeCount (copy_slides exSrc exTgtSame none).1 ≤ themeCount exTgtSame +
      ((slide_masters exSrc).filterMap
        (fun mm => part_related_by exSrc mm RelType.theme)).toFinset.card ∧
    themeCount (copy_slide exSrc 0 exTgtSame none).1 ≤
      themeCount exTgtSame + 1 := by
  have hth : ∀ tp, part_related_by exSrc 1 RelType.theme = some tp →
      (exSrc.getPart tp).isTheme = true := fun tp h => by
    rw [show (part_related_by exSrc 1 RelType.theme) = some 2 from by decide]
      at h
    rw [← Option.some.inj h]
    decide
  refine ⟨?_, ?_, ?_⟩
  · exact (c4_at_most_one_copy_per_part.1 exSrc exTgtDiff (by decide)
      (by decide)).1
  · exact (c4_at_most_one_copy_per_part.2.1 exSrc exTgtSame none (by decide)
      (by decide)).1
  · exact (c4_at_most_one_copy_per_part.2.2 exSrc 0 exTgtSame 4 3 1 (by decide)
      (by decide) (by decide) (by decide) hth (by decide) (by decide)).1

/-! ## Claim C7 -/

/-- C7: for every valid source slide index, the slide created by copy_slide
is related to a target layout whose name equals the source slide's layout
name — both when a layout map supplies the target layout by name and when
the layout chain is copied on demand with no map. -/
theorem c7_layout_name_preserved :
    (∀ src idx tgt s srcLid lm tl, wfB tgt = true →
      (slidesOf src).get? idx = some s →
      part_related_by src s .slideLayout = some srcLid →
      lookupA lm (layoutNameOf src srcLid) = some tl →
      LmOk tgt lm →
      ∃ ds, (copy_slide src idx tgt (some lm)).2 = .ok ds ∧
        part_related_by (copy_slide src idx tgt (some lm)).1 ds .slideLayout =
          some tl ∧
        layoutNameOf (copy_slide src idx tgt (some lm)).1 tl =
          layoutNameOf src srcLid) ∧
    (∀ src idx tgt s srcLid srcMid, wfB tgt = true →
      (slidesOf src).get? idx = some s →
      part_related_by src s .slideLayout = some srcLid →
      part_related_by src srcLid .slideMaster = some srcMid →
      (∀ tp, part_related_by src srcMid .theme = some tp →
        (src.getPart tp).isTheme = true) →
      (∀ r ∈ (src.getPart srcMid).rels, r.2.reltype.isStructural = false →
        r.2.isExternal = false →
        (src.getPart r.2.targetPart).isImage = true ∨
        (src.getPart r.2.targetPart).isGeneric = true) →
      (∀ r ∈ (src.getPart srcLid).rels, r.2.reltype.isStructural = false →
        r.2.isExternal = false →
        (src.getPart r.2.targetPart).isImage = true ∨
        (src.getPart r.2.targetPart).isGeneric = true) →
      ∃ ds tl, (copy_slide src idx tgt none).2 = .ok ds ∧
        part_related_by (copy_slide src idx tgt none).1 ds .slideLayout =
          some tl ∧
        layoutNameOf (copy_slide src idx tgt none).1 tl =
          layoutNameOf src srcLid) := by
  constructor
  · intro src idx tgt s srcLid lm tl hwf hidx hrelL hlk hlm
    have hp : tgt.presId < tgt.parts.length := presOkB_lt (wfB_presOk hwf)
    obtain ⟨ml, sl, w0, h0, hpc⟩ := presOkB_content (wfB_presOk hwf)
    obtain ⟨sT, sM, sL, sOld, sPc⟩ := copy_slide_size_spec src tgt hp hpc
    obtain ⟨htl_lt, bb, hbtl⟩ := hlm _ (lookupA_mem hlk)
    have hne0 : tl ≠ tgt.presId := by
      intro h
      rw [h, hpc] at hbtl
      exact PartContent.noConfusion hbtl
    have hres2 : (resolve_layout src s (copy_slide_size src tgt) (some lm)).2 =
        .ok tl := by
      simp only [resolve_layout, hrelL, hlk]
    have hres1 : (resolve_layout src s (copy_slide_size src tgt) (some lm)).1 =
        copy_slide_size src tgt := by
      simp only [resolve_layout, hrelL, hlk]
    have heq1 : (copy_slide src idx tgt (some lm)).1 =
        copy_images src s
          (copy_shapes src s
            (add_slide (resolve_layout src s (copy_slide_size src tgt)
              (some lm)).1 tl).1
            (add_slide (resolve_layout src s (copy_slide_size src tgt)
              (some lm)).1 tl).2)
          (add_slide (resolve_layout src s (copy_slide_size src tgt)
            (some lm)).1 tl).2 := by
      simp only [copy_slide, hidx, hres2]
    have heq2 : (copy_slide src idx tgt (some lm)).2 =
        .ok (add_slide (resolve_layout src s (copy_slide_size src tgt)
          (some lm)).1 tl).2 := by
      simp only [copy_slide, hidx, hres2]
    rw [hres1] at heq1 heq2
    have hp1 : (copy_slide_size src tgt).presId <
        (copy_slide_size src tgt).parts.length := by
      rw [copy_slide_size_presId, copy_slide_size_parts_length]
      exact hp
    obtain ⟨t1, t2, t3, t4, t5, t6, t7, t8⟩ := slide_tail_spec src s
      (copy_slide_size src tgt) tl hp1
      ⟨ml, sl, slideWidth src, slideHeight src, by
        rw [copy_slide_size_presId]
        exact sPc⟩
    refine ⟨(add_slide (copy_slide_size src tgt) tl).2, heq2, ?_, ?_⟩
    · rw [heq1]
      exact t4
    · rw [heq1]
      have hchain : (copy_images src s
          (copy_shapes src s (add_slide (copy_slide_size src tgt) tl).1
            (add_slide (copy_slide_size src tgt) tl).2)
          (add_slide (copy_slide_size src tgt) tl).2).getPart tl =
          tgt.getPart tl := by
        rw [t3 tl (by rw [copy_slide_size_parts_length]; exact htl_lt)
          (by rw [copy_slide_size_presId]; exact hne0)]
        exact sOld tl hne0
      rw [layoutNameOf_congr hchain]
      unfold layoutNameOf
      rw [hbtl]
      rfl
  · intro src idx tgt s srcLid srcMid hwf hidx hrelL hrelM hThemeKind hMRels
      hLRels
    have hp : tgt.presId < tgt.parts.length := presOkB_lt (wfB_presOk hwf)
    obtain ⟨ml, sl, w0, h0, hpc⟩ := presOkB_content (wfB_presOk hwf)
    have hwf1 : wfB (copy_slide_size src tgt) = true :=
      wfB_copy_slide_size src tgt hwf
    obtain ⟨hres1, hres2, hwfQ, hTle, hMeq, hLeq, hLlt, hname, hcont, hids⟩ :=
      standalone_layout_resolution src s srcLid srcMid (copy_slide_size src tgt)
        hwf1 hrelL hrelM hThemeKind hMRels hLRels
    have heq1 : (copy_slide src idx tgt none).1 =
        copy_images src s
          (copy_shapes src s
            (add_slide (resolve_layout src s (copy_slide_size src tgt) none).1
              (csllAdd src srcLid
                (copy_slide_master_part src srcMid
                  (copy_slide_size src tgt) []).1).2).1
            (add_slide (resolve_layout src s (copy_slide_size src tgt) none).1
              (csllAdd src srcLid
                (copy_slide_master_part src srcMid
                  (copy_slide_size src tgt) []).1).2).2)
          (add_slide (resolve_layout src s (copy_slide_size src tgt) none).1
            (csllAdd src srcLid
              (copy_slide_master_part src srcMid
                (copy_slide_size src tgt) []).1).2).2 := by
      simp only [copy_slide, hidx, hres2]
    have heq2 : (copy_slide src idx tgt none).2 =
        .ok (add_slide (resolve_layout src s (copy_slide_size src tgt) none).1
          (csllAdd src srcLid
            (copy_slide_master_part src srcMid
              (copy_slide_size src tgt) []).1).2).2 := by
      simp only [copy_slide, hidx, hres2]
    rw [hres1] at heq1 heq2
    obtain ⟨mq, sq, wq, hq, hpcQ⟩ := presOkB_content (wfB_presOk hwfQ)
    obtain ⟨b2, hc2⟩ := hcont
    have hneQ : (csllAdd src srcLid
        (copy_slide_master_part src srcMid (copy_slide_size src tgt) []).1).2 ≠
        (copy_slide_layout_part src srcLid
          (copy_slide_size src tgt) []).1.presId := by
      intro h
      rw [h, hpcQ] at hc2
      exact PartContent.noConfusion hc2
    obtain ⟨t1, t2, t3, t4, t5, t6, t7, t8⟩ := slide_tail_spec src s
      (copy_slide_layout_part src srcLid (copy_slide_size src tgt) []).1
      (csllAdd src srcLid
        (copy_slide_master_part src srcMid (copy_slide_size src tgt) []).1).2
      (presOkB_lt (wfB_presOk hwfQ)) ⟨mq, sq, wq, hq, hpcQ⟩
    refine ⟨(add_slide (copy_slide_layout_part src srcLid
        (copy_slide_size src tgt) []).1
        (csllAdd src srcLid
          (copy_slide_master_part src srcMid
            (copy_slide_size src tgt) []).1).2).2,
      (csllAdd src srcLid
        (copy_slide_master_part src srcMid (copy_slide_size src tgt) []).1).2,
      heq2, ?_, ?_⟩
    · rw [heq1]
      exact t4
    · rw [heq1]
      have hchain := t3 (csllAdd src srcLid
        (copy_slide_master_part src srcMid (copy_slide_size src tgt) []).1).2
        hLlt hneQ
      rw [layoutNameOf_congr hchain]
      exact hname

/-- C7 witness: the concrete slide copies by map and by on-demand layout
copy both bind the new slide to a layout named like the source layout. -/
theorem c7_layout_name_preserved_witness :
    (∃ ds, (copy_slide exSrc 0 exTgtSame
        (some [("Title", 3)])).2 = .ok ds ∧
      part_related_by (copy_slide exSrc 0 exTgtSame
        (some [("Title", 3)])).1 ds RelType.slideLayout = some 3 ∧
      layoutNameOf (copy_slide exSrc 0 exTgtSame
        (some [("Title", 3)])).1 3 = layoutNameOf exSrc 3) ∧
    (∃ ds tl, (copy_slide exSrc 0 exTgtSame none).2 = .ok ds ∧
      part_related_by (copy_slide exSrc 0 exTgtSame none).1 ds
        RelType.slideLayout = some tl ∧
      layoutNameOf (copy_slide exSrc 0 exTgtSame none).1 tl =
        layoutNameOf exSrc 3) := by
  have hth : ∀ tp, part_related_by exSrc 1 RelType.theme = some tp →
      (exSrc.getPart tp).isTheme = true := fun tp h => by
    rw [show (part_related_by exSrc 1 RelType.theme) = some 2 from by decide]
      at h
    rw [← Option.some.inj h]
    decide
  have hlm : LmOk exTgtSame [("Title", 3)] := by
    intro e he
    rw [List.mem_singleton] at he
    rw [he]
    exact ⟨by decide, exBody, rfl⟩
  constructor
  · exact c7_layout_name_preserved.1 exSrc 0 exTgtSame 4 3 [("Title", 3)] 3
      (by decide) (by decide) (by decide) (by decide) hlm
  · exact c7_layout_name_preserved.2 exSrc 0 exTgtSame 4 3 1 (by decide)
      (by decide) (by decide) (by decide) hth (by decide) (by decide)

end SlideCopierModel
